import Mathlib

/-!
# Graph-Traversal: the PDF document engine of PDF.h / PDF.cpp

A shallow embedding of the page-description engine and its finisher.

Conventions of the embedding

* A C `double` is an element of a linearly ordered field `α` (exact arithmetic); the
  functions of `<cmath>` and the `%.Nf` conversion of `sprintf` are not code of this
  repository and are collected in a record `Libm α` that every operation receives.
  Theorems about exact real arithmetic instantiate `α := ℝ` with `Real.cos`, `Real.sin`, `Real.pi`.
* A C string is a `String` whose characters stand for bytes; `strlen` is `String.length`.
* A C array is a function on `Nat` (`pages[k]` is `pdf.pages k`, `objects[k]` is `objects k`).
* `int` counters that stay small are `Nat` or `Int`; where a value can leave the range of a
  32-bit `int` (the running `size` of `PDF::finish`, the conversion `int(x)` of a `double`)
  the wrap or the out-of-range result is explicit; `unsigned` capacities wrap at `2^32`.
* The type `char` is signed: a character code from 128 upward is a negative `char`.
* `exit(1)` and a loop that never exits are the error results of `Except Halt`.
-/

/-- How a run stops without returning: the `exit(1)` calls of PDF.cpp, and `hang` for the
`while` loop of `PDFStream::append` when growing can no longer make room. -/
inductive Halt where
  | too_many_pages
  | string_too_long
  | die (msg : String)
  | cant_write
  | too_many_objects
  | hang
deriving DecidableEq, Repr

/-- The functions of the C library that the engine calls. -/
structure Libm (α : Type) where
  cos : α → α
  sin : α → α
  atan2 : α → α → α
  hypot : α → α → α
  M_PI : α
  fmt_f : Nat → α → String

/-! ## Fonts (PDF.h, PDF.cpp) -/

def Times : Int := 0
def Helvetica : Int := 4
def Helvetica_Bold : Int := 5
def BoldFlag : Int := 1
def ItalicFlag : Int := 2
def ObliqueFlag : Int := 2

/-- The function `font_index` of PDF.h. -/
def font_index (font : Int) : Int :=
  if font < 0 then 0
  else if font ≥ 12 ∧ font ≤ 15 then 12
  else if font ≥ 16 then 13
  else font

/-- The array `FontNames[]` of PDF.cpp. -/
def FontNames : List String :=
  ["Times-Roman", "Times-Bold", "Times-Italic", "Times-BoldItalic",
   "Helvetica", "Helvetica-Bold", "Helvetica-Oblique", "Helvetica-BoldOblique",
   "Courier", "Courier-Bold", "Courier-Oblique", "Courier-BoldOblique",
   "Symbol", "ZapfDingbats"]

/-- The table `FontCharWidths[][256]` of PDF.cpp: one row of 256 advance widths (in
thousandths of the font scale) per builtin font, in the order of `FontNames`. -/
def FontCharWidths : List (List Nat) := [
  -- Times-Roman
  [499,499,499,499,499,499,499,499,499,499,499,499,499,499,499,499,499,499,499,499,499,499,499,
   499,499,499,499,499,499,499,499,499,247,331,406,499,499,829,776,331,331,331,499,560,247,331,
   247,278,499,499,499,499,499,499,499,499,499,499,278,278,560,560,560,441,918,719,666,666,719,
   609,556,719,719,331,388,719,609,887,719,719,556,719,666,556,609,719,719,940,719,719,609,331,
   278,331,468,499,331,441,499,441,499,441,331,499,499,278,278,499,278,776,499,499,499,499,331,
   388,278,499,499,719,499,499,441,476,199,476,538,499,499,499,499,499,499,499,499,499,499,499,
   499,499,499,499,499,499,499,499,499,499,499,499,499,499,499,499,499,499,499,499,499,499,499,
   331,499,499,163,499,499,499,499,176,441,499,331,331,556,556,499,499,499,499,247,499,450,349,
   331,441,441,499,997,997,499,441,499,331,331,331,331,331,331,331,331,499,331,331,499,331,331,
   331,997,499,499,499,499,499,499,499,499,499,499,499,499,499,499,499,499,887,499,274,499,499,
   499,499,609,719,887,309,499,499,499,499,499,666,499,499,499,278,499,499,278,499,719,499,499,
   499,499,499],
  -- Times-Bold
  [499,499,499,499,499,499,499,499,499,499,499,499,499,499,499,499,499,499,499,499,499,499,499,
   499,499,499,499,499,499,499,499,499,247,331,551,499,499,997,829,331,331,331,499,569,247,331,
   247,278,499,499,499,499,499,499,499,499,499,499,331,331,569,569,569,499,926,719,666,719,719,
   666,609,776,776,388,499,776,666,940,719,776,609,776,719,556,666,719,719,997,719,719,666,331,
   278,331,578,499,331,499,556,441,556,441,331,499,556,278,331,556,278,829,556,499,556,556,441,
   388,331,556,499,719,499,499,441,393,216,393,516,499,499,499,499,499,499,499,499,499,499,499,
   499,499,499,499,499,499,499,499,499,499,499,499,499,499,499,499,499,499,499,499,499,499,499,
   331,499,499,163,499,499,499,499,278,499,499,331,331,556,556,499,499,499,499,247,499,538,349,
   331,499,499,499,997,997,499,499,499,331,331,331,331,331,331,331,331,499,331,331,499,331,331,
   331,997,499,499,499,499,499,499,499,499,499,499,499,499,499,499,499,499,997,499,300,499,499,
   499,499,666,776,997,326,499,499,499,499,499,719,499,499,499,278,499,499,278,499,719,556,499,
   499,499,499],
  -- Times-Italic
  [499,499,499,499,499,499,499,499,499,499,499,499,499,499,499,499,499,499,499,499,499,499,499,
   499,499,499,499,499,499,499,499,499,247,331,419,499,499,829,776,331,331,331,499,675,247,331,
   247,278,499,499,499,499,499,499,499,499,499,499,331,331,675,675,675,499,918,609,609,666,719,
   609,609,719,719,331,441,666,556,829,666,719,609,719,609,499,556,719,609,829,609,556,556,388,
   278,388,419,499,331,499,499,441,499,441,278,499,499,278,278,441,278,719,499,499,499,499,388,
   388,278,499,441,666,441,441,388,397,274,397,538,499,499,499,499,499,499,499,499,499,499,499,
   499,499,499,499,499,499,499,499,499,499,499,499,499,499,499,499,499,499,499,499,499,499,499,
   388,499,499,163,499,499,499,499,212,556,499,331,331,499,499,499,499,499,499,247,499,521,349,
   331,556,556,499,887,997,499,499,499,331,331,331,331,331,331,331,331,499,331,331,499,331,331,
   331,887,499,499,499,499,499,499,499,499,499,499,499,499,499,499,499,499,887,499,274,499,499,
   499,499,556,719,940,309,499,499,499,499,499,666,499,499,499,278,499,499,278,499,666,499,499,
   499,499,499],
  -- Times-BoldItalic
  [499,499,499,499,499,499,499,499,499,499,499,499,499,499,499,499,499,499,499,499,499,499,499,
   499,499,499,499,499,499,499,499,499,247,388,551,499,499,829,776,331,331,331,499,569,247,331,
   247,278,499,499,499,499,499,499,499,499,499,499,331,331,569,569,569,499,829,666,666,666,719,
   666,666,719,776,388,499,666,609,887,719,719,609,719,666,556,609,719,666,887,666,609,609,331,
   278,331,569,499,331,499,499,441,499,441,331,499,556,278,278,499,278,776,556,499,499,499,388,
   388,278,556,441,666,499,441,388,344,216,344,569,499,499,499,499,499,499,499,499,499,499,499,
   499,499,499,499,499,499,499,499,499,499,499,499,499,499,499,499,499,499,499,499,499,499,499,
   388,499,499,163,499,499,499,499,278,499,499,331,331,556,556,499,499,499,499,247,499,499,349,
   331,499,499,499,997,997,499,499,499,331,331,331,331,331,331,331,331,499,331,331,499,331,331,
   331,997,499,499,499,499,499,499,499,499,499,499,499,499,499,499,499,499,940,499,265,499,499,
   499,499,609,719,940,300,499,499,499,499,499,719,499,499,499,278,499,499,278,499,719,499,499,
   499,499,499],
  -- Helvetica
  [278,278,278,278,278,278,278,278,278,278,278,278,278,278,278,278,278,278,278,278,278,278,278,
   278,278,278,278,278,278,278,278,278,278,278,353,556,556,887,666,221,331,331,388,582,278,331,
   278,278,556,556,556,556,556,556,556,556,556,556,278,278,582,582,582,556,1015,666,666,719,719,
   666,609,776,719,278,499,666,556,829,719,776,666,776,719,666,609,719,666,940,666,666,609,278,
   278,278,468,556,221,556,556,499,556,556,278,556,556,221,221,499,221,829,556,556,556,556,331,
   499,278,556,499,719,499,499,499,331,256,331,582,278,278,278,278,278,278,278,278,278,278,278,
   278,278,278,278,278,278,278,278,278,278,278,278,278,278,278,278,278,278,278,278,278,278,278,
   331,556,556,163,556,556,556,556,190,331,556,331,331,499,499,278,556,556,556,278,278,534,349,
   221,331,331,556,997,997,278,609,278,331,331,331,331,331,331,331,331,278,331,331,278,331,331,
   331,997,278,278,278,278,278,278,278,278,278,278,278,278,278,278,278,278,997,278,366,278,278,
   278,278,556,776,997,362,278,278,278,278,278,887,278,278,278,278,278,278,221,609,940,609,278,
   278,278,278],
  -- Helvetica-Bold
  [499,499,499,499,499,499,499,499,499,499,499,499,499,499,499,499,499,499,499,499,499,499,499,
   499,499,499,499,499,499,499,499,499,278,331,472,556,556,887,719,278,331,331,388,582,278,331,
   278,278,556,556,556,556,556,556,556,556,556,556,331,331,582,582,582,609,975,719,719,719,719,
   666,609,776,719,278,556,719,609,829,719,776,666,776,719,666,609,719,666,940,666,666,609,331,
   278,331,582,556,278,556,609,556,609,556,331,609,609,278,278,556,278,887,609,609,609,609,388,
   556,331,609,556,776,556,556,499,388,278,388,582,499,499,499,499,499,499,499,499,499,499,499,
   499,499,499,499,499,499,499,499,499,499,499,499,499,499,499,499,499,499,499,499,499,499,499,
   331,556,556,163,556,556,556,556,234,499,556,331,331,609,609,499,556,556,556,278,499,556,349,
   278,499,499,556,997,997,499,609,499,331,331,331,331,331,331,331,331,499,331,331,499,331,331,
   331,997,499,499,499,499,499,499,499,499,499,499,499,499,499,499,499,499,997,499,366,499,499,
   499,499,609,776,997,362,499,499,499,499,499,887,499,499,499,278,499,499,278,609,940,609,499,
   499,499,499],
  -- Helvetica-Oblique
  [499,499,499,499,499,499,499,499,499,499,499,499,499,499,499,499,499,499,499,499,499,499,499,
   499,499,499,499,499,499,499,499,499,278,278,353,556,556,887,666,221,331,331,388,582,278,331,
   278,278,556,556,556,556,556,556,556,556,556,556,278,278,582,582,582,556,1015,666,666,719,719,
   666,609,776,719,278,499,666,556,829,719,776,666,776,719,666,609,719,666,940,666,666,609,278,
   278,278,468,556,221,556,556,499,556,556,278,556,556,221,221,499,221,829,556,556,556,556,331,
   499,278,556,499,719,499,499,499,331,256,331,582,499,499,499,499,499,499,499,499,499,499,499,
   499,499,499,499,499,499,499,499,499,499,499,499,499,499,499,499,499,499,499,499,499,499,499,
   331,556,556,163,556,556,556,556,190,331,556,331,331,499,499,499,556,556,556,278,499,534,349,
   221,331,331,556,997,997,499,609,499,331,331,331,331,331,331,331,331,499,331,331,499,331,331,
   331,997,499,499,499,499,499,499,499,499,499,499,499,499,499,499,499,499,997,499,366,499,499,
   499,499,556,776,997,362,499,499,499,499,499,887,499,499,499,278,499,499,221,609,940,609,499,
   499,499,499],
  -- Helvetica-BoldOblique
  [499,499,499,499,499,499,499,499,499,499,499,499,499,499,499,499,499,499,499,499,499,499,499,
   499,499,499,499,499,499,499,499,499,278,331,472,556,556,887,719,278,331,331,388,582,278,331,
   278,278,556,556,556,556,556,556,556,556,556,556,331,331,582,582,582,609,975,719,719,719,719,
   666,609,776,719,278,556,719,609,829,719,776,666,776,719,666,609,719,666,940,666,666,609,331,
   278,331,582,556,278,556,609,556,609,556,331,609,609,278,278,556,278,887,609,609,609,609,388,
   556,331,609,556,776,556,556,499,388,278,388,582,499,499,499,499,499,499,499,499,499,499,499,
   499,499,499,499,499,499,499,499,499,499,499,499,499,499,499,499,499,499,499,499,499,499,499,
   331,556,556,163,556,556,556,556,234,499,556,331,331,609,609,499,556,556,556,278,499,556,349,
   278,499,499,556,997,997,499,609,499,331,331,331,331,331,331,331,331,499,331,331,499,331,331,
   331,997,499,499,499,499,499,499,499,499,499,499,499,499,499,499,499,499,997,499,366,499,499,
   499,499,609,776,997,362,499,499,499,499,499,887,499,499,499,278,499,499,278,609,940,609,499,
   499,499,499],
  -- Courier
  [600,600,600,600,600,600,600,600,600,600,600,600,600,600,600,600,600,600,600,600,600,600,600,
   600,600,600,600,600,600,600,600,600,600,600,600,600,600,600,600,600,600,600,600,600,600,600,
   600,600,600,600,600,600,600,600,600,600,600,600,600,600,600,600,600,600,600,600,600,600,600,
   600,600,600,600,600,600,600,600,600,600,600,600,600,600,600,600,600,600,600,600,600,600,600,
   600,600,600,600,600,600,600,600,600,600,600,600,600,600,600,600,600,600,600,600,600,600,600,
   600,600,600,600,600,600,600,600,600,600,600,600,600,600,600,600,600,600,600,600,600,600,600,
   600,600,600,600,600,600,600,600,600,600,600,600,600,600,600,600,600,600,600,600,600,600,600,
   600,600,600,600,600,600,600,600,600,600,600,600,600,600,600,600,600,600,600,600,600,600,600,
   600,600,600,600,600,600,600,600,600,600,600,600,600,600,600,600,600,600,600,600,600,600,600,
   600,600,600,600,600,600,600,600,600,600,600,600,600,600,600,600,600,600,600,600,600,600,600,
   600,600,600,600,600,600,600,600,600,600,600,600,600,600,600,600,600,600,600,600,600,600,600,
   600,600,600],
  -- Courier-Bold
  [600,600,600,600,600,600,600,600,600,600,600,600,600,600,600,600,600,600,600,600,600,600,600,
   600,600,600,600,600,600,600,600,600,600,600,600,600,600,600,600,600,600,600,600,600,600,600,
   600,600,600,600,600,600,600,600,600,600,600,600,600,600,600,600,600,600,600,600,600,600,600,
   600,600,600,600,600,600,600,600,600,600,600,600,600,600,600,600,600,600,600,600,600,600,600,
   600,600,600,600,600,600,600,600,600,600,600,600,600,600,600,600,600,600,600,600,600,600,600,
   600,600,600,600,600,600,600,600,600,600,600,600,600,600,600,600,600,600,600,600,600,600,600,
   600,600,600,600,600,600,600,600,600,600,600,600,600,600,600,600,600,600,600,600,600,600,600,
   600,600,600,600,600,600,600,600,600,600,600,600,600,600,600,600,600,600,600,600,600,600,600,
   600,600,600,600,600,600,600,600,600,600,600,600,600,600,600,600,600,600,600,600,600,600,600,
   600,600,600,600,600,600,600,600,600,600,600,600,600,600,600,600,600,600,600,600,600,600,600,
   600,600,600,600,600,600,600,600,600,600,600,600,600,600,600,600,600,600,600,600,600,600,600,
   600,600,600],
  -- Courier-Oblique
  [600,600,600,600,600,600,600,600,600,600,600,600,600,600,600,600,600,600,600,600,600,600,600,
   600,600,600,600,600,600,600,600,600,600,600,600,600,600,600,600,600,600,600,600,600,600,600,
   600,600,600,600,600,600,600,600,600,600,600,600,600,600,600,600,600,600,600,600,600,600,600,
   600,600,600,600,600,600,600,600,600,600,600,600,600,600,600,600,600,600,600,600,600,600,600,
   600,600,600,600,600,600,600,600,600,600,600,600,600,600,600,600,600,600,600,600,600,600,600,
   600,600,600,600,600,600,600,600,600,600,600,600,600,600,600,600,600,600,600,600,600,600,600,
   600,600,600,600,600,600,600,600,600,600,600,600,600,600,600,600,600,600,600,600,600,600,600,
   600,600,600,600,600,600,600,600,600,600,600,600,600,600,600,600,600,600,600,600,600,600,600,
   600,600,600,600,600,600,600,600,600,600,600,600,600,600,600,600,600,600,600,600,600,600,600,
   600,600,600,600,600,600,600,600,600,600,600,600,600,600,600,600,600,600,600,600,600,600,600,
   600,600,600,600,600,600,600,600,600,600,600,600,600,600,600,600,600,600,600,600,600,600,600,
   600,600,600],
  -- Courier-BoldOblique
  [499,499,499,499,499,499,499,499,499,499,499,499,499,499,499,499,499,499,499,499,499,499,499,
   499,499,499,499,499,499,499,499,499,600,600,600,600,600,600,600,600,600,600,600,600,600,600,
   600,600,600,600,600,600,600,600,600,600,600,600,600,600,600,600,600,600,600,600,600,600,600,
   600,600,600,600,600,600,600,600,600,600,600,600,600,600,600,600,600,600,600,600,600,600,600,
   600,600,600,600,600,600,600,600,600,600,600,600,600,600,600,600,600,600,600,600,600,600,600,
   600,600,600,600,600,600,600,600,600,600,600,600,499,499,499,499,499,499,499,499,499,499,499,
   499,499,499,499,499,499,499,499,499,499,499,499,499,499,499,499,499,499,499,499,499,499,499,
   600,600,600,600,600,600,600,600,600,600,600,600,600,600,600,499,600,600,600,600,499,600,600,
   600,600,600,600,600,600,499,600,499,600,600,600,600,600,600,600,600,499,600,600,499,600,600,
   600,600,499,499,499,499,499,499,499,499,499,499,499,499,499,499,499,499,600,499,600,499,499,
   499,499,600,600,600,600,499,499,499,499,499,600,499,499,499,600,499,499,600,600,600,600,499,
   499,499,499],
  -- Symbol
  [247,247,247,247,247,247,247,247,247,247,247,247,247,247,247,247,247,247,247,247,247,247,247,
   247,247,247,247,247,247,247,247,247,247,331,710,499,547,829,776,437,331,331,499,547,247,547,
   247,278,499,499,499,499,499,499,499,499,499,499,278,278,547,547,547,441,547,719,666,719,609,
   609,759,600,719,331,631,719,684,887,719,719,768,737,556,591,609,688,437,768,644,794,609,331,
   860,331,657,499,499,631,547,547,490,437,521,410,600,326,600,547,547,574,521,547,547,521,547,
   600,437,574,710,684,490,684,490,476,199,476,547,247,247,247,247,247,247,247,247,247,247,247,
   247,247,247,247,247,247,247,247,247,247,247,247,247,247,247,247,247,247,247,247,247,247,759,
   618,243,547,163,710,499,750,750,750,750,1041,984,600,984,600,397,547,410,547,547,710,490,459,
   547,547,547,547,997,600,997,657,821,684,794,984,768,768,821,768,768,710,710,710,710,710,710,
   710,768,710,790,790,887,821,547,247,710,600,600,1041,984,600,984,600,490,326,790,790,785,710,
   384,384,384,384,384,384,490,490,490,490,247,326,274,684,684,684,384,384,384,384,384,384,490,
   490,490,247],
  -- ZapfDingbats
  [278,278,278,278,278,278,278,278,278,278,278,278,278,278,278,278,278,278,278,278,278,278,278,
   278,278,278,278,278,278,278,278,278,278,971,957,971,979,715,785,790,790,688,957,935,547,851,
   909,931,909,944,971,754,843,759,759,569,675,759,759,759,750,490,551,534,574,688,785,785,785,
   790,790,790,812,821,785,838,821,829,812,829,922,741,719,746,790,790,693,772,768,790,759,706,
   706,679,697,825,812,785,785,706,684,693,688,785,785,710,790,781,790,869,759,759,759,759,759,
   891,891,785,781,437,137,274,415,388,388,666,666,278,278,278,278,278,278,278,278,278,278,278,
   278,278,278,278,278,278,278,278,278,278,278,278,278,278,278,278,278,278,278,278,278,278,278,
   728,543,543,909,666,759,759,772,591,693,622,785,785,785,785,785,785,785,785,785,785,785,785,
   785,785,785,785,785,785,785,785,785,785,785,785,785,785,785,785,785,785,785,785,785,785,785,
   785,785,785,785,785,891,834,1015,454,746,922,746,918,926,926,926,834,869,825,922,922,913,926,
   931,459,882,834,834,865,865,693,693,874,278,874,759,944,768,865,768,887,966,887,829,869,926,
   966,918,278]
]

/-! ## PDFStream -/

/-- The class `PDFStream`: `text` is the NUL-terminated buffer contents, `text_len` the
`int` length field and `size` the `unsigned` capacity. -/
structure PDFStream where
  text : String
  text_len : Nat
  size : Nat
deriving DecidableEq, Repr

namespace PDFStream

/-- The method `PDFStream::init`. -/
def init (initial_size : Nat) : PDFStream :=
  { text := "", text_len := 0, size := initial_size }

/-- The method `PDFStream::is_empty`. -/
def is_empty (s : PDFStream) : Bool :=
  s.text.length == 0

/-- The method `PDFStream::grow`; `new_size = 0` is the default argument. -/
def grow (s : PDFStream) (new_size : Nat) : PDFStream :=
  let new_size := if new_size = 0 then (2 * s.size) % 2 ^ 32 else new_size
  if new_size < s.size then s else { s with size := new_size }

/-- The value of the `unsigned` expression `size - 2`, which wraps below 2. -/
def size_minus_2 (size : Nat) : Nat :=
  if 2 ≤ size then size - 2 else 2 ^ 32 - 2 + size

/-- The `while` loop of `PDFStream::append`, with the test
`unsigned(text_len + src_len) >= size - 2`. The capacity only changes by doubling below
`2^32`, so a loop that has not exited after 33 rounds never exits: that is `none`. -/
def append_loop : Nat → PDFStream → Nat → Option PDFStream
  | 0, _, _ => none
  | fuel + 1, s, src_len =>
    if (s.text_len + src_len) % 2 ^ 32 ≥ size_minus_2 s.size then
      append_loop fuel (s.grow 0) src_len
    else some s

/-- The method `PDFStream::append`: make room, then `strcat` the source and a newline. -/
def append (s : PDFStream) (src : String) : Option PDFStream :=
  let src_len := src.length
  match append_loop 33 s src_len with
  | none => none
  | some s1 =>
    some { s1 with text := s1.text ++ src ++ "\n", text_len := s1.text_len + src_len + 1 }

end PDFStream

/-! ## PDFPage, PDFColor, PDFPoint -/

/-- The class `PDFPage`; a NULL `annotation` is `none`. -/
structure PDFPage where
  stream : PDFStream
  annotation : Option String
deriving DecidableEq, Repr

/-- The constructor `PDFPage()` (with the constructor `PDFStream()` of its stream). -/
def PDFPage.new : PDFPage :=
  { stream := PDFStream.init 1024, annotation := none }

/-- The method `PDFPage::is_empty`. -/
def PDFPage.is_empty (p : PDFPage) : Bool :=
  p.stream.is_empty

/-- The class `PDFColor`. -/
structure PDFColor (α : Type) where
  r : α
  g : α
  b : α

/-- The constructor `PDFColor(double gray)`. -/
def PDFColor.gray {α : Type} (gray : α) : PDFColor α :=
  { r := gray, g := gray, b := gray }

/-- The struct `PDFPoint`. -/
structure PDFPoint (α : Type) where
  x : α
  y : α

/-! ## The class PDF -/

def LetterWidth : Int := 612
def LetterHeight : Int := 792
def Backward : Nat := 1
def Forward : Nat := 2
def max_pages : Nat := 1024
def max_fonts : Nat := 20
def buf_size : Nat := 4096

/-- The data members of the class `PDF`. `selectfont_log` is a ghost field, absent from the
C++ class: it records the `font` argument of every call of `selectfont`, latest first. -/
structure PDF (α : Type) where
  filename : String
  width : Int
  height : Int
  a11 : α
  a12 : α
  a13 : α
  a21 : α
  a22 : α
  a23 : α
  pages : Nat → PDFPage
  page : Nat
  fonts : Nat → Bool
  font : Int
  font_scale : α
  text : Bool
  stroke_color : PDFColor α
  nonstroke_color : PDFColor α
  current_x : α
  current_y : α
  current_point : Bool
  selectfont_log : List Int

variable {α : Type}

namespace PDF

/-- The method `PDF::init_page`. -/
def init_page [LinearOrderedField α] (pdf : PDF α) : PDF α :=
  { pdf with text := false, current_point := false,
             a11 := 1, a12 := 0, a13 := 0, a21 := 0, a22 := 1, a23 := 0 }

/-- The constructor `PDF(filename, width, height)`, that is `PDF::init` on a new object whose
1024 pages are default-constructed. `current_x` and `current_y` are not initialised by the
C++ code; they are only read under `current_point`. -/
def init [LinearOrderedField α] (filename : String) (width height : Int) : PDF α :=
  init_page
    { filename := filename, width := width, height := height,
      a11 := 0, a12 := 0, a13 := 0, a21 := 0, a22 := 0, a23 := 0,
      pages := fun _ => PDFPage.new, page := 0,
      fonts := fun _ => false, font := Times, font_scale := 1, text := false,
      stroke_color := PDFColor.gray 0, nonstroke_color := PDFColor.gray 0,
      current_x := 0, current_y := 0, current_point := false,
      selectfont_log := [] }

/-- The method `PDF::transform` (the second coordinate adds `a13`, as in the source). -/
def transform [LinearOrderedField α] (pdf : PDF α) (x y : α) : PDFPoint α :=
  { x := pdf.a11 * x + pdf.a12 * y + pdf.a13, y := pdf.a21 * x + pdf.a22 * y + pdf.a13 }

/-- The method `PDF::transform_vector`. -/
def transform_vector [LinearOrderedField α] (pdf : PDF α) (x y : α) : PDFPoint α :=
  { x := pdf.a11 * x + pdf.a12 * y, y := pdf.a21 * x + pdf.a22 * y }

/-- The method `PDF::append`: `pages[page].stream.append(cmd)`. -/
def append (pdf : PDF α) (cmd : String) : Except Halt (PDF α) :=
  match (pdf.pages pdf.page).stream.append cmd with
  | none => .error Halt.hang
  | some s =>
    .ok { pdf with pages := Function.update pdf.pages pdf.page
                              { pdf.pages pdf.page with stream := s } }

/-- The method `PDF::cmd(const char*)`. -/
def cmd (pdf : PDF α) (c : String) : Except Halt (PDF α) :=
  pdf.append c

/-- The method `PDF::cmd(double, const char*)`. -/
def cmd1 (L : Libm α) (pdf : PDF α) (v : α) (c : String) : Except Halt (PDF α) :=
  pdf.append (L.fmt_f 3 v ++ " " ++ c)

/-- The method `PDF::cmd(double, double, const char*)`. -/
def cmd2 (L : Libm α) (pdf : PDF α) (x y : α) (c : String) : Except Halt (PDF α) :=
  pdf.append (L.fmt_f 3 x ++ " " ++ L.fmt_f 3 y ++ " " ++ c)

/-- The method `PDF::int_cmd`. -/
def int_cmd (pdf : PDF α) (n : Int) (c : String) : Except Halt (PDF α) :=
  pdf.append (toString n ++ " " ++ c)

/-- The method `PDF::point_cmd(double, double, const char*)`. -/
def point_cmd [LinearOrderedField α] (L : Libm α) (pdf : PDF α) (x y : α) (c : String) : Except Halt (PDF α) :=
  let p := pdf.transform x y
  pdf.append (L.fmt_f 3 p.x ++ " " ++ L.fmt_f 3 p.y ++ " " ++ c)

/-- The method `PDF::point_cmd` with three points. -/
def point_cmd3 [LinearOrderedField α] (L : Libm α) (pdf : PDF α) (x1 y1 x2 y2 x3 y3 : α) (c : String) : Except Halt (PDF α) :=
  let p1 := pdf.transform x1 y1
  let p2 := pdf.transform x2 y2
  let p3 := pdf.transform x3 y3
  pdf.append (L.fmt_f 3 p1.x ++ " " ++ L.fmt_f 3 p1.y ++ " " ++ L.fmt_f 3 p2.x ++ " "
    ++ L.fmt_f 3 p2.y ++ " " ++ L.fmt_f 3 p3.x ++ " " ++ L.fmt_f 3 p3.y ++ " " ++ c)

/-- The method `PDF::setcolor(double, double, double, const char*)`. -/
def setcolor_cmd (L : Libm α) (pdf : PDF α) (r g b : α) (c : String) : Except Halt (PDF α) :=
  pdf.append (L.fmt_f 3 r ++ " " ++ L.fmt_f 3 g ++ " " ++ L.fmt_f 3 b ++ " " ++ c)

/-- The method `PDF::setrgbcolor_stroke`. -/
def setrgbcolor_stroke (L : Libm α) (pdf : PDF α) (r g b : α) : Except Halt (PDF α) := do
  let pdf ← pdf.setcolor_cmd L r g b "RG"
  pure { pdf with stroke_color := { r := r, g := g, b := b } }

/-- The method `PDF::setrgbcolor_nonstroke`. -/
def setrgbcolor_nonstroke (L : Libm α) (pdf : PDF α) (r g b : α) : Except Halt (PDF α) := do
  let pdf ← pdf.setcolor_cmd L r g b "rg"
  pure { pdf with nonstroke_color := { r := r, g := g, b := b } }

/-- The method `PDF::setcolor_stroke`. -/
def setcolor_stroke (L : Libm α) (pdf : PDF α) (color : PDFColor α) : Except Halt (PDF α) :=
  PDF.setrgbcolor_stroke L { pdf with stroke_color := color } color.r color.g color.b

/-- The method `PDF::setcolor_nonstroke`. -/
def setcolor_nonstroke (L : Libm α) (pdf : PDF α) (color : PDFColor α) : Except Halt (PDF α) :=
  PDF.setrgbcolor_nonstroke L { pdf with nonstroke_color := color } color.r color.g color.b

/-- The method `PDF::selectfont`. -/
def selectfont (L : Libm α) (pdf : PDF α) (font : Int) (scale : α) : Except Halt (PDF α) :=
  let idx := font_index font
  let pdf := { pdf with font := idx, font_scale := scale,
                        fonts := Function.update pdf.fonts idx.toNat true,
                        selectfont_log := font :: pdf.selectfont_log }
  if pdf.text then
    pdf.append ("/F" ++ toString pdf.font ++ " " ++ L.fmt_f 6 pdf.font_scale ++ " Tf")
  else pure pdf

/-- The method `PDF::begin_text`. -/
def begin_text (L : Libm α) (pdf : PDF α) : Except Halt (PDF α) := do
  let pdf ← pdf.cmd "BT"
  let pdf := { pdf with text := true }
  pdf.selectfont L pdf.font pdf.font_scale

/-- The method `PDF::end_text`. -/
def end_text (pdf : PDF α) : Except Halt (PDF α) := do
  let pdf ← pdf.cmd "ET"
  pure { pdf with text := false }

/-- The method `PDF::next_line(double, double)`. -/
def next_line (L : Libm α) (pdf : PDF α) (tx ty : α) : Except Halt (PDF α) :=
  pdf.cmd2 L tx ty "Td"

/-- The method `PDF::show(const char*, int)`. The count `n` is a length at every call site
and is a `Nat` here. When `n` exceeds the length of `src` the terminating NUL of `src` is
copied into `buf` and ends the command before the `) Tj`. -/
def «show» (pdf : PDF α) (src : String) (n : Nat) : Except Halt (PDF α) :=
  if n + 6 ≥ buf_size then .error Halt.string_too_long
  else if n ≤ src.length then pdf.append ("(" ++ String.mk (src.data.take n) ++ ") Tj")
  else pdf.append ("(" ++ src)

end PDF

/-! ## Text measurement and positioning (PDF.cpp) -/

/-- The function `count_lines`: one more than the number of newlines. -/
def count_lines (text : String) : Nat :=
  text.data.count '\n' + 1

def FontCharWidthScale [LinearOrderedField α] : α := 1 / 1000

/-- The value of `(unsigned)c` for a `char c`. The type `char` is signed (as on the x86
compilers): a character code from 128 upward is a negative `char`, and its conversion to the
32-bit `unsigned` adds `2^32`. -/
def char_index (c : Char) : Nat :=
  if c.toNat < 128 then c.toNat else 4294967040 + c.toNat

/-- The entry `FontCharWidths[font][(unsigned)c]`. A row has 256 entries; reading a row at
an index from 256 upward is undefined behaviour (the index of a negative `char` is beyond
`2^32 - 129`, far outside the whole table) and is a halt of the model. -/
def char_width (font : Int) (c : Char) : Except Halt Nat :=
  if char_index c < 256 then pure ((FontCharWidths.getD font.toNat []).getD (char_index c) 0)
  else .error (Halt.die "stringwidth: index outside FontCharWidths")

/-- The `for` loop of `stringwidth`, at index `k` with the rest of the text from `text[k]`:
it runs while `k < n` and `text[k]` is not the NUL character (the end of the list is the
terminating NUL). -/
def stringwidth_loop [LinearOrderedField α] (n : Int) (font : Int) :
    List Char → Nat → α → Except Halt α
  | [], _, width => pure width
  | c :: cs, k, width =>
    if (k : Int) < n ∧ c ≠ '\x00' then do
      let w ← char_width font c
      stringwidth_loop n font cs (k + 1) (width + (w : α) * FontCharWidthScale)
    else pure width

/-- The function `stringwidth`. -/
def stringwidth [LinearOrderedField α] (text : String) (n : Int) (font : Int) (scale : α) :
    Except Halt α := do
  let font := font_index font
  let width ← stringwidth_loop n font text.data 0 0
  pure (scale * width)

/-- The lines that the `while (*ptr)` loops of `position_text`, `stringwidth_multiline` and
`comment` visit: the pieces between newlines, without an empty piece after a final newline. -/
def text_lines : List Char → List (List Char)
  | [] => []
  | c :: cs =>
    if c = '\n' then [] :: text_lines cs
    else
      match text_lines cs with
      | [] => [[c]]
      | l :: ls => (c :: l) :: ls

namespace PDF

/-- One round of the `while` loop of `PDF::position_text`, for the line `line`. -/
def position_text_line [LinearOrderedField α] (L : Libm α) (h_frac leading : α) (pdf : PDF α) (line : List Char) :
    Except Halt (PDF α) := do
  let width ← stringwidth (String.mk line) line.length pdf.font pdf.font_scale
  let pdf ← (if h_frac ≠ 0 then pdf.next_line L (-width * h_frac) 0 else pure pdf)
  let pdf ← pdf.show (String.mk line) line.length
  let pdf ← (if h_frac ≠ 0 then pdf.next_line L (width * h_frac) 0 else pure pdf)
  pdf.next_line L 0 (-leading)

/-- The method `PDF::position_text`. -/
def position_text [LinearOrderedField α] (L : Libm α) (pdf : PDF α) (text : String) (x y h_frac v_frac : α) :
    Except Halt (PDF α) := do
  let leading := pdf.font_scale
  let em := (66667 / 100000 : α) * pdf.font_scale
  let n_lines := count_lines text
  let height := ((n_lines : α) - 1) * leading + em
  let pdf ← pdf.begin_text L
  let pdf ← pdf.next_line L x y
  let ty := ((n_lines : α) - 1) * leading + v_frac * height
  let pdf ← pdf.next_line L 0 (-ty)
  let pdf ← (text_lines text.data).foldlM (position_text_line L h_frac leading) pdf
  pdf.end_text

/-- The method `PDF::finish_page`. -/
def finish_page [LinearOrderedField α] (L : Libm α) (pdf : PDF α) : Except Halt (PDF α) :=
  match PDFPage.annotation (pdf.pages pdf.page) with
  | some annotation => do
    let pdf ← pdf.selectfont L (Int.lor Helvetica ObliqueFlag) 12
    let pdf ← pdf.setcolor_nonstroke L (PDFColor.gray 0)
    pdf.position_text L annotation 72 ((pdf.height - 72 - 12 : Int) : α) 0 0
  | none => pure pdf

/-- The last statement of `PDF::new_page`:
`if (annot) pages[page].annotation = _strdup(annot)`; a NULL `annot` is `none`. -/
def set_annotation (pdf : PDF α) (annot : Option String) : PDF α :=
  match annot with
  | some a =>
    { pdf with pages := Function.update pdf.pages pdf.page
                          { pdf.pages pdf.page with annotation := some a } }
  | none => pdf

/-- The method `PDF::new_page`; a NULL `annot` is `none`. -/
def new_page [LinearOrderedField α] (L : Libm α) (pdf : PDF α) (annot : Option String) :
    Except Halt (PDF α) := do
  let pdf ←
    (if pdf.page = 0 ∧ (pdf.pages 0).is_empty = true then pure pdf
    else do
      let pdf ← pdf.finish_page L
      let pdf := { pdf with page := pdf.page + 1 }
      (if pdf.page ≥ max_pages then throw Halt.too_many_pages
      else pure pdf.init_page))
  pure (pdf.set_annotation annot)

end PDF

/-! ## Output: PDF::finish (PDF.cpp) -/

/-- The `int` that a value of a wider integer type becomes when it is assigned to an `int`
variable or cast to `int` (`PDF::finish` adds the `size_t` lengths of its strings to
`int size` and passes `(int)(strlen(stream) + 1)`): the value modulo `2^32` that lies in the
range of a 32-bit `int`. -/
def int_wrap (z : Int) : Int :=
  if -2147483648 ≤ z ∧ ¬ 2147483648 ≤ z then z
  else (z + 2147483648) % 4294967296 - 2147483648

/-- The conversion `%0<w>d` of `fprintf` for an `int`: the decimal numeral, padded with zeros
on the left to at least `w` characters, the sign of a negative number before the zeros. -/
def fmt_d0 (w : Nat) (n : Int) : String :=
  if n < 0 then
    "-" ++ String.mk (List.replicate (w - 1 - (toString n.natAbs).length) '0')
      ++ toString n.natAbs
  else String.mk (List.replicate (w - (toString n.toNat).length) '0') ++ toString n.toNat

/-- The array `objects` of `PDF::finish` together with the counter `obj`. -/
structure ObjTable where
  objects : Nat → String
  obj : Nat

/-- The assignment `objects[obj] = text; obj++`. -/
def ObjTable.put (t : ObjTable) (text : String) : ObjTable :=
  { objects := Function.update t.objects t.obj text, obj := t.obj + 1 }

/-- The text of `objects[0]`, the header. -/
def header_object : String := "%PDF-1.4\n\n"

/-- The text of `objects[1]`, the catalog. -/
def catalog_object : String :=
  "1 0 obj\n  << /Type /Catalog\n     /Outlines 2 0 R\n     /Pages 3 0 R\n  >>\nendobj\n\n"

/-- The text of `objects[2]`, the outlines. -/
def outlines_object : String :=
  "2 0 obj\n  << /Type Outlines\n     /Count 0\n  >>\nendobj\n\n"

/-- The text of `objects[3]`, the page index, with its `/Kids` loop. -/
def pages_object (n_pages : Nat) : String :=
  let s := "3 0 obj\n  << /Type /Pages\n     /Kids [ "
  let s := (List.range n_pages).foldl (fun s k => s ++ (toString (k + 4) ++ " 0 R ")) s
  let s := s ++ "]\n"
  s ++ ("     /Count " ++ toString n_pages ++ "\n  >>\nendobj\n\n")

/-- One line of the `/Font` dictionary of a page object. -/
def font_entry (k font_index : Nat) : String :=
  "                        /F" ++ toString k ++ " " ++ toString font_index ++ " 0 R\n"

/-- The loop over the document fonts inside a page object: the text so far and the
counter `font_index`. -/
def page_font_entries (fonts : Nat → Bool) (first_font : Nat) (s : String) : String × Nat :=
  (List.range max_fonts).foldl
    (fun (st : String × Nat) k =>
      if fonts k then (st.1 ++ font_entry k st.2, st.2 + 1) else st)
    (s, first_font)

/-- The text of the page object of page `k`, written at index `obj`. -/
def page_object (width height : Int) (fonts : Nat → Bool)
    (obj k first_font first_page_content : Nat) : String :=
  let s := toString obj ++ " 0 obj\n  << /Type /Page\n     /Parent 3 0 R\n     /MediaBox [ 0 0 "
    ++ toString width ++ " " ++ toString height ++ " ]\n     /Contents "
    ++ toString (first_page_content + 2 * k) ++ " 0 R\n"
  let s := s ++ ("     /Resources << /ProcSet " ++ toString (first_page_content + 2 * k + 1)
    ++ " 0 R\n")
  let s := s ++ "                   /Font << \n"
  let s := (page_font_entries fonts first_font s).1
  s ++ "                        >>\n                >>\n  >>\nendobj\n\n"

/-- The text of the font object of font `k`, written at index `obj`. -/
def font_object (obj k : Nat) : String :=
  toString obj ++ " 0 obj\n  << /Type /Font\n     /Subtype /Type1\n     /Name /F" ++ toString k
    ++ "\n     /BaseFont /" ++ FontNames.getD k "" ++ "\n     /Encoding /MacRomanEncoding\n  >>\nendobj\n\n"

/-- The text of a content-stream object, written at index `obj`; the length is passed as
`(int)(strlen(stream) + 1)`. -/
def stream_object (obj : Nat) (stream : String) : String :=
  toString obj ++ " 0 obj\n  << /Length " ++ toString (int_wrap ((stream.length + 1 : Nat) : Int))
    ++ " >>\nstream\n" ++ stream ++ "\nendstream\nendobj\n\n"

/-- The text of a procset object, written at index `obj`. -/
def procset_object (obj : Nat) : String :=
  toString obj ++ " 0 obj\n  [/PDF /Text]\nendobj\n\n"

/-- The loop of `PDF::finish` that counts the used fonts. -/
def count_fonts (fonts : Nat → Bool) : Nat :=
  (List.range max_fonts).foldl (fun font_count k => if fonts k then font_count + 1 else font_count) 0

/-- The loop of `PDF::finish` over the page objects. -/
def finish_page_objects (width height : Int) (fonts : Nat → Bool)
    (n_pages first_font first_page_content : Nat) (t : ObjTable) : ObjTable :=
  (List.range n_pages).foldl
    (fun t k => t.put (page_object width height fonts t.obj k first_font first_page_content)) t

/-- The loop of `PDF::finish` over the font objects. -/
def finish_font_objects (fonts : Nat → Bool) (t : ObjTable) : ObjTable :=
  (List.range max_fonts).foldl
    (fun t k => if fonts k then t.put (font_object t.obj k) else t) t

/-- The loop of `PDF::finish` over the content streams and procsets. -/
def finish_stream_objects (pages : Nat → PDFPage) (n_pages : Nat) (t : ObjTable) : ObjTable :=
  (List.range n_pages).foldl
    (fun t k =>
      let t := t.put (stream_object t.obj (pages k).stream.text)
      t.put (procset_object t.obj)) t

/-- The part of `PDF::finish` that fills the array `objects`. -/
def finish_objects (pdf : PDF α) : ObjTable :=
  let n_pages := pdf.page + 1
  let font_count := count_fonts pdf.fonts
  let objects : Nat → String := fun _ => ""
  let objects := Function.update objects 0 header_object
  let objects := Function.update objects 1 catalog_object
  let objects := Function.update objects 2 outlines_object
  let objects := Function.update objects 3 (pages_object n_pages)
  let first_page := 4
  let first_font := first_page + n_pages
  let first_page_content := first_font + font_count
  let t : ObjTable := { objects := objects, obj := 4 }
  let t := finish_page_objects pdf.width pdf.height pdf.fonts n_pages first_font
    first_page_content t
  let t := finish_font_objects pdf.fonts t
  finish_stream_objects pdf.pages n_pages t

/-- The loop of `PDF::finish` that writes the objects: the text written and the `int`
variable `size`, to which the length of each object is added. -/
def write_objects (t : ObjTable) : String × Int :=
  (List.range t.obj).foldl
    (fun (st : String × Int) k =>
      (st.1 ++ t.objects k, int_wrap (st.2 + (t.objects k).length))) ("", 0)

/-- One line of the cross-reference section: `"%010d %05d n \n"` with generation 0. -/
def xref_entry (size : Int) : String :=
  fmt_d0 10 size ++ " " ++ fmt_d0 5 0 ++ " n \n"

/-- The loop of `PDF::finish` that writes the cross-reference entries of objects
`1 .. obj - 1`: the text written and the running `int` variable `size`. -/
def write_xref_entries (t : ObjTable) : String × Int :=
  (List.range' 1 (t.obj - 1)).foldl
    (fun (st : String × Int) k =>
      let size := int_wrap (st.2 + (t.objects (k - 1)).length)
      (st.1 ++ xref_entry size, size)) ("", 0)

/-- The cross-reference section written by `PDF::finish`. -/
def xref_section (t : ObjTable) : String :=
  "xref\n0 " ++ toString t.obj ++ "\n" ++ "0000000000 65536 f \n" ++ (write_xref_entries t).1

/-- The trailer written by `PDF::finish`; `start_xref` is printed with `%d`. -/
def trailer_section (obj : Nat) (start_xref : Int) : String :=
  "\ntrailer\n  << /Size " ++ toString obj ++ "\n     /Root 1 0 R\n  >>\nstartxref\n"
    ++ toString start_xref ++ "\n%%EOF\n"

/-- The text that `PDF::finish` writes to the file for a filled array `objects`. -/
def write_file (t : ObjTable) : String :=
  let start_xref := (write_objects t).2
  (write_objects t).1 ++ xref_section t ++ trailer_section t.obj start_xref

/-- The method `PDF::finish`: the document after `finish_page` and the contents of the file
written. `writable` tells whether `fopen(filename, "w")` succeeds. -/
def PDF.finish [LinearOrderedField α] (L : Libm α) (writable : Bool) (pdf : PDF α) : Except Halt (PDF α × String) := do
  let pdf ← pdf.finish_page L
  if ¬ writable then throw Halt.cant_write
  let n_pages := pdf.page + 1
  let font_count := count_fonts pdf.fonts
  let max_objects := 3 * n_pages + 16 + font_count
  let t := finish_objects pdf
  if t.obj ≥ max_objects then throw Halt.too_many_objects
  pure (pdf, write_file t)

/-! ## The PDF operators of PDF.h -/

namespace PDF

/-- The method `PDF::closepath_fill_stroke`. -/
def closepath_fill_stroke (pdf : PDF α) : Except Halt (PDF α) := do
  let pdf ← pdf.append "b"
  pure { pdf with current_point := false }

/-- The method `PDF::b`. -/
def b (pdf : PDF α) : Except Halt (PDF α) := pdf.append "b"

/-- The method `PDF::fill_stroke`. -/
def fill_stroke (pdf : PDF α) : Except Halt (PDF α) := do
  let pdf ← pdf.append "B"
  pure { pdf with current_point := false }

/-- The method `PDF::B`. -/
def B (pdf : PDF α) : Except Halt (PDF α) := pdf.append "B"

/-- The method `PDF::closepath_eofill_stroke`. -/
def closepath_eofill_stroke (pdf : PDF α) : Except Halt (PDF α) := do
  let pdf ← pdf.append "b*"
  pure { pdf with current_point := false }

/-- The method `PDF::b_star`. -/
def b_star (pdf : PDF α) : Except Halt (PDF α) := pdf.append "b*"

/-- The method `PDF::eofill_stroke`. -/
def eofill_stroke (pdf : PDF α) : Except Halt (PDF α) := do
  let pdf ← pdf.append "B*"
  pure { pdf with current_point := false }

/-- The method `PDF::B_star`. -/
def B_star (pdf : PDF α) : Except Halt (PDF α) := pdf.append "B*"

/-- The method `PDF::curveto`. -/
def curveto [LinearOrderedField α] (L : Libm α) (pdf : PDF α) (x1 y1 x2 y2 x3 y3 : α) :
    Except Halt (PDF α) := do
  let pdf ← pdf.point_cmd3 L x1 y1 x2 y2 x3 y3 "c"
  pure { pdf with current_point := true, current_x := x3, current_y := y3 }

/-- The method `PDF::c`. -/
def c [LinearOrderedField α] (L : Libm α) (pdf : PDF α) (x1 y1 x2 y2 x3 y3 : α) :
    Except Halt (PDF α) :=
  pdf.point_cmd3 L x1 y1 x2 y2 x3 y3 "c"

/-- The method `PDF::concat`. -/
def concat (L : Libm α) (pdf : PDF α) (x1 y1 x2 y2 x3 y3 : α) : Except Halt (PDF α) :=
  pdf.append (L.fmt_f 3 x1 ++ " " ++ L.fmt_f 3 y1 ++ " " ++ L.fmt_f 3 x2 ++ " "
    ++ L.fmt_f 3 y2 ++ " " ++ L.fmt_f 3 x3 ++ " " ++ L.fmt_f 3 y3 ++ " cm")

/-- The method `PDF::setdash(double length, double offset)`. -/
def setdash (L : Libm α) (pdf : PDF α) (length offset : α) : Except Halt (PDF α) :=
  pdf.append ("[ " ++ L.fmt_f 3 length ++ " ] " ++ L.fmt_f 3 offset ++ " d")

/-- The method `PDF::setdash(double length1, double length2, double offset)`. -/
def setdash2 (L : Libm α) (pdf : PDF α) (length1 length2 offset : α) : Except Halt (PDF α) :=
  pdf.append ("[ " ++ L.fmt_f 3 length1 ++ " " ++ L.fmt_f 3 length2 ++ " ] "
    ++ L.fmt_f 3 offset ++ " d")

/-- The method `PDF::resetdash`. -/
def resetdash (pdf : PDF α) : Except Halt (PDF α) := pdf.cmd "[] 0 d"

/-- The method `PDF::fill`. -/
def fill (pdf : PDF α) : Except Halt (PDF α) := do
  let pdf ← pdf.cmd "f"
  pure { pdf with current_point := false }

/-- The method `PDF::f`. -/
def f (pdf : PDF α) : Except Halt (PDF α) := pdf.cmd "f"

/-- The method `PDF::eofill`. -/
def eofill (pdf : PDF α) : Except Halt (PDF α) := do
  let pdf ← pdf.cmd "f*"
  pure { pdf with current_point := false }

/-- The method `PDF::f_star`. -/
def f_star (pdf : PDF α) : Except Halt (PDF α) := pdf.cmd "f*"

/-- The method `PDF::setgray_stroke`. -/
def setgray_stroke (L : Libm α) (pdf : PDF α) (gray : α) : Except Halt (PDF α) := do
  let pdf ← pdf.cmd1 L gray "G"
  pure { pdf with stroke_color := PDFColor.gray gray }

/-- The method `PDF::setgray_nonstroke`. -/
def setgray_nonstroke (L : Libm α) (pdf : PDF α) (gray : α) : Except Halt (PDF α) := do
  let pdf ← pdf.cmd1 L gray "g"
  pure { pdf with nonstroke_color := PDFColor.gray gray }

/-- The method `PDF::setgray`. -/
def setgray (L : Libm α) (pdf : PDF α) (gray : α) : Except Halt (PDF α) := do
  let pdf ← pdf.setgray_stroke L gray
  pdf.setgray_nonstroke L gray

/-- The method `PDF::G`. -/
def G (L : Libm α) (pdf : PDF α) (gray : α) : Except Halt (PDF α) := pdf.cmd1 L gray "G"

/-- The method `PDF::g`. -/
def g (L : Libm α) (pdf : PDF α) (gray : α) : Except Halt (PDF α) := pdf.cmd1 L gray "g"

/-- The method `PDF::closepath`. -/
def closepath (pdf : PDF α) : Except Halt (PDF α) := do
  let pdf ← pdf.cmd "h"
  pure { pdf with current_point := false }

/-- The method `PDF::h`. -/
def h (pdf : PDF α) : Except Halt (PDF α) := pdf.cmd "h"

/-- The method `PDF::setflat`. -/
def setflat (pdf : PDF α) : Except Halt (PDF α) := pdf.cmd "i"

/-- The method `PDF::i`. -/
def i (pdf : PDF α) : Except Halt (PDF α) := pdf.cmd "i"

/-- The method `PDF::setlinejoin`. -/
def setlinejoin (pdf : PDF α) (n : Int) : Except Halt (PDF α) := pdf.int_cmd n "J"

/-- The method `PDF::J`. -/
def J (pdf : PDF α) (n : Int) : Except Halt (PDF α) := pdf.int_cmd n "J"

/-- The method `PDF::setlinecap`: the call `cmd(n, "j")` selects `cmd(double, const char*)`. -/
def setlinecap [LinearOrderedField α] (L : Libm α) (pdf : PDF α) (n : Int) :
    Except Halt (PDF α) :=
  pdf.cmd1 L (n : α) "j"

/-- The method `PDF::j`. -/
def j (pdf : PDF α) (n : Int) : Except Halt (PDF α) := pdf.int_cmd n "j"

/-- The method `PDF::setcolor(double c, double m, double y, double k, const char*)`. -/
def setcolor_cmyk_cmd (L : Libm α) (pdf : PDF α) (c m y k : α) (cmd : String) :
    Except Halt (PDF α) :=
  pdf.append (L.fmt_f 3 c ++ " " ++ L.fmt_f 3 m ++ " " ++ L.fmt_f 3 y ++ " " ++ L.fmt_f 3 k
    ++ " " ++ cmd)

/-- The method `PDF::setcmykcolor_stroke`. -/
def setcmykcolor_stroke (L : Libm α) (pdf : PDF α) (c m y k : α) : Except Halt (PDF α) :=
  pdf.setcolor_cmyk_cmd L c m y k "K"

/-- The method `PDF::setcmykcolor_nonstroke`. -/
def setcmykcolor_nonstroke (L : Libm α) (pdf : PDF α) (c m y k : α) : Except Halt (PDF α) :=
  pdf.setcolor_cmyk_cmd L c m y k "k"

/-- The method `PDF::k`. -/
def k (L : Libm α) (pdf : PDF α) (c m y k : α) : Except Halt (PDF α) :=
  pdf.setcolor_cmyk_cmd L c m y k "k"

/-- The method `PDF::K`. -/
def K (L : Libm α) (pdf : PDF α) (c m y k : α) : Except Halt (PDF α) :=
  pdf.setcolor_cmyk_cmd L c m y k "K"

/-- The method `PDF::lineto`. -/
def lineto [LinearOrderedField α] (L : Libm α) (pdf : PDF α) (x y : α) :
    Except Halt (PDF α) := do
  let pdf ← pdf.point_cmd L x y "l"
  pure { pdf with current_x := x, current_y := y, current_point := true }

/-- The method `PDF::l`. -/
def l [LinearOrderedField α] (L : Libm α) (pdf : PDF α) (x y : α) : Except Halt (PDF α) :=
  pdf.point_cmd L x y "l"

/-- The method `PDF::moveto`. -/
def moveto [LinearOrderedField α] (L : Libm α) (pdf : PDF α) (x y : α) :
    Except Halt (PDF α) := do
  let pdf ← pdf.point_cmd L x y "m"
  pure { pdf with current_x := x, current_y := y, current_point := true }

/-- The method `PDF::m`. -/
def m [LinearOrderedField α] (L : Libm α) (pdf : PDF α) (x y : α) : Except Halt (PDF α) :=
  pdf.point_cmd L x y "m"

/-- The method `PDF::setmiterlimit`. -/
def setmiterlimit (L : Libm α) (pdf : PDF α) (limit : α) : Except Halt (PDF α) :=
  pdf.cmd1 L limit "M"

/-- The method `PDF::M`. -/
def M (L : Libm α) (pdf : PDF α) (limit : α) : Except Halt (PDF α) := pdf.cmd1 L limit "M"

/-- The method `PDF::endpath`. -/
def endpath (pdf : PDF α) : Except Halt (PDF α) := do
  let pdf ← pdf.cmd "n"
  pure { pdf with current_point := false }

/-- The method `PDF::n`. -/
def n (pdf : PDF α) : Except Halt (PDF α) := pdf.cmd "n"

/-- The method `PDF::gsave`. -/
def gsave (pdf : PDF α) : Except Halt (PDF α) := pdf.cmd "q"

/-- The method `PDF::grestore`. -/
def grestore (pdf : PDF α) : Except Halt (PDF α) := pdf.cmd "Q"

/-- The method `PDF::q`. -/
def q (pdf : PDF α) : Except Halt (PDF α) := pdf.cmd "q"

/-- The method `PDF::Q`. -/
def Q (pdf : PDF α) : Except Halt (PDF α) := pdf.cmd "Q"

/-- The method `PDF::rect`. -/
def rect [LinearOrderedField α] (L : Libm α) (pdf : PDF α) (x y width height : α) :
    Except Halt (PDF α) :=
  let p := pdf.transform x y
  let v := pdf.transform_vector width height
  pdf.append (L.fmt_f 3 p.x ++ " " ++ L.fmt_f 3 p.y ++ " " ++ L.fmt_f 3 v.x ++ " "
    ++ L.fmt_f 3 v.y ++ " re")

/-- The method `PDF::setrgbcolor`. -/
def setrgbcolor (L : Libm α) (pdf : PDF α) (r g b : α) : Except Halt (PDF α) := do
  let pdf ← pdf.setrgbcolor_stroke L r g b
  pdf.setrgbcolor_nonstroke L r g b

/-- The method `PDF::RG`. -/
def RG (L : Libm α) (pdf : PDF α) (r g b : α) : Except Halt (PDF α) :=
  pdf.setcolor_cmd L r g b "RG"

/-- The method `PDF::rg`. -/
def rg (L : Libm α) (pdf : PDF α) (r g b : α) : Except Halt (PDF α) :=
  pdf.setcolor_cmd L r g b "rg"

/-- The method `PDF::closepath_stroke`. -/
def closepath_stroke (pdf : PDF α) : Except Halt (PDF α) := do
  let pdf ← pdf.cmd "s"
  pure { pdf with current_point := false }

/-- The method `PDF::s`. -/
def s (pdf : PDF α) : Except Halt (PDF α) := pdf.cmd "s"

/-- The method `PDF::stroke`. -/
def stroke (pdf : PDF α) : Except Halt (PDF α) := do
  let pdf ← pdf.cmd "S"
  pure { pdf with current_point := false }

/-- The method `PDF::S`. -/
def S (pdf : PDF α) : Except Halt (PDF α) := pdf.cmd "S"

/-- The method `PDF::shfill`. -/
def shfill (pdf : PDF α) : Except Halt (PDF α) := do
  let pdf ← pdf.cmd "sh"
  pure { pdf with current_point := false }

/-- The method `PDF::sh`. -/
def sh (pdf : PDF α) : Except Halt (PDF α) := pdf.cmd "sh"

/-- The method `PDF::setlinewidth`. -/
def setlinewidth (L : Libm α) (pdf : PDF α) (width : α) : Except Halt (PDF α) :=
  pdf.cmd1 L width "w"

/-- The method `PDF::w`. -/
def w (L : Libm α) (pdf : PDF α) (width : α) : Except Halt (PDF α) := pdf.cmd1 L width "w"

/-- The method `PDF::clip`. -/
def clip (pdf : PDF α) : Except Halt (PDF α) := pdf.cmd "W"

/-- The method `PDF::W`. -/
def W (pdf : PDF α) : Except Halt (PDF α) := pdf.cmd "W"

/-- The method `PDF::eoclip`. -/
def eoclip (pdf : PDF α) : Except Halt (PDF α) := pdf.cmd "W*"

/-- The method `PDF::W_star`. -/
def W_star (pdf : PDF α) : Except Halt (PDF α) := pdf.cmd "W*"

/-- The method `PDF::setcolor(const PDFColor&)`. -/
def setcolor (L : Libm α) (pdf : PDF α) (color : PDFColor α) : Except Halt (PDF α) := do
  let pdf ← pdf.setcolor_stroke L color
  pdf.setcolor_nonstroke L color

/-- The method `PDF::BT`. -/
def BT (pdf : PDF α) : Except Halt (PDF α) := pdf.cmd "BT"

/-- The method `PDF::ET`. -/
def ET (pdf : PDF α) : Except Halt (PDF α) := pdf.cmd "ET"

/-- The method `PDF::Td`. -/
def Td (L : Libm α) (pdf : PDF α) (tx ty : α) : Except Halt (PDF α) := pdf.cmd2 L tx ty "Td"

/-- The method `PDF::next_line_leading`. -/
def next_line_leading (L : Libm α) (pdf : PDF α) (tx ty : α) : Except Halt (PDF α) :=
  pdf.cmd2 L tx ty "TD"

/-- The method `PDF::TD`. -/
def TD (L : Libm α) (pdf : PDF α) (tx ty : α) : Except Halt (PDF α) := pdf.cmd2 L tx ty "TD"

/-- The method `PDF::text_matrix`. -/
def text_matrix (L : Libm α) (pdf : PDF α) (a b c d e f : α) : Except Halt (PDF α) :=
  pdf.append (L.fmt_f 4 a ++ " " ++ L.fmt_f 4 b ++ " " ++ L.fmt_f 4 c ++ " " ++ L.fmt_f 4 d
    ++ " " ++ L.fmt_f 4 e ++ " " ++ L.fmt_f 4 f ++ " Tm")

/-- The method `PDF::Tm`. -/
def Tm (L : Libm α) (pdf : PDF α) (a b c d e f : α) : Except Halt (PDF α) :=
  pdf.text_matrix L a b c d e f

/-- The method `PDF::next_line()` without arguments. -/
def next_line0 (pdf : PDF α) : Except Halt (PDF α) := pdf.cmd "T*"

/-- The method `PDF::T_star`. -/
def T_star (pdf : PDF α) : Except Halt (PDF α) := pdf.cmd "T*"

/-- The method `PDF::show(const char*)`. -/
def show_str (pdf : PDF α) (src : String) : Except Halt (PDF α) := pdf.show src src.length

/-- The method `PDF::Tj`. -/
def Tj (pdf : PDF α) (src : String) : Except Halt (PDF α) := pdf.show src src.length

/-- The method `PDF::show_next_line(const char*)`. -/
def show_next_line (pdf : PDF α) (src : String) : Except Halt (PDF α) :=
  if src.length + 6 ≥ buf_size then .error Halt.string_too_long
  else pdf.append ("(" ++ src ++ ") \x27")

/-- The method `PDF::show_next_line(double, double, const char*)`. -/
def show_next_line3 (L : Libm α) (pdf : PDF α) (w c : α) (src : String) : Except Halt (PDF α) :=
  if src.length + 40 ≥ buf_size then .error Halt.string_too_long
  else pdf.append (L.fmt_f 4 w ++ " " ++ L.fmt_f 4 c ++ " (" ++ src ++ ") \"")

/-- The method `PDF::Tf`. -/
def Tf (L : Libm α) (pdf : PDF α) (font : Int) (scale : α) : Except Halt (PDF α) :=
  pdf.selectfont L font scale

/-- The method `PDF::rmoveto`. -/
def rmoveto [LinearOrderedField α] (L : Libm α) (pdf : PDF α) (x y : α) :
    Except Halt (PDF α) :=
  if ¬ pdf.current_point then .error (Halt.die "no current point in \x27rmoveto\x27")
  else
    PDF.point_cmd L { pdf with current_x := pdf.current_x + x, current_y := pdf.current_y + y }
      x y "m"

/-- The method `PDF::rlineto`. -/
def rlineto [LinearOrderedField α] (L : Libm α) (pdf : PDF α) (x y : α) :
    Except Halt (PDF α) :=
  if ¬ pdf.current_point then .error (Halt.die "no current point in \x27line\x27")
  else
    PDF.point_cmd L { pdf with current_x := pdf.current_x + x, current_y := pdf.current_y + y }
      x y "l"

/-- The method `PDF::rectpath`. -/
def rectpath [LinearOrderedField α] (L : Libm α) (pdf : PDF α) (x y width height : α) :
    Except Halt (PDF α) := do
  let pdf ← pdf.moveto L x y
  let pdf ← pdf.lineto L (x + width) y
  let pdf ← pdf.lineto L (x + width) (y + height)
  let pdf ← pdf.lineto L x (y + height)
  pdf.closepath

/-- One round of the `while` loop of `PDF::comment`, for the line `line`. -/
def comment_line (pdf : PDF α) (line : List Char) : Except Halt (PDF α) :=
  if line.length ≥ buf_size - 2 then pure pdf
  else pdf.append ("%" ++ String.mk line)

/-- The method `PDF::comment`. -/
def comment (pdf : PDF α) (src : String) : Except Halt (PDF α) :=
  (text_lines src.data).foldlM comment_line pdf

end PDF

/-! ## Circular arcs (PDF.cpp) -/

/-- The conversion `int(x)` of a `double` to a 32-bit `int`: truncation toward zero. When the
truncated value is not a 32-bit integer (from `2^31` upward and from `-2^31 - 1` downward) the
conversion is undefined in C++; the value taken here is the one that the conversion
instruction of the x86 processors delivers, `INT_MIN`. -/
def c_int [LinearOrderedField α] [FloorRing α] (x : α) : Int :=
  if -2147483649 < x ∧ x < 2147483648 then (if 0 ≤ x then ⌊x⌋ else ⌈x⌉) else -2147483648

/-- The function `Bezier_s`. -/
def Bezier_s [LinearOrderedField α] (cos sin : α → α) (angle : α) : α :=
  (8 * cos (angle / 2) - 4 * (1 + cos angle)) / (3 * sin angle)

/-- A path-construction call issued by a derived graphics operation. -/
inductive PathOp (α : Type) where
  | moveto (x y : α)
  | lineto (x y : α)
  | curveto (x1 y1 x2 y2 x3 y3 : α)

/-- The loop `while (a1 < a0) a1 += 2 * M_PI` of `PDF::arc`; `none` when it does not exit
within the given number of rounds. The arithmetic is exact: in an ordered field every round
raises `a1` by `2 * M_PI`, so the loop exits when `M_PI` is positive, while a `double` so
large that adding `2 * M_PI` rounds back to it is left unchanged, and the loop of the C++
code does not exit then. -/
def arc_loop [LinearOrderedField α] (pi : α) : Nat → α → α → Option α
  | 0, _, _ => none
  | fuel + 1, a0, a1 => if a1 < a0 then arc_loop pi fuel a0 (a1 + 2 * pi) else some a1

/-- The loop `while (a1 > a0) a1 -= 2 * M_PI` of `PDF::arcn`. -/
def arcn_loop [LinearOrderedField α] (pi : α) : Nat → α → α → Option α
  | 0, _, _ => none
  | fuel + 1, a0, a1 => if a1 > a0 then arcn_loop pi fuel a0 (a1 - 2 * pi) else some a1

/-- The number of rounds after which the normalisation loops of `arc` and `arcn` have exited
when `M_PI` is positive: one more than the span to cover, in full turns. -/
def arc_fuel [LinearOrderedField α] [FloorRing α] (pi : α) (span : α) : Nat :=
  Int.toNat ⌈span / (2 * pi)⌉ + 1

/-- The segment count of `PDF::arc` and `PDF::arcn` after `if (n == 0) ...; if (n < 1) n = 1`,
for the normalised span. -/
def arc_count [LinearOrderedField α] [FloorRing α] (pi : α) (span : α) (n : Int) : Nat :=
  let n := if n = 0 then c_int (span / (pi / 8)) else n
  let n := if n < 1 then 1 else n
  n.toNat

/-- The call of `curveto` in round `k` of the `for` loop of `PDF::arc`. -/
def arc_curve [LinearOrderedField α] (cos sin : α → α) (x y r a0 a1 : α) (n k : Nat) :
    PathOp α :=
  let t := (k : α) / (n : α)
  let rot := a0 + t * (a1 - a0)
  let angle := (a1 - a0) / (n : α)
  let s := r * Bezier_s cos sin angle
  let x1 := r
  let y1 := s
  let x2 := r * cos angle + s * sin angle
  let y2 := r * sin angle - s * cos angle
  let x3 := r * cos angle
  let y3 := r * sin angle
  PathOp.curveto (x + (x1 * cos rot - y1 * sin rot)) (y + (x1 * sin rot + y1 * cos rot))
    (x + (x2 * cos rot - y2 * sin rot)) (y + (x2 * sin rot + y2 * cos rot))
    (x + (x3 * cos rot - y3 * sin rot)) (y + (x3 * sin rot + y3 * cos rot))

/-- The call of `curveto` in round `k` of the `for` loop of `PDF::arcn`. -/
def arcn_curve [LinearOrderedField α] (cos sin : α → α) (x y r a0 a1 : α) (n k : Nat) :
    PathOp α :=
  let t := (k : α) / (n : α)
  let rot := a0 + t * (a1 - a0)
  let angle := (a0 - a1) / (n : α)
  let s := r * Bezier_s cos sin angle
  let x1 := r
  let y1 := -s
  let x2 := r * cos (-angle) + s * sin angle
  let y2 := r * sin (-angle) + s * cos angle
  let x3 := r * cos (-angle)
  let y3 := r * sin (-angle)
  PathOp.curveto (x + (x1 * cos rot - y1 * sin rot)) (y + (x1 * sin rot + y1 * cos rot))
    (x + (x2 * cos rot - y2 * sin rot)) (y + (x2 * sin rot + y2 * cos rot))
    (x + (x3 * cos rot - y3 * sin rot)) (y + (x3 * sin rot + y3 * cos rot))

/-- The path calls of `PDF::arc(x, y, r, a0, a1, n)` in order, given whether there is a
current point; `none` when the normalisation loop does not exit. -/
def arc_ops [LinearOrderedField α] [FloorRing α] (cos sin : α → α) (pi : α)
    (current_point : Bool) (x y r a0 a1 : α) (n : Int) : Option (List (PathOp α)) :=
  match arc_loop pi (arc_fuel pi (a0 - a1)) a0 a1 with
  | none => none
  | some a1 =>
    let first :=
      if current_point then PathOp.lineto (x + r * cos a0) (y + r * sin a0)
      else PathOp.moveto (x + r * cos a0) (y + r * sin a0)
    let n := arc_count pi (a1 - a0) n
    some (first :: (List.range n).map (arc_curve cos sin x y r a0 a1 n))

/-- The path calls of `PDF::arcn(x, y, r, a0, a1, n)` in order. -/
def arcn_ops [LinearOrderedField α] [FloorRing α] (cos sin : α → α) (pi : α)
    (current_point : Bool) (x y r a0 a1 : α) (n : Int) : Option (List (PathOp α)) :=
  match arcn_loop pi (arc_fuel pi (a1 - a0)) a0 a1 with
  | none => none
  | some a1 =>
    let first :=
      if current_point then PathOp.lineto (x + r * cos a0) (y + r * sin a0)
      else PathOp.moveto (x + r * cos a0) (y + r * sin a0)
    let n := arc_count pi (a0 - a1) n
    some (first :: (List.range n).map (arcn_curve cos sin x y r a0 a1 n))

namespace PDF

/-- The engine call that a `PathOp` stands for. -/
def path_op [LinearOrderedField α] (L : Libm α) (pdf : PDF α) : PathOp α → Except Halt (PDF α)
  | PathOp.moveto x y => pdf.moveto L x y
  | PathOp.lineto x y => pdf.lineto L x y
  | PathOp.curveto x1 y1 x2 y2 x3 y3 => pdf.curveto L x1 y1 x2 y2 x3 y3

/-- The method `PDF::arc`. -/
def arc [LinearOrderedField α] [FloorRing α] (L : Libm α) (pdf : PDF α) (x y r a0 a1 : α)
    (n : Int) : Except Halt (PDF α) :=
  match arc_ops L.cos L.sin L.M_PI pdf.current_point x y r a0 a1 n with
  | none => .error Halt.hang
  | some ops => ops.foldlM (path_op L) pdf

/-- The method `PDF::arcn`. -/
def arcn [LinearOrderedField α] [FloorRing α] (L : Libm α) (pdf : PDF α) (x y r a0 a1 : α)
    (n : Int) : Except Halt (PDF α) :=
  match arcn_ops L.cos L.sin L.M_PI pdf.current_point x y r a0 a1 n with
  | none => .error Halt.hang
  | some ops => ops.foldlM (path_op L) pdf

/-- The method `PDF::circle_path`. -/
def circle_path [LinearOrderedField α] [FloorRing α] (L : Libm α) (pdf : PDF α) (x y r : α) :
    Except Halt (PDF α) := do
  let pdf ← pdf.arc L x y r 0 (2 * L.M_PI) 8
  pdf.closepath

/-- The method `PDF::round_box_path`. -/
def round_box_path [LinearOrderedField α] [FloorRing α] (L : Libm α) (pdf : PDF α)
    (x y width height r : α) (n_arc_segs : Int) : Except Halt (PDF α) :=
  if r = 0 then pdf.rectpath L x y width height
  else do
    let pdf ← pdf.moveto L (x + r) y
    let pdf ← pdf.arc L (x + width - r) (y + r) r (-L.M_PI / 2) 0 n_arc_segs
    let pdf ← pdf.arc L (x + width - r) (y + height - r) r 0 (L.M_PI / 2) n_arc_segs
    let pdf ← pdf.arc L (x + r) (y + height - r) r (L.M_PI / 2) L.M_PI n_arc_segs
    let pdf ← pdf.arc L (x + r) (y + r) r L.M_PI (3 * L.M_PI / 2) n_arc_segs
    pdf.closepath

/-- The variadic method `PDF::polyline_path(n, ...)`; `pts` are the points passed after `n`. -/
def polyline_path [LinearOrderedField α] (L : Libm α) (pdf : PDF α) (n : Int)
    (pts : List (α × α)) : Except Halt (PDF α) :=
  if n ≤ 0 then pure pdf
  else
    match pts.take n.toNat with
    | [] => pure pdf
    | p :: ps => do
      let pdf ← pdf.moveto L p.1 p.2
      ps.foldlM (fun pdf p => pdf.lineto L p.1 p.2) pdf

/-- The variadic method `PDF::polygon_path(n, ...)`. -/
def polygon_path [LinearOrderedField α] (L : Libm α) (pdf : PDF α) (n : Int)
    (pts : List (α × α)) : Except Halt (PDF α) :=
  if n ≤ 0 then pure pdf
  else
    match pts.take n.toNat with
    | [] => pdf.closepath
    | p :: ps => do
      let pdf ← pdf.moveto L p.1 p.2
      let pdf ← ps.foldlM (fun pdf p => pdf.lineto L p.1 p.2) pdf
      pdf.closepath

end PDF

/-! ## Arrows, text boxes, title page (PDF.cpp) -/

/-- The function `stringwidth_multiline`. -/
def stringwidth_multiline [LinearOrderedField α] (text : String) (font : Int) (scale : α) :
    Except Halt α :=
  let font := font_index font
  (text_lines text.data).foldlM
    (fun max_width line => do
      let width ← stringwidth (String.mk line) line.length font scale
      pure (if width ≥ max_width then width else max_width)) 0

namespace PDF

/-- The three vertices that `PDF::basic_arrowhead` passes to `moveto`, `lineto`, `lineto`. -/
def arrowhead_points [LinearOrderedField α] (L : Libm α) (x y x0 y0 length width : α) :
    List (α × α) :=
  let angle := L.atan2 (y0 - y) (x0 - x)
  let pts : List (α × α) := [(0, 0), (length, -width / 2), (length, width / 2)]
  pts.map (fun p =>
    (x + L.cos angle * p.1 - L.sin angle * p.2, y + L.sin angle * p.1 + L.cos angle * p.2))

/-- The method `PDF::basic_arrowhead`. -/
def basic_arrowhead [LinearOrderedField α] (L : Libm α) (pdf : PDF α)
    (x y x0 y0 length width : α) : Except Halt (PDF α) := do
  let pdf ←
    (match arrowhead_points L x y x0 y0 length width with
    | [] => pure pdf
    | p :: ps => do
      let pdf ← pdf.moveto L p.1 p.2
      ps.foldlM (fun pdf p => pdf.lineto L p.1 p.2) pdf)
  let pdf ← pdf.closepath
  pdf.fill

/-- The method `PDF::arrowed_line`. -/
def arrowed_line [LinearOrderedField α] (L : Libm α) (pdf : PDF α)
    (x0 y0 x1 y1 length width : α) (heads : Nat) (backward_offset forward_offset : α) :
    Except Halt (PDF α) := do
  let dx := x1 - x0
  let dy := y1 - y0
  let len := L.hypot dx dy
  let dx := dx / len
  let dy := dy / len
  let offset := (3 / 10 : α) * length
  let x0 := x0 + dx * backward_offset
  let y0 := y0 + dy * backward_offset
  let x1 := x1 - dx * forward_offset
  let y1 := y1 - dy * forward_offset
  let pdf ←
    (if heads &&& Backward ≠ 0 then pdf.moveto L (x0 + dx * offset) (y0 + dy * offset)
    else pdf.moveto L x0 y0)
  let pdf ←
    (if heads &&& Forward ≠ 0 then pdf.lineto L (x1 - dx * offset) (y1 - dy * offset)
    else pdf.lineto L x1 y1)
  let pdf ← pdf.stroke
  let pdf ←
    (if heads &&& Backward ≠ 0 then pdf.basic_arrowhead L x0 y0 x1 y1 length width
    else pure pdf)
  if heads &&& Forward ≠ 0 then pdf.basic_arrowhead L x1 y1 x0 y0 length width
  else pure pdf

/-- The method `PDF::arrowed_arc`. -/
def arrowed_arc [LinearOrderedField α] [FloorRing α] (L : Libm α) (pdf : PDF α)
    (x y r a0 a1 length width : α) (heads : Nat) (a0_offset a1_offset : α) :
    Except Halt (PDF α) := do
  let offset := (6 / 10 : α) * length / r
  let a0 := a0 + a0_offset / r
  let a1 := a1 - a1_offset / r
  let pdf ← pdf.arc L x y r
    (a0 + (if heads &&& Backward ≠ 0 then offset else 0))
    (a1 - (if heads &&& Forward ≠ 0 then offset else 0))
    (if |a1 - a0| < L.M_PI / 2 then 1 else 0)
  let pdf ← pdf.stroke
  let pdf ←
    (if heads &&& Backward ≠ 0 then
      let x1 := x + r * L.cos a0
      let y1 := y + r * L.sin a0
      pdf.basic_arrowhead L x1 y1 (x1 + L.cos (a0 + L.M_PI / 2)) (y1 + L.sin (a0 + L.M_PI / 2))
        length width
    else pure pdf)
  if heads &&& Forward ≠ 0 then
    let x1 := x + r * L.cos a1
    let y1 := y + r * L.sin a1
    pdf.basic_arrowhead L x1 y1 (x1 + L.cos (a1 - L.M_PI / 2)) (y1 + L.sin (a1 - L.M_PI / 2))
      length width
  else pure pdf

/-- The method `PDF::arrowed_arcn`. -/
def arrowed_arcn [LinearOrderedField α] [FloorRing α] (L : Libm α) (pdf : PDF α)
    (x y r a0 a1 length width : α) (heads : Nat) (a0_offset a1_offset : α) :
    Except Halt (PDF α) := do
  let offset := (6 / 10 : α) * length / r
  let a0 := a0 - a0_offset / r
  let a1 := a1 + a1_offset / r
  let pdf ← pdf.arcn L x y r
    (a0 - (if heads &&& Backward ≠ 0 then offset else 0))
    (a1 + (if heads &&& Forward ≠ 0 then offset else 0))
    (if |a1 - a0| < L.M_PI / 2 then 1 else 0)
  let pdf ← pdf.stroke
  let pdf ←
    (if heads &&& Backward ≠ 0 then
      let x1 := x + r * L.cos a0
      let y1 := y + r * L.sin a0
      pdf.basic_arrowhead L x1 y1 (x1 + L.cos (a0 - L.M_PI / 2)) (y1 + L.sin (a0 - L.M_PI / 2))
        length width
    else pure pdf)
  if heads &&& Forward ≠ 0 then
    let x1 := x + r * L.cos a1
    let y1 := y + r * L.sin a1
    pdf.basic_arrowhead L x1 y1 (x1 + L.cos (a1 + L.M_PI / 2)) (y1 + L.sin (a1 + L.M_PI / 2))
      length width
  else pure pdf

/-- The method `PDF::text_box`. -/
def text_box [LinearOrderedField α] [FloorRing α] (L : Libm α) (pdf : PDF α) (text : String)
    (x y margin r min_width min_height : α) : Except Halt (PDF α) := do
  let leading := pdf.font_scale
  let em := (66667 / 100000 : α) * pdf.font_scale
  let width ← stringwidth_multiline text pdf.font pdf.font_scale
  let height := ((count_lines text : α) - 1) * leading + em
  let width := if width < min_width then min_width else width
  let height := if height < min_height then min_height else height
  let width := width + 2 * margin
  let height := height + 2 * margin
  let pdf ← pdf.round_box_path L (x - width / 2) (y - height / 2) width height r 1
  let pdf ← pdf.fill
  let color0 := pdf.nonstroke_color
  let pdf ← pdf.setcolor_nonstroke L pdf.stroke_color
  let pdf ← pdf.position_text L text x y (1 / 2) (1 / 2)
  let pdf ← pdf.setcolor_nonstroke L color0
  let pdf ← pdf.round_box_path L (x - width / 2) (y - height / 2) width height r 1
  pdf.stroke

/-- One of the three blocks of `PDF::title_page`: the text `t` at scale `scale`, and the new
value of `y`; `font_scale` is the parameter of `title_page`. -/
def title_block [LinearOrderedField α] (L : Libm α) (font : Int) (font_scale scale x_mid : α)
    (st : PDF α × α) (t : Option String) : Except Halt (PDF α × α) :=
  match t with
  | none => pure st
  | some t => do
    let pdf ← st.1.selectfont L font scale
    let pdf ← pdf.position_text L t x_mid st.2 (1 / 2) 0
    pure (pdf, st.2 - (font_scale * (count_lines t : α) + 20))

/-- The method `PDF::title_page`; `width / 2` and `height / 2` are integer divisions. -/
def title_page [LinearOrderedField α] (L : Libm α) (pdf : PDF α)
    (title subtitle author : Option String) (font : Int) (font_scale : α) :
    Except Halt (PDF α) := do
  let pdf ← pdf.new_page L none
  let x_mid : α := ((Int.tdiv pdf.width 2 : Int) : α)
  let y : α := ((Int.tdiv pdf.height 2 + 144 : Int) : α)
  let st ← title_block L font font_scale font_scale x_mid (pdf, y) title
  let st ← title_block L font font_scale (font_scale * (707 / 1000)) x_mid st subtitle
  let st ← title_block L font font_scale (font_scale * (1 / 2)) x_mid st author
  pure st.1

end PDF

/-! ## Runs of the engine -/

/-- A call of a public method of the class `PDF` that may change the document. -/
inductive Op (α : Type) where
  | new_page (annot : Option String)
  | title_page (title subtitle author : Option String) (font : Int) (font_scale : α)
  | append (cmd : String)
  | cmd (c : String)
  | cmd1 (v : α) (c : String)
  | cmd2 (x y : α) (c : String)
  | int_cmd (n : Int) (c : String)
  | point_cmd (x y : α) (c : String)
  | point_cmd3 (x1 y1 x2 y2 x3 y3 : α) (c : String)
  | comment (src : String)
  | closepath_fill_stroke | b | fill_stroke | B
  | closepath_eofill_stroke | b_star | eofill_stroke | B_star
  | curveto (x1 y1 x2 y2 x3 y3 : α) | c (x1 y1 x2 y2 x3 y3 : α)
  | concat (x1 y1 x2 y2 x3 y3 : α)
  | setdash (length offset : α) | setdash2 (length1 length2 offset : α) | resetdash
  | fill | f | eofill | f_star
  | setgray_stroke (gray : α) | setgray_nonstroke (gray : α) | setgray (gray : α)
  | G (gray : α) | g (gray : α)
  | closepath | h | setflat | i
  | setlinejoin (n : Int) | J (n : Int) | setlinecap (n : Int) | j (n : Int)
  | setcolor_cmyk_cmd (c m y k : α) (cmd : String)
  | setcmykcolor_stroke (c m y k : α) | setcmykcolor_nonstroke (c m y k : α)
  | k (c m y k : α) | K (c m y k : α)
  | lineto (x y : α) | l (x y : α) | moveto (x y : α) | m (x y : α)
  | setmiterlimit (limit : α) | M (limit : α)
  | endpath | n | gsave | grestore | q | Q
  | rect (x y width height : α)
  | setrgbcolor_stroke (r g b : α) | setrgbcolor_nonstroke (r g b : α) | setrgbcolor (r g b : α)
  | RG (r g b : α) | rg (r g b : α)
  | closepath_stroke | s | stroke | S | shfill | sh
  | setlinewidth (width : α) | w (width : α)
  | clip | W | eoclip | W_star
  | setcolor_cmd (r g b : α) (cmd : String)
  | setcolor_stroke (color : PDFColor α) | setcolor_nonstroke (color : PDFColor α)
  | setcolor (color : PDFColor α)
  | begin_text | end_text | BT | ET
  | next_line (tx ty : α) | Td (tx ty : α) | next_line_leading (tx ty : α) | TD (tx ty : α)
  | text_matrix (a b c d e f : α) | Tm (a b c d e f : α)
  | next_line0 | T_star
  | «show» (src : String) (n : Nat) | show_str (src : String) | Tj (src : String)
  | show_next_line (src : String) | show_next_line3 (w c : α) (src : String)
  | selectfont (font : Int) (scale : α) | Tf (font : Int) (scale : α)
  | rmoveto (x y : α) | rlineto (x y : α)
  | arc (x y r a0 a1 : α) (n : Int) | arcn (x y r a0 a1 : α) (n : Int)
  | circle_path (x y r : α)
  | rectpath (x y width height : α)
  | round_box_path (x y width height r : α) (n_arc_segs : Int)
  | polyline_path (n : Int) (pts : List (α × α))
  | polygon_path (n : Int) (pts : List (α × α))
  | basic_arrowhead (x y x0 y0 length width : α)
  | arrowed_line (x0 y0 x1 y1 length width : α) (heads : Nat)
      (backward_offset forward_offset : α)
  | arrowed_arc (x y r a0 a1 length width : α) (heads : Nat) (a0_offset a1_offset : α)
  | arrowed_arcn (x y r a0 a1 length width : α) (heads : Nat) (a0_offset a1_offset : α)
  | position_text (text : String) (x y h_frac v_frac : α)
  | text_box (text : String) (x y margin r min_width min_height : α)

/-- The effect of one call on the document. -/
def PDF.step [LinearOrderedField α] [FloorRing α] (L : Libm α) (pdf : PDF α) :
    Op α → Except Halt (PDF α)
  | Op.new_page annot => pdf.new_page L annot
  | Op.title_page t s a font fs => pdf.title_page L t s a font fs
  | Op.append cmd => pdf.append cmd
  | Op.cmd c => pdf.cmd c
  | Op.cmd1 v c => pdf.cmd1 L v c
  | Op.cmd2 x y c => pdf.cmd2 L x y c
  | Op.int_cmd n c => pdf.int_cmd n c
  | Op.point_cmd x y c => pdf.point_cmd L x y c
  | Op.point_cmd3 x1 y1 x2 y2 x3 y3 c => pdf.point_cmd3 L x1 y1 x2 y2 x3 y3 c
  | Op.comment src => pdf.comment src
  | Op.closepath_fill_stroke => pdf.closepath_fill_stroke
  | Op.b => pdf.b
  | Op.fill_stroke => pdf.fill_stroke
  | Op.B => pdf.B
  | Op.closepath_eofill_stroke => pdf.closepath_eofill_stroke
  | Op.b_star => pdf.b_star
  | Op.eofill_stroke => pdf.eofill_stroke
  | Op.B_star => pdf.B_star
  | Op.curveto x1 y1 x2 y2 x3 y3 => pdf.curveto L x1 y1 x2 y2 x3 y3
  | Op.c x1 y1 x2 y2 x3 y3 => pdf.c L x1 y1 x2 y2 x3 y3
  | Op.concat x1 y1 x2 y2 x3 y3 => pdf.concat L x1 y1 x2 y2 x3 y3
  | Op.setdash a o => pdf.setdash L a o
  | Op.setdash2 a b o => pdf.setdash2 L a b o
  | Op.resetdash => pdf.resetdash
  | Op.fill => pdf.fill
  | Op.f => pdf.f
  | Op.eofill => pdf.eofill
  | Op.f_star => pdf.f_star
  | Op.setgray_stroke gray => pdf.setgray_stroke L gray
  | Op.setgray_nonstroke gray => pdf.setgray_nonstroke L gray
  | Op.setgray gray => pdf.setgray L gray
  | Op.G gray => pdf.G L gray
  | Op.g gray => pdf.g L gray
  | Op.closepath => pdf.closepath
  | Op.h => pdf.h
  | Op.setflat => pdf.setflat
  | Op.i => pdf.i
  | Op.setlinejoin n => pdf.setlinejoin n
  | Op.J n => pdf.J n
  | Op.setlinecap n => pdf.setlinecap L n
  | Op.j n => pdf.j n
  | Op.setcolor_cmyk_cmd c m y k cmd => pdf.setcolor_cmyk_cmd L c m y k cmd
  | Op.setcmykcolor_stroke c m y k => pdf.setcmykcolor_stroke L c m y k
  | Op.setcmykcolor_nonstroke c m y k => pdf.setcmykcolor_nonstroke L c m y k
  | Op.k c m y k => pdf.k L c m y k
  | Op.K c m y k => pdf.K L c m y k
  | Op.lineto x y => pdf.lineto L x y
  | Op.l x y => pdf.l L x y
  | Op.moveto x y => pdf.moveto L x y
  | Op.m x y => pdf.m L x y
  | Op.setmiterlimit limit => pdf.setmiterlimit L limit
  | Op.M limit => pdf.M L limit
  | Op.endpath => pdf.endpath
  | Op.n => pdf.n
  | Op.gsave => pdf.gsave
  | Op.grestore => pdf.grestore
  | Op.q => pdf.q
  | Op.Q => pdf.Q
  | Op.rect x y width height => pdf.rect L x y width height
  | Op.setrgbcolor_stroke r g b => pdf.setrgbcolor_stroke L r g b
  | Op.setrgbcolor_nonstroke r g b => pdf.setrgbcolor_nonstroke L r g b
  | Op.setrgbcolor r g b => pdf.setrgbcolor L r g b
  | Op.RG r g b => pdf.RG L r g b
  | Op.rg r g b => pdf.rg L r g b
  | Op.closepath_stroke => pdf.closepath_stroke
  | Op.s => pdf.s
  | Op.stroke => pdf.stroke
  | Op.S => pdf.S
  | Op.shfill => pdf.shfill
  | Op.sh => pdf.sh
  | Op.setlinewidth width => pdf.setlinewidth L width
  | Op.w width => pdf.w L width
  | Op.clip => pdf.clip
  | Op.W => pdf.W
  | Op.eoclip => pdf.eoclip
  | Op.W_star => pdf.W_star
  | Op.setcolor_cmd r g b cmd => pdf.setcolor_cmd L r g b cmd
  | Op.setcolor_stroke color => pdf.setcolor_stroke L color
  | Op.setcolor_nonstroke color => pdf.setcolor_nonstroke L color
  | Op.setcolor color => pdf.setcolor L color
  | Op.begin_text => pdf.begin_text L
  | Op.end_text => pdf.end_text
  | Op.BT => pdf.BT
  | Op.ET => pdf.ET
  | Op.next_line tx ty => pdf.next_line L tx ty
  | Op.Td tx ty => pdf.Td L tx ty
  | Op.next_line_leading tx ty => pdf.next_line_leading L tx ty
  | Op.TD tx ty => pdf.TD L tx ty
  | Op.text_matrix a b c d e f => pdf.text_matrix L a b c d e f
  | Op.Tm a b c d e f => pdf.Tm L a b c d e f
  | Op.next_line0 => pdf.next_line0
  | Op.T_star => pdf.T_star
  | Op.«show» src n => pdf.«show» src n
  | Op.show_str src => pdf.show_str src
  | Op.Tj src => pdf.Tj src
  | Op.show_next_line src => pdf.show_next_line src
  | Op.show_next_line3 w c src => pdf.show_next_line3 L w c src
  | Op.selectfont font scale => pdf.selectfont L font scale
  | Op.Tf font scale => pdf.Tf L font scale
  | Op.rmoveto x y => pdf.rmoveto L x y
  | Op.rlineto x y => pdf.rlineto L x y
  | Op.arc x y r a0 a1 n => pdf.arc L x y r a0 a1 n
  | Op.arcn x y r a0 a1 n => pdf.arcn L x y r a0 a1 n
  | Op.circle_path x y r => pdf.circle_path L x y r
  | Op.rectpath x y width height => pdf.rectpath L x y width height
  | Op.round_box_path x y width height r n => pdf.round_box_path L x y width height r n
  | Op.polyline_path n pts => pdf.polyline_path L n pts
  | Op.polygon_path n pts => pdf.polygon_path L n pts
  | Op.basic_arrowhead x y x0 y0 length width => pdf.basic_arrowhead L x y x0 y0 length width
  | Op.arrowed_line x0 y0 x1 y1 length width heads bo fo =>
    pdf.arrowed_line L x0 y0 x1 y1 length width heads bo fo
  | Op.arrowed_arc x y r a0 a1 length width heads o0 o1 =>
    pdf.arrowed_arc L x y r a0 a1 length width heads o0 o1
  | Op.arrowed_arcn x y r a0 a1 length width heads o0 o1 =>
    pdf.arrowed_arcn L x y r a0 a1 length width heads o0 o1
  | Op.position_text text x y h_frac v_frac => pdf.position_text L text x y h_frac v_frac
  | Op.text_box text x y margin r mw mh => pdf.text_box L text x y margin r mw mh

/-- A run: the calls of `ops` in order, from the document `pdf`. -/
def PDF.run [LinearOrderedField α] [FloorRing α] (L : Libm α) (pdf : PDF α) (ops : List (Op α)) :
    Except Halt (PDF α) :=
  ops.foldlM (PDF.step L) pdf

/-! ## Points (struct PDFPoint of PDF.h) -/

namespace PDFPoint

/-- The method `PDFPoint::length_sqr`. -/
def length_sqr [LinearOrderedField α] (p : PDFPoint α) : α := p.x * p.x + p.y * p.y

/-- The method `PDFPoint::dist`. -/
def dist [LinearOrderedField α] (L : Libm α) (p q : PDFPoint α) : α :=
  L.hypot (q.x - p.x) (q.y - p.y)

/-- The method `PDFPoint::cross_z`. -/
def cross_z [LinearOrderedField α] (p q : PDFPoint α) : α := p.x * q.y - p.y * q.x

/-- The method `PDFPoint::perp`. -/
def perp [LinearOrderedField α] (p : PDFPoint α) : PDFPoint α := { x := -p.y, y := p.x }

/-- The method `PDFPoint::unit`. -/
def unit [LinearOrderedField α] (L : Libm α) (p : PDFPoint α) : PDFPoint α :=
  { x := 1 / L.hypot p.x p.y * p.x, y := 1 / L.hypot p.x p.y * p.y }

/-- The operator `PDFPoint::operator+`. -/
def add [LinearOrderedField α] (p q : PDFPoint α) : PDFPoint α :=
  { x := p.x + q.x, y := p.y + q.y }

/-- The operator `PDFPoint::operator-`. -/
def sub [LinearOrderedField α] (p q : PDFPoint α) : PDFPoint α :=
  { x := p.x - q.x, y := p.y - q.y }

/-- The operator `operator*(double, const PDFPoint&)`. -/
def smul [LinearOrderedField α] (s : α) (p : PDFPoint α) : PDFPoint α :=
  { x := s * p.x, y := s * p.y }

end PDFPoint

/-! ## Graph (Graph.h, Graph.cpp) -/

/-- The struct `GraphNode`. -/
structure GraphNode (α : Type) where
  name : String
  index : Int
  state : Int
  value : α
  flags : Nat

/-- The default constructor `GraphNode()`. -/
def GraphNode.new [LinearOrderedField α] : GraphNode α :=
  { name := "", index := 0, state := 0, value := 0, flags := 0 }

def NoState : Int := 0
def Active : Int := 1
def Visited : Int := 2
def Finished : Int := 3
def HighlightFlag : Nat := 1

/-- The data members of the class `Graph`, without the pointer `pdf`: the `PDFGraph` object
that it points to is passed to the methods that use it. The arrays `nodes`, `adj`, `node_pos`
and `arc_pos` have `n` rows (and columns); a NULL entry of `arc_pos` is `none`. -/
structure Graph (α : Type) where
  n : Nat
  nodes : Nat → GraphNode α
  adj : Nat → Nat → α
  weighted : Bool
  directed : Bool
  scale : α
  node_pos : Nat → PDFPoint α
  arc_pos : Nat → Nat → Option (PDFPoint α)

/-- The conversions of a `double` to text used by Graph.cpp and PDFGraph.cpp: `os` is
`ostream << double` and `g2` is `sprintf` with `%.2g`. -/
structure NumFmt (α : Type) where
  os : α → String
  g2 : α → String

/-- The function `check_index` (its messages to `cerr` are not modelled). -/
def check_index (i : Int) (n : Nat) : Bool :=
  if i < 0 then false
  else if i ≥ n then false
  else true

namespace Graph

/-- The method `Graph::init`. -/
def init [LinearOrderedField α] (n_nodes : Nat) : Graph α :=
  { n := n_nodes, nodes := fun _ => GraphNode.new, adj := fun _ _ => 0,
    weighted := false, directed := true, scale := 72,
    node_pos := fun _ => { x := 0, y := 0 }, arc_pos := fun _ _ => none }

/-- The copy constructor `Graph(const Graph&)`: every entry of every array is copied. -/
def copy (src : Graph α) : Graph α :=
  { n := src.n, nodes := src.nodes, adj := src.adj, weighted := src.weighted,
    directed := src.directed, scale := src.scale, node_pos := src.node_pos,
    arc_pos := src.arc_pos }

/-- The method `Graph::write`, as the text it sends to `out`. -/
def write [LinearOrderedField α] (F : NumFmt α) (g : Graph α) (brief : Bool)
    (pre : String) : String :=
  pre ++ "Graph\n"
  ++ (pre ++ toString g.n ++ "\n")
  ++ (if brief then ""
      else String.join ((List.range g.n).map (fun i =>
        pre ++ "node \"" ++ (g.nodes i).name ++ "\"\n")))
  ++ String.join ((List.range g.n).map (fun i =>
      if (g.nodes i).value ≠ 0 then
        pre ++ "node_value " ++ toString (i + 1) ++ " " ++ F.os (g.nodes i).value ++ "\n"
      else ""))
  ++ String.join ((List.range g.n).map (fun i =>
      if (g.nodes i).state ≠ 0 then
        pre ++ "node_state " ++ toString (i + 1) ++ " " ++ F.os (g.nodes i).value ++ "\n"
      else ""))
  ++ String.join ((List.range g.n).map (fun i =>
      String.join ((List.range g.n).map (fun j =>
        if g.adj i j > 0 then
          if g.weighted then
            pre ++ "weighted_arc " ++ toString (i + 1) ++ " " ++ toString (j + 1)
              ++ " " ++ F.os (g.adj i j) ++ "\n"
          else pre ++ "arc " ++ toString i ++ " " ++ toString (j + 1) ++ "\n"
        else ""))))
  ++ (if brief then ""
      else
        String.join ((List.range g.n).map (fun i =>
          pre ++ "node_pos " ++ toString (i + 1) ++ " " ++ F.os (g.node_pos i).x ++ " "
            ++ F.os (g.node_pos i).y ++ "\n"))
        ++ String.join ((List.range g.n).map (fun i =>
            String.join ((List.range g.n).map (fun j =>
              match g.arc_pos i j with
              | some p =>
                pre ++ "arc_point " ++ toString (i + 1) ++ " " ++ toString (j + 1) ++ " "
                  ++ F.os p.x ++ " " ++ F.os p.y ++ "\n"
              | none => "")))))

/-- The method `Graph::adjacent`. -/
def adjacent [LinearOrderedField α] (g : Graph α) (i j : Int) : Bool :=
  if !check_index i g.n then false
  else if !check_index j g.n then false
  else decide (g.adj i.toNat j.toNat > 0)

/-- The method `Graph::get_arc_weight`. -/
def get_arc_weight [LinearOrderedField α] (g : Graph α) (i j : Int) : α :=
  if !check_index i g.n then 0
  else if !check_index j g.n then 0
  else g.adj i.toNat j.toNat

/-- The method `Graph::get_node`. For an index out of range it returns `nodes[0]`; in a graph
without nodes that element is outside the array `nodes`, and reading it is undefined
behaviour, a halt of the model. -/
def get_node (g : Graph α) (i : Int) : Except Halt (GraphNode α) :=
  if !check_index i g.n then
    if 0 < g.n then pure (g.nodes 0)
    else .error (Halt.die "get_node: nodes[0] is outside the array")
  else pure (g.nodes i.toNat)

/-- The method `Graph::get_node_state`. -/
def get_node_state (g : Graph α) (i : Int) : Int :=
  if !check_index i g.n then 0 else (g.nodes i.toNat).state

/-- The method `Graph::get_node_value`. -/
def get_node_value [LinearOrderedField α] (g : Graph α) (i : Int) : α :=
  if !check_index i g.n then 0 else (g.nodes i.toNat).value

/-- The method `Graph::get_node_flags`. -/
def get_node_flags (g : Graph α) (i : Int) : Nat :=
  if !check_index i g.n then 0 else (g.nodes i.toNat).flags

/-- The method `Graph::set_arc_weight`; `weight = 1` is the default argument. -/
def set_arc_weight [LinearOrderedField α] (g : Graph α) (i j : Int) (weight : α) : Graph α :=
  if !check_index i g.n then g
  else if !check_index j g.n then g
  else
    let weight := if weight ≤ 0 then 1 else weight
    { g with adj := Function.update g.adj i.toNat (Function.update (g.adj i.toNat) j.toNat weight) }

/-- The method `Graph::set_all_arc_weights`: the two `for` loops visit every entry with both
indices below `n` once. -/
def set_all_arc_weights [LinearOrderedField α] (g : Graph α) (weight : α) : Graph α :=
  { g with adj := fun i j => if i < g.n ∧ j < g.n ∧ g.adj i j > 0 then weight else g.adj i j }

/-- The method `Graph::remove_arc`, with its return value. -/
def remove_arc [LinearOrderedField α] (g : Graph α) (i j : Int) : Graph α × Bool :=
  if !check_index i g.n then (g, false)
  else if !check_index j g.n then (g, false)
  else if g.adj i.toNat j.toNat > 0 then
    ({ g with adj := Function.update g.adj i.toNat (Function.update (g.adj i.toNat) j.toNat 0) },
      true)
  else
    ({ g with adj := Function.update g.adj i.toNat (Function.update (g.adj i.toNat) j.toNat 0) },
      false)

/-- The method `Graph::remove_all_arcs`. -/
def remove_all_arcs [LinearOrderedField α] (g : Graph α) : Graph α :=
  { g with adj := fun i j => if i < g.n ∧ j < g.n then 0 else g.adj i j }

/-- The method `Graph::remove_outgoing_arcs`. -/
def remove_outgoing_arcs [LinearOrderedField α] (g : Graph α) (i : Int) : Graph α :=
  if !check_index i g.n then g
  else { g with adj := fun a j => if a = i.toNat ∧ j < g.n then 0 else g.adj a j }

/-- The method `Graph::remove_incoming_arcs`. -/
def remove_incoming_arcs [LinearOrderedField α] (g : Graph α) (j : Int) : Graph α :=
  if !check_index j g.n then g
  else { g with adj := fun i b => if i < g.n ∧ b = j.toNat then 0 else g.adj i b }

/-- The method `Graph::unweight_arcs`. -/
def unweight_arcs [LinearOrderedField α] (g : Graph α) : Graph α :=
  { g.set_all_arc_weights 1 with weighted := false }

/-- The method `Graph::add_arc(int, int)`, with its return value. -/
def add_arc [LinearOrderedField α] (g : Graph α) (i j : Int) : Graph α × Bool :=
  if !check_index i g.n then (g, false)
  else if !check_index j g.n then (g, false)
  else if g.adj i.toNat j.toNat > 0 then
    ({ g with adj := Function.update g.adj i.toNat (Function.update (g.adj i.toNat) j.toNat 1) },
      true)
  else
    ({ g with adj := Function.update g.adj i.toNat (Function.update (g.adj i.toNat) j.toNat 1) },
      false)

/-- The method `Graph::add_arc(int, int, double)`, with its return value. -/
def add_weighted_arc [LinearOrderedField α] (g : Graph α) (i j : Int) (weight : α) :
    Graph α × Bool :=
  if !check_index i g.n then (g, false)
  else if !check_index j g.n then (g, false)
  else
    let weight := if weight ≤ 0 then 1 else weight
    if g.adj i.toNat j.toNat > 0 then
      ({ g with
          adj := Function.update g.adj i.toNat (Function.update (g.adj i.toNat) j.toNat weight) },
        true)
    else
      ({ g with
          adj := Function.update g.adj i.toNat (Function.update (g.adj i.toNat) j.toNat weight) },
        false)

/-- The method `Graph::set_node_state`. -/
def set_node_state (g : Graph α) (i : Int) (state : Int) : Graph α :=
  if !check_index i g.n then g
  else { g with nodes := Function.update g.nodes i.toNat { g.nodes i.toNat with state := state } }

/-- The method `Graph::set_all_node_states`; `state = 0` is the default argument. -/
def set_all_node_states (g : Graph α) (state : Int) : Graph α :=
  { g with nodes := fun i => if i < g.n then ({ g.nodes i with state := state }) else g.nodes i }

/-- The method `Graph::flag_node`. -/
def flag_node (g : Graph α) (i : Int) (flags : Nat) : Graph α :=
  if !check_index i g.n then g
  else
    { g with
      nodes := Function.update g.nodes i.toNat
        { g.nodes i.toNat with flags := (g.nodes i.toNat).flags ||| flags } }

/-- The method `Graph::unflag_node`; `~flags` is the complement in 32 bits. -/
def unflag_node (g : Graph α) (i : Int) (flags : Nat) : Graph α :=
  if !check_index i g.n then g
  else
    { g with
      nodes := Function.update g.nodes i.toNat
        { g.nodes i.toNat with
          flags := (g.nodes i.toNat).flags &&& ((2 ^ 32 - 1) ^^^ (flags % 2 ^ 32)) } }

/-- The method `Graph::set_all_node_flags`. -/
def set_all_node_flags (g : Graph α) (flags : Nat) : Graph α :=
  { g with nodes := fun i => if i < g.n then ({ g.nodes i with flags := flags }) else g.nodes i }

/-- The method `Graph::set_node_value`. -/
def set_node_value (g : Graph α) (i : Int) (value : α) : Graph α :=
  if !check_index i g.n then g
  else { g with nodes := Function.update g.nodes i.toNat { g.nodes i.toNat with value := value } }

/-- The method `Graph::set_all_node_values`; `value = 0` is the default argument. -/
def set_all_node_values (g : Graph α) (value : α) : Graph α :=
  { g with nodes := fun i => if i < g.n then ({ g.nodes i with value := value }) else g.nodes i }

/-- The methods `set_weighted`, `set_unweighted`, `set_directed`, `set_undirected`. -/
def set_weighted (g : Graph α) : Graph α := { g with weighted := true }
def set_unweighted (g : Graph α) : Graph α := { g with weighted := false }
def set_directed (g : Graph α) : Graph α := { g with directed := true }
def set_undirected (g : Graph α) : Graph α := { g with directed := false }

/-- The method `Graph::node_subgraph`. -/
def node_subgraph [LinearOrderedField α] (g : Graph α) : Graph α :=
  { g.copy.remove_all_arcs with weighted := false }

end Graph

/-! ## PDFGraph (PDFGraph.h, PDFGraph.cpp) -/

def ArrowheadLength [LinearOrderedField α] : α := 9
def ArrowheadWidth [LinearOrderedField α] : α := 6
def ArcLineWidth [LinearOrderedField α] : α := 1 / 2
def ThickArcLineWidth [LinearOrderedField α] : α := 5
def NodeLineWidth [LinearOrderedField α] : α := 1 / 2
def NodeRadius [LinearOrderedField α] : α := 12
def NodeFontScale [LinearOrderedField α] : α := 12
def ArcFontScale [LinearOrderedField α] : α := 10

def NewPage : Nat := 1
def NoNodes : Nat := 2
def NoNodeLabels : Nat := 4
def ShowNodeValues : Nat := 8
def ShowNodeNames : Nat := 16
def NoArcs : Nat := 32
def ArcWeights : Nat := 64
def ThickArcs : Nat := 128
def NoArcArrows : Nat := 256

/-- A call recorded in the ghost log of a `PDFGraph`: a call of `new_page` with its annotation
(`none` for NULL), or a call of `draw_general` with the graph drawn, as it was at the call,
and the flags. -/
inductive GEvent (α : Type) where
  | page (annot : Option String)
  | draw (src : Graph α) (flags : Nat)

/-- The class `PDFGraph`: the base-class object `pdf` and the data members. The pointer
`graph` is not a field: it points to the graph that created the object with `init_PDF`, and
the methods that read it take that graph as the argument `graph`. `events` is a ghost field,
absent from the C++ class: the calls of `new_page` and `draw_general` in order. -/
structure PDFGraph (α : Type) where
  pdf : PDF α
  display_flags : Nat
  x0 : α
  y0 : α
  x1 : α
  y1 : α
  b11 : α
  b12 : α
  b13 : α
  b21 : α
  b22 : α
  b23 : α
  events : List (GEvent α)

/-- The bounding box that `PDFGraph::setup` accumulates. -/
structure BBox (α : Type) where
  x0 : α
  y0 : α
  x1 : α
  y1 : α

/-- The function `update_bbox`. -/
def update_bbox [LinearOrderedField α] (b : BBox α) (x y : α) : BBox α :=
  { x0 := if x < b.x0 then x else b.x0, y0 := if y < b.y0 then y else b.y0,
    x1 := if x > b.x1 then x else b.x1, y1 := if y > b.y1 then y else b.y1 }

/-- The colour by which `draw_general` fills a node in the state `state`. -/
def node_shade [LinearOrderedField α] (state : Int) : α :=
  if state = Active then 9 / 10
  else if state = Finished then 1 / 2
  else if state = Visited then 3 / 4
  else 1

/-- The centre that `draw_general` computes for the circle through the end points `p0`, `p1`
and the arc point `p2`. -/
def arc_centre [LinearOrderedField α] (p0 p1 p2 : PDFPoint α) : PDFPoint α :=
  let c1 := (p1.length_sqr - p0.length_sqr) / 2
  let c2 := (p2.length_sqr - p1.length_sqr) / 2
  let d1 := p1.sub p0
  let d2 := p2.sub p1
  let D := d1.x * d2.y - d1.y * d2.x
  { x := (c1 * d2.y - c2 * d1.y) / D, y := -(c1 * d2.x - c2 * d1.x) / D }

/-- The determinant `D` of `draw_general`. -/
def arc_det [LinearOrderedField α] (p0 p1 p2 : PDFPoint α) : α :=
  (p1.sub p0).x * (p2.sub p1).y - (p1.sub p0).y * (p2.sub p1).x

/-- The anchor fractions `(h_frac, v_frac)` that `draw_general` chooses for the label of an
arc from the angle of its perpendicular. -/
def label_anchor [LinearOrderedField α] (pi angle : α) : α × α :=
  if angle < -3 * pi / 4 then (1, (angle + 5 * pi / 4) / (pi / 2))
  else if angle < -pi / 4 then (1 - (angle + 3 * pi / 4) / (pi / 2), 1)
  else if angle < pi / 4 then (0, 1 - (angle + pi / 4) / (pi / 2))
  else if angle < 3 * pi / 4 then ((angle - pi / 4) / (pi / 2), 0)
  else (1, (angle - 5 * pi / 4) / (pi / 2))

namespace PDFGraph

/-- The method `PDFGraph::setup`, as the object it completes from the base-class object. -/
def setup [LinearOrderedField α] (pdf : PDF α) (graph : Graph α) : PDFGraph α :=
  let n := graph.n
  let b : BBox α :=
    if n = 0 then { x0 := 0, y0 := 0, x1 := 0, y1 := 0 }
    else
      (List.range' 1 (n - 1)).foldl
        (fun b k => update_bbox b (graph.node_pos k).x (graph.node_pos k).y)
        { x0 := (graph.node_pos 0).x, y0 := (graph.node_pos 0).y,
          x1 := (graph.node_pos 0).x, y1 := (graph.node_pos 0).y }
  let b : BBox α :=
    (List.range n).foldl (fun b i =>
      (List.range n).foldl (fun b j =>
        match graph.arc_pos i j with
        | some p => update_bbox b p.x p.y
        | none => b) b) b
  let box_margin := (b.x1 - b.x0) * (1 / 10)
  let x0 := b.x0 - box_margin
  let y0 := b.y0 - box_margin
  let x1 := b.x1 + box_margin
  let y1 := b.y1 + box_margin
  let s := graph.scale
  { pdf := pdf, display_flags := 0, x0 := x0, y0 := y0, x1 := x1, y1 := y1,
    b11 := s, b12 := 0, b13 := ((Int.tdiv pdf.width 2 : Int) : α) - s * (x1 + x0) / 2,
    b21 := 0, b22 := s, b23 := ((Int.tdiv pdf.height 2 : Int) : α) - s * (y1 + y0) / 2,
    events := [] }

/-- The constructor `PDFGraph(filename, g)` with the default page size. -/
def new [LinearOrderedField α] (filename : String) (g : Graph α) : PDFGraph α :=
  setup (PDF.init filename LetterWidth LetterHeight) g

/-- The method `PDFGraph::gtransform`. -/
def gtransform [LinearOrderedField α] (p : PDFGraph α) (x y : α) : PDFPoint α :=
  { x := p.b11 * x + p.b12 * y + p.b13, y := p.b21 * x + p.b22 * y + p.b23 }

/-- The method `PDFGraph::gtransform_vector`. -/
def gtransform_vector [LinearOrderedField α] (p : PDFGraph α) (x y : α) : PDFPoint α :=
  { x := p.b11 * x + p.b12 * y, y := p.b21 * x + p.b22 * y }

def set_display_flags (p : PDFGraph α) (flags : Nat) : PDFGraph α :=
  { p with display_flags := flags }

def merge_display_flags (p : PDFGraph α) (flags : Nat) : PDFGraph α :=
  { p with display_flags := p.display_flags ||| flags }

def reset_display_flags (p : PDFGraph α) : PDFGraph α :=
  { p with display_flags := 0 }

/-- The inherited method `new_page`, called on a `PDFGraph`. -/
def new_page [LinearOrderedField α] (L : Libm α) (p : PDFGraph α) (annot : Option String) :
    Except Halt (PDFGraph α) := do
  let pdf ← p.pdf.new_page L annot
  pure { p with pdf := pdf, events := p.events ++ [GEvent.page annot] }

/-- The inherited method `comment`, called on a `PDFGraph`. -/
def comment (p : PDFGraph α) (src : String) : Except Halt (PDFGraph α) := do
  let pdf ← p.pdf.comment src
  pure { p with pdf := pdf }

/-- The inherited method `finish`, called on a `PDFGraph`: the object and the file text. -/
def finish [LinearOrderedField α] (L : Libm α) (writable : Bool) (p : PDFGraph α) :
    Except Halt (PDFGraph α × String) := do
  let r ← PDF.finish L writable p.pdf
  pure ({ p with pdf := r.1 }, r.2)

end PDFGraph

namespace PDFGraph

/-- The body of the node loop of `PDFGraph::draw_general`, for the node `i`. -/
def draw_node [LinearOrderedField α] [FloorRing α] (L : Libm α) (F : NumFmt α)
    (p : PDFGraph α) (src : Graph α) (flags : Nat) (node_color : PDFColor α) (node_r : α)
    (pdf : PDF α) (i : Nat) : Except Halt (PDF α) := do
  let pt := p.gtransform (src.node_pos i).x (src.node_pos i).y
  let pdf ←
    (if (src.nodes i).flags &&& HighlightFlag ≠ 0 then do
      let pdf ← pdf.setcolor L { r := 1, g := 1, b := 1 / 2 }
      let pdf ← pdf.circle_path L pt.x pt.y (1618 / 1000 * node_r)
      let pdf ← pdf.fill
      pdf.setcolor L node_color
    else pure pdf)
  let pdf ← pdf.circle_path L pt.x pt.y node_r
  let pdf ← pdf.setcolor_nonstroke L (PDFColor.gray (node_shade (src.nodes i).state))
  let pdf ← pdf.closepath_fill_stroke
  if flags &&& NoNodeLabels = 0 then do
    let pdf ← pdf.setcolor_nonstroke L node_color
    if flags &&& ShowNodeValues ≠ 0 then do
      let pdf ← pdf.selectfont L (Int.lor Helvetica BoldFlag) ArcFontScale
      pdf.position_text L (F.g2 (src.nodes i).value) pt.x pt.y (1 / 2) (1 / 2)
    else do
      let pdf ← pdf.selectfont L (Int.lor Helvetica BoldFlag) NodeFontScale
      pdf.position_text L (toString (i + 1)) pt.x pt.y (1 / 2) (1 / 2)
  else pure pdf

/-- The branch of `PDFGraph::draw_general` for an arc with an arc point: `p0`, `p1` are the
end points and `p2` the arc point, in page coordinates. -/
def draw_arc_through [LinearOrderedField α] [FloorRing α] (L : Libm α) (pdf : PDF α)
    (p0 p1 p2 : PDFPoint α) (arrowhead_length arrowhead_width : α) (heads : Nat)
    (node_r : α) : Except Halt (PDF α) :=
  if |arc_det p0 p1 p2| = 1 / 1000000 then
    pdf.arrowed_line L p0.x p0.y p1.x p1.y arrowhead_length arrowhead_width heads node_r node_r
  else
    let c := arc_centre p0 p1 p2
    let r := c.dist L p0
    let a0 := L.atan2 (p0.y - c.y) (p0.x - c.x)
    let a1 := L.atan2 (p1.y - c.y) (p1.x - c.x)
    if (p0.sub c).cross_z (p1.sub c) < 0 then
      pdf.arrowed_arcn L c.x c.y r a0 a1 arrowhead_length arrowhead_width heads node_r node_r
    else
      pdf.arrowed_arc L c.x c.y r a0 a1 arrowhead_length arrowhead_width heads node_r node_r

/-- The body of the arc loops of `PDFGraph::draw_general`, for the entry `(i, j)`. -/
def draw_arc [LinearOrderedField α] [FloorRing α] (L : Libm α) (p : PDFGraph α)
    (src : Graph α) (arrowhead_length arrowhead_width : α) (heads : Nat) (node_r : α)
    (pdf : PDF α) (i j : Nat) : Except Halt (PDF α) :=
  if src.adj i j > 0 then
    let p0 := p.gtransform (src.node_pos i).x (src.node_pos i).y
    let p1 := p.gtransform (src.node_pos j).x (src.node_pos j).y
    match src.arc_pos i j with
    | none =>
      pdf.arrowed_line L p0.x p0.y p1.x p1.y arrowhead_length arrowhead_width heads
        node_r node_r
    | some q =>
      draw_arc_through L pdf p0 p1 (p.gtransform q.x q.y) arrowhead_length arrowhead_width
        heads node_r
  else pure pdf

/-- The body of the arc-weight loops of `PDFGraph::draw_general`, for the entry `(i, j)`;
the weight printed is read from `graph`, not from `src`. -/
def draw_arc_weight [LinearOrderedField α] (L : Libm α) (F : NumFmt α) (p : PDFGraph α)
    (graph src : Graph α) (pdf : PDF α) (i j : Nat) : Except Halt (PDF α) :=
  if src.adj i j > 0 then
    let mid : PDFPoint α :=
      match src.arc_pos i j with
      | some q => q
      | none => PDFPoint.smul (1 / 2) ((src.node_pos i).add (src.node_pos j))
    let mid := p.gtransform mid.x mid.y
    let perp := (((src.node_pos i).sub (src.node_pos j)).perp).unit L
    let angle := L.atan2 perp.y perp.x
    let hv := label_anchor L.M_PI angle
    let mid := mid.add (PDFPoint.smul 3 perp)
    pdf.position_text L (F.g2 (graph.adj i j)) mid.x mid.y hv.1 hv.2
  else pure pdf

/-- The drawing calls of `PDFGraph::draw_general` after the optional new page, on the
base-class object. -/
def draw_scene [LinearOrderedField α] [FloorRing α] (L : Libm α) (F : NumFmt α)
    (p : PDFGraph α) (graph src : Graph α) (flags : Nat) (node_color arc_color : PDFColor α)
    (node_r node_line_width arc_line_width arrowhead_length arrowhead_width : α)
    (pdf : PDF α) : Except Halt (PDF α) := do
  let n := src.n
  let pdf ←
    (if flags &&& NoNodes = 0 then do
      let pdf ← pdf.setlinewidth L node_line_width
      let pdf ← pdf.setcolor L node_color
      (List.range n).foldlM (draw_node L F p src flags node_color node_r) pdf
    else pure pdf)
  let pdf ←
    (if flags &&& NoArcs = 0 then do
      let heads := if src.directed then Forward else 0
      let pdf ← pdf.setlinewidth L arc_line_width
      let pdf ← pdf.setcolor L arc_color
      (List.range n).foldlM (fun pdf i =>
        (List.range n).foldlM (fun pdf j =>
          draw_arc L p src arrowhead_length arrowhead_width heads node_r pdf i j) pdf) pdf
    else pure pdf)
  if flags &&& ArcWeights ≠ 0 then do
    let pdf ← pdf.selectfont L Helvetica ArcFontScale
    (List.range n).foldlM (fun pdf i =>
      (List.range n).foldlM (fun pdf j => draw_arc_weight L F p graph src pdf i j) pdf) pdf
  else pure pdf

/-- The method `PDFGraph::draw_general`; a NULL `src` is `none`, and the font parameters,
which the body does not use, are omitted. -/
def draw_general [LinearOrderedField α] [FloorRing α] (L : Libm α) (F : NumFmt α)
    (p : PDFGraph α) (graph : Graph α) (src : Option (Graph α)) (flags : Nat)
    (node_color arc_color : PDFColor α)
    (node_r node_line_width arc_line_width arrowhead_length arrowhead_width : α) :
    Except Halt (PDFGraph α) := do
  let src := src.getD graph
  let thick := flags &&& ThickArcs ≠ 0
  let arrowhead_length := if thick then arrowhead_length * (1414 / 1000) else arrowhead_length
  let arrowhead_width := if thick then arrowhead_length else arrowhead_width
  let arc_line_width := if thick then ThickArcLineWidth else arc_line_width
  let p ← (if flags &&& NewPage ≠ 0 then p.new_page L none else pure p)
  let pdf ← draw_scene L F p graph src flags node_color arc_color node_r node_line_width
    arc_line_width arrowhead_length arrowhead_width p.pdf
  pure { p with pdf := pdf, events := p.events ++ [GEvent.draw src flags] }

/-- The method `PDFGraph::draw`; a NULL `src` is `none`. -/
def draw [LinearOrderedField α] [FloorRing α] (L : Libm α) (F : NumFmt α) (p : PDFGraph α)
    (graph : Graph α) (flags : Nat) (src : Option (Graph α)) : Except Halt (PDFGraph α) :=
  let src := src.getD graph
  let local_flags :=
    (if src.weighted then ArcWeights else 0) ||| (if src.directed then 0 else NoArcArrows)
  draw_general L F p graph (some src) (p.display_flags ||| flags ||| local_flags)
    (PDFColor.gray 0) (PDFColor.gray 0) NodeRadius NodeLineWidth ArcLineWidth ArrowheadLength
    ArrowheadWidth

/-- The method `PDFGraph::draw_beneath`; a NULL `src` is `none`. -/
def draw_beneath [LinearOrderedField α] [FloorRing α] (L : Libm α) (F : NumFmt α)
    (p : PDFGraph α) (graph : Graph α) (flags : Nat) (src : Option (Graph α)) :
    Except Halt (PDFGraph α) :=
  let src := src.getD graph
  let local_flags :=
    (if src.weighted then ArcWeights else 0) ||| (if src.directed then 0 else NoArcArrows)
      ||| ThickArcs ||| NoNodes
  draw_general L F p graph (some src) (p.display_flags ||| flags ||| local_flags)
    (PDFColor.gray 0) { r := 1 / 2, g := 1 / 2, b := 1 } NodeRadius NodeLineWidth ArcLineWidth
    ArrowheadLength ArrowheadWidth

end PDFGraph

namespace Graph

/-- The method `Graph::init_PDF`, as the `PDFGraph` object that `pdf` points to afterwards. -/
def init_PDF [LinearOrderedField α] (g : Graph α) (filename : String) : PDFGraph α :=
  PDFGraph.new filename g

/-- The method `Graph::draw`; `pdf` is the object that the member `pdf` points to (`none`
for NULL), `beneath` is `none` for NULL. -/
def draw [LinearOrderedField α] [FloorRing α] (L : Libm α) (F : NumFmt α) (g : Graph α)
    (pdf : Option (PDFGraph α)) (flags : Nat) ( annotation : String)
    (beneath : Option (Graph α)) : Except Halt (Option (PDFGraph α)) :=
  match pdf with
  | none => pure none
  | some p => do
    let p ← p.new_page L (some annotation)
    let p ←
      (match beneath with
      | some b => p.draw_beneath L F g flags (some b)
      | none => pure p)
    let p ← p.draw L F g flags none
    pure (some p)

/-- The method `Graph::finish_PDF`: the file text, if there is a PDF object. -/
def finish_PDF [LinearOrderedField α] (L : Libm α) (writable : Bool)
    (pdf : Option (PDFGraph α)) : Except Halt (Option String) :=
  match pdf with
  | none => pure none
  | some p => do
    let r ← p.finish L writable
    pure (some r.2)

/-- The method `Graph::visit_node`. Calling it without a PDF object dereferences a NULL
pointer, and a comment of 256 characters or more overruns the local buffer `buf`: both are
undefined behaviour and are halts of the model. -/
def visit_node [LinearOrderedField α] [FloorRing α] (L : Libm α) (F : NumFmt α) (g : Graph α)
    (pdf : Option (PDFGraph α)) (i : Int) (annot : String) (beneath : Option (Graph α)) :
    Except Halt (Graph α × Option (PDFGraph α)) :=
  if !check_index i g.n then pure (g, pdf)
  else
    match pdf with
    | none => .error (Halt.die "visit_node: no PDF object")
    | some p => do
      let annot_full := annot ++ ": visiting node " ++ toString (i + 1)
      let p ← p.new_page L (some annot_full)
      let buf := "! Visiting node " ++ toString i ++ " '" ++ annot ++ "'"
      let p ← (if buf.length ≥ 256 then .error (Halt.die "visit_node: buffer overrun")
        else p.comment buf)
      let flags0 := (g.nodes i.toNat).flags
      let g1 : Graph α :=
        { g with
          nodes := Function.update g.nodes i.toNat
            { g.nodes i.toNat with flags := (g.nodes i.toNat).flags ||| HighlightFlag } }
      let p ←
        (match beneath with
        | some b => do
          let p ← p.comment ("! Beneath graph:" ++ "\n" ++ g1.write F true "")
          p.draw_beneath L F g1 0 (some b)
        | none => pure p)
      let p ← p.comment ("! Graph:" ++ "\n" ++ g1.write F true "")
      let p ← p.draw L F g1 0 none
      let g2 : Graph α :=
        { g1 with
          nodes := Function.update g1.nodes i.toNat { g1.nodes i.toNat with flags := flags0 } }
      pure (g2, some p)

end Graph

/-! ## Graph algorithms (GraphAlg.cpp)

A loop or a recursion whose exit is not evident takes a number of rounds and returns `none`
when they are used up; the theorems show that the number passed is always enough. An access
to an array outside its bounds is undefined behaviour and is a halt of the model. -/

/-- The variables of `Graph::breadth_first` that the loop changes: this graph, the spanning
tree, the PDF object, the queue and `rear`. -/
structure BFSState (α : Type) where
  g : Graph α
  tree : Graph α
  pdf : Option (PDFGraph α)
  queue : List Int
  rear : Nat

/-- The variables that the helper `Graph::depth_first(int, Graph*)` changes. -/
structure DFSState (α : Type) where
  g : Graph α
  tree : Graph α
  pdf : Option (PDFGraph α)

def INT_MAX : Int := 2147483647

namespace Graph

/-- The body of the `for` loop of `Graph::breadth_first`, for the node `k`. -/
def bfs_step [LinearOrderedField α] [FloorRing α] (L : Libm α) (F : NumFmt α) (root : Int)
    (st : BFSState α) (k : Nat) : Except Halt (BFSState α) :=
  if !check_index root st.g.n then .error (Halt.die "breadth_first: index out of range")
  else if st.g.adj root.toNat k ≠ 0 ∧ ¬ (st.g.nodes k).state = 2 then do
    let g := st.g.set_node_state k 2
    let queue := st.queue ++ [(k : Int)]
    let rear := st.rear + 1
    let tree := (st.tree.add_arc k root).1
    let r ← g.visit_node L F st.pdf k " Breadth First Algorithm " (some tree)
    pure { g := r.1, tree := tree, pdf := r.2, queue := queue, rear := rear }
  else pure st

/-- The `while (front != rear)` loop of `Graph::breadth_first`. -/
def bfs_loop [LinearOrderedField α] [FloorRing α] (L : Libm α) (F : NumFmt α) :
    Nat → Nat → BFSState α → Option (Except Halt (BFSState α))
  | 0, _, _ => none
  | fuel + 1, front, st =>
    if front = st.rear then some (.ok st)
    else
      match st.queue.get? front with
      | none => some (.error (Halt.die "breadth_first: index out of range"))
      | some root =>
        match (List.range st.g.n).foldlM (bfs_step L F root) st with
        | .error e => some (.error e)
        | .ok st1 => bfs_loop L F fuel (front + 1) st1

/-- The method `Graph::breadth_first`: this graph afterwards, the spanning tree returned and
the PDF object. -/
def breadth_first [LinearOrderedField α] [FloorRing α] (L : Libm α) (F : NumFmt α)
    (g : Graph α) (pdf : Option (PDFGraph α)) (start_i : Int) :
    Option (Except Halt (Graph α × Graph α × Option (PDFGraph α))) :=
  let spanning_tree := g.node_subgraph
  match g.visit_node L F pdf start_i " Breadth First Algorithm " (some spanning_tree) with
  | .error e => some (.error e)
  | .ok r =>
    match bfs_loop L F (g.n + 2) 0
        { g := r.1.set_node_state start_i 2, tree := spanning_tree, pdf := r.2,
          queue := [start_i], rear := 1 } with
    | none => none
    | some (.error e) => some (.error e)
    | some (.ok st) =>
      match st.g.draw L F st.pdf 0 "Completed Breadth-first traversal" (some st.tree) with
      | .error e => some (.error e)
      | .ok pdf1 => some (.ok (st.g, st.tree, pdf1))

/-- The helper `Graph::depth_first(int, Graph*)`. -/
def dfs [LinearOrderedField α] [FloorRing α] (L : Libm α) (F : NumFmt α) :
    Nat → Int → DFSState α → Option (Except Halt (DFSState α))
  | 0, _, _ => none
  | fuel + 1, i, st =>
    match st.g.visit_node L F st.pdf i " Depth First Algorithm " (some st.tree) with
    | .error e => some (.error e)
    | .ok r =>
      (List.range r.1.n).foldl
        (fun acc l =>
          match acc with
          | some (.ok st) =>
            if !check_index i st.g.n then
              some (.error (Halt.die "depth_first: index out of range"))
            else if st.g.adj i.toNat l ≠ 0 ∧ ¬ (st.g.nodes l).state = 2 then
              dfs L F fuel l { st with tree := (st.tree.add_arc l i).1 }
            else some (.ok st)
          | other => other)
        (some (.ok { g := r.1.set_node_state i 2, tree := st.tree, pdf := r.2 }))

/-- The method `Graph::depth_first(int)`: this graph afterwards, the spanning tree returned
and the PDF object. Without a PDF object the call of `pdf->new_page` dereferences a NULL
pointer. -/
def depth_first [LinearOrderedField α] [FloorRing α] (L : Libm α) (F : NumFmt α)
    (g : Graph α) (pdf : Option (PDFGraph α)) (start_i : Int) :
    Option (Except Halt (Graph α × Graph α × Option (PDFGraph α))) :=
  let g := g.set_all_node_states 0
  match pdf with
  | none => some (.error (Halt.die "depth_first: no PDF object"))
  | some p =>
    match (do
        let p ← p.new_page L (some "Running Depth-first traversal:")
        p.draw L F g 0 none) with
    | .error e => some (.error e)
    | .ok p =>
      match dfs L F (g.n + 1) start_i { g := g, tree := g.node_subgraph, pdf := some p } with
      | none => none
      | some (.error e) => some (.error e)
      | some (.ok st) =>
        match st.g.draw L F st.pdf 0 "Completed depth-first traversal" (some st.tree) with
        | .error e => some (.error e)
        | .ok pdf1 => some (.ok (st.g, st.tree, pdf1))

/-- The first inner loop of `Graph::shortest_path`: the index `min_index` after the loop,
`none` while it is not assigned. -/
def sp_min_index (g : Graph α) (dist : Nat → Int) : Option Nat :=
  ((List.range g.n).foldl
    (fun (acc : Int × Option Nat) v =>
      if ¬ (g.nodes v).state = 2 ∧ dist v ≤ acc.1 then (dist v, some v) else acc)
    (INT_MAX, none)).2

/-- The second inner loop of `Graph::shortest_path`: the sum is formed in `double` and
converted to `int` by the assignment to `dist[v]`. -/
def sp_relax [LinearOrderedField α] [FloorRing α] (g : Graph α) (u : Nat)
    (dist : Nat → Int) : Nat → Int :=
  (List.range g.n).foldl
    (fun dist v =>
      if ¬ (g.nodes v).state = 2 ∧ g.adj u v ≠ 0 ∧ dist u ≠ INT_MAX
          ∧ ((dist u : Int) : α) + g.adj u v < ((dist v : Int) : α) then
        Function.update dist v (c_int (((dist u : Int) : α) + g.adj u v))
      else dist)
    dist

/-- One round of the outer loop of `Graph::shortest_path`; reading `min_index` before it is
assigned is undefined behaviour. -/
def sp_round [LinearOrderedField α] [FloorRing α] (st : Graph α × (Nat → Int)) (_count : Nat) :
    Except Halt (Graph α × (Nat → Int)) :=
  match sp_min_index st.1 st.2 with
  | none => .error (Halt.die "shortest_path: min_index is not initialised")
  | some u =>
    let g := st.1.set_node_state u 2
    pure (g, sp_relax g u st.2)

/-- The method `Graph::shortest_path`: this graph afterwards and the text sent to `out`. The
parameter `dset_i` is not used. -/
def shortest_path [LinearOrderedField α] [FloorRing α] (g : Graph α) (source_i : Int) :
    Except Halt (Graph α × String) :=
  let g := (List.range g.n).foldl (fun g i => g.set_node_state i 0) g
  if !check_index source_i g.n then
    .error (Halt.die "shortest_path: index out of range")
  else do
    let dist : Nat → Int := Function.update (fun _ => INT_MAX) source_i.toNat 0
    let st ← (List.range (g.n - 1)).foldlM sp_round (g, dist)
    pure (st.1,
      "Vertex   Distance from Source\n"
        ++ String.join ((List.range g.n).map (fun mi =>
            (st.1.nodes mi).name ++ "  " ++ toString (st.2 mi) ++ "\n")))

end Graph

/-! ## Auxiliary notions for the statements -/

/-- The number of used fonts below `f`: `font_rank fonts f` is the position of font `f` among
the used fonts. -/
def font_rank (fonts : Nat → Bool) (f : Nat) : Nat :=
  (List.range f).countP fonts

/-- The used fonts below `f`, in increasing order. -/
def used_fonts (fonts : Nat → Bool) (f : Nat) : List Nat :=
  (List.range f).filter fonts

/-- The total length of `objects[0 .. k-1]`. -/
def ObjTable.offset (t : ObjTable) (k : Nat) : Nat :=
  ((List.range k).map (fun j => (t.objects j).length)).sum

/-- A library instance over `ℚ` for evaluating the engine on concrete documents: `%.Nf`
prints the integer part only and the trigonometric entries are constant. -/
def Libm.rat : Libm ℚ :=
  { cos := fun _ => 1, sin := fun _ => 0, atan2 := fun _ _ => 0, hypot := fun x _ => x,
    M_PI := 355 / 113, fmt_f := fun _ q => toString q.floor }

/-- A result `m` of the engine meets the postcondition `P` when it returns and the condition
`E` when it halts. -/
def Post {β : Type} (P : β → Prop) (E : Halt → Prop) : Except Halt β → Prop
  | .ok b => P b
  | .error e => E e

/-- A cubic Bezier segment of a path: start point, two control points, end point. -/
structure Bezier (α : Type) where
  p0 : α × α
  p1 : α × α
  p2 : α × α
  p3 : α × α

/-- The same curve traversed in the opposite direction. -/
def Bezier.reverse {α : Type} (b : Bezier α) : Bezier α :=
  { p0 := b.p3, p1 := b.p2, p2 := b.p1, p3 := b.p0 }

/-- The cubic segments drawn by a list of path calls, from the current point `cur`: `moveto`
and `lineto` move the current point, `curveto` draws a cubic from it. -/
def segments_from {α : Type} (cur : α × α) : List (PathOp α) → List (Bezier α)
  | [] => []
  | PathOp.moveto x y :: rest => segments_from (x, y) rest
  | PathOp.lineto x y :: rest => segments_from (x, y) rest
  | PathOp.curveto x1 y1 x2 y2 x3 y3 :: rest =>
    { p0 := cur, p1 := (x1, y1), p2 := (x2, y2), p3 := (x3, y3) }
      :: segments_from (x3, y3) rest

/-- The cubic segments of a path that begins with a `moveto` or `lineto`. -/
def cubic_segments {α : Type} : List (PathOp α) → List (Bezier α)
  | PathOp.moveto x y :: rest => segments_from (x, y) rest
  | PathOp.lineto x y :: rest => segments_from (x, y) rest
  | _ => []

/-- The angle of the `j`-th of the `N + 1` points that divide the span from `a0` to `a1`
into `N` equal parts: `a0 + j (a1 - a0) / N`. -/
def arc_angle [LinearOrderedField α] (a0 a1 : α) (N j : Nat) : α :=
  a0 + (j : α) * (a1 - a0) / (N : α)

/-- The cubic that approximates the circle of radius `r` about `(x, y)` between the angles
`t` and `t1`: it starts at the point at angle `t`, ends at the point at angle `t1`, and its
control points are laid off by `s` along the tangent `(-sin, cos)` from the start and by `-s`
from the end. -/
def arc_segment [LinearOrderedField α] (cos sin : α → α) (x y r s t t1 : α) : Bezier α :=
  { p0 := (x + r * cos t, y + r * sin t)
    p1 := (x + r * cos t - s * sin t, y + r * sin t + s * cos t)
    p2 := (x + r * cos t1 + s * sin t1, y + r * sin t1 - s * cos t1)
    p3 := (x + r * cos t1, y + r * sin t1) }

/-- A stream has room for a line of `len` characters: the contents and their terminator fit
the capacity, the capacity is a 32-bit value, and the contents with the line, its newline and
the terminator stay below `2^31`, so that doubling the capacity does not wrap. -/
def PDFStream.has_room (s : PDFStream) (len : Nat) : Prop :=
  s.text_len + 1 < s.size ∧ s.size < 2 ^ 32 ∧ s.text_len + len + 2 < 2 ^ 31

/-- The painting operations of PDF.h that end the current path, each with the operator it
writes. -/
def paint_ops : List ((PDF α → Except Halt (PDF α)) × String) :=
  [(PDF.fill, "f"), (PDF.eofill, "f*"), (PDF.stroke, "S"), (PDF.fill_stroke, "B"),
   (PDF.eofill_stroke, "B*"), (PDF.closepath_stroke, "s"), (PDF.closepath_fill_stroke, "b"),
   (PDF.closepath_eofill_stroke, "b*")]

/-- The width that `stringwidth` returns for the whole line `line` in the font `font` at
scale `scale`, when it returns (0 stands for the case that it does not). -/
def line_width [LinearOrderedField α] (font : Int) (scale : α) (line : List Char) : α :=
  match stringwidth (String.mk line) line.length font scale with
  | .ok w => w
  | .error _ => 0

/-- Every character of the text has a code below 128, so that `stringwidth` reads inside the
table of widths. -/
def SevenBit (l : List Char) : Prop := ∀ c ∈ l, c.toNat < 128

/-- The calls that one round of the `while` loop of `PDF::position_text` makes for the line
`line` after `stringwidth` has returned its width, when the current font is `font` at scale
`scale`. -/
def position_text_line_ops [LinearOrderedField α] (font : Int) (scale h_frac leading : α)
    (line : List Char) : List (Op α) :=
  (if h_frac ≠ 0 then
      [Op.next_line (-line_width font scale line * h_frac) 0]
    else [])
  ++ [Op.«show» (String.mk line) line.length]
  ++ (if h_frac ≠ 0 then
        [Op.next_line (line_width font scale line * h_frac) 0]
      else [])
  ++ [Op.next_line 0 (-leading)]

/-- The calls that `PDF::position_text` makes before its loop, when the font scale is
`scale`. -/
def position_text_head [LinearOrderedField α] (scale : α) (text : String)
    (x y v_frac : α) : List (Op α) :=
  let leading := scale
  let em := (66667 / 100000 : α) * scale
  let n_lines := count_lines text
  let height := ((n_lines : α) - 1) * leading + em
  let ty := ((n_lines : α) - 1) * leading + v_frac * height
  [Op.begin_text, Op.next_line x y, Op.next_line 0 (-ty)]

/-- The calls that `PDF::position_text` makes, in order, when the font in force inside the
text object is `font` at scale `scale`. -/
def position_text_ops [LinearOrderedField α] (font : Int) (scale : α) (text : String)
    (x y h_frac v_frac : α) : List (Op α) :=
  position_text_head scale text x y v_frac
  ++ (text_lines text.data).flatMap (position_text_line_ops font scale h_frac scale)
  ++ [Op.end_text]

/-- The effect of a call on the start of the current text line (the text line matrix of the
PDF reference): `begin_text` resets it to the origin, `next_line tx ty`, the operator `Td`,
moves it by `(tx, ty)`, and no other call of a positioned text moves it. -/
def text_move [LinearOrderedField α] (pos : α × α) : Op α → α × α
  | Op.begin_text => (0, 0)
  | Op.next_line tx ty => (pos.1 + tx, pos.2 + ty)
  | _ => pos

/-- The start of the current text line after the calls `ops`. -/
def text_line_start [LinearOrderedField α] (pos : α × α) (ops : List (Op α)) : α × α :=
  ops.foldl text_move pos

/-- The string that a call shows, if it is a call of `show`. -/
def shown : Op α → Option String
  | Op.«show» src n => some (String.mk (src.data.take n))
  | _ => none

/-- The strings shown by the calls `ops`, each with the start of the text line at which it
is shown. -/
def text_shows [LinearOrderedField α] (pos : α × α) : List (Op α) → List (String × (α × α))
  | [] => []
  | op :: rest =>
    (match shown op with
      | some s => [(s, pos)]
      | none => [])
    ++ text_shows (text_move pos op) rest

/-- The halt of a result, if it is one. -/
def Halt.of {β : Type} : Except Halt β → Option Halt
  | .ok _ => none
  | .error e => some e

/-- The halts of the text and path operators: a stream that cannot grow, a string that
does not fit the formatting buffer, or a read outside the table of widths in `stringwidth`. -/
def TextHalt (e : Halt) : Prop :=
  e = Halt.hang ∨ e = Halt.string_too_long
    ∨ e = Halt.die "stringwidth: index outside FontCharWidths"

/-- The halts of the public operations other than `finish`. -/
def OpHalt (e : Halt) : Prop :=
  e = Halt.hang ∨ e = Halt.string_too_long ∨ e = Halt.too_many_pages ∨ ∃ msg, e = Halt.die msg

/-- The six entries `a11 .. a23` of the transformation matrix of a document. -/
def PDF.matrix (p : PDF α) : α × α × α × α × α × α :=
  (p.a11, p.a12, p.a13, p.a21, p.a22, p.a23)

/-- The document `q` comes from `p` by calls that stay on the page of `p`: same page index and
dimensions, the font flags of `q` are those of `p` together with the fonts of the calls of
`selectfont` logged since, and the transformation matrix is that of `p`. -/
def Frame (p q : PDF α) : Prop :=
  q.page = p.page ∧ q.width = p.width ∧ q.height = p.height ∧
  ∃ new : List Int, q.selectfont_log = new ++ p.selectfont_log ∧
    (∀ k, q.fonts k = (p.fonts k || new.any (fun f => (font_index f).toNat == k))) ∧
    q.matrix = p.matrix

/-- The document `q` comes from `p` by calls of the engine: the page index has not decreased
and stays below `max_pages`, the font flags are extended as in `Frame`, and the
transformation matrix is that of `p` or the one that `init_page` sets. -/
def Evolves [LinearOrderedField α] (p q : PDF α) : Prop :=
  p.page ≤ q.page ∧ (p.page < max_pages → q.page < max_pages) ∧
  q.width = p.width ∧ q.height = p.height ∧
  ∃ new : List Int, q.selectfont_log = new ++ p.selectfont_log ∧
    (∀ k, q.fonts k = (p.fonts k || new.any (fun f => (font_index f).toNat == k))) ∧
    (q.matrix = p.matrix ∨ q.matrix = (1, 0, 0, 0, 1, 0))


/-! ## Auxiliary notions for the statements about graphs -/

/-- Every adjacency entry of the graph is 0 (no arc) or a positive weight. -/
def Graph.weights_ok [LinearOrderedField α] (g : Graph α) : Prop :=
  ∀ i j, i < g.n → j < g.n → g.adj i j = 0 ∨ 0 < g.adj i j

/-- The flags that `PDFGraph::draw` passes to `draw_general` for the source `src`. -/
def draw_flags (display_flags flags : Nat) (src : Graph α) : Nat :=
  display_flags ||| flags |||
    ((if src.weighted then ArcWeights else 0) ||| (if src.directed then 0 else NoArcArrows))

/-- The flags that `PDFGraph::draw_beneath` passes to `draw_general` for the source `src`. -/
def beneath_flags (display_flags flags : Nat) (src : Graph α) : Nat :=
  display_flags ||| flags |||
    ((if src.weighted then ArcWeights else 0) ||| (if src.directed then 0 else NoArcArrows)
      ||| ThickArcs ||| NoNodes)

/-- The calls that one call of `draw_general` adds to the log: the new page that the flag
`NewPage` asks for, and the drawing itself. -/
def draw_events (src : Graph α) (flags : Nat) : List (GEvent α) :=
  (if flags &&& NewPage ≠ 0 then [GEvent.page none] else []) ++ [GEvent.draw src flags]

/-- The graph `g` with the highlight bit set in the flags of node `i`. -/
def Graph.highlighted (g : Graph α) (i : Nat) : Graph α :=
  { g with
    nodes := Function.update g.nodes i
      { g.nodes i with flags := (g.nodes i).flags ||| HighlightFlag } }

/-- The annotation of the page that `visit_node(i, annot, ...)` starts. -/
def visit_label (annot : String) (i : Int) : String :=
  annot ++ ": visiting node " ++ toString (i + 1)

/-- The calls that `visit_node(i, annot, beneath)` adds to the log of a `PDFGraph` with the
display flags `display_flags`: the new page, the drawing of `beneath` if there is one, and
the drawing of the graph with node `i` highlighted. -/
def visit_events (display_flags : Nat) (g : Graph α) (i : Int) (annot : String)
    (beneath : Option (Graph α)) : List (GEvent α) :=
  [GEvent.page (some (visit_label annot i))]
    ++ (match beneath with
        | some b => draw_events b (beneath_flags display_flags 0 b)
        | none => [])
    ++ draw_events (g.highlighted i.toNat) (draw_flags display_flags 0 (g.highlighted i.toNat))

/-- The annotations of the pages started in a log, in order (`none` for a page without
annotation). -/
def page_annotations (es : List (GEvent α)) : List (Option String) :=
  es.filterMap (fun e => match e with
    | GEvent.page a => some a
    | GEvent.draw _ _ => none)

/-- There is an arc from `a` to `b` that the traversals follow: both are nodes and the
adjacency entry is not 0. -/
def Graph.arc [LinearOrderedField α] (g : Graph α) (a b : Nat) : Prop :=
  a < g.n ∧ b < g.n ∧ g.adj a b ≠ 0

/-- The node `k` is reachable from the node `s` along arcs. -/
def Graph.reachable [LinearOrderedField α] (g : Graph α) (s k : Nat) : Prop :=
  Relation.ReflTransGen g.arc s k

/-! ## Notions for the traversals -/

/-- In the discovery order `order`, the node `b` is the one from which `a` is discovered:
`b` comes before `a`, the graph has the arc from `b` to `a`, and no node before `b` has an
arc to `a`. -/
def IsParent [LinearOrderedField α] (g : Graph α) (order : List Nat) (a b : Nat) : Prop :=
  ∃ ia ib : Nat, ib < ia ∧ order[ia]? = some a ∧ order[ib]? = some b ∧ g.adj b a ≠ 0
    ∧ ∀ ic c : Nat, ic < ib → order[ic]? = some c → g.adj c a = 0

/-- A logged call that does not draw node `s` in another state than Visited: a new page, a
drawing without nodes, or a drawing of a graph that has the node `s`, in the state 2. -/
def DrawsVisited (s : Nat) : GEvent α → Prop
  | GEvent.page _ => True
  | GEvent.draw src flags => flags &&& NoNodes ≠ 0 ∨ ((src.nodes s).state = 2 ∧ s < src.n)

/-- The invariant of the loops of `Graph::breadth_first` on the graph `g0` from the node `s`
with the PDF object `p0` at the call: `order` is the queue, `front` the index of the node
being expanded and `k` the number of its successors examined. -/
structure BFSInv [LinearOrderedField α] (g0 : Graph α) (p0 : PDFGraph α) (s front k : Nat)
    (st : BFSState α) (order : List Nat) : Prop where
  queue_eq : st.queue = order.map (fun j : Nat => (j : Int))
  rear_eq : st.rear = order.length
  front_le : front ≤ order.length
  nodup : order.Nodup
  head : order.head? = some s
  lt_n : ∀ j ∈ order, j < g0.n
  g_eq : st.g = { g0 with nodes := st.g.nodes }
  state_iff : ∀ j, j < g0.n → ((st.g.nodes j).state = 2 ↔ j ∈ order)
  reach : ∀ j ∈ order, g0.reachable s j
  closed : ∀ i a : Nat, i < front → order[i]? = some a → ∀ b, g0.arc a b → b ∈ order
  inner : ∀ a : Nat, order[front]? = some a → ∀ b, b < k → g0.arc a b → b ∈ order
  pdf_ok : ∃ p later, st.pdf = some p ∧ p.display_flags = p0.display_flags
    ∧ p.events = p0.events
        ++ visit_events p0.display_flags g0 s " Breadth First Algorithm "
            (some g0.node_subgraph)
        ++ later
    ∧ (∀ e ∈ later, DrawsVisited s e)
    ∧ (p0.display_flags = 0 →
        page_annotations p.events = page_annotations p0.events
          ++ order.map (fun j : Nat => some (visit_label " Breadth First Algorithm " (j : Int))))
  tree_eq : st.tree = { g0.node_subgraph with adj := st.tree.adj }
  tree_arc : ∀ a b, a < g0.n → b < g0.n → (st.tree.adj a b ≠ 0 ↔ IsParent g0 order a b)
  tree_w : ∀ a b, a < g0.n → b < g0.n → st.tree.adj a b = 0 ∨ st.tree.adj a b = 1
  tree_has : ∀ a ∈ order, a ≠ s → ∃ b, IsParent g0 order a b

/-- The invariant of `Graph::depth_first(int, Graph*)` on the graph `g0`, between two calls:
`order` lists the nodes visited so far, and `pages0` the pages started before the first
visit. -/
structure DFSInv [LinearOrderedField α] (g0 : Graph α) (pages0 : List (Option String))
    (st : DFSState α) (order : List Nat) : Prop where
  nodup : order.Nodup
  lt_n : ∀ j ∈ order, j < g0.n
  g_eq : st.g = { g0 with nodes := st.g.nodes }
  state_iff : ∀ j, j < g0.n → ((st.g.nodes j).state = 2 ↔ j ∈ order)
  pdf_ok : ∃ p, st.pdf = some p ∧ p.display_flags = 0
    ∧ page_annotations p.events = pages0
        ++ order.map (fun j : Nat => some (visit_label " Depth First Algorithm " (j : Int)))

/-! ## Inputs of the examples -/

/-- Number formats for the examples over `ℚ`: a number is printed as its integer part. -/
def NumFmt.rat : NumFmt ℚ :=
  { os := fun q => toString q.floor, g2 := fun q => toString q.floor }

/-- A library instance over `ℚ` that prints a number as its number of thousandths, rounded
down, so that the fractions of the colours are told apart in the text of a page; the other
entries are those of `Libm.rat`. -/
def Libm.milli : Libm ℚ :=
  { cos := fun _ => 1, sin := fun _ => 0, atan2 := fun _ _ => 0, hypot := fun x _ => x,
    M_PI := 355 / 113, fmt_f := fun _ q => toString (1000 * q).floor }

/-- The directed weighted graph with five nodes and the arcs 0→1, 1→2, 2→2 and 2→4. -/
def chain_graph : Graph ℚ :=
  (((((Graph.init 5 : Graph ℚ).add_arc 0 1).1.add_arc 1 2).1.add_arc 2 2).1.add_arc
    2 4).1.set_weighted

/-- The directed graph with two nodes and the arc 0→1. -/
def pair_graph : Graph ℚ := ((Graph.init 2 : Graph ℚ).add_arc 0 1).1

/-- A PDF object of the graph `g` whose document is at its last page, index 1023. -/
def full_document (g : Graph ℚ) : PDFGraph ℚ :=
  { PDFGraph.new "g.pdf" g with
    pdf := { PDF.init "g.pdf" LetterWidth LetterHeight with page := 1023 } }

/-! # Theorems -/

section Folds

theorem String.join_cons_eq (a : String) (l : List String) :
    String.join (a :: l) = a ++ String.join l := by
  apply String.ext; simp

theorem String.join_append_eq (l1 l2 : List String) :
    String.join (l1 ++ l2) = String.join l1 ++ String.join l2 := by
  apply String.ext; simp

theorem String.append_empty_eq (s : String) : s ++ "" = s := by
  apply String.ext; simp

theorem String.empty_append_eq (s : String) : "" ++ s = s := by
  apply String.ext; simp

theorem String.join_nil_eq : String.join [] = "" := rfl

theorem foldl_string_append {β : Type} (f : β → String) (l : List β) (s : String) :
    l.foldl (fun s k => s ++ f k) s = s ++ String.join (l.map f) := by
  induction l generalizing s with
  | nil => simp [String.join_nil_eq, String.append_empty_eq]
  | cons a l ih => simp [ih, String.join_cons_eq, String.append_assoc]

theorem font_rank_succ (fonts : Nat → Bool) (f : Nat) :
    font_rank fonts (f + 1) = font_rank fonts f + (if fonts f then 1 else 0) := by
  simp [font_rank, List.range_succ, List.countP_append, List.countP_cons]

theorem used_fonts_succ (fonts : Nat → Bool) (f : Nat) :
    used_fonts fonts (f + 1) = used_fonts fonts f ++ (if fonts f then [f] else []) := by
  simp only [used_fonts, List.range_succ, List.filter_append]
  cases h : fonts f <;> simp [List.filter, h]

theorem count_fonts_eq (fonts : Nat → Bool) : count_fonts fonts = font_rank fonts max_fonts := by
  have key : ∀ N, (List.range N).foldl
      (fun font_count k => if fonts k then font_count + 1 else font_count) 0
      = font_rank fonts N := by
    intro N
    induction N with
    | zero => rfl
    | succ N ih =>
      rw [List.range_succ, List.foldl_append, ih, font_rank_succ]
      cases h : fonts N <;> simp [h]
  exact key max_fonts

end Folds

section FinishLoops

theorem pages_object_eq (n_pages : Nat) :
    pages_object n_pages = "3 0 obj\n  << /Type /Pages\n     /Kids [ "
      ++ String.join ((List.range n_pages).map (fun k => toString (k + 4) ++ " 0 R "))
      ++ "]\n" ++ ("     /Count " ++ toString n_pages ++ "\n  >>\nendobj\n\n") := by
  simp only [pages_object, foldl_string_append]

theorem page_font_entries_range (fonts : Nat → Bool) (c : Nat) (s : String) (N : Nat) :
    (List.range N).foldl
      (fun (st : String × Nat) k =>
        if fonts k then (st.1 ++ font_entry k st.2, st.2 + 1) else st) (s, c)
    = (s ++ String.join ((used_fonts fonts N).map (fun f => font_entry f (c + font_rank fonts f))),
       c + font_rank fonts N) := by
  induction N with
  | zero => simp [used_fonts, font_rank, String.join_nil_eq, String.append_empty_eq]
  | succ N ih =>
    rw [List.range_succ, List.foldl_append, ih, used_fonts_succ, font_rank_succ]
    cases h : fonts N
    · simp [h]
    · simp [h, String.join_append_eq, String.join_cons_eq, String.join_nil_eq,
        String.append_empty_eq, String.append_assoc, Nat.add_assoc]

theorem page_font_entries_eq (fonts : Nat → Bool) (first_font : Nat) (s : String) :
    page_font_entries fonts first_font s
    = (s ++ String.join ((used_fonts fonts max_fonts).map
          (fun f => font_entry f (first_font + font_rank fonts f))),
       first_font + font_rank fonts max_fonts) :=
  page_font_entries_range fonts first_font s max_fonts

theorem finish_page_objects_range (width height : Int) (fonts : Nat → Bool)
    (ff fpc : Nat) (t : ObjTable) (N : Nat) :
    let T := (List.range N).foldl
      (fun t k => t.put (page_object width height fonts t.obj k ff fpc)) t
    T.obj = t.obj + N ∧ (∀ i, i < t.obj → T.objects i = t.objects i) ∧
    (∀ k, k < N → T.objects (t.obj + k) = page_object width height fonts (t.obj + k) k ff fpc) := by
  induction N with
  | zero => simp
  | succ N ih =>
    obtain ⟨h1, h2, h3⟩ := ih
    simp only [List.range_succ, List.foldl_append, List.foldl_cons, List.foldl_nil]
    generalize List.foldl _ t (List.range N) = T at h1 h2 h3
    simp only [ObjTable.put]
    refine ⟨by omega, ?_, ?_⟩
    · intro i hi
      rw [Function.update_noteq (by omega)]
      exact h2 i hi
    · intro k hk
      by_cases hkN : k = N
      · subst hkN
        rw [h1, Function.update_same]
      · rw [Function.update_noteq (by omega)]
        exact h3 k (by omega)

theorem finish_font_objects_range (fonts : Nat → Bool) (t : ObjTable) (N : Nat) :
    let T := (List.range N).foldl
      (fun t k => if fonts k then t.put (font_object t.obj k) else t) t
    T.obj = t.obj + font_rank fonts N ∧ (∀ i, i < t.obj → T.objects i = t.objects i) ∧
    (∀ f, f < N → fonts f = true →
      T.objects (t.obj + font_rank fonts f) = font_object (t.obj + font_rank fonts f) f) := by
  induction N with
  | zero => simp [font_rank]
  | succ N ih =>
    obtain ⟨h1, h2, h3⟩ := ih
    have hmono : ∀ f, f < N → fonts f = true → font_rank fonts f < font_rank fonts N := by
      intro f hf hu
      clear h1 h2 h3
      induction N with
      | zero => omega
      | succ M ihM =>
        rw [font_rank_succ fonts M]
        by_cases hfM : f = M
        · subst hfM; simp [hu]
        · have := ihM (by omega); split <;> omega
    simp only [List.range_succ, List.foldl_append, List.foldl_cons, List.foldl_nil]
    generalize List.foldl _ t (List.range N) = T at h1 h2 h3
    rw [font_rank_succ]
    cases hN : fonts N
    · simp only [Bool.false_eq_true, if_false, Nat.add_zero]
      refine ⟨h1, h2, ?_⟩
      intro f hf hu
      by_cases hfN : f = N
      · subst hfN; rw [hN] at hu; cases hu
      · exact h3 f (by omega) hu
    · simp only [if_true, ObjTable.put]
      refine ⟨by omega, ?_, ?_⟩
      · intro i hi
        rw [Function.update_noteq (by omega)]
        exact h2 i hi
      · intro f hf hu
        by_cases hfN : f = N
        · subst hfN
          rw [h1, Function.update_same]
        · have := hmono f (by omega) hu
          rw [Function.update_noteq (by omega)]
          exact h3 f (by omega) hu

theorem finish_stream_objects_range (pages : Nat → PDFPage) (t : ObjTable) (N : Nat) :
    let T := (List.range N).foldl
      (fun t k =>
        let t := t.put (stream_object t.obj (pages k).stream.text)
        t.put (procset_object t.obj)) t
    T.obj = t.obj + 2 * N ∧ (∀ i, i < t.obj → T.objects i = t.objects i) ∧
    (∀ k, k < N →
      T.objects (t.obj + 2 * k) = stream_object (t.obj + 2 * k) (pages k).stream.text ∧
      T.objects (t.obj + 2 * k + 1) = procset_object (t.obj + 2 * k + 1)) := by
  induction N with
  | zero => simp
  | succ N ih =>
    obtain ⟨h1, h2, h3⟩ := ih
    simp only [List.range_succ, List.foldl_append, List.foldl_cons, List.foldl_nil]
    generalize List.foldl _ t (List.range N) = T at h1 h2 h3
    simp only [ObjTable.put]
    refine ⟨by omega, ?_, ?_⟩
    · intro i hi
      rw [Function.update_noteq (by omega), Function.update_noteq (by omega)]
      exact h2 i hi
    · intro k hk
      by_cases hkN : k = N
      · subst hkN
        rw [h1]
        refine ⟨?_, ?_⟩
        · rw [Function.update_noteq (by omega), Function.update_same]
        · rw [Function.update_same]
      · have := h3 k (by omega)
        refine ⟨?_, ?_⟩
        · rw [Function.update_noteq (by omega), Function.update_noteq (by omega)]
          exact this.1
        · rw [Function.update_noteq (by omega), Function.update_noteq (by omega)]
          exact this.2

end FinishLoops

section FinishObjects

/-- The contents of the array `objects` after the building part of `PDF::finish`, in closed
form, for `n` pages and `m` used fonts. -/
theorem finish_objects_spec (pdf : PDF α) :
    let n := pdf.page + 1
    let m := font_rank pdf.fonts max_fonts
    let t := finish_objects pdf
    t.obj = 4 + n + m + 2 * n ∧
    t.objects 0 = header_object ∧ t.objects 1 = catalog_object ∧
    t.objects 2 = outlines_object ∧ t.objects 3 = pages_object n ∧
    (∀ k, k < n → t.objects (4 + k)
      = page_object pdf.width pdf.height pdf.fonts (4 + k) k (4 + n) (4 + n + m)) ∧
    (∀ f, f < max_fonts → pdf.fonts f = true →
      t.objects (4 + n + font_rank pdf.fonts f) = font_object (4 + n + font_rank pdf.fonts f) f) ∧
    (∀ k, k < n →
      t.objects (4 + n + m + 2 * k) = stream_object (4 + n + m + 2 * k) (pdf.pages k).stream.text ∧
      t.objects (4 + n + m + 2 * k + 1) = procset_object (4 + n + m + 2 * k + 1)) := by
  intro n m t
  let t0 : ObjTable :=
    { objects := Function.update (Function.update (Function.update (Function.update
        (fun _ => "") 0 header_object) 1 catalog_object) 2 outlines_object) 3 (pages_object n),
      obj := 4 }
  obtain ⟨p1, p2, p3⟩ := finish_page_objects_range pdf.width pdf.height pdf.fonts
    (4 + n) (4 + n + m) t0 n
  obtain ⟨f1, f2, f3⟩ := finish_font_objects_range pdf.fonts
    (finish_page_objects pdf.width pdf.height pdf.fonts n (4 + n) (4 + n + m) t0) max_fonts
  obtain ⟨s1, s2, s3⟩ := finish_stream_objects_range pdf.pages
    (finish_font_objects pdf.fonts
      (finish_page_objects pdf.width pdf.height pdf.fonts n (4 + n) (4 + n + m) t0)) n
  have ht : t = finish_stream_objects pdf.pages n (finish_font_objects pdf.fonts
      (finish_page_objects pdf.width pdf.height pdf.fonts n (4 + n) (4 + n + m) t0)) := by
    simp only [t, finish_objects, count_fonts_eq, t0, n, m]
  have hp1 : (finish_page_objects pdf.width pdf.height pdf.fonts n (4 + n) (4 + n + m) t0).obj
      = 4 + n := p1
  have hf1 : (finish_font_objects pdf.fonts
      (finish_page_objects pdf.width pdf.height pdf.fonts n (4 + n) (4 + n + m) t0)).obj
      = 4 + n + m := by
    have := f1; rw [hp1] at this; exact this
  have hrank : ∀ f, f < max_fonts → pdf.fonts f = true → font_rank pdf.fonts f < m := by
    intro f hf hu
    have mono : ∀ N, f < N → font_rank pdf.fonts f < font_rank pdf.fonts N := by
      intro N hN
      induction N with
      | zero => omega
      | succ M ihM =>
        rw [font_rank_succ pdf.fonts M]
        by_cases hfM : f = M
        · subst hfM; simp [hu]
        · have := ihM (by omega); split <;> omega
    exact mono max_fonts hf
  have low : ∀ i, i < 4 → t.objects i = t0.objects i := by
    intro i hi
    rw [ht]
    have a := s2 i (by rw [hf1]; omega)
    have b := f2 i (by rw [hp1]; omega)
    have c := p2 i (by show i < 4; omega)
    exact a.trans (b.trans c)
  refine ⟨?_, ?_, ?_, ?_, ?_, ?_, ?_, ?_⟩
  · rw [ht]; have := s1; rw [hf1] at this; exact this
  · rw [low 0 (by omega)]; rfl
  · rw [low 1 (by omega)]; rfl
  · rw [low 2 (by omega)]; rfl
  · rw [low 3 (by omega)]; rfl
  · intro k hk
    rw [ht]
    have a := s2 (4 + k) (by rw [hf1]; omega)
    have b := f2 (4 + k) (by rw [hp1]; omega)
    exact a.trans (b.trans (p3 k hk))
  · intro f hf hu
    rw [ht]
    have hr := hrank f hf hu
    have a := s2 (4 + n + font_rank pdf.fonts f) (by rw [hf1]; omega)
    have b := f3 f hf hu
    rw [hp1] at b
    exact a.trans b
  · intro k hk
    rw [ht]
    have := s3 k hk
    rw [hf1] at this
    exact this

theorem font_rank_surj (fonts : Nat → Bool) (N j : Nat) (hj : j < font_rank fonts N) :
    ∃ f, f < N ∧ fonts f = true ∧ font_rank fonts f = j := by
  induction N with
  | zero => simp [font_rank] at hj
  | succ N ih =>
    rw [font_rank_succ] at hj
    by_cases hlt : j < font_rank fonts N
    · obtain ⟨f, hf, hu, hr⟩ := ih hlt
      exact ⟨f, by omega, hu, hr⟩
    · cases hN : fonts N
      · simp [hN] at hj; omega
      · simp [hN] at hj
        exact ⟨N, by omega, hN, by omega⟩

theorem data_prefix_of_eq (a rest s : String) (h : s = a ++ rest) : a.data <+: s.data := by
  subst h
  rw [String.data_append]
  exact List.prefix_append _ _

theorem page_object_eq (width height : Int) (fonts : Nat → Bool) (obj k ff fpc : Nat) :
    page_object width height fonts obj k ff fpc
      = (toString obj ++ " 0 obj") ++ ("\n  << /Type /Page\n     /Parent 3 0 R\n     /MediaBox [ 0 0 "
        ++ toString width ++ " " ++ toString height ++ " ]\n     /Contents "
        ++ toString (fpc + 2 * k) ++ " 0 R\n     /Resources << /ProcSet "
        ++ toString (fpc + 2 * k + 1) ++ " 0 R\n                   /Font << \n"
        ++ String.join ((used_fonts fonts max_fonts).map
            (fun f => font_entry f (ff + font_rank fonts f)))
        ++ "                        >>\n                >>\n  >>\nendobj\n\n") := by
  simp only [page_object, page_font_entries_eq]
  have e1 : " 0 obj\n  << /Type /Page\n     /Parent 3 0 R\n     /MediaBox [ 0 0 "
      = " 0 obj" ++ "\n  << /Type /Page\n     /Parent 3 0 R\n     /MediaBox [ 0 0 " := by
    decide
  have e2 : " 0 R\n     /Resources << /ProcSet "
      = " 0 R\n" ++ "     /Resources << /ProcSet " := by decide
  have e3 : " 0 R\n                   /Font << \n"
      = " 0 R\n" ++ "                   /Font << \n" := by decide
  rw [e1, e2, e3]
  simp only [String.append_assoc]

end FinishObjects

section WriteFile

theorem int_wrap_of_small (z : Int) (h0 : -2147483648 ≤ z) (h1 : z < 2147483648) :
    int_wrap z = z := by
  unfold int_wrap
  rw [if_pos ⟨h0, not_le.mpr h1⟩]

theorem int_wrap_range (z : Int) : -2147483648 ≤ int_wrap z ∧ int_wrap z < 2147483648 := by
  unfold int_wrap
  split
  · omega
  · omega

/-- Wrapping after every addition gives the wrapped sum. -/
theorem int_wrap_add (a b : Int) : int_wrap (int_wrap a + b) = int_wrap (a + b) := by
  unfold int_wrap
  split_ifs <;> omega

theorem foldl_write {β : Type} (f : β → String) (l : List β) (s : String) (n : Nat) :
    l.foldl (fun (st : String × Int) k => (st.1 ++ f k, int_wrap (st.2 + (f k).length)))
        (s, int_wrap n)
    = (s ++ String.join (l.map f),
        int_wrap ((n + (l.map (fun k => (f k).length)).sum : Nat) : Int)) := by
  induction l generalizing s n with
  | nil => simp [String.join_nil_eq, String.append_empty_eq]
  | cons a l ih =>
    rw [List.foldl_cons]
    have e : int_wrap (int_wrap (n : Int) + ((f a).length : Int))
        = int_wrap ((n + (f a).length : Nat) : Int) := by
      rw [int_wrap_add]
      push_cast
      rfl
    simp only [e, ih, List.map_cons, List.sum_cons, String.join_cons_eq, String.append_assoc,
      Nat.add_assoc]

theorem write_objects_eq (t : ObjTable) :
    write_objects t
      = (String.join ((List.range t.obj).map t.objects), int_wrap (t.offset t.obj)) := by
  have h := foldl_write t.objects (List.range t.obj) "" 0
  have e0 : int_wrap ((0 : Nat) : Int) = 0 := rfl
  rw [e0] at h
  unfold write_objects
  rw [h]
  simp [ObjTable.offset, String.empty_append_eq]

theorem ObjTable.offset_succ (t : ObjTable) (k : Nat) :
    t.offset (k + 1) = t.offset k + (t.objects k).length := by
  simp [ObjTable.offset, List.range_succ]

theorem write_xref_entries_range (t : ObjTable) (N : Nat) :
    (List.range' 1 N).foldl
      (fun (st : String × Int) k =>
        let size := int_wrap (st.2 + (t.objects (k - 1)).length)
        (st.1 ++ xref_entry size, size)) ("", 0)
    = (String.join ((List.range' 1 N).map (fun k => xref_entry (int_wrap (t.offset k)))),
        int_wrap (t.offset N)) := by
  induction N with
  | zero => simp [String.join_nil_eq, ObjTable.offset]; rfl
  | succ N ih =>
    rw [List.range'_1_concat, List.foldl_append, ih]
    have e : int_wrap (int_wrap (t.offset N : Int) + ((t.objects N).length : Int))
        = int_wrap ((t.offset (N + 1) : Nat) : Int) := by
      rw [int_wrap_add, ObjTable.offset_succ]
      push_cast
      rfl
    simp only [List.foldl_cons, List.foldl_nil, Nat.add_sub_cancel, e, List.map_append,
      List.map_cons, List.map_nil, String.join_append_eq, String.join_cons_eq,
      String.join_nil_eq, String.append_empty_eq, Nat.add_comm 1 N]

theorem write_xref_entries_eq (t : ObjTable) :
    write_xref_entries t
    = (String.join ((List.range' 1 (t.obj - 1)).map (fun k => xref_entry (int_wrap (t.offset k)))),
       int_wrap (t.offset (t.obj - 1))) :=
  write_xref_entries_range t (t.obj - 1)

theorem write_file_eq (t : ObjTable) :
    write_file t = String.join ((List.range t.obj).map t.objects)
      ++ ("xref\n0 " ++ toString t.obj ++ "\n" ++ "0000000000 65536 f \n"
        ++ String.join ((List.range' 1 (t.obj - 1)).map
            (fun k => xref_entry (int_wrap (t.offset k)))))
      ++ trailer_section t.obj (int_wrap (t.offset t.obj)) := by
  simp only [write_file, write_objects_eq, xref_section, write_xref_entries_eq]

theorem flatten_range_drop (f : Nat → List Char) (n k : Nat) (hk : k ≤ n) :
    ((List.range n).map f).flatten.drop (((List.range k).map (fun j => (f j).length)).sum)
    = ((List.range' k (n - k)).map f).flatten := by
  have hsplit : List.range n = List.range k ++ List.range' k (n - k) := by
    rw [List.range_eq_range', List.range_eq_range']
    have := List.range'_append 0 k (n - k) 1
    simp only [Nat.one_mul, Nat.zero_add] at this
    rw [this]
    congr 1
    omega
  rw [hsplit, List.map_append, List.flatten_append]
  have hlen : (List.map (fun j => (f j).length) (List.range k)).sum
      = ((List.range k).map f).flatten.length := by
    rw [List.length_flatten, List.map_map]
    rfl
  rw [hlen, List.drop_left]

theorem ObjTable.offset_mono (t : ObjTable) (k n : Nat) (hk : k ≤ n) :
    t.offset k ≤ t.offset n := by
  induction n with
  | zero => have : k = 0 := by omega
            subst this; exact Nat.le_refl _
  | succ n ih =>
    by_cases h : k = n + 1
    · subst h; exact Nat.le_refl _
    · have := ih (by omega)
      rw [ObjTable.offset_succ]; omega

theorem ObjTable.offset_eq_length (t : ObjTable) (n : Nat) :
    t.offset n = ((List.range n).map (fun j => (t.objects j).data)).flatten.length := by
  rw [List.length_flatten, List.map_map]
  rfl

theorem write_file_object_at (t : ObjTable) (k : Nat) (hk : k < t.obj) :
    (t.objects k).data <+: (write_file t).data.drop (t.offset k) := by
  rw [write_file_eq]
  simp only [String.data_append, String.data_join, List.append_assoc, List.map_map]
  rw [List.drop_append_of_le_length]
  · have := flatten_range_drop (fun j => (t.objects j).data) t.obj k (by omega)
    simp only [ObjTable.offset, String.length]
    have e : (String.data ∘ t.objects) = fun j => (t.objects j).data := rfl
    rw [e, this]
    have hr : List.range' k (t.obj - k) = k :: List.range' (k + 1) (t.obj - k - 1) := by
      have : t.obj - k = (t.obj - k - 1) + 1 := by omega
      rw [this, List.range'_succ]
      simp
    rw [hr, List.map_cons, List.flatten_cons, List.append_assoc]
    exact List.prefix_append _ _
  · have e : (String.data ∘ t.objects) = fun j => (t.objects j).data := rfl
    rw [e, ← ObjTable.offset_eq_length]
    exact ObjTable.offset_mono t k t.obj (by omega)

theorem write_file_xref_at (t : ObjTable) :
    ("xref").data <+: (write_file t).data.drop (t.offset t.obj) := by
  rw [write_file_eq]
  simp only [String.data_append, String.data_join, List.append_assoc, List.map_map]
  have e : (String.data ∘ t.objects) = fun j => (t.objects j).data := rfl
  rw [e, ObjTable.offset_eq_length, List.drop_left]
  exact ⟨_, rfl⟩

end WriteFile

section Finish

theorem finish_objects_obj (pdf : PDF α) :
    (finish_objects pdf).obj = 4 + 3 * (pdf.page + 1) + font_rank pdf.fonts max_fonts := by
  have := (finish_objects_spec pdf).1
  omega

theorem finish_objects_below_bound (pdf : PDF α) :
    (finish_objects pdf).obj < 3 * (pdf.page + 1) + 16 + count_fonts pdf.fonts := by
  rw [finish_objects_obj, count_fonts_eq]
  omega

theorem finish_eq [LinearOrderedField α] (L : Libm α) (writable : Bool) (pdf : PDF α) :
    PDF.finish L writable pdf =
      match pdf.finish_page L with
      | .error e => .error e
      | .ok pdf' =>
        if writable then .ok (pdf', write_file (finish_objects pdf'))
        else .error Halt.cant_write := by
  unfold PDF.finish
  cases hfp : pdf.finish_page L with
  | error e => rfl
  | ok pdf' =>
    have hb := finish_objects_below_bound pdf'
    cases writable
    · rfl
    · simp only [bind, Except.bind, not_true_eq_false, if_false, ge_iff_le, pure, Except.pure]
      rw [if_neg (by omega)]
      rfl

end Finish

section PostRules

theorem Post.pure' {β : Type} {P : β → Prop} {E : Halt → Prop} {b : β} (h : P b) :
    Post P E (pure b : Except Halt β) := h

theorem Post.ok {β : Type} {P : β → Prop} {E : Halt → Prop} {b : β} (h : P b) :
    Post P E (.ok b : Except Halt β) := h

theorem Post.error {β : Type} {P : β → Prop} {E : Halt → Prop} {e : Halt} (h : E e) :
    Post P E (.error e : Except Halt β) := h

theorem Post.throw' {β : Type} {P : β → Prop} {E : Halt → Prop} {e : Halt} (h : E e) :
    Post P E (throw e : Except Halt β) := h

theorem Post.bind {β γ : Type} {Q : β → Prop} {P : γ → Prop} {E : Halt → Prop}
    {m : Except Halt β} {f : β → Except Halt γ}
    (hm : Post Q E m) (hf : ∀ b, Q b → Post P E (f b)) : Post P E (m >>= f) := by
  cases m with
  | error e => exact hm
  | ok b => exact hf b hm

theorem Post.mono {β : Type} {P Q : β → Prop} {E F : Halt → Prop} {m : Except Halt β}
    (hm : Post P E m) (hP : ∀ b, P b → Q b) (hE : ∀ e, E e → F e) : Post Q F m := by
  cases m with
  | error e => exact hE e hm
  | ok b => exact hP b hm

theorem Post.of_ok {β : Type} {P : β → Prop} {E : Halt → Prop} {m : Except Halt β} {b : β}
    (hm : Post P E m) (h : m = .ok b) : P b := by
  subst h; exact hm

theorem Post.of_error {β : Type} {P : β → Prop} {E : Halt → Prop} {m : Except Halt β} {e : Halt}
    (hm : Post P E m) (h : m = .error e) : E e := by
  subst h; exact hm

theorem Post.foldlM {β γ : Type} {P : γ → Prop} {E : Halt → Prop}
    (f : γ → β → Except Halt γ) (l : List β) (c : γ) (hc : P c)
    (hf : ∀ c b, P c → Post P E (f c b)) : Post P E (l.foldlM f c) := by
  induction l generalizing c with
  | nil => exact hc
  | cons a l ih =>
    rw [List.foldlM_cons]
    exact Post.bind (hf c a hc) (fun c' hc' => ih c' hc')

end PostRules

section Frames

theorem Frame.refl_frame (p : PDF α) : Frame p p :=
  ⟨rfl, rfl, rfl, [], rfl, by simp, rfl⟩

theorem Frame.trans_frame {p q r : PDF α} (h1 : Frame p q) (h2 : Frame q r) : Frame p r := by
  obtain ⟨a1, a2, a3, n1, a4, a5, a6⟩ := h1
  obtain ⟨b1, b2, b3, n2, b4, b5, b6⟩ := h2
  refine ⟨b1.trans a1, b2.trans a2, b3.trans a3, n2 ++ n1, ?_, ?_, b6.trans a6⟩
  · rw [b4, a4, List.append_assoc]
  · intro k
    rw [b5, a5, List.any_append, Bool.or_assoc]
    cases p.fonts k <;> cases List.any n1 _ <;> cases List.any n2 _ <;> rfl

theorem Frame.of_fields {p q q' : PDF α} (h : Frame p q) (h1 : q'.page = q.page)
    (h2 : q'.width = q.width) (h3 : q'.height = q.height) (h4 : q'.fonts = q.fonts)
    (h5 : q'.selectfont_log = q.selectfont_log) (h6 : q'.matrix = q.matrix) : Frame p q' := by
  obtain ⟨a1, a2, a3, n1, a4, a5, a6⟩ := h
  exact ⟨h1.trans a1, h2.trans a2, h3.trans a3, n1, h5.trans a4, fun k => by rw [h4, a5],
    h6.trans a6⟩

theorem Frame.selectfont {p q q' : PDF α} (font : Int) (h : Frame p q) (h1 : q'.page = q.page)
    (h2 : q'.width = q.width) (h3 : q'.height = q.height)
    (h4 : q'.fonts = Function.update q.fonts (font_index font).toNat true)
    (h5 : q'.selectfont_log = font :: q.selectfont_log) (h6 : q'.matrix = q.matrix) :
    Frame p q' := by
  obtain ⟨a1, a2, a3, n1, a4, a5, a6⟩ := h
  refine ⟨h1.trans a1, h2.trans a2, h3.trans a3, font :: n1, ?_, ?_, h6.trans a6⟩
  · rw [h5, a4]; rfl
  · intro k
    rw [h4, List.any_cons]
    by_cases hk : k = (font_index font).toNat
    · subst hk; simp
    · rw [Function.update_noteq hk, a5]
      have : ((font_index font).toNat == k) = false := by
        simp only [beq_eq_false_iff_ne, ne_eq]; exact fun e => hk e.symm
      rw [this, Bool.false_or]

theorem Frame.evolves [LinearOrderedField α] {p q : PDF α} (h : Frame p q) : Evolves p q := by
  obtain ⟨a1, a2, a3, n1, a4, a5, a6⟩ := h
  exact ⟨by omega, by omega, a2, a3, n1, a4, a5, Or.inl a6⟩

theorem Evolves.refl_evolves [LinearOrderedField α] (p : PDF α) : Evolves p p :=
  (Frame.refl_frame p).evolves

theorem Evolves.trans_evolves [LinearOrderedField α] {p q r : PDF α} (h1 : Evolves p q)
    (h2 : Evolves q r) : Evolves p r := by
  obtain ⟨a0, a1, a2, a3, n1, a4, a5, a6⟩ := h1
  obtain ⟨b0, b1, b2, b3, n2, b4, b5, b6⟩ := h2
  refine ⟨by omega, fun h => b1 (a1 h), b2.trans a2, b3.trans a3, n2 ++ n1, ?_, ?_, ?_⟩
  · rw [b4, a4, List.append_assoc]
  · intro k
    rw [b5, a5, List.any_append, Bool.or_assoc]
    cases p.fonts k <;> cases List.any n1 _ <;> cases List.any n2 _ <;> rfl
  · rcases b6 with b6 | b6
    · rcases a6 with a6 | a6
      · exact Or.inl (b6.trans a6)
      · exact Or.inr (b6.trans a6)
    · exact Or.inr b6

theorem PDF.append_frame {p0 p : PDF α} (h : Frame p0 p) (cmd : String) :
    Post (Frame p0) TextHalt (p.append cmd) := by
  unfold PDF.append
  cases (p.pages p.page).stream.append cmd with
  | none => exact Post.error (Or.inl rfl)
  | some s => exact Post.ok (Frame.of_fields h rfl rfl rfl rfl rfl rfl)

theorem PDF.selectfont_frame (L : Libm α) {p0 p : PDF α} (h : Frame p0 p) (font : Int)
    (scale : α) : Post (Frame p0) TextHalt (p.selectfont L font scale) := by
  unfold PDF.selectfont
  simp only
  split
  · refine PDF.append_frame ?_ _
    exact Frame.selectfont font h rfl rfl rfl rfl rfl rfl
  · refine Post.pure' ?_
    exact Frame.selectfont font h rfl rfl rfl rfl rfl rfl

theorem PDF.show_frame {p0 p : PDF α} (h : Frame p0 p) (src : String) (n : Nat) :
    Post (Frame p0) TextHalt (p.«show» src n) := by
  unfold PDF.«show»
  split
  · exact Post.error (Or.inr (Or.inl rfl))
  · split
    · exact PDF.append_frame h _
    · exact PDF.append_frame h _

end Frames

section FrameOps

variable {α : Type}

theorem Frame.update {p0 p q : PDF α} (h : Frame p0 p) (h1 : q.page = p.page)
    (h2 : q.width = p.width) (h3 : q.height = p.height) (h4 : q.fonts = p.fonts)
    (h5 : q.selectfont_log = p.selectfont_log) (h6 : q.matrix = p.matrix) :
    Post (Frame p0) TextHalt (pure q : Except Halt (PDF α)) :=
  Frame.of_fields h h1 h2 h3 h4 h5 h6

theorem PDF.append_update_frame {p0 p : PDF α} (h : Frame p0 p) (cmd : String)
    (f : PDF α → PDF α) (h1 : ∀ q, (f q).page = q.page) (h2 : ∀ q, (f q).width = q.width)
    (h3 : ∀ q, (f q).height = q.height) (h4 : ∀ q, (f q).fonts = q.fonts)
    (h5 : ∀ q, (f q).selectfont_log = q.selectfont_log)
    (h6 : ∀ q, (f q).matrix = q.matrix) :
    Post (Frame p0) TextHalt (p.append cmd >>= fun q => pure (f q)) :=
  Post.bind (PDF.append_frame h cmd)
    (fun q hq => Frame.update hq (h1 q) (h2 q) (h3 q) (h4 q) (h5 q) (h6 q))

theorem PDF.cmd2_frame (L : Libm α) {p0 p : PDF α} (h : Frame p0 p) (x y : α) (c : String) :
    Post (Frame p0) TextHalt (p.cmd2 L x y c) :=
  PDF.append_frame h _

theorem PDF.next_line_frame (L : Libm α) {p0 p : PDF α} (h : Frame p0 p) (tx ty : α) :
    Post (Frame p0) TextHalt (p.next_line L tx ty) :=
  PDF.append_frame h _

theorem PDF.setcolor_nonstroke_frame (L : Libm α) {p0 p : PDF α} (h : Frame p0 p)
    (color : PDFColor α) : Post (Frame p0) TextHalt (p.setcolor_nonstroke L color) := by
  unfold PDF.setcolor_nonstroke PDF.setrgbcolor_nonstroke PDF.setcolor_cmd
  refine PDF.append_update_frame ?_ _ _ (fun _ => rfl) (fun _ => rfl) (fun _ => rfl)
    (fun _ => rfl) (fun _ => rfl) (fun _ => rfl)
  exact Frame.of_fields h rfl rfl rfl rfl rfl rfl

theorem PDF.setcolor_stroke_frame (L : Libm α) {p0 p : PDF α} (h : Frame p0 p)
    (color : PDFColor α) : Post (Frame p0) TextHalt (p.setcolor_stroke L color) := by
  unfold PDF.setcolor_stroke PDF.setrgbcolor_stroke PDF.setcolor_cmd
  refine PDF.append_update_frame ?_ _ _ (fun _ => rfl) (fun _ => rfl) (fun _ => rfl)
    (fun _ => rfl) (fun _ => rfl) (fun _ => rfl)
  exact Frame.of_fields h rfl rfl rfl rfl rfl rfl

theorem PDF.begin_text_frame (L : Libm α) {p0 p : PDF α} (h : Frame p0 p) :
    Post (Frame p0) TextHalt (p.begin_text L) := by
  unfold PDF.begin_text PDF.cmd
  refine Post.bind (PDF.append_frame h _) (fun q hq => ?_)
  refine PDF.selectfont_frame L ?_ _ _
  exact Frame.of_fields hq rfl rfl rfl rfl rfl rfl

theorem PDF.end_text_frame {p0 p : PDF α} (h : Frame p0 p) :
    Post (Frame p0) TextHalt p.end_text :=
  PDF.append_update_frame h _ _ (fun _ => rfl) (fun _ => rfl) (fun _ => rfl)
    (fun _ => rfl) (fun _ => rfl) (fun _ => rfl)

theorem char_width_halt (font : Int) (c : Char) :
    Post (fun _ => True) TextHalt (char_width font c) := by
  unfold char_width
  split
  · exact Post.pure' trivial
  · exact Post.error (Or.inr (Or.inr rfl))

theorem stringwidth_loop_halt [LinearOrderedField α] (n : Int) (font : Int) (l : List Char) :
    ∀ (k : Nat) (w : α), Post (fun _ => True) TextHalt (stringwidth_loop n font l k w) := by
  induction l with
  | nil => intro k w; exact Post.pure' trivial
  | cons c cs ih =>
    intro k w
    unfold stringwidth_loop
    split
    · exact Post.bind (char_width_halt font c) (fun _ _ => ih _ _)
    · exact Post.pure' trivial

theorem stringwidth_halt [LinearOrderedField α] (text : String) (n : Int) (font : Int)
    (scale : α) : Post (fun _ => True) TextHalt (stringwidth text n font scale) := by
  unfold stringwidth
  exact Post.bind (stringwidth_loop_halt n _ _ _ _) (fun _ _ => Post.pure' trivial)

theorem PDF.position_text_line_frame [LinearOrderedField α] (L : Libm α) {p0 p : PDF α}
    (h : Frame p0 p) (h_frac leading : α) (line : List Char) :
    Post (Frame p0) TextHalt (p.position_text_line L h_frac leading line) := by
  unfold PDF.position_text_line
  refine Post.bind (Q := fun _ => True) (stringwidth_halt _ _ _ _) (fun width _ => ?_)
  refine Post.bind (Q := Frame p0) ?_ (fun q hq => ?_)
  · split
    · exact PDF.next_line_frame L h _ _
    · exact Post.pure' h
  refine Post.bind (PDF.show_frame hq _ _) (fun q2 hq2 => ?_)
  refine Post.bind (Q := Frame p0) ?_ (fun q3 hq3 => PDF.next_line_frame L hq3 _ _)
  split
  · exact PDF.next_line_frame L hq2 _ _
  · exact Post.pure' hq2

theorem PDF.position_text_frame [LinearOrderedField α] (L : Libm α) {p0 p : PDF α}
    (h : Frame p0 p) (text : String) (x y h_frac v_frac : α) :
    Post (Frame p0) TextHalt (p.position_text L text x y h_frac v_frac) := by
  unfold PDF.position_text
  refine Post.bind (PDF.begin_text_frame L h) (fun q1 h1 => ?_)
  refine Post.bind (PDF.next_line_frame L h1 _ _) (fun q2 h2 => ?_)
  refine Post.bind (PDF.next_line_frame L h2 _ _) (fun q3 h3 => ?_)
  refine Post.bind (Q := Frame p0) ?_ (fun q4 h4 => PDF.end_text_frame h4)
  exact Post.foldlM _ _ _ h3 (fun c b hc => PDF.position_text_line_frame L hc _ _ _)

theorem PDF.finish_page_frame [LinearOrderedField α] (L : Libm α) {p0 p : PDF α}
    (h : Frame p0 p) : Post (Frame p0) TextHalt (p.finish_page L) := by
  unfold PDF.finish_page
  split
  · refine Post.bind (PDF.selectfont_frame L h _ _) (fun q1 h1 => ?_)
    refine Post.bind (PDF.setcolor_nonstroke_frame L h1 _) (fun q2 h2 => ?_)
    exact PDF.position_text_frame L h2 _ _ _ _ _
  · exact Post.pure' h

end FrameOps

section FrameOps2

variable {α : Type}

theorem PDF.moveto_frame [LinearOrderedField α] (L : Libm α) {p0 p : PDF α} (h : Frame p0 p)
    (x y : α) : Post (Frame p0) TextHalt (p.moveto L x y) :=
  PDF.append_update_frame h _ _ (fun _ => rfl) (fun _ => rfl) (fun _ => rfl)
    (fun _ => rfl) (fun _ => rfl) (fun _ => rfl)

theorem PDF.lineto_frame [LinearOrderedField α] (L : Libm α) {p0 p : PDF α} (h : Frame p0 p)
    (x y : α) : Post (Frame p0) TextHalt (p.lineto L x y) :=
  PDF.append_update_frame h _ _ (fun _ => rfl) (fun _ => rfl) (fun _ => rfl)
    (fun _ => rfl) (fun _ => rfl) (fun _ => rfl)

theorem PDF.curveto_frame [LinearOrderedField α] (L : Libm α) {p0 p : PDF α} (h : Frame p0 p)
    (x1 y1 x2 y2 x3 y3 : α) : Post (Frame p0) TextHalt (p.curveto L x1 y1 x2 y2 x3 y3) :=
  PDF.append_update_frame h _ _ (fun _ => rfl) (fun _ => rfl) (fun _ => rfl)
    (fun _ => rfl) (fun _ => rfl) (fun _ => rfl)

theorem PDF.closepath_frame {p0 p : PDF α} (h : Frame p0 p) :
    Post (Frame p0) TextHalt p.closepath :=
  PDF.append_update_frame h _ _ (fun _ => rfl) (fun _ => rfl) (fun _ => rfl)
    (fun _ => rfl) (fun _ => rfl) (fun _ => rfl)

theorem PDF.fill_frame {p0 p : PDF α} (h : Frame p0 p) :
    Post (Frame p0) TextHalt p.fill :=
  PDF.append_update_frame h _ _ (fun _ => rfl) (fun _ => rfl) (fun _ => rfl)
    (fun _ => rfl) (fun _ => rfl) (fun _ => rfl)

theorem PDF.stroke_frame {p0 p : PDF α} (h : Frame p0 p) :
    Post (Frame p0) TextHalt p.stroke :=
  PDF.append_update_frame h _ _ (fun _ => rfl) (fun _ => rfl) (fun _ => rfl)
    (fun _ => rfl) (fun _ => rfl) (fun _ => rfl)

theorem PDF.path_op_frame [LinearOrderedField α] (L : Libm α) {p0 p : PDF α} (h : Frame p0 p)
    (op : PathOp α) : Post (Frame p0) TextHalt (p.path_op L op) := by
  cases op with
  | moveto x y => exact PDF.moveto_frame L h x y
  | lineto x y => exact PDF.lineto_frame L h x y
  | curveto x1 y1 x2 y2 x3 y3 => exact PDF.curveto_frame L h x1 y1 x2 y2 x3 y3

theorem PDF.arc_frame [LinearOrderedField α] [FloorRing α] (L : Libm α) {p0 p : PDF α}
    (h : Frame p0 p) (x y r a0 a1 : α) (n : Int) :
    Post (Frame p0) TextHalt (p.arc L x y r a0 a1 n) := by
  unfold PDF.arc
  split
  · exact Post.error (Or.inl rfl)
  · exact Post.foldlM _ _ _ h (fun c b hc => PDF.path_op_frame L hc b)

theorem PDF.arcn_frame [LinearOrderedField α] [FloorRing α] (L : Libm α) {p0 p : PDF α}
    (h : Frame p0 p) (x y r a0 a1 : α) (n : Int) :
    Post (Frame p0) TextHalt (p.arcn L x y r a0 a1 n) := by
  unfold PDF.arcn
  split
  · exact Post.error (Or.inl rfl)
  · exact Post.foldlM _ _ _ h (fun c b hc => PDF.path_op_frame L hc b)

theorem PDF.circle_path_frame [LinearOrderedField α] [FloorRing α] (L : Libm α) {p0 p : PDF α}
    (h : Frame p0 p) (x y r : α) : Post (Frame p0) TextHalt (p.circle_path L x y r) :=
  Post.bind (PDF.arc_frame L h _ _ _ _ _ _) (fun _ hq => PDF.closepath_frame hq)

theorem PDF.rectpath_frame [LinearOrderedField α] (L : Libm α) {p0 p : PDF α}
    (h : Frame p0 p) (x y width height : α) :
    Post (Frame p0) TextHalt (p.rectpath L x y width height) :=
  Post.bind (PDF.moveto_frame L h _ _) (fun _ h1 =>
  Post.bind (PDF.lineto_frame L h1 _ _) (fun _ h2 =>
  Post.bind (PDF.lineto_frame L h2 _ _) (fun _ h3 =>
  Post.bind (PDF.lineto_frame L h3 _ _) (fun _ h4 => PDF.closepath_frame h4))))

theorem PDF.round_box_path_frame [LinearOrderedField α] [FloorRing α] (L : Libm α)
    {p0 p : PDF α} (h : Frame p0 p) (x y width height r : α) (n : Int) :
    Post (Frame p0) TextHalt (p.round_box_path L x y width height r n) := by
  unfold PDF.round_box_path
  split
  · exact PDF.rectpath_frame L h _ _ _ _
  · exact Post.bind (PDF.moveto_frame L h _ _) (fun _ h1 =>
      Post.bind (PDF.arc_frame L h1 _ _ _ _ _ _) (fun _ h2 =>
      Post.bind (PDF.arc_frame L h2 _ _ _ _ _ _) (fun _ h3 =>
      Post.bind (PDF.arc_frame L h3 _ _ _ _ _ _) (fun _ h4 =>
      Post.bind (PDF.arc_frame L h4 _ _ _ _ _ _) (fun _ h5 => PDF.closepath_frame h5)))))

theorem PDF.polyline_path_frame [LinearOrderedField α] (L : Libm α) {p0 p : PDF α}
    (h : Frame p0 p) (n : Int) (pts : List (α × α)) :
    Post (Frame p0) TextHalt (p.polyline_path L n pts) := by
  unfold PDF.polyline_path
  split
  · exact Post.pure' h
  · split
    · exact Post.pure' h
    · exact Post.bind (PDF.moveto_frame L h _ _) (fun _ h1 =>
        Post.foldlM _ _ _ h1 (fun c b hc => PDF.lineto_frame L hc _ _))

theorem PDF.polygon_path_frame [LinearOrderedField α] (L : Libm α) {p0 p : PDF α}
    (h : Frame p0 p) (n : Int) (pts : List (α × α)) :
    Post (Frame p0) TextHalt (p.polygon_path L n pts) := by
  unfold PDF.polygon_path
  split
  · exact Post.pure' h
  · split
    · exact PDF.closepath_frame h
    · exact Post.bind (PDF.moveto_frame L h _ _) (fun _ h1 =>
        Post.bind (Post.foldlM _ _ _ h1 (fun c b hc => PDF.lineto_frame L hc _ _))
          (fun _ h2 => PDF.closepath_frame h2))

theorem PDF.comment_frame {p0 p : PDF α} (h : Frame p0 p) (src : String) :
    Post (Frame p0) TextHalt (p.comment src) := by
  unfold PDF.comment
  refine Post.foldlM _ _ _ h (fun c b hc => ?_)
  unfold PDF.comment_line
  split
  · exact Post.pure' hc
  · exact PDF.append_frame hc _

theorem PDF.basic_arrowhead_frame [LinearOrderedField α] (L : Libm α) {p0 p : PDF α}
    (h : Frame p0 p) (x y x0 y0 length width : α) :
    Post (Frame p0) TextHalt (p.basic_arrowhead L x y x0 y0 length width) := by
  unfold PDF.basic_arrowhead
  refine Post.bind (Q := Frame p0) ?_ (fun _ h1 =>
    Post.bind (PDF.closepath_frame h1) (fun _ h2 => PDF.fill_frame h2))
  split
  · exact Post.pure' h
  · exact Post.bind (PDF.moveto_frame L h _ _) (fun _ h1 =>
      Post.foldlM _ _ _ h1 (fun c b hc => PDF.lineto_frame L hc _ _))

theorem PDF.arrowheads_frame [LinearOrderedField α] (L : Libm α) {p0 p : PDF α}
    (h : Frame p0 p) (c1 c2 : Prop) [Decidable c1] [Decidable c2]
    (a1 a2 a3 a4 a5 a6 b1 b2 b3 b4 b5 b6 : α) :
    Post (Frame p0) TextHalt
      ((if c1 then p.basic_arrowhead L a1 a2 a3 a4 a5 a6 else pure p) >>= fun q =>
        if c2 then q.basic_arrowhead L b1 b2 b3 b4 b5 b6 else pure q) := by
  refine Post.bind (Q := Frame p0) ?_ (fun q hq => ?_)
  · split
    · exact PDF.basic_arrowhead_frame L h _ _ _ _ _ _
    · exact Post.pure' h
  · split
    · exact PDF.basic_arrowhead_frame L hq _ _ _ _ _ _
    · exact Post.pure' hq

theorem PDF.arrowed_line_frame [LinearOrderedField α] (L : Libm α) {p0 p : PDF α}
    (h : Frame p0 p) (x0 y0 x1 y1 length width : α) (heads : Nat) (bo fo : α) :
    Post (Frame p0) TextHalt (p.arrowed_line L x0 y0 x1 y1 length width heads bo fo) := by
  unfold PDF.arrowed_line
  refine Post.bind (Q := Frame p0) ?_ (fun q1 h1 => ?_)
  · split
    · exact PDF.moveto_frame L h _ _
    · exact PDF.moveto_frame L h _ _
  refine Post.bind (Q := Frame p0) ?_ (fun q2 h2 => ?_)
  · split
    · exact PDF.lineto_frame L h1 _ _
    · exact PDF.lineto_frame L h1 _ _
  refine Post.bind (PDF.stroke_frame h2) (fun q3 h3 => ?_)
  exact PDF.arrowheads_frame L h3 _ _ _ _ _ _ _ _ _ _ _ _ _ _

theorem PDF.arrowed_arc_frame [LinearOrderedField α] [FloorRing α] (L : Libm α) {p0 p : PDF α}
    (h : Frame p0 p) (x y r a0 a1 length width : α) (heads : Nat) (o0 o1 : α) :
    Post (Frame p0) TextHalt (p.arrowed_arc L x y r a0 a1 length width heads o0 o1) := by
  unfold PDF.arrowed_arc
  refine Post.bind (PDF.arc_frame L h _ _ _ _ _ _) (fun q1 h1 => ?_)
  refine Post.bind (PDF.stroke_frame h1) (fun q2 h2 => ?_)
  exact PDF.arrowheads_frame L h2 _ _ _ _ _ _ _ _ _ _ _ _ _ _

theorem PDF.arrowed_arcn_frame [LinearOrderedField α] [FloorRing α] (L : Libm α) {p0 p : PDF α}
    (h : Frame p0 p) (x y r a0 a1 length width : α) (heads : Nat) (o0 o1 : α) :
    Post (Frame p0) TextHalt (p.arrowed_arcn L x y r a0 a1 length width heads o0 o1) := by
  unfold PDF.arrowed_arcn
  refine Post.bind (PDF.arcn_frame L h _ _ _ _ _ _) (fun q1 h1 => ?_)
  refine Post.bind (PDF.stroke_frame h1) (fun q2 h2 => ?_)
  exact PDF.arrowheads_frame L h2 _ _ _ _ _ _ _ _ _ _ _ _ _ _

theorem stringwidth_multiline_halt [LinearOrderedField α] (text : String) (font : Int)
    (scale : α) : Post (fun _ => True) TextHalt (stringwidth_multiline text font scale) := by
  unfold stringwidth_multiline
  exact Post.foldlM _ _ _ trivial (fun _ _ _ =>
    Post.bind (stringwidth_halt _ _ _ _) (fun _ _ => Post.pure' trivial))

theorem PDF.text_box_frame [LinearOrderedField α] [FloorRing α] (L : Libm α) {p0 p : PDF α}
    (h : Frame p0 p) (text : String) (x y margin r mw mh : α) :
    Post (Frame p0) TextHalt (p.text_box L text x y margin r mw mh) :=
  Post.bind (Q := fun _ => True) (stringwidth_multiline_halt _ _ _) (fun _ _ =>
  Post.bind (PDF.round_box_path_frame L h _ _ _ _ _ _) (fun _ h1 =>
  Post.bind (PDF.fill_frame h1) (fun _ h2 =>
  Post.bind (PDF.setcolor_nonstroke_frame L h2 _) (fun _ h3 =>
  Post.bind (PDF.position_text_frame L h3 _ _ _ _ _) (fun _ h4 =>
  Post.bind (PDF.setcolor_nonstroke_frame L h4 _) (fun _ h5 =>
  Post.bind (PDF.round_box_path_frame L h5 _ _ _ _ _ _) (fun _ h6 =>
  PDF.stroke_frame h6)))))))

end FrameOps2

section Steps

variable {α : Type}

theorem TextHalt.opHalt {e : Halt} (h : TextHalt e) : OpHalt e := by
  rcases h with h | h | h
  · exact Or.inl h
  · exact Or.inr (Or.inl h)
  · exact Or.inr (Or.inr (Or.inr ⟨_, h⟩))

theorem Post.lift [LinearOrderedField α] {p0 p : PDF α} {m : Except Halt (PDF α)}
    (h : Evolves p0 p)
    (hm : Post (Frame p) TextHalt m) : Post (Evolves p0) OpHalt m :=
  Post.mono hm (fun _ hq => Evolves.trans_evolves h hq.evolves) (fun _ he => he.opHalt)

theorem PDF.rmoveto_frame [LinearOrderedField α] (L : Libm α) {p0 p : PDF α} (h : Frame p0 p)
    (x y : α) : Post (Frame p0) OpHalt (p.rmoveto L x y) := by
  unfold PDF.rmoveto
  split
  · exact Post.error (Or.inr (Or.inr (Or.inr ⟨_, rfl⟩)))
  · unfold PDF.point_cmd
    refine Post.mono (PDF.append_frame ?_ _) (fun _ hq => hq) (fun _ he => he.opHalt)
    exact Frame.of_fields h rfl rfl rfl rfl rfl rfl

theorem PDF.rlineto_frame [LinearOrderedField α] (L : Libm α) {p0 p : PDF α} (h : Frame p0 p)
    (x y : α) : Post (Frame p0) OpHalt (p.rlineto L x y) := by
  unfold PDF.rlineto
  split
  · exact Post.error (Or.inr (Or.inr (Or.inr ⟨_, rfl⟩)))
  · unfold PDF.point_cmd
    refine Post.mono (PDF.append_frame ?_ _) (fun _ hq => hq) (fun _ he => he.opHalt)
    exact Frame.of_fields h rfl rfl rfl rfl rfl rfl

theorem PDF.new_page_eq [LinearOrderedField α] (L : Libm α) (p : PDF α) (annot : Option String) :
    p.new_page L annot =
      (if p.page = 0 ∧ (p.pages 0).is_empty = true then pure p
       else
         match p.finish_page L with
         | .error e => .error e
         | .ok q =>
           if q.page + 1 ≥ max_pages then .error Halt.too_many_pages
           else .ok (PDF.init_page { q with page := q.page + 1 })) >>= fun q =>
      pure (q.set_annotation annot) := by
  unfold PDF.new_page
  congr 1
  split
  · rfl
  · cases p.finish_page L with
    | error e => rfl
    | ok q => rfl

theorem PDF.set_annotation_frame (q : PDF α) (annot : Option String) :
    Frame q (q.set_annotation annot) := by
  cases annot with
  | none => exact Frame.refl_frame q
  | some a => exact Frame.of_fields (Frame.refl_frame q) rfl rfl rfl rfl rfl rfl

theorem PDF.new_page_evolves [LinearOrderedField α] (L : Libm α) {p0 p : PDF α}
    (h : Evolves p0 p) (annot : Option String) :
    Post (Evolves p0) OpHalt (p.new_page L annot) := by
  rw [PDF.new_page_eq]
  refine Post.bind (Q := Evolves p0) ?_ (fun q hq => ?_)
  · split
    · exact Post.pure' h
    · have hfp := PDF.finish_page_frame L (Frame.refl_frame p)
      cases hq : p.finish_page L with
      | error e =>
        rw [hq] at hfp
        exact Post.error (TextHalt.opHalt hfp)
      | ok q =>
        rw [hq] at hfp
        have hf : Frame p q := hfp
        simp only
        split
        · exact Post.error (Or.inr (Or.inr (Or.inl rfl)))
        · rename_i hlt
          refine Post.ok (Evolves.trans_evolves h ?_)
          obtain ⟨a1, a2, a3, n1, a4, a5, a6⟩ := hf
          refine ⟨?_, ?_, a2, a3, n1, a4, a5, Or.inr rfl⟩
          · show p.page ≤ q.page + 1
            omega
          · intro _
            show q.page + 1 < max_pages
            omega
  · exact Post.pure' (Evolves.trans_evolves hq (PDF.set_annotation_frame q annot).evolves)

theorem PDF.title_block_evolves [LinearOrderedField α] (L : Libm α) {p0 : PDF α}
    (font : Int) (fs scale x_mid : α) (st : PDF α × α) (h : Evolves p0 st.1)
    (t : Option String) :
    Post (fun st' : PDF α × α => Evolves p0 st'.1) OpHalt
      (PDF.title_block L font fs scale x_mid st t) := by
  unfold PDF.title_block
  cases t with
  | none => exact Post.pure' h
  | some t =>
    refine Post.bind (Q := Evolves p0) (Post.lift h (PDF.selectfont_frame L (Frame.refl_frame _) _ _))
      (fun q hq => ?_)
    refine Post.bind (Q := Evolves p0)
      (Post.lift hq (PDF.position_text_frame L (Frame.refl_frame _) _ _ _ _ _)) (fun q2 hq2 => ?_)
    exact Post.pure' hq2

theorem PDF.title_page_evolves [LinearOrderedField α] (L : Libm α) {p0 p : PDF α}
    (h : Evolves p0 p) (title subtitle author : Option String) (font : Int) (fs : α) :
    Post (Evolves p0) OpHalt (p.title_page L title subtitle author font fs) := by
  unfold PDF.title_page
  refine Post.bind (PDF.new_page_evolves L h none) (fun q hq => ?_)
  refine Post.bind (PDF.title_block_evolves L font fs _ _ (q, _) hq title) (fun s1 h1 => ?_)
  refine Post.bind (PDF.title_block_evolves L font fs _ _ s1 h1 subtitle) (fun s2 h2 => ?_)
  refine Post.bind (PDF.title_block_evolves L font fs _ _ s2 h2 author) (fun s3 h3 => ?_)
  exact Post.pure' h3

theorem PDF.step_evolves [LinearOrderedField α] [FloorRing α] (L : Libm α) {p0 p : PDF α}
    (h : Evolves p0 p) (op : Op α) : Post (Evolves p0) OpHalt (PDF.step L p op) := by
  have r := Frame.refl_frame p
  cases op
  case new_page annot => exact PDF.new_page_evolves L h annot
  case title_page t s a font fs => exact PDF.title_page_evolves L h t s a font fs
  case rmoveto x y =>
    exact Post.mono (PDF.rmoveto_frame L r x y) (fun _ hq => Evolves.trans_evolves h hq.evolves)
      (fun _ he => he)
  case rlineto x y =>
    exact Post.mono (PDF.rlineto_frame L r x y) (fun _ hq => Evolves.trans_evolves h hq.evolves)
      (fun _ he => he)
  case comment src => exact Post.lift h (PDF.comment_frame r src)
  case setgray gray =>
    exact Post.lift h (Post.bind
      (PDF.append_update_frame r _ _ (fun _ => rfl) (fun _ => rfl) (fun _ => rfl)
        (fun _ => rfl) (fun _ => rfl) (fun _ => rfl))
      (fun _ hq => PDF.append_update_frame hq _ _ (fun _ => rfl) (fun _ => rfl) (fun _ => rfl)
        (fun _ => rfl) (fun _ => rfl) (fun _ => rfl)))
  case setrgbcolor a b c =>
    exact Post.lift h (Post.bind
      (PDF.append_update_frame r _ _ (fun _ => rfl) (fun _ => rfl) (fun _ => rfl)
        (fun _ => rfl) (fun _ => rfl) (fun _ => rfl))
      (fun _ hq => PDF.append_update_frame hq _ _ (fun _ => rfl) (fun _ => rfl) (fun _ => rfl)
        (fun _ => rfl) (fun _ => rfl) (fun _ => rfl)))
  case setcolor color =>
    exact Post.lift h (Post.bind (PDF.setcolor_stroke_frame L r color)
      (fun _ hq => PDF.setcolor_nonstroke_frame L hq color))
  case setcolor_stroke color => exact Post.lift h (PDF.setcolor_stroke_frame L r color)
  case setcolor_nonstroke color => exact Post.lift h (PDF.setcolor_nonstroke_frame L r color)
  case begin_text => exact Post.lift h (PDF.begin_text_frame L r)
  case «show» src n => exact Post.lift h (PDF.show_frame r src n)
  case show_str src => exact Post.lift h (PDF.show_frame r src _)
  case Tj src => exact Post.lift h (PDF.show_frame r src _)
  case show_next_line src =>
    refine Post.lift h ?_
    show Post (Frame p) TextHalt (p.show_next_line src)
    unfold PDF.show_next_line
    split
    · exact Post.error (Or.inr (Or.inl rfl))
    · exact PDF.append_frame r _
  case show_next_line3 w c src =>
    refine Post.lift h ?_
    show Post (Frame p) TextHalt (p.show_next_line3 L w c src)
    unfold PDF.show_next_line3
    split
    · exact Post.error (Or.inr (Or.inl rfl))
    · exact PDF.append_frame r _
  case selectfont font scale => exact Post.lift h (PDF.selectfont_frame L r font scale)
  case Tf font scale => exact Post.lift h (PDF.selectfont_frame L r font scale)
  case arc x y r' a0 a1 n => exact Post.lift h (PDF.arc_frame L r x y r' a0 a1 n)
  case arcn x y r' a0 a1 n => exact Post.lift h (PDF.arcn_frame L r x y r' a0 a1 n)
  case circle_path x y r' => exact Post.lift h (PDF.circle_path_frame L r x y r')
  case rectpath x y w' h' => exact Post.lift h (PDF.rectpath_frame L r x y w' h')
  case round_box_path x y w' h' r' n =>
    exact Post.lift h (PDF.round_box_path_frame L r x y w' h' r' n)
  case polyline_path n pts => exact Post.lift h (PDF.polyline_path_frame L r n pts)
  case polygon_path n pts => exact Post.lift h (PDF.polygon_path_frame L r n pts)
  case basic_arrowhead x y x0 y0 len wd =>
    exact Post.lift h (PDF.basic_arrowhead_frame L r x y x0 y0 len wd)
  case arrowed_line x0 y0 x1 y1 len wd heads bo fo =>
    exact Post.lift h (PDF.arrowed_line_frame L r x0 y0 x1 y1 len wd heads bo fo)
  case arrowed_arc x y r' a0 a1 len wd heads o0 o1 =>
    exact Post.lift h (PDF.arrowed_arc_frame L r x y r' a0 a1 len wd heads o0 o1)
  case arrowed_arcn x y r' a0 a1 len wd heads o0 o1 =>
    exact Post.lift h (PDF.arrowed_arcn_frame L r x y r' a0 a1 len wd heads o0 o1)
  case position_text text x y hf vf =>
    exact Post.lift h (PDF.position_text_frame L r text x y hf vf)
  case text_box text x y margin r' mw mh =>
    exact Post.lift h (PDF.text_box_frame L r text x y margin r' mw mh)
  all_goals first
    | exact Post.lift h (PDF.append_frame r _)
    | exact Post.lift h (PDF.append_update_frame r _ _ (fun _ => rfl) (fun _ => rfl)
        (fun _ => rfl) (fun _ => rfl) (fun _ => rfl) (fun _ => rfl))

theorem PDF.run_evolves [LinearOrderedField α] [FloorRing α] (L : Libm α) {p0 p : PDF α}
    (h : Evolves p0 p) (ops : List (Op α)) : Post (Evolves p0) OpHalt (PDF.run L p ops) :=
  Post.foldlM _ _ _ h (fun _ op hc => PDF.step_evolves L hc op)

end Steps

/-! ## The finisher: claims C1 to C6 -/

section FinishClaims

variable {α : Type}

theorem finish_ok [LinearOrderedField α] {L : Libm α} {writable : Bool} {pdf pdf' : PDF α}
    {file : String} (h : PDF.finish L writable pdf = .ok (pdf', file)) :
    pdf.finish_page L = .ok pdf' ∧ writable = true ∧ file = write_file (finish_objects pdf') := by
  rw [finish_eq] at h
  cases hfp : pdf.finish_page L with
  | error e => rw [hfp] at h; cases h
  | ok q =>
    rw [hfp] at h
    cases writable with
    | false => cases h
    | true =>
      simp only [if_true] at h
      injection h with h
      injection h with h1 h2
      subst h1
      exact ⟨rfl, rfl, h2.symm⟩

theorem data_prefix_append (a r : String) : a.data <+: (a ++ r).data := by
  rw [String.data_append]
  exact List.prefix_append _ _

theorem toString_natCast (n : Nat) : toString ((n : Nat) : Int) = toString n := rfl

theorem fmt_d0_nat (w n : Nat) :
    fmt_d0 w (n : Int)
      = String.mk (List.replicate (w - (toString n).length) '0') ++ toString n := by
  unfold fmt_d0
  rw [if_neg (by omega), Int.toNat_ofNat]

/-- The cross-reference entry printed for a size below `2^31`: the decimal numeral of the
size, padded with zeros to ten digits, and the fixed rest of the line. -/
theorem xref_entry_nat (n : Nat) (h : n < 2147483648) :
    xref_entry (int_wrap (n : Int))
      = String.mk (List.replicate (10 - (toString n).length) '0') ++ toString n
          ++ " 00000 n \n" := by
  rw [int_wrap_of_small _ (by omega) (by omega)]
  unfold xref_entry
  rw [fmt_d0_nat]
  have e : fmt_d0 5 0 = "00000" := by decide
  rw [e, String.append_assoc, String.append_assoc]
  rfl

theorem xref_entry_length (n : Nat) (h : n < 2147483648) :
    (String.mk (List.replicate (10 - (toString n).length) '0') ++ toString n
          ++ " 00000 n \n").length = 20 := by
  have hl : (toString n).length ≤ 10 :=
    Nat.repr_length n 10 (by decide) (lt_of_lt_of_le h (by norm_num))
  rw [String.length_append, String.length_append]
  show (List.replicate (10 - (toString n).length) '0').length + (toString n).length + 10 = 20
  rw [List.length_replicate]
  omega

/-- C1 (amended): for every document at `finish` whose objects `objects[0 .. N-1]` have a
total length below `2^31`, the file written is the concatenation of the objects, the `xref`
section and the trailer; the cross-reference entry of object `k` (for `1 <= k < N`) is the
decimal numeral of the total length of `objects[0 .. k-1]`, padded with zeros to ten digits,
followed by ` 00000 n ` and a newline, 20 characters in all, and object `k` begins at exactly
that position of the file; the `startxref` value is the decimal numeral of the total length
of all `N` objects, and the keyword `xref` begins at that position. -/
theorem finish_xref_offsets [LinearOrderedField α] (L : Libm α) (writable : Bool)
    (pdf pdf' : PDF α) (file : String) (h : PDF.finish L writable pdf = .ok (pdf', file))
    (hsize : ((List.range (finish_objects pdf').obj).map
        (fun j => ((finish_objects pdf').objects j).length)).sum < 2147483648) :
    let t := finish_objects pdf'
    let offset : Nat → Nat := fun k => ((List.range k).map (fun j => (t.objects j).length)).sum
    file = String.join ((List.range t.obj).map t.objects)
      ++ ("xref\n0 " ++ toString t.obj ++ "\n" ++ "0000000000 65536 f \n"
        ++ String.join ((List.range' 1 (t.obj - 1)).map (fun k =>
            String.mk (List.replicate (10 - (toString (offset k)).length) '0')
              ++ toString (offset k) ++ " 00000 n \n")))
      ++ ("\ntrailer\n  << /Size " ++ toString t.obj ++ "\n     /Root 1 0 R\n  >>\nstartxref\n"
        ++ toString (offset t.obj) ++ "\n%%EOF\n")
    ∧ (∀ k, k < t.obj →
        (String.mk (List.replicate (10 - (toString (offset k)).length) '0')
          ++ toString (offset k) ++ " 00000 n \n").length = 20
        ∧ (t.objects k).data <+: file.data.drop (offset k))
    ∧ ("xref").data <+: file.data.drop (offset t.obj) := by
  intro t offset
  obtain ⟨_, _, hfile⟩ := finish_ok h
  have hoff : ∀ k, offset k = t.offset k := fun _ => rfl
  have hle : ∀ k, k ≤ t.obj → t.offset k < 2147483648 := fun k hk =>
    lt_of_le_of_lt (ObjTable.offset_mono t k t.obj hk) hsize
  refine ⟨?_, ?_, ?_⟩
  · rw [hfile, write_file_eq]
    show _ ++ _ ++ trailer_section t.obj (int_wrap (t.offset t.obj)) = _
    rw [int_wrap_of_small _ (by omega) (by have := hle t.obj le_rfl; omega)]
    have hmap : (List.range' 1 (t.obj - 1)).map (fun k => xref_entry (int_wrap (t.offset k)))
        = (List.range' 1 (t.obj - 1)).map (fun k =>
            String.mk (List.replicate (10 - (toString (offset k)).length) '0')
              ++ toString (offset k) ++ " 00000 n \n") := by
      refine List.map_congr_left (fun k hk => ?_)
      have hk' : k ≤ t.obj := by
        have := (List.mem_range'_1.1 hk).2
        omega
      exact xref_entry_nat _ (hle k hk')
    rw [hmap]
    rfl
  · intro k hk
    refine ⟨xref_entry_length _ (hle k (by omega)), ?_⟩
    rw [hfile]
    exact write_file_object_at t k hk
  · rw [hfile]
    exact write_file_xref_at t

/-- Witness of C1: the engine applied to a fresh letter-size document over `ℚ`; the header
and the six objects have 520 bytes together. -/
theorem finish_xref_offsets_witness :
    PDF.finish Libm.rat true (PDF.init "graph.pdf" 612 792 : PDF ℚ)
      = .ok (PDF.init "graph.pdf" 612 792,
             write_file (finish_objects (PDF.init "graph.pdf" 612 792 : PDF ℚ)))
    ∧ ((List.range (finish_objects (PDF.init "graph.pdf" 612 792 : PDF ℚ)).obj).map
        (fun j => ((finish_objects (PDF.init "graph.pdf" 612 792 : PDF ℚ)).objects j).length)).sum
        < 2147483648
    ∧ ("xref").data
        <+: (write_file (finish_objects (PDF.init "graph.pdf" 612 792 : PDF ℚ))).data.drop
          (((List.range (finish_objects (PDF.init "graph.pdf" 612 792 : PDF ℚ)).obj).map
            (fun j => ((finish_objects (PDF.init "graph.pdf" 612 792 : PDF ℚ)).objects j).length)).sum) :=
  ⟨rfl, by set_option maxRecDepth 100000 in decide!,
    (finish_xref_offsets Libm.rat true (PDF.init "graph.pdf" 612 792) _ _ rfl
      (by set_option maxRecDepth 100000 in decide!)).2.2⟩

/-- C3: in the array built by `finish`, `objects[0]` is the header, `objects[1]` the catalog,
`objects[2]` the outlines, `objects[3]` the page index, and for every `k` with `1 <= k < N`
the text of `objects[k]` begins with the decimal numeral of `k` followed by ` 0 obj`. -/
theorem finish_object_numbers (pdf : PDF α) :
    let t := finish_objects pdf
    t.objects 0 = "%PDF-1.4\n\n"
    ∧ t.objects 1 = catalog_object ∧ t.objects 2 = outlines_object
    ∧ t.objects 3 = pages_object (pdf.page + 1)
    ∧ ∀ k, 1 ≤ k → k < t.obj → (toString k ++ " 0 obj").data <+: (t.objects k).data := by
  intro t
  obtain ⟨hobj, h0, h1, h2, h3, hp, hf, hs⟩ := finish_objects_spec pdf
  refine ⟨h0, h1, h2, h3, ?_⟩
  intro k hk1 hk2
  have hobj' : t.obj = 4 + (pdf.page + 1) + font_rank pdf.fonts max_fonts + 2 * (pdf.page + 1) :=
    hobj
  by_cases c1 : k < 4
  · have : k = 1 ∨ k = 2 ∨ k = 3 := by omega
    rcases this with rfl | rfl | rfl
    · rw [h1]; decide
    · rw [h2]; decide
    · rw [h3, pages_object_eq]
      have e : "3 0 obj\n  << /Type /Pages\n     /Kids [ "
          = (toString 3 ++ " 0 obj") ++ "\n  << /Type /Pages\n     /Kids [ " := by decide
      rw [e]
      simp only [String.append_assoc]
      rw [← String.append_assoc (toString 3) " 0 obj"]
      exact data_prefix_append _ _
  · by_cases c2 : k < 4 + (pdf.page + 1)
    · have := hp (k - 4) (by omega)
      have e : 4 + (k - 4) = k := by omega
      rw [e, page_object_eq] at this
      rw [this]
      exact data_prefix_append _ _
    · by_cases c3 : k < 4 + (pdf.page + 1) + font_rank pdf.fonts max_fonts
      · obtain ⟨f, hf1, hf2, hf3⟩ := font_rank_surj pdf.fonts max_fonts
          (k - (4 + (pdf.page + 1))) (by omega)
        have := hf f hf1 hf2
        rw [hf3] at this
        have e : 4 + (pdf.page + 1) + (k - (4 + (pdf.page + 1))) = k := by omega
        rw [e] at this
        rw [this]
        unfold font_object
        have e2 : " 0 obj\n  << /Type /Font\n     /Subtype /Type1\n     /Name /F"
            = " 0 obj" ++ "\n  << /Type /Font\n     /Subtype /Type1\n     /Name /F" := by decide
        rw [e2]
        simp only [String.append_assoc]
        rw [← String.append_assoc (toString k) " 0 obj"]
        exact data_prefix_append _ _
      · have hq : ∃ q, q < pdf.page + 1 ∧
            (k = 4 + (pdf.page + 1) + font_rank pdf.fonts max_fonts + 2 * q ∨
             k = 4 + (pdf.page + 1) + font_rank pdf.fonts max_fonts + 2 * q + 1) := by
          refine ⟨(k - (4 + (pdf.page + 1) + font_rank pdf.fonts max_fonts)) / 2, ?_, ?_⟩
          · omega
          · omega
        obtain ⟨q, hq1, hq2⟩ := hq
        obtain ⟨hs1, hs2⟩ := hs q hq1
        rcases hq2 with rfl | rfl
        · rw [hs1]
          unfold stream_object
          have e2 : " 0 obj\n  << /Length " = " 0 obj" ++ "\n  << /Length " := by decide
          rw [e2]
          simp only [String.append_assoc]
          rw [← String.append_assoc (toString _) " 0 obj"]
          exact data_prefix_append _ _
        · rw [hs2]
          unfold procset_object
          have e2 : " 0 obj\n  [/PDF /Text]\nendobj\n\n"
              = " 0 obj" ++ "\n  [/PDF /Text]\nendobj\n\n" := by decide
          rw [e2, ← String.append_assoc]
          exact data_prefix_append _ _

end FinishClaims

section FinishClaims2

variable {α : Type}

theorem finish_not_too_many_objects [LinearOrderedField α] (L : Libm α) (writable : Bool)
    (pdf : PDF α) : PDF.finish L writable pdf ≠ .error Halt.too_many_objects := by
  rw [finish_eq]
  have hfp := PDF.finish_page_frame L (Frame.refl_frame pdf)
  cases hq : pdf.finish_page L with
  | error e =>
    rw [hq] at hfp
    have he : TextHalt e := hfp
    intro hc
    injection hc with hc
    subst hc
    rcases he with he | he | he <;> cases he
  | ok q =>
    cases writable with
    | false => intro hc; injection hc with hc; cases hc
    | true => intro hc; simp at hc

/-- C4: for a document with `n` pages and `m` used fonts, `finish` builds exactly
`4 + 3n + m` entries of `objects`, strictly fewer than the bound `3n + 16 + m` that it
precomputes, so it never halts with `Too many objects`; and both the count of the `xref`
section (whose entries number `4 + 3n + m`, the free entry included) and the trailer `/Size`
are `4 + 3n + m`. Here `n` and `m` are taken after `finish_page`, when the array is built.
The offsets are printed from the `int` variable `size`, the total length so far reduced to
the range of an `int`. -/
theorem finish_object_count [LinearOrderedField α] (L : Libm α) (writable : Bool) (pdf : PDF α) :
    (let n := pdf.page + 1
     let m := font_rank pdf.fonts max_fonts
     (finish_objects pdf).obj = 4 + 3 * n + m
     ∧ 3 * n + 16 + count_fonts pdf.fonts = 3 * n + 16 + m
     ∧ 4 + 3 * n + m < 3 * n + 16 + m)
    ∧ PDF.finish L writable pdf ≠ .error Halt.too_many_objects
    ∧ ∀ pdf' file, PDF.finish L writable pdf = .ok (pdf', file) →
        let t := finish_objects pdf'
        let N := 4 + 3 * (pdf'.page + 1) + font_rank pdf'.fonts max_fonts
        file = String.join ((List.range N).map t.objects)
          ++ ("xref\n0 " ++ toString N ++ "\n" ++ "0000000000 65536 f \n"
            ++ String.join ((List.range' 1 (N - 1)).map
                (fun k => xref_entry (int_wrap (t.offset k)))))
          ++ ("\ntrailer\n  << /Size " ++ toString N ++ "\n     /Root 1 0 R\n  >>\nstartxref\n"
            ++ toString (int_wrap (t.offset N)) ++ "\n%%EOF\n")
        ∧ ((List.range' 1 (N - 1)).map
            (fun k => xref_entry (int_wrap (t.offset k)))).length + 1 = N := by
  refine ⟨⟨finish_objects_obj pdf, by rw [count_fonts_eq], by omega⟩,
    finish_not_too_many_objects L writable pdf, ?_⟩
  intro pdf' file h
  obtain ⟨_, _, hfile⟩ := finish_ok h
  intro t N
  have hN : t.obj = N := finish_objects_obj pdf'
  refine ⟨?_, ?_⟩
  · rw [hfile, write_file_eq, hN]
    rfl
  · simp only [List.length_map, List.length_range']
    omega

/-- The numeral of a value within the range of an `int` has at most 11 characters. -/
theorem toString_int_length (z : Int) (h0 : -2147483648 ≤ z) (h1 : z ≤ 2147483647) :
    (toString z).length ≤ 11 := by
  cases z with
  | ofNat m =>
    have hm : m < 10 ^ 10 := by
      have : (m : Int) ≤ 2147483647 := h1
      have h2 : m ≤ 2147483647 := by omega
      exact lt_of_le_of_lt h2 (by norm_num)
    have := Nat.repr_length m 10 (by decide) hm
    show (toString m).length ≤ 11
    exact le_trans this (by decide)
  | negSucc m =>
    have hm : m + 1 < 10 ^ 10 := by
      have h3 : Int.negSucc m = -((m : Int) + 1) := rfl
      have h2 : m + 1 ≤ 2147483648 := by omega
      exact lt_of_le_of_lt h2 (by norm_num)
    have := Nat.repr_length (m + 1) 10 (by decide) hm
    show ("-" ++ toString (m + 1)).length ≤ 11
    rw [String.length_append]
    have e : ("-").length = 1 := by decide
    rw [e]
    have hl : (toString (m + 1)).length ≤ 10 := this
    omega

/-- C6: `finish` on a freshly constructed document returns, with a file made of the header
and six objects: the catalog, the outlines, the page index with the single kid 4, one page
object without font entries whose contents are object 5 and procset object 6, one content
stream of declared `/Length 1`, and one procset; no font object; 7 cross-reference entries,
trailer `/Size 7` and `/Root 1 0 R`, and `startxref` equal to the total length of the header
and the six objects. The offsets are printed from the `int` variable `size`; for a page
width and height within the range of an `int` the total is below `2^31`, every entry is the
ten-digit numeral of its offset and `startxref` is the numeral of the total. -/
theorem finish_fresh_document [LinearOrderedField α] (L : Libm α) (filename : String)
    (width height : Int) :
    let pdf : PDF α := PDF.init filename width height
    let t := finish_objects pdf
    let total := (t.objects 0).length + (t.objects 1).length + (t.objects 2).length
      + (t.objects 3).length + (t.objects 4).length + (t.objects 5).length + (t.objects 6).length
    PDF.finish L true pdf = .ok (pdf, write_file t)
    ∧ t.obj = 7
    ∧ t.objects 0 = "%PDF-1.4\n\n"
    ∧ t.objects 1
        = "1 0 obj\n  << /Type /Catalog\n     /Outlines 2 0 R\n     /Pages 3 0 R\n  >>\nendobj\n\n"
    ∧ t.objects 2 = "2 0 obj\n  << /Type Outlines\n     /Count 0\n  >>\nendobj\n\n"
    ∧ t.objects 3
        = "3 0 obj\n  << /Type /Pages\n     /Kids [ 4 0 R ]\n     /Count 1\n  >>\nendobj\n\n"
    ∧ t.objects 4 = "4 0 obj\n  << /Type /Page\n     /Parent 3 0 R\n     /MediaBox [ 0 0 "
        ++ toString width ++ " " ++ toString height
        ++ " ]\n     /Contents 5 0 R\n     /Resources << /ProcSet 6 0 R\n                   /Font << \n                        >>\n                >>\n  >>\nendobj\n\n"
    ∧ t.objects 5 = "5 0 obj\n  << /Length 1 >>\nstream\n\nendstream\nendobj\n\n"
    ∧ t.objects 6 = "6 0 obj\n  [/PDF /Text]\nendobj\n\n"
    ∧ write_file t
        = t.objects 0 ++ t.objects 1 ++ t.objects 2 ++ t.objects 3 ++ t.objects 4
          ++ t.objects 5 ++ t.objects 6
          ++ "xref\n0 7\n0000000000 65536 f \n"
          ++ xref_entry (int_wrap ((t.objects 0).length : Nat))
          ++ xref_entry (int_wrap ((t.objects 0).length + (t.objects 1).length : Nat))
          ++ xref_entry (int_wrap
              ((t.objects 0).length + (t.objects 1).length + (t.objects 2).length : Nat))
          ++ xref_entry (int_wrap
              ((t.objects 0).length + (t.objects 1).length + (t.objects 2).length
                + (t.objects 3).length : Nat))
          ++ xref_entry (int_wrap
              ((t.objects 0).length + (t.objects 1).length + (t.objects 2).length
                + (t.objects 3).length + (t.objects 4).length : Nat))
          ++ xref_entry (int_wrap
              ((t.objects 0).length + (t.objects 1).length + (t.objects 2).length
                + (t.objects 3).length + (t.objects 4).length + (t.objects 5).length : Nat))
          ++ "\ntrailer\n  << /Size 7\n     /Root 1 0 R\n  >>\nstartxref\n"
          ++ toString (int_wrap (total : Nat)) ++ "\n%%EOF\n"
    ∧ (-2147483648 ≤ width → width ≤ 2147483647 → -2147483648 ≤ height →
        height ≤ 2147483647 →
        total < 2147483648
        ∧ int_wrap (total : Nat) = total
        ∧ toString (int_wrap (total : Nat)) = toString total
        ∧ ∀ n : Nat, n ≤ total →
            xref_entry (int_wrap (n : Nat))
              = String.mk (List.replicate (10 - (toString n).length) '0') ++ toString n
                ++ " 00000 n \n") := by
  intro pdf t total
  have hobj : t.obj = 7 := finish_objects_obj pdf
  have hfonts : pdf.fonts = fun _ => false := rfl
  have hpage : pdf.page = 0 := rfl
  have htext : (pdf.pages 0).stream.text = "" := rfl
  have hm : font_rank (fun _ => false) max_fonts = 0 := by decide
  have hu : used_fonts (fun _ => false) max_fonts = [] := by decide
  obtain ⟨_, h0, h1, h2, h3, hp, _, hs⟩ := finish_objects_spec pdf
  have h4 := hp 0 (Nat.zero_lt_succ _)
  obtain ⟨h5, h6⟩ := hs 0 (Nat.zero_lt_succ _)
  rw [hfonts, hm, hpage] at h4 h5 h6
  rw [hpage] at h3
  rw [htext] at h5
  have e3 : t.objects 3
      = "3 0 obj\n  << /Type /Pages\n     /Kids [ 4 0 R ]\n     /Count 1\n  >>\nendobj\n\n" := by
    rw [show t.objects 3 = _ from h3]
    decide
  have e4 : t.objects 4 = "4 0 obj\n  << /Type /Page\n     /Parent 3 0 R\n     /MediaBox [ 0 0 "
        ++ toString width ++ " " ++ toString height
        ++ " ]\n     /Contents 5 0 R\n     /Resources << /ProcSet 6 0 R\n                   /Font << \n                        >>\n                >>\n  >>\nendobj\n\n" := by
    rw [show t.objects 4 = _ from h4, page_object_eq, hu]
    simp only [List.map_nil, String.join_nil_eq, String.append_empty_eq]
    have k1 : "4 0 obj\n  << /Type /Page\n     /Parent 3 0 R\n     /MediaBox [ 0 0 "
        = toString (4 + 0) ++ " 0 obj"
          ++ "\n  << /Type /Page\n     /Parent 3 0 R\n     /MediaBox [ 0 0 " := by decide
    have k2 : " ]\n     /Contents 5 0 R\n     /Resources << /ProcSet 6 0 R\n                   /Font << \n                        >>\n                >>\n  >>\nendobj\n\n"
        = " ]\n     /Contents " ++ toString (4 + (0 + 1) + 0 + 2 * 0)
          ++ " 0 R\n     /Resources << /ProcSet " ++ toString (4 + (0 + 1) + 0 + 2 * 0 + 1)
          ++ " 0 R\n                   /Font << \n"
          ++ "                        >>\n                >>\n  >>\nendobj\n\n" := by decide
    rw [k1, k2]
    simp only [String.append_assoc]
    rfl
  have e5 : t.objects 5 = "5 0 obj\n  << /Length 1 >>\nstream\n\nendstream\nendobj\n\n" := by
    rw [show t.objects 5 = _ from h5]
    decide
  have e6 : t.objects 6 = "6 0 obj\n  [/PDF /Text]\nendobj\n\n" := by
    rw [show t.objects 6 = _ from h6]
    decide
  refine ⟨rfl, hobj, h0, h1, h2, e3, e4, e5, e6, ?_, ?_⟩
  swap
  · intro hw0 hw1 hh0 hh1
    have lw := toString_int_length width hw0 hw1
    have lh := toString_int_length height hh0 hh1
    have l4 : (t.objects 4).length
        = 212 + (toString width).length + (toString height).length := by
      rw [e4]
      simp only [String.length_append]
      have a1 : ("4 0 obj\n  << /Type /Page\n     /Parent 3 0 R\n     /MediaBox [ 0 0 ").length
          = 65 := by decide
      have a2 : (" ").length = 1 := by decide
      have a3 : (" ]\n     /Contents 5 0 R\n     /Resources << /ProcSet 6 0 R\n                   /Font << \n                        >>\n                >>\n  >>\nendobj\n\n").length
          = 146 := by
        set_option maxRecDepth 100000 in decide!
      rw [a1, a2, a3]
      omega
    have l0 : (t.objects 0).length = 10 := by rw [h0]; decide
    have l1 : (t.objects 1).length = 80 := by rw [h1]; decide
    have l2 : (t.objects 2).length = 55 := by rw [h2]; decide
    have l3 : (t.objects 3).length = 74 := by rw [e3]; decide
    have l5 : (t.objects 5).length = 52 := by rw [e5]; decide
    have l6 : (t.objects 6).length = 31 := by rw [e6]; decide
    have hlt : total < 2147483648 := by
      show (t.objects 0).length + (t.objects 1).length + (t.objects 2).length
        + (t.objects 3).length + (t.objects 4).length + (t.objects 5).length
        + (t.objects 6).length < 2147483648
      rw [l0, l1, l2, l3, l4, l5, l6]
      omega
    have hw := int_wrap_of_small (total : Int) (by omega) (by omega)
    exact ⟨hlt, hw, by rw [hw]; rfl, fun n hn => xref_entry_nat n (by omega)⟩
  rw [write_file_eq, hobj]
  have r7 : List.range 7 = [0, 1, 2, 3, 4, 5, 6] := by decide
  have r6 : List.range' 1 (7 - 1) = [1, 2, 3, 4, 5, 6] := by decide
  have k3 : "xref\n0 " ++ toString 7 ++ "\n" ++ "0000000000 65536 f \n"
      = "xref\n0 7\n0000000000 65536 f \n" := by decide
  have k4 : "\ntrailer\n  << /Size " ++ toString 7 ++ "\n     /Root 1 0 R\n  >>\nstartxref\n"
      = "\ntrailer\n  << /Size 7\n     /Root 1 0 R\n  >>\nstartxref\n" := by decide
  rw [r7, r6, k3]
  unfold trailer_section
  rw [k4]
  simp only [List.map_cons, List.map_nil, String.join_cons_eq, String.join_nil_eq,
    String.append_empty_eq, ObjTable.offset_succ, String.append_assoc]
  have o0 : t.offset 0 = 0 := rfl
  simp only [o0, Nat.zero_add]

end FinishClaims2

/-! ## Fonts and pages over runs: claims C5 and C7 -/

section RunClaims

variable {α : Type}

theorem init_evolves_spec [LinearOrderedField α] {filename : String} {width height : Int}
    {q : PDF α} (h : Evolves (PDF.init filename width height : PDF α) q) :
    q.page < max_pages ∧ q.width = width ∧ q.height = height ∧
    ∀ f, q.fonts f = true ↔ ∃ font ∈ q.selectfont_log, (font_index font).toNat = f := by
  obtain ⟨_, h1, h2, h3, new, h4, h5, _⟩ := h
  refine ⟨h1 (show 0 < 1024 by decide), h2, h3, ?_⟩
  intro f
  have e1 : (PDF.init filename width height : PDF α).fonts f = false := rfl
  have e2 : (PDF.init filename width height : PDF α).selectfont_log = [] := rfl
  rw [h5, e1, h4, e2, Bool.false_or, List.append_nil, List.any_eq_true]
  constructor
  · rintro ⟨font, hm, hf⟩
    exact ⟨font, hm, by simpa using hf⟩
  · rintro ⟨font, hm, hf⟩
    exact ⟨font, hm, by simpa using hf⟩

theorem font_index_lt (font : Int) : (font_index font).toNat < 14 := by
  unfold font_index
  split
  · decide
  · split
    · decide
    · split
      · decide
      · omega

theorem font_rank_strict (fonts : Nat → Bool) (f g : Nat) (hfg : f < g) (hf : fonts f = true) :
    font_rank fonts f < font_rank fonts g := by
  induction g with
  | zero => omega
  | succ M ihM =>
    rw [font_rank_succ fonts M]
    by_cases hfM : f = M
    · subst hfM; simp [hf]
    · have := ihM (by omega); split <;> omega

theorem run_finish_evolves [LinearOrderedField α] [FloorRing α] {L : Libm α} {p0 p pdf : PDF α}
    {ops : List (Op α)} {writable : Bool} {file : String}
    (hrun : PDF.run L p0 ops = .ok p) (hfin : PDF.finish L writable p = .ok (pdf, file)) :
    Evolves p0 pdf := by
  have h1 : Evolves p0 p := Post.of_ok (PDF.run_evolves L (Evolves.refl_evolves p0) ops) hrun
  have h2 : Frame p pdf := Post.of_ok (PDF.finish_page_frame L (Frame.refl_frame p)) (finish_ok hfin).1
  exact Evolves.trans_evolves h1 h2.evolves

end RunClaims

section RunClaims2

variable {α : Type}

/-- Counterexample to C7 as stated: on a new document, `new_page` with an annotation of 4090
characters and then `stroke` succeed and leave the page index at 0 with a non-empty first
page; the next `new_page` does not succeed although the page index is not 1023: writing the
annotation of the finished page halts with `String too long`. -/
theorem new_page_long_annotation_halts :
    ((PDF.run Libm.rat (PDF.init "graph.pdf" 612 792)
        [Op.new_page (some (String.mk (List.replicate 4090 'x'))), Op.stroke]).toOption.map
      (fun p => (p.page, (p.pages 0).is_empty))) = some (0, false)
    ∧ Halt.of (PDF.run Libm.rat (PDF.init "graph.pdf" 612 792)
        [Op.new_page (some (String.mk (List.replicate 4090 'x'))), Op.stroke, Op.new_page none])
      = some Halt.string_too_long := by
  constructor
  · decide
  · decide!

/-- C7 (amended): `new_page` leaves the page index at 0 while the first page is still empty;
otherwise it first finishes the current page, and a halt of that step (a stream that cannot
grow, an annotation line of 4090 or more characters, or an annotation with a character code
of 128 or more, for which `stringwidth` reads outside its table) is the halt of `new_page`;
if that step returns, `new_page` halts with `Too many pages` when the page index is 1023 and succeeds with
the page index advanced by one when it is below 1023. In particular `new_page` never succeeds
at page index 1023. Hence `page < 1024` in every state reached from a new document, and every
file written by `finish` after such a run has at most 1024 pages. -/
theorem new_page_spec [LinearOrderedField α] [FloorRing α] (L : Libm α) (filename : String)
    (width height : Int) :
    (∀ (p : PDF α) (annot : Option String), p.page = 0 ∧ (p.pages 0).is_empty = true →
      ∃ q, p.new_page L annot = .ok q ∧ q.page = 0)
    ∧ (∀ (p : PDF α) (annot : Option String), ¬ (p.page = 0 ∧ (p.pages 0).is_empty = true) →
        (∀ e, p.finish_page L = .error e →
          (e = Halt.hang ∨ e = Halt.string_too_long
            ∨ e = Halt.die "stringwidth: index outside FontCharWidths")
          ∧ p.new_page L annot = .error e)
        ∧ (∀ p', p.finish_page L = .ok p' →
            (p.page = 1023 → p.new_page L annot = .error Halt.too_many_pages)
            ∧ (p.page < 1023 → ∃ q, p.new_page L annot = .ok q ∧ q.page = p.page + 1)))
    ∧ (∀ (p : PDF α) (annot : Option String), p.page = 1023 →
        ∀ q, p.new_page L annot ≠ .ok q)
    ∧ (∀ (ops : List (Op α)) (q : PDF α),
        PDF.run L (PDF.init filename width height) ops = .ok q → q.page < 1024)
    ∧ (∀ (ops : List (Op α)) (q pdf : PDF α) (writable : Bool) (file : String),
        PDF.run L (PDF.init filename width height) ops = .ok q →
        PDF.finish L writable q = .ok (pdf, file) →
        pdf.page + 1 ≤ 1024 ∧
        (finish_objects pdf).objects 3 = pages_object (pdf.page + 1)) := by
  have annot_page : ∀ (q : PDF α) (annot : Option String),
      (q.set_annotation annot).page = q.page := by
    intro q annot
    cases annot <;> rfl
  have part2 : ∀ (p : PDF α) (annot : Option String),
      ¬ (p.page = 0 ∧ (p.pages 0).is_empty = true) →
        (∀ e, p.finish_page L = .error e →
          (e = Halt.hang ∨ e = Halt.string_too_long
            ∨ e = Halt.die "stringwidth: index outside FontCharWidths")
          ∧ p.new_page L annot = .error e)
        ∧ (∀ p', p.finish_page L = .ok p' →
            (p.page = 1023 → p.new_page L annot = .error Halt.too_many_pages)
            ∧ (p.page < 1023 → ∃ q, p.new_page L annot = .ok q ∧ q.page = p.page + 1)) := by
    intro p annot hne
    have hfp := PDF.finish_page_frame L (Frame.refl_frame p)
    refine ⟨?_, ?_⟩
    · intro e he
      refine ⟨Post.of_error hfp he, ?_⟩
      rw [PDF.new_page_eq, if_neg hne, he]
      rfl
    · intro p' hp'
      have hpage : p'.page = p.page := (Post.of_ok hfp hp').1
      refine ⟨?_, ?_⟩
      · intro h1023
        rw [PDF.new_page_eq, if_neg hne, hp']
        have : p'.page + 1 ≥ max_pages := by
          show 1024 ≤ p'.page + 1
          omega
        simp only [this, if_true]
        rfl
      · intro hlt
        rw [PDF.new_page_eq, if_neg hne, hp']
        have : ¬ p'.page + 1 ≥ max_pages := by
          show ¬ 1024 ≤ p'.page + 1
          omega
        simp only [this, if_false]
        refine ⟨_, rfl, ?_⟩
        rw [annot_page, ← hpage]
        rfl
  refine ⟨?_, part2, ?_, ?_, ?_⟩
  · intro p annot hfirst
    rw [PDF.new_page_eq, if_pos hfirst]
    exact ⟨_, rfl, (annot_page p annot).trans hfirst.1⟩
  · intro p annot h1023 q hq
    have hne : ¬ (p.page = 0 ∧ (p.pages 0).is_empty = true) := by
      intro h; omega
    obtain ⟨h1, h2⟩ := part2 p annot hne
    cases hfp : p.finish_page L with
    | error e =>
      have := (h1 e hfp).2
      rw [this] at hq
      cases hq
    | ok p' =>
      have := (h2 p' hfp).1 h1023
      rw [this] at hq
      cases hq
  · intro ops q hrun
    exact (init_evolves_spec
      (Post.of_ok (PDF.run_evolves L (Evolves.refl_evolves _) ops) hrun)).1
  · intro ops q pdf writable file hrun hfin
    have := (init_evolves_spec (run_finish_evolves hrun hfin)).1
    refine ⟨?_, (finish_objects_spec pdf).2.2.2.2.1⟩
    show pdf.page + 1 ≤ 1024
    have h' : pdf.page < 1024 := this
    omega

end RunClaims2
/-! ## Text width: claim C10 -/

section StringWidth

variable {α : Type}

theorem char_index_low (c : Char) (hc : c.toNat < 128) : char_index c = c.toNat := by
  unfold char_index
  rw [if_pos hc]

theorem char_width_low (font : Int) (c : Char) (hc : c.toNat < 128) :
    char_width font c = .ok ((FontCharWidths.getD font.toNat []).getD c.toNat 0) := by
  unfold char_width
  rw [char_index_low c hc, if_pos (by omega)]
  rfl

theorem char_width_high (font : Int) (c : Char) (hc : 128 ≤ c.toNat) :
    char_width font c = .error (Halt.die "stringwidth: index outside FontCharWidths") := by
  have e : char_index c = 4294967040 + c.toNat := by
    unfold char_index
    rw [if_neg (by omega)]
  unfold char_width
  rw [e, if_neg (by omega)]

theorem stringwidth_loop_eq [LinearOrderedField α] (n : Int) (font : Int) (l : List Char)
    (k : Nat) (w : α) (hn : (k : Int) + l.length ≤ n) (hnul : '\x00' ∉ l)
    (h7 : SevenBit l) :
    stringwidth_loop n font l k w
      = .ok (w + (l.map (fun c =>
          ((FontCharWidths.getD font.toNat []).getD c.toNat 0 : α) * FontCharWidthScale)).sum) := by
  induction l generalizing k w with
  | nil => simp [stringwidth_loop, pure, Except.pure]
  | cons c cs ih =>
    have hc : c ≠ '\x00' := fun e => hnul (e ▸ List.mem_cons_self _ _)
    have hcs : '\x00' ∉ cs := fun e => hnul (List.mem_cons_of_mem _ e)
    have hlen : ((c :: cs).length : Int) = cs.length + 1 := by simp
    have hk : (k : Int) < n := by omega
    have h7c : c.toNat < 128 := h7 c (List.mem_cons_self _ _)
    have h7cs : SevenBit cs := fun d hd => h7 d (List.mem_cons_of_mem _ hd)
    rw [stringwidth_loop, if_pos ⟨hk, hc⟩, char_width_low font c h7c]
    show stringwidth_loop n font cs (k + 1) _ = _
    rw [ih (k + 1) _ (by push_cast; omega) hcs h7cs]
    simp only [List.map_cons, List.sum_cons]
    congr 1
    ring

/-- The loop halts at the first character with a code of 128 or more. -/
theorem stringwidth_loop_high [LinearOrderedField α] (n : Int) (font : Int) (l : List Char)
    (k : Nat) (w : α) (hn : (k : Int) + l.length ≤ n) (hnul : '\x00' ∉ l)
    (h7 : ¬ SevenBit l) :
    stringwidth_loop n font l k w
      = .error (Halt.die "stringwidth: index outside FontCharWidths") := by
  induction l generalizing k w with
  | nil => exact absurd (fun c hc => absurd hc (List.not_mem_nil c)) h7
  | cons c cs ih =>
    have hc : c ≠ '\x00' := fun e => hnul (e ▸ List.mem_cons_self _ _)
    have hcs : '\x00' ∉ cs := fun e => hnul (List.mem_cons_of_mem _ e)
    have hlen : ((c :: cs).length : Int) = cs.length + 1 := by simp
    have hk : (k : Int) < n := by omega
    rw [stringwidth_loop, if_pos ⟨hk, hc⟩]
    by_cases h7c : c.toNat < 128
    · rw [char_width_low font c h7c]
      show stringwidth_loop n font cs (k + 1) _ = _
      refine ih (k + 1) _ (by push_cast; omega) hcs ?_
      intro h7cs
      refine h7 (fun d hd => ?_)
      rcases List.mem_cons.1 hd with rfl | hd
      · exact h7c
      · exact h7cs d hd
    · rw [char_width_high font c (not_lt.mp h7c)]
      rfl

theorem stringwidth_eq [LinearOrderedField α] (s : String) (font : Int) (scale : α)
    (hnul : '\x00' ∉ s.data) (h7 : SevenBit s.data) :
    stringwidth s s.length font scale
      = .ok (scale * ((s.data.map (fun c =>
          ((FontCharWidths.getD (font_index font).toNat []).getD c.toNat 0 : α))).sum
            / 1000)) := by
  unfold stringwidth
  simp only
  have hn : ((0 : Nat) : Int) + (s.data.length : Int) ≤ (s.length : Int) := by
    have : s.length = s.data.length := rfl
    omega
  rw [stringwidth_loop_eq _ _ _ _ _ hn hnul h7, zero_add]
  show Except.ok _ = Except.ok _
  congr 2
  unfold FontCharWidthScale
  induction s.data with
  | nil => simp
  | cons c cs ih =>
    simp only [List.map_cons, List.sum_cons, ih]
    ring

theorem stringwidth_high [LinearOrderedField α] (s : String) (font : Int) (scale : α)
    (hnul : '\x00' ∉ s.data) (h7 : ¬ SevenBit s.data) :
    stringwidth s s.length font scale
      = .error (Halt.die "stringwidth: index outside FontCharWidths") := by
  unfold stringwidth
  simp only
  have hn : ((0 : Nat) : Int) + (s.data.length : Int) ≤ (s.length : Int) := by
    have : s.length = s.data.length := rfl
    omega
  rw [stringwidth_loop_high _ _ _ _ _ hn hnul h7]
  rfl

/-- On a text of character codes below 128 the loop returns a width, whatever its bound. -/
theorem stringwidth_loop_ok [LinearOrderedField α] (n : Int) (font : Int) (l : List Char)
    (h7 : SevenBit l) :
    ∀ (k : Nat) (w : α), ∃ v, stringwidth_loop n font l k w = .ok v := by
  induction l with
  | nil => intro k w; exact ⟨w, rfl⟩
  | cons c cs ih =>
    intro k w
    have h7c : c.toNat < 128 := h7 c (List.mem_cons_self _ _)
    have h7cs : SevenBit cs := fun d hd => h7 d (List.mem_cons_of_mem _ hd)
    rw [stringwidth_loop]
    split
    · rw [char_width_low font c h7c]
      exact ih h7cs (k + 1) _
    · exact ⟨w, rfl⟩

theorem stringwidth_ok [LinearOrderedField α] (s : String) (n : Int) (font : Int) (scale : α)
    (h7 : SevenBit s.data) : ∃ w, stringwidth s n font scale = .ok w := by
  unfold stringwidth
  obtain ⟨v, hv⟩ := stringwidth_loop_ok (α := α) n (font_index font) s.data h7 0 0
  simp only
  rw [hv]
  exact ⟨scale * v, rfl⟩

theorem line_width_of_ok [LinearOrderedField α] (font : Int) (scale : α) (line : List Char)
    (w : α) (h : stringwidth (String.mk line) line.length font scale = .ok w) :
    line_width font scale line = w := by
  unfold line_width
  rw [h]

theorem sevenBit_of_append {l1 l2 : List Char} (h1 : SevenBit l1) (h2 : SevenBit l2) :
    SevenBit (l1 ++ l2) := by
  intro c hc
  rcases List.mem_append.1 hc with h | h
  · exact h1 c h
  · exact h2 c h

end StringWidth

/-- C10, the code against the claim. For strings `s1`, `s2` without NUL whose character
codes are all below 128 the claim holds: `stringwidth` returns for `s1`, `s2` and `s1 ++ s2`,
each width is the scale times the sum of the advances of the normalised font divided by 1000,
and the width of `s1 ++ s2` is the sum of the two widths. For a string without NUL with a
character code of 128 or more `stringwidth` does not return a width: the signed `char` is
converted to `unsigned` and indexes the row beyond its 256 entries. The failing input is the
one-character string with the code 128, in font 0 at scale 1: row 0 holds the advance 499
for the code 128, and the call reads outside the table, also when the character follows the
letter `a`, whose width alone is `1 * (441 / 1000)`. -/
theorem stringwidth_high_byte :
    (∀ (s1 s2 : String) (font : Int) (scale : ℚ), '\x00' ∉ s1.data → '\x00' ∉ s2.data →
      SevenBit s1.data → SevenBit s2.data →
      ∃ w1 w2 : ℚ,
        stringwidth s1 s1.length font scale = .ok w1
        ∧ stringwidth s2 s2.length font scale = .ok w2
        ∧ stringwidth (s1 ++ s2) (s1 ++ s2).length font scale = .ok (w1 + w2)
        ∧ w1 = scale * ((s1.data.map (fun c =>
            ((FontCharWidths.getD (font_index font).toNat []).getD c.toNat 0 : ℚ))).sum / 1000)
        ∧ w2 = scale * ((s2.data.map (fun c =>
            ((FontCharWidths.getD (font_index font).toNat []).getD c.toNat 0 : ℚ))).sum / 1000))
    ∧ (∀ (s : String) (font : Int) (scale : ℚ), '\x00' ∉ s.data →
        (∃ c ∈ s.data, 128 ≤ c.toNat) →
        stringwidth s s.length font scale
          = .error (Halt.die "stringwidth: index outside FontCharWidths"))
    ∧ (Char.ofNat 128).toNat = 128
    ∧ char_index (Char.ofNat 128) = 4294967168
    ∧ (FontCharWidths.getD 0 []).getD 128 0 = 499
    ∧ stringwidth (String.singleton (Char.ofNat 128)) 1 0 (1 : ℚ)
        = .error (Halt.die "stringwidth: index outside FontCharWidths")
    ∧ stringwidth "a" 1 0 (1 : ℚ) = .ok (1 * (441 / 1000))
    ∧ stringwidth ("a" ++ String.singleton (Char.ofNat 128)) 2 0 (1 : ℚ)
        = .error (Halt.die "stringwidth: index outside FontCharWidths") := by
  refine ⟨?_, ?_, by decide, by decide, by decide, by with_unfolding_all rfl,
    by with_unfolding_all rfl, by with_unfolding_all rfl⟩
  · intro s1 s2 font scale h1 h2 h71 h72
    have h12 : '\x00' ∉ (s1 ++ s2).data := by
      rw [String.data_append, List.mem_append]
      exact fun h => h.elim h1 h2
    have h712 : SevenBit (s1 ++ s2).data := by
      rw [String.data_append]
      exact sevenBit_of_append h71 h72
    refine ⟨_, _, stringwidth_eq s1 font scale h1 h71, stringwidth_eq s2 font scale h2 h72,
      ?_, rfl, rfl⟩
    rw [stringwidth_eq _ _ _ h12 h712, String.data_append, List.map_append, List.sum_append]
    congr 1
    ring
  · intro s font scale hnul ⟨c, hc, h128⟩
    refine stringwidth_high s font scale hnul (fun h7 => ?_)
    have := h7 c hc
    omega

/-! ## Circular arcs: claims C8 and C9 -/

section ArcLoops

variable {α : Type}

theorem arc_loop_eq [LinearOrderedField α] (pi a0 : α) (k : Nat) :
    ∀ (fuel : Nat) (a : α), k < fuel → (∀ i : Nat, i < k → a + 2 * pi * i < a0) →
      a0 ≤ a + 2 * pi * k → arc_loop pi fuel a0 a = some (a + 2 * pi * k) := by
  induction k with
  | zero =>
    intro fuel a hf _ hle
    obtain ⟨f, rfl⟩ : ∃ f, fuel = f + 1 := ⟨fuel - 1, by omega⟩
    have : ¬ a < a0 := by
      simp only [Nat.cast_zero, mul_zero, add_zero] at hle
      exact not_lt.mpr hle
    simp [arc_loop, this]
  | succ k ih =>
    intro fuel a hf hlt hle
    obtain ⟨f, rfl⟩ : ∃ f, fuel = f + 1 := ⟨fuel - 1, by omega⟩
    have h0 : a < a0 := by
      have := hlt 0 (Nat.succ_pos k)
      simpa using this
    rw [arc_loop, if_pos h0, ih f (a + 2 * pi) (by omega)]
    · congr 1
      push_cast
      ring
    · intro i hi
      have := hlt (i + 1) (by omega)
      push_cast at this
      linarith
    · push_cast at hle
      linarith

theorem arcn_loop_eq [LinearOrderedField α] (pi a0 : α) (k : Nat) :
    ∀ (fuel : Nat) (a : α), k < fuel → (∀ i : Nat, i < k → a0 < a - 2 * pi * i) →
      a - 2 * pi * k ≤ a0 → arcn_loop pi fuel a0 a = some (a - 2 * pi * k) := by
  induction k with
  | zero =>
    intro fuel a hf _ hle
    obtain ⟨f, rfl⟩ : ∃ f, fuel = f + 1 := ⟨fuel - 1, by omega⟩
    have : ¬ a > a0 := by
      simp only [Nat.cast_zero, mul_zero, sub_zero] at hle
      exact not_lt.mpr hle
    simp [arcn_loop, this]
  | succ k ih =>
    intro fuel a hf hlt hle
    obtain ⟨f, rfl⟩ : ∃ f, fuel = f + 1 := ⟨fuel - 1, by omega⟩
    have h0 : a > a0 := by
      have := hlt 0 (Nat.succ_pos k)
      simpa using this
    rw [arcn_loop, if_pos h0, ih f (a - 2 * pi) (by omega)]
    · congr 1
      push_cast
      ring
    · intro i hi
      have := hlt (i + 1) (by omega)
      push_cast at this
      linarith
    · push_cast at hle
      linarith

/-- The number of rounds of the normalisation loops: the least `k` with `span <= 2 pi k`. -/
theorem turns_spec [LinearOrderedField α] [FloorRing α] (pi span : α) (hpi : 0 < pi) :
    span ≤ 2 * pi * (Int.toNat ⌈span / (2 * pi)⌉ : Nat) ∧
    ∀ i : Nat, i < Int.toNat ⌈span / (2 * pi)⌉ → 2 * pi * i < span := by
  have h2 : 0 < 2 * pi := by linarith
  constructor
  · have h1 : span / (2 * pi) ≤ (⌈span / (2 * pi)⌉ : α) := Int.le_ceil _
    have h3 : (⌈span / (2 * pi)⌉ : α) ≤ ((Int.toNat ⌈span / (2 * pi)⌉ : Nat) : α) := by
      have : ⌈span / (2 * pi)⌉ ≤ ((Int.toNat ⌈span / (2 * pi)⌉ : Nat) : Int) := Int.self_le_toNat _
      exact_mod_cast this
    have h4 : span / (2 * pi) ≤ ((Int.toNat ⌈span / (2 * pi)⌉ : Nat) : α) := le_trans h1 h3
    rw [div_le_iff₀ h2] at h4
    linarith
  · intro i hi
    have hi' : (i : Int) < ⌈span / (2 * pi)⌉ := by omega
    have : (i : α) < span / (2 * pi) := by
      have := Int.lt_ceil.mp hi'
      exact_mod_cast this
    rw [lt_div_iff₀ h2] at this
    linarith

theorem arc_normalise [LinearOrderedField α] [FloorRing α] (pi a0 a1 : α) (hpi : 0 < pi) :
    arc_loop pi (arc_fuel pi (a0 - a1)) a0 a1
      = some (a1 + 2 * pi * (Int.toNat ⌈(a0 - a1) / (2 * pi)⌉ : Nat)) := by
  obtain ⟨h1, h2⟩ := turns_spec pi (a0 - a1) hpi
  refine arc_loop_eq pi a0 _ _ a1 (by unfold arc_fuel; omega) ?_ ?_
  · intro i hi
    have := h2 i hi
    linarith
  · linarith

theorem arcn_normalise [LinearOrderedField α] [FloorRing α] (pi a0 a1 : α) (hpi : 0 < pi) :
    arcn_loop pi (arc_fuel pi (a1 - a0)) a0 a1
      = some (a1 - 2 * pi * (Int.toNat ⌈(a1 - a0) / (2 * pi)⌉ : Nat)) := by
  obtain ⟨h1, h2⟩ := turns_spec pi (a1 - a0) hpi
  refine arcn_loop_eq pi a0 _ _ a1 (by unfold arc_fuel; omega) ?_ ?_
  · intro i hi
    have := h2 i hi
    linarith
  · linarith

theorem arc_count_pos [LinearOrderedField α] [FloorRing α] (pi span : α) (n : Int) :
    1 ≤ arc_count pi span n := by
  unfold arc_count
  simp only
  split <;> split <;> omega

theorem arc_count_of_pos [LinearOrderedField α] [FloorRing α] (pi span : α) (n : Int)
    (hn : 1 ≤ n) : (arc_count pi span n : Int) = n := by
  unfold arc_count
  simp only
  rw [if_neg (by omega), if_neg (by omega)]
  omega

theorem c_int_floor [LinearOrderedField α] [FloorRing α] (x : α) (h0 : 0 ≤ x)
    (h1 : x < 2147483648) : c_int x = ⌊x⌋ := by
  unfold c_int
  rw [if_pos ⟨by linarith, h1⟩, if_pos h0]

/-- Whenever the loop of `arc` exits, whatever the number of rounds, the end angle is not
below the start angle; it is the given end angle, or it is less than a full turn above the
start angle. -/
theorem arc_loop_exit [LinearOrderedField α] (pi a0 : α) :
    ∀ (fuel : Nat) (a a1n : α), arc_loop pi fuel a0 a = some a1n →
      a0 ≤ a1n ∧ (a1n = a ∨ a1n < a0 + 2 * pi) := by
  intro fuel
  induction fuel with
  | zero => intro a a1n h; simp [arc_loop] at h
  | succ fuel ih =>
    intro a a1n h
    rw [arc_loop] at h
    split at h
    · rename_i hlt
      obtain ⟨h1, h2⟩ := ih _ _ h
      refine ⟨h1, Or.inr ?_⟩
      rcases h2 with h2 | h2
      · rw [h2]
        linarith
      · exact h2
    · rename_i hge
      cases h
      exact ⟨not_lt.mp hge, Or.inl rfl⟩

/-- Whenever the loop of `arcn` exits, the end angle is not above the start angle; it is the
given end angle, or it is less than a full turn below the start angle. -/
theorem arcn_loop_exit [LinearOrderedField α] (pi a0 : α) :
    ∀ (fuel : Nat) (a a1n : α), arcn_loop pi fuel a0 a = some a1n →
      a1n ≤ a0 ∧ (a1n = a ∨ a0 - 2 * pi < a1n) := by
  intro fuel
  induction fuel with
  | zero => intro a a1n h; simp [arcn_loop] at h
  | succ fuel ih =>
    intro a a1n h
    rw [arcn_loop] at h
    split at h
    · rename_i hlt
      obtain ⟨h1, h2⟩ := ih _ _ h
      refine ⟨h1, Or.inr ?_⟩
      rcases h2 with h2 | h2
      · rw [h2]
        linarith
      · exact h2
    · rename_i hge
      cases h
      exact ⟨not_lt.mp hge, Or.inl rfl⟩

end ArcLoops

section ArcClosedForm

theorem arc_angle_zero (a0 a1 : ℝ) (N : Nat) : arc_angle a0 a1 N 0 = a0 := by
  simp [arc_angle]

theorem arc_angle_last (a0 a1 : ℝ) (N : Nat) (hN : 1 ≤ N) : arc_angle a0 a1 N N = a1 := by
  have : (N : ℝ) ≠ 0 := by
    have : (1 : ℝ) ≤ N := by exact_mod_cast hN
    linarith
  unfold arc_angle
  field_simp

/-- The cubic of round `k` of `arc`, in terms of the subdivision angles. -/
theorem arc_curve_eq (x y r a0 a1 : ℝ) (N k : Nat) :
    arc_curve Real.cos Real.sin x y r a0 a1 N k =
      PathOp.curveto
        (x + r * Real.cos (arc_angle a0 a1 N k)
          - r * Bezier_s Real.cos Real.sin ((a1 - a0) / N) * Real.sin (arc_angle a0 a1 N k))
        (y + r * Real.sin (arc_angle a0 a1 N k)
          + r * Bezier_s Real.cos Real.sin ((a1 - a0) / N) * Real.cos (arc_angle a0 a1 N k))
        (x + r * Real.cos (arc_angle a0 a1 N (k + 1))
          + r * Bezier_s Real.cos Real.sin ((a1 - a0) / N)
            * Real.sin (arc_angle a0 a1 N (k + 1)))
        (y + r * Real.sin (arc_angle a0 a1 N (k + 1))
          - r * Bezier_s Real.cos Real.sin ((a1 - a0) / N)
            * Real.cos (arc_angle a0 a1 N (k + 1)))
        (x + r * Real.cos (arc_angle a0 a1 N (k + 1)))
        (y + r * Real.sin (arc_angle a0 a1 N (k + 1))) := by
  have e : arc_angle a0 a1 N (k + 1) = (a0 + (k : ℝ) / N * (a1 - a0)) + (a1 - a0) / N := by
    unfold arc_angle
    push_cast
    ring
  have e0 : arc_angle a0 a1 N k = a0 + (k : ℝ) / N * (a1 - a0) := by
    unfold arc_angle
    ring
  rw [e, e0]
  simp only [arc_curve, Real.cos_add, Real.sin_add]
  congr 1 <;> ring

/-- The cubic of round `k` of `arcn`, in terms of the subdivision angles. -/
theorem arcn_curve_eq (x y r a0 a1 : ℝ) (N k : Nat) :
    arcn_curve Real.cos Real.sin x y r a0 a1 N k =
      PathOp.curveto
        (x + r * Real.cos (arc_angle a0 a1 N k)
          + r * Bezier_s Real.cos Real.sin ((a0 - a1) / N) * Real.sin (arc_angle a0 a1 N k))
        (y + r * Real.sin (arc_angle a0 a1 N k)
          - r * Bezier_s Real.cos Real.sin ((a0 - a1) / N) * Real.cos (arc_angle a0 a1 N k))
        (x + r * Real.cos (arc_angle a0 a1 N (k + 1))
          - r * Bezier_s Real.cos Real.sin ((a0 - a1) / N)
            * Real.sin (arc_angle a0 a1 N (k + 1)))
        (y + r * Real.sin (arc_angle a0 a1 N (k + 1))
          + r * Bezier_s Real.cos Real.sin ((a0 - a1) / N)
            * Real.cos (arc_angle a0 a1 N (k + 1)))
        (x + r * Real.cos (arc_angle a0 a1 N (k + 1)))
        (y + r * Real.sin (arc_angle a0 a1 N (k + 1))) := by
  have e : arc_angle a0 a1 N (k + 1) = (a0 + (k : ℝ) / N * (a1 - a0)) + -((a0 - a1) / N) := by
    unfold arc_angle
    push_cast
    ring
  have e0 : arc_angle a0 a1 N k = a0 + (k : ℝ) / N * (a1 - a0) := by
    unfold arc_angle
    ring
  rw [e, e0]
  simp only [arcn_curve, Real.cos_add, Real.sin_add, Real.cos_neg, Real.sin_neg]
  congr 1 <;> ring

/-- With the automatic segment count, every segment of a positive span whose count is
within the range of an `int` covers an angle between 0 and a quarter of pi. -/
theorem arc_count_auto_angle (span : ℝ) (h : 0 < span)
    (hb : span / (Real.pi / 8) < 2147483648) :
    0 < span / (arc_count Real.pi span 0 : Nat) ∧
    span / (arc_count Real.pi span 0 : Nat) < Real.pi / 4 := by
  have hpi := Real.pi_pos
  have hq : 0 < span / (Real.pi / 8) := by positivity
  have hc : c_int (span / (Real.pi / 8)) = ⌊span / (Real.pi / 8)⌋ :=
    c_int_floor _ hq.le hb
  have hspan : span = span / (Real.pi / 8) * (Real.pi / 8) := by field_simp
  by_cases h1 : ⌊span / (Real.pi / 8)⌋ < 1
  · have hN : arc_count Real.pi span 0 = 1 := by
      unfold arc_count
      simp only [if_true, hc, if_pos h1]
      rfl
    have hlt : span / (Real.pi / 8) < 1 := by
      have := Int.floor_lt.mp h1
      simpa using this
    rw [hN]
    simp only [Nat.cast_one, div_one]
    refine ⟨h, ?_⟩
    rw [div_lt_iff₀ (by positivity)] at hlt
    linarith
  · have h1' : 1 ≤ ⌊span / (Real.pi / 8)⌋ := not_lt.mp h1
    have hN : ((arc_count Real.pi span 0 : Nat) : Int) = ⌊span / (Real.pi / 8)⌋ := by
      unfold arc_count
      simp only [if_true, hc, if_neg h1]
      omega
    have hNr : ((arc_count Real.pi span 0 : Nat) : ℝ) = (⌊span / (Real.pi / 8)⌋ : ℝ) := by
      exact_mod_cast hN
    have hpos : (1 : ℝ) ≤ (⌊span / (Real.pi / 8)⌋ : ℝ) := by exact_mod_cast h1'
    have hfl : (⌊span / (Real.pi / 8)⌋ : ℝ) ≤ span / (Real.pi / 8) := Int.floor_le _
    have hfu : span / (Real.pi / 8) < (⌊span / (Real.pi / 8)⌋ : ℝ) + 1 := Int.lt_floor_add_one _
    rw [hNr]
    refine ⟨by positivity, ?_⟩
    rw [div_lt_iff₀ (by linarith)]
    rw [div_lt_iff₀ (by positivity)] at hfu
    nlinarith

/-- When the end angle is not below the start angle the normalisation loop of `arc` leaves
it as it is. -/
theorem arc_loop_id (a0 a1 : ℝ) (h : a0 ≤ a1) :
    arc_loop Real.pi (arc_fuel Real.pi (a0 - a1)) a0 a1 = some a1 := by
  unfold arc_fuel
  rw [arc_loop, if_neg (not_lt.mpr h)]

theorem arc_ops_eq (cp : Bool) (x y r a0 a1 a1' : ℝ) (n : Int)
    (h : arc_loop Real.pi (arc_fuel Real.pi (a0 - a1)) a0 a1 = some a1') :
    arc_ops Real.cos Real.sin Real.pi cp x y r a0 a1 n
      = some ((if cp then PathOp.lineto (x + r * Real.cos a0) (y + r * Real.sin a0)
               else PathOp.moveto (x + r * Real.cos a0) (y + r * Real.sin a0))
          :: (List.range (arc_count Real.pi (a1' - a0) n)).map
              (arc_curve Real.cos Real.sin x y r a0 a1' (arc_count Real.pi (a1' - a0) n))) := by
  simp only [arc_ops, h]

theorem arcn_ops_eq (cp : Bool) (x y r a0 a1 a1' : ℝ) (n : Int)
    (h : arcn_loop Real.pi (arc_fuel Real.pi (a1 - a0)) a0 a1 = some a1') :
    arcn_ops Real.cos Real.sin Real.pi cp x y r a0 a1 n
      = some ((if cp then PathOp.lineto (x + r * Real.cos a0) (y + r * Real.sin a0)
               else PathOp.moveto (x + r * Real.cos a0) (y + r * Real.sin a0))
          :: (List.range (arc_count Real.pi (a0 - a1') n)).map
              (arcn_curve Real.cos Real.sin x y r a0 a1' (arc_count Real.pi (a0 - a1') n))) := by
  simp only [arcn_ops, h]

section ArcCalls

variable {α : Type}

/-- The calls of `arc`, once the loop has normalised the end angle to `a1n`: a `lineto` or a
`moveto` to the point at the start angle, then one call per segment. -/
theorem PDF.arc_calls [LinearOrderedField α] [FloorRing α] (L : Libm α) (pdf : PDF α)
    (x y r a0 a1 a1n : α) (n : Int)
    (h : arc_loop L.M_PI (arc_fuel L.M_PI (a0 - a1)) a0 a1 = some a1n) :
    pdf.arc L x y r a0 a1 n
      = ((if pdf.current_point then pdf.lineto L (x + r * L.cos a0) (y + r * L.sin a0)
          else pdf.moveto L (x + r * L.cos a0) (y + r * L.sin a0)) >>= fun p =>
        (List.range (arc_count L.M_PI (a1n - a0) n)).foldlM
          (fun p k => p.path_op L
            (arc_curve L.cos L.sin x y r a0 a1n (arc_count L.M_PI (a1n - a0) n) k)) p) := by
  unfold PDF.arc arc_ops
  simp only [h]
  simp only [List.foldlM_cons, List.foldlM_map]
  cases pdf.current_point <;> rfl

/-- The calls of `arcn`, once the loop has normalised the end angle to `a1n`. -/
theorem PDF.arcn_calls [LinearOrderedField α] [FloorRing α] (L : Libm α) (pdf : PDF α)
    (x y r a0 a1 a1n : α) (n : Int)
    (h : arcn_loop L.M_PI (arc_fuel L.M_PI (a1 - a0)) a0 a1 = some a1n) :
    pdf.arcn L x y r a0 a1 n
      = ((if pdf.current_point then pdf.lineto L (x + r * L.cos a0) (y + r * L.sin a0)
          else pdf.moveto L (x + r * L.cos a0) (y + r * L.sin a0)) >>= fun p =>
        (List.range (arc_count L.M_PI (a0 - a1n) n)).foldlM
          (fun p k => p.path_op L
            (arcn_curve L.cos L.sin x y r a0 a1n (arc_count L.M_PI (a0 - a1n) n) k)) p) := by
  unfold PDF.arcn arcn_ops
  simp only [h]
  simp only [List.foldlM_cons, List.foldlM_map]
  cases pdf.current_point <;> rfl

/-- The calls of `arc` over the reals: after the `lineto` or `moveto` to the point at the
start angle, one `curveto` per segment, with the control points and the end point of the
cubic `arc_segment` between consecutive subdivision angles. -/
theorem PDF.arc_segments (L : Libm ℝ) (hcos : L.cos = Real.cos) (hsin : L.sin = Real.sin)
    (hpi : L.M_PI = Real.pi) (pdf : PDF ℝ) (x y r a0 a1 a1n : ℝ) (n : Int)
    (h : arc_loop Real.pi (arc_fuel Real.pi (a0 - a1)) a0 a1 = some a1n) :
    pdf.arc L x y r a0 a1 n
      = ((if pdf.current_point then pdf.lineto L (x + r * Real.cos a0) (y + r * Real.sin a0)
          else pdf.moveto L (x + r * Real.cos a0) (y + r * Real.sin a0)) >>= fun p =>
        ((List.range (arc_count Real.pi (a1n - a0) n)).map (fun k =>
            arc_segment Real.cos Real.sin x y r
              (r * Bezier_s Real.cos Real.sin
                ((a1n - a0) / (arc_count Real.pi (a1n - a0) n : Nat)))
              (arc_angle a0 a1n (arc_count Real.pi (a1n - a0) n) k)
              (arc_angle a0 a1n (arc_count Real.pi (a1n - a0) n) (k + 1)))).foldlM
          (fun p b => p.curveto L b.p1.1 b.p1.2 b.p2.1 b.p2.2 b.p3.1 b.p3.2) p) := by
  rw [PDF.arc_calls L pdf x y r a0 a1 a1n n (by rw [hpi]; exact h), hcos, hsin, hpi]
  simp only [List.foldlM_map, arc_curve_eq, PDF.path_op, arc_segment]

/-- The calls of `arcn` over the reals: one `curveto` per segment, with the control points
and the end point of the cubic `arc_segment` whose tangent offset is negative. -/
theorem PDF.arcn_segments (L : Libm ℝ) (hcos : L.cos = Real.cos) (hsin : L.sin = Real.sin)
    (hpi : L.M_PI = Real.pi) (pdf : PDF ℝ) (x y r a0 a1 a1n : ℝ) (n : Int)
    (h : arcn_loop Real.pi (arc_fuel Real.pi (a1 - a0)) a0 a1 = some a1n) :
    pdf.arcn L x y r a0 a1 n
      = ((if pdf.current_point then pdf.lineto L (x + r * Real.cos a0) (y + r * Real.sin a0)
          else pdf.moveto L (x + r * Real.cos a0) (y + r * Real.sin a0)) >>= fun p =>
        ((List.range (arc_count Real.pi (a0 - a1n) n)).map (fun k =>
            arc_segment Real.cos Real.sin x y r
              (-(r * Bezier_s Real.cos Real.sin
                ((a0 - a1n) / (arc_count Real.pi (a0 - a1n) n : Nat))))
              (arc_angle a0 a1n (arc_count Real.pi (a0 - a1n) n) k)
              (arc_angle a0 a1n (arc_count Real.pi (a0 - a1n) n) (k + 1)))).foldlM
          (fun p b => p.curveto L b.p1.1 b.p1.2 b.p2.1 b.p2.2 b.p3.1 b.p3.2) p) := by
  rw [PDF.arcn_calls L pdf x y r a0 a1 a1n n (by rw [hpi]; exact h), hcos, hsin, hpi]
  simp only [List.foldlM_map, arcn_curve_eq, PDF.path_op, arc_segment, neg_mul,
    sub_neg_eq_add, sub_eq_add_neg, neg_neg]

end ArcCalls

/-- C8: over the reals, for a centre `(x, y)`, a radius `r > 0`, angles with
`0 < a1 - a0 < 2 pi` and any segment count `n` passed (`N` being the count used: `n` itself
when `n >= 1`, the automatic count `max 1 (floor ((a1 - a0) / (pi / 8)))` when `n = 0`), the
call `arc(x, y, r, a0, a1, n)` on any document is a `lineto` (with a current point) or a
`moveto` (without) to `(x + r cos a0, y + r sin a0)` followed by `N` calls of `curveto`; with
`t j = a0 + j (a1 - a0) / N` and `s = r * Bezier_s((a1 - a0) / N)`, the `curveto` of round `k`
ends at `(x + r cos t (k+1), y + r sin t (k+1))`, its first control point is the point at
angle `t k` (the end point of the cubic before it) moved by `s` along the tangent
`(-sin t k, cos t k)` and its second control point is its own end point moved back by `s`
along the tangent there; every subdivision point is at distance exactly `r` from the centre;
`t 0 = a0` and `t N = a1`; and the divisor `sin ((a1 - a0) / N)` of `Bezier_s` is positive
whenever there is more than one segment or the count is the automatic one. -/
theorem arc_geometry (L : Libm ℝ) (hcos : L.cos = Real.cos) (hsin : L.sin = Real.sin)
    (hpi : L.M_PI = Real.pi) (pdf : PDF ℝ) (x y r a0 a1 : ℝ) (n : Int)
    (hr : 0 < r) (h0 : 0 < a1 - a0) (h1 : a1 - a0 < 2 * Real.pi) :
    1 ≤ arc_count Real.pi (a1 - a0) n
    ∧ (1 ≤ n → (arc_count Real.pi (a1 - a0) n : Int) = n)
    ∧ (n = 0 → (arc_count Real.pi (a1 - a0) n : Int) = max 1 ⌊(a1 - a0) / (Real.pi / 8)⌋)
    ∧ pdf.arc L x y r a0 a1 n
      = ((if pdf.current_point then pdf.lineto L (x + r * Real.cos a0) (y + r * Real.sin a0)
          else pdf.moveto L (x + r * Real.cos a0) (y + r * Real.sin a0)) >>= fun p =>
        (List.range (arc_count Real.pi (a1 - a0) n)).foldlM (fun p k =>
          p.curveto L
            (x + r * Real.cos (arc_angle a0 a1 (arc_count Real.pi (a1 - a0) n) k)
              - r * Bezier_s Real.cos Real.sin
                  ((a1 - a0) / (arc_count Real.pi (a1 - a0) n : Nat))
                * Real.sin (arc_angle a0 a1 (arc_count Real.pi (a1 - a0) n) k))
            (y + r * Real.sin (arc_angle a0 a1 (arc_count Real.pi (a1 - a0) n) k)
              + r * Bezier_s Real.cos Real.sin
                  ((a1 - a0) / (arc_count Real.pi (a1 - a0) n : Nat))
                * Real.cos (arc_angle a0 a1 (arc_count Real.pi (a1 - a0) n) k))
            (x + r * Real.cos (arc_angle a0 a1 (arc_count Real.pi (a1 - a0) n) (k + 1))
              + r * Bezier_s Real.cos Real.sin
                  ((a1 - a0) / (arc_count Real.pi (a1 - a0) n : Nat))
                * Real.sin (arc_angle a0 a1 (arc_count Real.pi (a1 - a0) n) (k + 1)))
            (y + r * Real.sin (arc_angle a0 a1 (arc_count Real.pi (a1 - a0) n) (k + 1))
              - r * Bezier_s Real.cos Real.sin
                  ((a1 - a0) / (arc_count Real.pi (a1 - a0) n : Nat))
                * Real.cos (arc_angle a0 a1 (arc_count Real.pi (a1 - a0) n) (k + 1)))
            (x + r * Real.cos (arc_angle a0 a1 (arc_count Real.pi (a1 - a0) n) (k + 1)))
            (y + r * Real.sin (arc_angle a0 a1 (arc_count Real.pi (a1 - a0) n) (k + 1)))) p)
    ∧ (∀ j : Nat,
        arc_angle a0 a1 (arc_count Real.pi (a1 - a0) n) j
          = a0 + (j : ℝ) * (a1 - a0) / (arc_count Real.pi (a1 - a0) n : Nat)
        ∧ Real.sqrt
          ((x + r * Real.cos (arc_angle a0 a1 (arc_count Real.pi (a1 - a0) n) j) - x) ^ 2
            + (y + r * Real.sin (arc_angle a0 a1 (arc_count Real.pi (a1 - a0) n) j) - y) ^ 2)
          = r)
    ∧ arc_angle a0 a1 (arc_count Real.pi (a1 - a0) n) 0 = a0
    ∧ arc_angle a0 a1 (arc_count Real.pi (a1 - a0) n) (arc_count Real.pi (a1 - a0) n) = a1
    ∧ ((n = 0 ∨ 2 ≤ arc_count Real.pi (a1 - a0) n) →
        0 < Real.sin ((a1 - a0) / (arc_count Real.pi (a1 - a0) n : Nat))) := by
  have hN := arc_count_pos Real.pi (a1 - a0) n
  have hpos := Real.pi_pos
  have hb : (a1 - a0) / (Real.pi / 8) < 2147483648 := by
    rw [div_lt_iff₀ (by positivity)]
    nlinarith
  refine ⟨hN, arc_count_of_pos _ _ n, ?_, ?_, ?_, arc_angle_zero _ _ _,
    arc_angle_last _ _ _ hN, ?_⟩
  · intro hn
    subst hn
    have hq : 0 ≤ (a1 - a0) / (Real.pi / 8) := by positivity
    unfold arc_count
    simp only [if_true, c_int_floor _ hq hb]
    split <;> omega
  · rw [PDF.arc_calls L pdf x y r a0 a1 a1 n
      (by rw [hpi]; exact arc_loop_id a0 a1 (by linarith)), hcos, hsin, hpi]
    simp only [arc_curve_eq, PDF.path_op]
  · intro j
    refine ⟨rfl, ?_⟩
    have h := Real.cos_sq_add_sin_sq (arc_angle a0 a1 (arc_count Real.pi (a1 - a0) n) j)
    have e : (x + r * Real.cos (arc_angle a0 a1 (arc_count Real.pi (a1 - a0) n) j) - x) ^ 2
        + (y + r * Real.sin (arc_angle a0 a1 (arc_count Real.pi (a1 - a0) n) j) - y) ^ 2
        = r ^ 2 := by
      linear_combination r ^ 2 * h
    rw [e]
    exact Real.sqrt_sq hr.le
  · rintro (hn | h2)
    · subst hn
      obtain ⟨ha, hb'⟩ := arc_count_auto_angle (a1 - a0) h0 hb
      exact Real.sin_pos_of_pos_of_lt_pi ha (by linarith [Real.pi_pos])
    · have hNr : (2 : ℝ) ≤ (arc_count Real.pi (a1 - a0) n : Nat) := by exact_mod_cast h2
      have hpos' : (0 : ℝ) < (arc_count Real.pi (a1 - a0) n : Nat) := by linarith
      refine Real.sin_pos_of_pos_of_lt_pi (div_pos h0 hpos') ?_
      rw [div_lt_iff₀ hpos']
      nlinarith [Real.pi_pos]

/-- Witness of C8: the arc of radius 1 about the origin from angle 0 to angle 1 in two
segments, drawn on a new document with the functions of the real numbers. -/
theorem arc_geometry_witness :
    (0 : ℝ) < 1 ∧ (0 : ℝ) < 1 - 0 ∧ (1 : ℝ) - 0 < 2 * Real.pi
    ∧ (arc_count Real.pi ((1 : ℝ) - 0) 2 : Int) = 2
    ∧ (PDF.init "g.pdf" 612 792 : PDF ℝ).arc
          { cos := Real.cos, sin := Real.sin, atan2 := fun b a => Complex.arg ⟨a, b⟩,
            hypot := fun a b => Real.sqrt (a ^ 2 + b ^ 2), M_PI := Real.pi,
            fmt_f := fun _ _ => "" } 0 0 1 0 1 2
      = ((if (PDF.init "g.pdf" 612 792 : PDF ℝ).current_point then
            (PDF.init "g.pdf" 612 792 : PDF ℝ).lineto
              { cos := Real.cos, sin := Real.sin, atan2 := fun b a => Complex.arg ⟨a, b⟩,
                hypot := fun a b => Real.sqrt (a ^ 2 + b ^ 2), M_PI := Real.pi,
                fmt_f := fun _ _ => "" } (0 + 1 * Real.cos 0) (0 + 1 * Real.sin 0)
          else (PDF.init "g.pdf" 612 792 : PDF ℝ).moveto
              { cos := Real.cos, sin := Real.sin, atan2 := fun b a => Complex.arg ⟨a, b⟩,
                hypot := fun a b => Real.sqrt (a ^ 2 + b ^ 2), M_PI := Real.pi,
                fmt_f := fun _ _ => "" } (0 + 1 * Real.cos 0) (0 + 1 * Real.sin 0))
          >>= fun p =>
        (List.range (arc_count Real.pi ((1 : ℝ) - 0) 2)).foldlM (fun p k =>
          p.curveto
            { cos := Real.cos, sin := Real.sin, atan2 := fun b a => Complex.arg ⟨a, b⟩,
              hypot := fun a b => Real.sqrt (a ^ 2 + b ^ 2), M_PI := Real.pi,
              fmt_f := fun _ _ => "" }
            (0 + 1 * Real.cos (arc_angle 0 1 (arc_count Real.pi ((1 : ℝ) - 0) 2) k)
              - 1 * Bezier_s Real.cos Real.sin
                  (((1 : ℝ) - 0) / (arc_count Real.pi ((1 : ℝ) - 0) 2 : Nat))
                * Real.sin (arc_angle 0 1 (arc_count Real.pi ((1 : ℝ) - 0) 2) k))
            (0 + 1 * Real.sin (arc_angle 0 1 (arc_count Real.pi ((1 : ℝ) - 0) 2) k)
              + 1 * Bezier_s Real.cos Real.sin
                  (((1 : ℝ) - 0) / (arc_count Real.pi ((1 : ℝ) - 0) 2 : Nat))
                * Real.cos (arc_angle 0 1 (arc_count Real.pi ((1 : ℝ) - 0) 2) k))
            (0 + 1 * Real.cos (arc_angle 0 1 (arc_count Real.pi ((1 : ℝ) - 0) 2) (k + 1))
              + 1 * Bezier_s Real.cos Real.sin
                  (((1 : ℝ) - 0) / (arc_count Real.pi ((1 : ℝ) - 0) 2 : Nat))
                * Real.sin (arc_angle 0 1 (arc_count Real.pi ((1 : ℝ) - 0) 2) (k + 1)))
            (0 + 1 * Real.sin (arc_angle 0 1 (arc_count Real.pi ((1 : ℝ) - 0) 2) (k + 1))
              - 1 * Bezier_s Real.cos Real.sin
                  (((1 : ℝ) - 0) / (arc_count Real.pi ((1 : ℝ) - 0) 2 : Nat))
                * Real.cos (arc_angle 0 1 (arc_count Real.pi ((1 : ℝ) - 0) 2) (k + 1)))
            (0 + 1 * Real.cos (arc_angle 0 1 (arc_count Real.pi ((1 : ℝ) - 0) 2) (k + 1)))
            (0 + 1 * Real.sin (arc_angle 0 1 (arc_count Real.pi ((1 : ℝ) - 0) 2) (k + 1)))) p)
    ∧ (∀ j : Nat,
        arc_angle 0 1 (arc_count Real.pi ((1 : ℝ) - 0) 2) j
          = 0 + (j : ℝ) * (1 - 0) / (arc_count Real.pi ((1 : ℝ) - 0) 2 : Nat)
        ∧ Real.sqrt
          (((0 : ℝ) + 1 * Real.cos (arc_angle 0 1 (arc_count Real.pi ((1 : ℝ) - 0) 2) j) - 0) ^ 2
            + ((0 : ℝ) + 1 * Real.sin (arc_angle 0 1 (arc_count Real.pi ((1 : ℝ) - 0) 2) j) - 0)
              ^ 2)
          = 1)
    ∧ arc_angle (0 : ℝ) 1 (arc_count Real.pi ((1 : ℝ) - 0) 2)
        (arc_count Real.pi ((1 : ℝ) - 0) 2) = 1 :=
  have h1 : (1 : ℝ) - 0 < 2 * Real.pi := by linarith [Real.pi_gt_three]
  have h := arc_geometry
    { cos := Real.cos, sin := Real.sin, atan2 := fun b a => Complex.arg ⟨a, b⟩,
      hypot := fun a b => Real.sqrt (a ^ 2 + b ^ 2), M_PI := Real.pi, fmt_f := fun _ _ => "" }
    rfl rfl rfl (PDF.init "g.pdf" 612 792) 0 0 1 0 1 2 (by norm_num) (by norm_num) h1
  ⟨by norm_num, by norm_num, h1, h.2.1 (by decide), h.2.2.2.1, h.2.2.2.2.1,
    h.2.2.2.2.2.2.1⟩

section ArcSegments

/-- The segments drawn by a run of `curveto` calls that each start where the one before
ended. -/
theorem segments_from_chain {α : Type} (seg : Nat → Bezier α)
    (hch : ∀ k, (seg (k + 1)).p0 = (seg k).p3) (n : Nat) : ∀ s : Nat,
    segments_from (seg s).p0 ((List.range' s n).map (fun k =>
      PathOp.curveto (seg k).p1.1 (seg k).p1.2 (seg k).p2.1 (seg k).p2.2
        (seg k).p3.1 (seg k).p3.2)) = (List.range' s n).map seg := by
  induction n with
  | zero => intro s; rfl
  | succ n ih =>
    intro s
    have := ih (s + 1)
    rw [hch s] at this
    simp only [List.range'_succ, List.map_cons, segments_from]
    rw [this]

theorem cubic_segments_first {α : Type} (cp : Bool) (x y : α) (rest : List (PathOp α)) :
    cubic_segments ((if cp then PathOp.lineto x y else PathOp.moveto x y) :: rest)
      = segments_from (x, y) rest := by
  cases cp <;> rfl

theorem arc_segment_reverse (x y r s t t1 : ℝ) :
    (arc_segment Real.cos Real.sin x y r s t t1).reverse
      = arc_segment Real.cos Real.sin x y r (-s) t1 t := by
  simp only [arc_segment, Bezier.reverse, neg_mul, sub_eq_add_neg, neg_neg]

/-- The subdivision angles of `arcn(.., a1, a0)` are those of `arc(.., a0, a1)` in reverse
order, less the whole turns of the two normalisation loops. -/
theorem arcn_angle_eq (a0 a1 : ℝ) (K N j m : Nat) (hN : j + m = N) (h1 : 1 ≤ N) :
    arc_angle a1 (a0 - 2 * Real.pi * K) N j
      = arc_angle a0 (a1 + 2 * Real.pi * K) N m - K * (2 * Real.pi) := by
  have hN0 : (N : ℝ) ≠ 0 := by
    have : (1 : ℝ) ≤ N := by exact_mod_cast h1
    linarith
  have hNr : (N : ℝ) = j + m := by exact_mod_cast hN.symm
  unfold arc_angle
  field_simp
  rw [hNr]
  ring

theorem arc_segments_eq (cp : Bool) (x y r a0 a1 a1' : ℝ) (n : Int)
    (h : arc_loop Real.pi (arc_fuel Real.pi (a0 - a1)) a0 a1 = some a1') :
    ∃ pa, arc_ops Real.cos Real.sin Real.pi cp x y r a0 a1 n = some pa ∧
      cubic_segments pa = (List.range (arc_count Real.pi (a1' - a0) n)).map (fun k =>
        arc_segment Real.cos Real.sin x y r
          (r * Bezier_s Real.cos Real.sin ((a1' - a0) / (arc_count Real.pi (a1' - a0) n : Nat)))
          (arc_angle a0 a1' (arc_count Real.pi (a1' - a0) n) k)
          (arc_angle a0 a1' (arc_count Real.pi (a1' - a0) n) (k + 1))) := by
  refine ⟨_, arc_ops_eq cp x y r a0 a1 a1' n h, ?_⟩
  rw [cubic_segments_first, List.range_eq_range']
  have key := segments_from_chain (fun k =>
        arc_segment Real.cos Real.sin x y r
          (r * Bezier_s Real.cos Real.sin ((a1' - a0) / (arc_count Real.pi (a1' - a0) n : Nat)))
          (arc_angle a0 a1' (arc_count Real.pi (a1' - a0) n) k)
          (arc_angle a0 a1' (arc_count Real.pi (a1' - a0) n) (k + 1))) (fun _ => rfl)
        (arc_count Real.pi (a1' - a0) n) 0
  simp only [arc_segment, arc_angle_zero] at key
  simp only [arc_segment]
  rw [← key]
  congr 1
  exact List.map_congr_left (fun k _ => arc_curve_eq x y r a0 a1' _ k)

theorem arcn_segments_eq (cp : Bool) (x y r a0 a1 a1' : ℝ) (n : Int)
    (h : arcn_loop Real.pi (arc_fuel Real.pi (a1 - a0)) a0 a1 = some a1') :
    ∃ pn, arcn_ops Real.cos Real.sin Real.pi cp x y r a0 a1 n = some pn ∧
      cubic_segments pn = (List.range (arc_count Real.pi (a0 - a1') n)).map (fun k =>
        arc_segment Real.cos Real.sin x y r
          (-(r * Bezier_s Real.cos Real.sin
            ((a0 - a1') / (arc_count Real.pi (a0 - a1') n : Nat))))
          (arc_angle a0 a1' (arc_count Real.pi (a0 - a1') n) k)
          (arc_angle a0 a1' (arc_count Real.pi (a0 - a1') n) (k + 1))) := by
  refine ⟨_, arcn_ops_eq cp x y r a0 a1 a1' n h, ?_⟩
  rw [cubic_segments_first, List.range_eq_range']
  have key := segments_from_chain (fun k =>
        arc_segment Real.cos Real.sin x y r
          (-(r * Bezier_s Real.cos Real.sin
            ((a0 - a1') / (arc_count Real.pi (a0 - a1') n : Nat))))
          (arc_angle a0 a1' (arc_count Real.pi (a0 - a1') n) k)
          (arc_angle a0 a1' (arc_count Real.pi (a0 - a1') n) (k + 1))) (fun _ => rfl)
        (arc_count Real.pi (a0 - a1') n) 0
  simp only [arc_segment, arc_angle_zero, neg_mul, sub_eq_add_neg, neg_neg] at key
  simp only [arc_segment, neg_mul, sub_eq_add_neg, neg_neg]
  rw [← key]
  congr 1
  refine List.map_congr_left (fun k _ => ?_)
  rw [arcn_curve_eq]
  simp only [sub_eq_add_neg]

end ArcSegments

section ArcReverse

theorem arc_segment_congr (x y r s t t1 u u1 : ℝ) (hc : Real.cos t = Real.cos u)
    (hs : Real.sin t = Real.sin u) (hc1 : Real.cos t1 = Real.cos u1)
    (hs1 : Real.sin t1 = Real.sin u1) :
    arc_segment Real.cos Real.sin x y r s t t1 = arc_segment Real.cos Real.sin x y r s u u1 := by
  simp only [arc_segment, hc, hs, hc1, hs1]

theorem map_reverse_range {β : Type} (f : Nat → β) (N : Nat) :
    ((List.range N).map f).reverse = (List.range N).map (fun k => f (N - 1 - k)) := by
  rw [← List.map_reverse, List.range_eq_range', List.reverse_range', List.map_map,
    ← List.range_eq_range']
  refine List.map_congr_left (fun k _ => ?_)
  simp

/-- Segment `j` of `arcn(.., a1, a0)` is segment `N - 1 - j` of `arc(.., a0, a1)` reversed;
`K` is the number of whole turns added by the normalisation loop. -/
theorem arcn_segment_eq (x y r s a0 a1 : ℝ) (K N j : Nat) (hj : j < N) :
    arc_segment Real.cos Real.sin x y r (-s)
        (arc_angle a1 (a0 - 2 * Real.pi * K) N j)
        (arc_angle a1 (a0 - 2 * Real.pi * K) N (j + 1))
      = (arc_segment Real.cos Real.sin x y r s
          (arc_angle a0 (a1 + 2 * Real.pi * K) N (N - 1 - j))
          (arc_angle a0 (a1 + 2 * Real.pi * K) N (N - 1 - j + 1))).reverse := by
  rw [arc_segment_reverse]
  have e1 := arcn_angle_eq a0 a1 K N j (N - 1 - j + 1) (by omega) (by omega)
  have e2 := arcn_angle_eq a0 a1 K N (j + 1) (N - 1 - j) (by omega) (by omega)
  apply arc_segment_congr
  · rw [e1, Real.cos_sub_nat_mul_two_pi]
  · rw [e1, Real.sin_sub_nat_mul_two_pi]
  · rw [e2, Real.cos_sub_nat_mul_two_pi]
  · rw [e2, Real.sin_sub_nat_mul_two_pi]

end ArcReverse

/-- C9: over the reals, for every document state of either call, every centre `(x, y)`, every
radius `r` and all angles `a0`, `a1` such that the end angle `a1n` to which the loop of `arc`
normalises `a1` gives a positive span `a1n - a0`: the loop of `arcn(x, y, r, a1, a0, n)`
exits too, with the same span; `arc(x, y, r, a0, a1, n)` is a `lineto` or `moveto` to the
point at angle `a0` followed by one `curveto` (control 1, control 2, end) per cubic of the
list `segs`, whose cubic `k` runs between the subdivision angles `k` and `k + 1` of the span;
`arcn(x, y, r, a1, a0, n)` (same `n`, in particular the default 0) is a `lineto` or `moveto`
to the point at angle `a1` followed by one `curveto` per cubic of the list `segs` reversed,
each cubic with its four Bezier points (start, control 1, control 2, end) reversed. Both lists
have the `N >= 1` cubics chosen for the span; each cubic of `segs` starts where the cubic
before it ends, the first starts at the point at angle `a0` (where `arc` starts the path) and
the last ends at the point at angle `a1` (where `arcn` starts the path). With the automatic
count and a span that gives a count below `2^31`, the divisor `sin` of `Bezier_s` is
positive, so both calls evaluate without a division by zero. -/
theorem arcn_reverses_arc (L : Libm ℝ) (hcos : L.cos = Real.cos) (hsin : L.sin = Real.sin)
    (hpi : L.M_PI = Real.pi) (pdf pdfn : PDF ℝ) (x y r a0 a1 a1n : ℝ) (n : Int)
    (hnorm : arc_loop Real.pi (arc_fuel Real.pi (a0 - a1)) a0 a1 = some a1n)
    (hpos : 0 < a1n - a0) :
    ∃ a0n : ℝ,
      arcn_loop Real.pi (arc_fuel Real.pi (a0 - a1)) a1 a0 = some a0n
      ∧ a1 - a0n = a1n - a0
      ∧ pdf.arc L x y r a0 a1 n
        = ((if pdf.current_point then
              pdf.lineto L (x + r * Real.cos a0) (y + r * Real.sin a0)
            else pdf.moveto L (x + r * Real.cos a0) (y + r * Real.sin a0))
            >>= fun p =>
          ((List.range (arc_count Real.pi (a1n - a0) n)).map (fun k =>
            arc_segment Real.cos Real.sin x y r
              (r * Bezier_s Real.cos Real.sin ((a1n - a0) / ((arc_count Real.pi (a1n - a0) n) : Nat)))
              (arc_angle a0 a1n (arc_count Real.pi (a1n - a0) n) k)
              (arc_angle a0 a1n (arc_count Real.pi (a1n - a0) n) (k + 1)))).foldlM
            (fun p b => p.curveto L b.p1.1 b.p1.2 b.p2.1 b.p2.2 b.p3.1 b.p3.2) p)
      ∧ pdfn.arcn L x y r a1 a0 n
        = ((if pdfn.current_point then
              pdfn.lineto L (x + r * Real.cos a1) (y + r * Real.sin a1)
            else pdfn.moveto L (x + r * Real.cos a1) (y + r * Real.sin a1))
            >>= fun p =>
          (((List.range (arc_count Real.pi (a1n - a0) n)).map (fun k =>
            arc_segment Real.cos Real.sin x y r
              (r * Bezier_s Real.cos Real.sin ((a1n - a0) / ((arc_count Real.pi (a1n - a0) n) : Nat)))
              (arc_angle a0 a1n (arc_count Real.pi (a1n - a0) n) k)
              (arc_angle a0 a1n (arc_count Real.pi (a1n - a0) n) (k + 1)))).reverse.map Bezier.reverse).foldlM
            (fun p b => p.curveto L b.p1.1 b.p1.2 b.p2.1 b.p2.2 b.p3.1 b.p3.2) p)
      ∧ ((List.range (arc_count Real.pi (a1n - a0) n)).map (fun k =>
            arc_segment Real.cos Real.sin x y r
              (r * Bezier_s Real.cos Real.sin ((a1n - a0) / ((arc_count Real.pi (a1n - a0) n) : Nat)))
              (arc_angle a0 a1n (arc_count Real.pi (a1n - a0) n) k)
              (arc_angle a0 a1n (arc_count Real.pi (a1n - a0) n) (k + 1)))).length = (arc_count Real.pi (a1n - a0) n)
      ∧ (((List.range (arc_count Real.pi (a1n - a0) n)).map (fun k =>
            arc_segment Real.cos Real.sin x y r
              (r * Bezier_s Real.cos Real.sin ((a1n - a0) / ((arc_count Real.pi (a1n - a0) n) : Nat)))
              (arc_angle a0 a1n (arc_count Real.pi (a1n - a0) n) k)
              (arc_angle a0 a1n (arc_count Real.pi (a1n - a0) n) (k + 1)))).reverse.map Bezier.reverse).length = (arc_count Real.pi (a1n - a0) n)
      ∧ 1 ≤ (arc_count Real.pi (a1n - a0) n)
      ∧ (∀ k, ((fun k =>
            arc_segment Real.cos Real.sin x y r
              (r * Bezier_s Real.cos Real.sin ((a1n - a0) / ((arc_count Real.pi (a1n - a0) n) : Nat)))
              (arc_angle a0 a1n (arc_count Real.pi (a1n - a0) n) k)
              (arc_angle a0 a1n (arc_count Real.pi (a1n - a0) n) (k + 1))) (k + 1)).p0 = ((fun k =>
            arc_segment Real.cos Real.sin x y r
              (r * Bezier_s Real.cos Real.sin ((a1n - a0) / ((arc_count Real.pi (a1n - a0) n) : Nat)))
              (arc_angle a0 a1n (arc_count Real.pi (a1n - a0) n) k)
              (arc_angle a0 a1n (arc_count Real.pi (a1n - a0) n) (k + 1))) k).p3)
      ∧ ((fun k =>
            arc_segment Real.cos Real.sin x y r
              (r * Bezier_s Real.cos Real.sin ((a1n - a0) / ((arc_count Real.pi (a1n - a0) n) : Nat)))
              (arc_angle a0 a1n (arc_count Real.pi (a1n - a0) n) k)
              (arc_angle a0 a1n (arc_count Real.pi (a1n - a0) n) (k + 1))) 0).p0 = (x + r * Real.cos a0, y + r * Real.sin a0)
      ∧ ((fun k =>
            arc_segment Real.cos Real.sin x y r
              (r * Bezier_s Real.cos Real.sin ((a1n - a0) / ((arc_count Real.pi (a1n - a0) n) : Nat)))
              (arc_angle a0 a1n (arc_count Real.pi (a1n - a0) n) k)
              (arc_angle a0 a1n (arc_count Real.pi (a1n - a0) n) (k + 1))) ((arc_count Real.pi (a1n - a0) n) - 1)).p3
          = (x + r * Real.cos a1, y + r * Real.sin a1)
      ∧ (n = 0 → (a1n - a0) / (Real.pi / 8) < 2147483648 →
          0 < Real.sin ((a1n - a0) / (arc_count Real.pi (a1n - a0) n : Nat))) := by
  have hK := arc_normalise Real.pi a0 a1 Real.pi_pos
  rw [hnorm] at hK
  have ha1 := Option.some.inj hK
  have hn := arcn_normalise Real.pi a1 a0 Real.pi_pos
  have hspan : a1 - (a0 - 2 * Real.pi * (Int.toNat ⌈(a0 - a1) / (2 * Real.pi)⌉ : Nat))
      = a1n - a0 := by
    rw [ha1]
    ring
  have hN := arc_count_pos Real.pi (a1n - a0) n
  have hrev : (List.range (arc_count Real.pi (a1n - a0) n)).map (fun k =>
        arc_segment Real.cos Real.sin x y r
          (-(r * Bezier_s Real.cos Real.sin
            ((a1n - a0) / (arc_count Real.pi (a1n - a0) n : Nat))))
          (arc_angle a1 (a0 - 2 * Real.pi * (Int.toNat ⌈(a0 - a1) / (2 * Real.pi)⌉ : Nat))
            (arc_count Real.pi (a1n - a0) n) k)
          (arc_angle a1 (a0 - 2 * Real.pi * (Int.toNat ⌈(a0 - a1) / (2 * Real.pi)⌉ : Nat))
            (arc_count Real.pi (a1n - a0) n) (k + 1)))
      = ((List.range (arc_count Real.pi (a1n - a0) n)).map (fun k =>
            arc_segment Real.cos Real.sin x y r
              (r * Bezier_s Real.cos Real.sin
                ((a1n - a0) / (arc_count Real.pi (a1n - a0) n : Nat)))
              (arc_angle a0 a1n (arc_count Real.pi (a1n - a0) n) k)
              (arc_angle a0 a1n (arc_count Real.pi (a1n - a0) n) (k + 1)))).reverse.map
          Bezier.reverse := by
    rw [map_reverse_range, List.map_map]
    refine List.map_congr_left (fun j hj => ?_)
    have hj' : j < arc_count Real.pi (a1n - a0) n := List.mem_range.mp hj
    simp only [Function.comp]
    rw [ha1]
    rw [ha1] at hj'
    exact arcn_segment_eq x y r _ a0 a1 _ _ j hj'
  refine ⟨_, hn, hspan, PDF.arc_segments L hcos hsin hpi pdf x y r a0 a1 a1n n hnorm, ?_,
    by simp, by simp, hN, fun _ => rfl, ?_, ?_, ?_⟩
  · rw [PDF.arcn_segments L hcos hsin hpi pdfn x y r a1 a0 _ n hn, hspan, hrev]
  · simp only [arc_segment, arc_angle_zero]
  · have e : arc_count Real.pi (a1n - a0) n - 1 + 1 = arc_count Real.pi (a1n - a0) n := by
      omega
    simp only [arc_segment, e, arc_angle_last _ _ _ hN]
    have e2 : a1 + 2 * Real.pi * (Int.toNat ⌈(a0 - a1) / (2 * Real.pi)⌉ : Nat)
        = a1 + (Int.toNat ⌈(a0 - a1) / (2 * Real.pi)⌉ : Nat) * (2 * Real.pi) := by ring
    rw [ha1, e2, Real.cos_add_nat_mul_two_pi, Real.sin_add_nat_mul_two_pi]
  · intro h0 hb
    subst h0
    obtain ⟨ha, hb'⟩ := arc_count_auto_angle (a1n - a0) hpos hb
    exact Real.sin_pos_of_pos_of_lt_pi ha (by linarith [Real.pi_pos])

/-- Witness of C9: the arc about the origin with radius 1 from angle 0 to angle 1, automatic
segment count, both calls on a new document with the functions of the real numbers. -/
theorem arcn_reverses_arc_witness :
    arc_loop Real.pi (arc_fuel Real.pi ((0 : ℝ) - 1)) 0 1 = some 1 ∧ (0 : ℝ) < 1 - 0
    ∧ ∃ a0n : ℝ,
      arcn_loop Real.pi (arc_fuel Real.pi ((0 : ℝ) - 1)) 1 0 = some a0n
      ∧ 1 - a0n = (1 : ℝ) - 0
      ∧ (PDF.init "g.pdf" 612 792 : PDF ℝ).arc 
          { cos := Real.cos, sin := Real.sin, atan2 := fun b a => Complex.arg ⟨a, b⟩,
            hypot := fun a b => Real.sqrt (a ^ 2 + b ^ 2), M_PI := Real.pi, fmt_f := fun _ _ => "" }
          (0 : ℝ) (0 : ℝ) (1 : ℝ) (0 : ℝ) (1 : ℝ) 0
        = ((if (PDF.init "g.pdf" 612 792 : PDF ℝ).current_point then
              (PDF.init "g.pdf" 612 792 : PDF ℝ).lineto 
          { cos := Real.cos, sin := Real.sin, atan2 := fun b a => Complex.arg ⟨a, b⟩,
            hypot := fun a b => Real.sqrt (a ^ 2 + b ^ 2), M_PI := Real.pi, fmt_f := fun _ _ => "" }
          ((0 : ℝ) + (1 : ℝ) * Real.cos (0 : ℝ)) ((0 : ℝ) + (1 : ℝ) * Real.sin (0 : ℝ))
            else (PDF.init "g.pdf" 612 792 : PDF ℝ).moveto 
          { cos := Real.cos, sin := Real.sin, atan2 := fun b a => Complex.arg ⟨a, b⟩,
            hypot := fun a b => Real.sqrt (a ^ 2 + b ^ 2), M_PI := Real.pi, fmt_f := fun _ _ => "" }
          ((0 : ℝ) + (1 : ℝ) * Real.cos (0 : ℝ)) ((0 : ℝ) + (1 : ℝ) * Real.sin (0 : ℝ)))
            >>= fun p =>
          ((List.range (arc_count Real.pi ((1 : ℝ) - (0 : ℝ)) 0)).map (fun k =>
            arc_segment Real.cos Real.sin (0 : ℝ) (0 : ℝ) (1 : ℝ)
              ((1 : ℝ) * Bezier_s Real.cos Real.sin (((1 : ℝ) - (0 : ℝ)) / ((arc_count Real.pi ((1 : ℝ) - (0 : ℝ)) 0) : Nat)))
              (arc_angle (0 : ℝ) (1 : ℝ) (arc_count Real.pi ((1 : ℝ) - (0 : ℝ)) 0) k)
              (arc_angle (0 : ℝ) (1 : ℝ) (arc_count Real.pi ((1 : ℝ) - (0 : ℝ)) 0) (k + 1)))).foldlM
            (fun p b => p.curveto 
          { cos := Real.cos, sin := Real.sin, atan2 := fun b a => Complex.arg ⟨a, b⟩,
            hypot := fun a b => Real.sqrt (a ^ 2 + b ^ 2), M_PI := Real.pi, fmt_f := fun _ _ => "" }
          b.p1.1 b.p1.2 b.p2.1 b.p2.2 b.p3.1 b.p3.2) p)
      ∧ (PDF.init "g.pdf" 612 792 : PDF ℝ).arcn 
          { cos := Real.cos, sin := Real.sin, atan2 := fun b a => Complex.arg ⟨a, b⟩,
            hypot := fun a b => Real.sqrt (a ^ 2 + b ^ 2), M_PI := Real.pi, fmt_f := fun _ _ => "" }
          (0 : ℝ) (0 : ℝ) (1 : ℝ) (1 : ℝ) (0 : ℝ) 0
        = ((if (PDF.init "g.pdf" 612 792 : PDF ℝ).current_point then
              (PDF.init "g.pdf" 612 792 : PDF ℝ).lineto 
          { cos := Real.cos, sin := Real.sin, atan2 := fun b a => Complex.arg ⟨a, b⟩,
            hypot := fun a b => Real.sqrt (a ^ 2 + b ^ 2), M_PI := Real.pi, fmt_f := fun _ _ => "" }
          ((0 : ℝ) + (1 : ℝ) * Real.cos (1 : ℝ)) ((0 : ℝ) + (1 : ℝ) * Real.sin (1 : ℝ))
            else (PDF.init "g.pdf" 612 792 : PDF ℝ).moveto 
          { cos := Real.cos, sin := Real.sin, atan2 := fun b a => Complex.arg ⟨a, b⟩,
            hypot := fun a b => Real.sqrt (a ^ 2 + b ^ 2), M_PI := Real.pi, fmt_f := fun _ _ => "" }
          ((0 : ℝ) + (1 : ℝ) * Real.cos (1 : ℝ)) ((0 : ℝ) + (1 : ℝ) * Real.sin (1 : ℝ)))
            >>= fun p =>
          (((List.range (arc_count Real.pi ((1 : ℝ) - (0 : ℝ)) 0)).map (fun k =>
            arc_segment Real.cos Real.sin (0 : ℝ) (0 : ℝ) (1 : ℝ)
              ((1 : ℝ) * Bezier_s Real.cos Real.sin (((1 : ℝ) - (0 : ℝ)) / ((arc_count Real.pi ((1 : ℝ) - (0 : ℝ)) 0) : Nat)))
              (arc_angle (0 : ℝ) (1 : ℝ) (arc_count Real.pi ((1 : ℝ) - (0 : ℝ)) 0) k)
              (arc_angle (0 : ℝ) (1 : ℝ) (arc_count Real.pi ((1 : ℝ) - (0 : ℝ)) 0) (k + 1)))).reverse.map Bezier.reverse).foldlM
            (fun p b => p.curveto 
          { cos := Real.cos, sin := Real.sin, atan2 := fun b a => Complex.arg ⟨a, b⟩,
            hypot := fun a b => Real.sqrt (a ^ 2 + b ^ 2), M_PI := Real.pi, fmt_f := fun _ _ => "" }
          b.p1.1 b.p1.2 b.p2.1 b.p2.2 b.p3.1 b.p3.2) p)
      ∧ ((List.range (arc_count Real.pi ((1 : ℝ) - (0 : ℝ)) 0)).map (fun k =>
            arc_segment Real.cos Real.sin (0 : ℝ) (0 : ℝ) (1 : ℝ)
              ((1 : ℝ) * Bezier_s Real.cos Real.sin (((1 : ℝ) - (0 : ℝ)) / ((arc_count Real.pi ((1 : ℝ) - (0 : ℝ)) 0) : Nat)))
              (arc_angle (0 : ℝ) (1 : ℝ) (arc_count Real.pi ((1 : ℝ) - (0 : ℝ)) 0) k)
              (arc_angle (0 : ℝ) (1 : ℝ) (arc_count Real.pi ((1 : ℝ) - (0 : ℝ)) 0) (k + 1)))).length = (arc_count Real.pi ((1 : ℝ) - (0 : ℝ)) 0)
      ∧ (((List.range (arc_count Real.pi ((1 : ℝ) - (0 : ℝ)) 0)).map (fun k =>
            arc_segment Real.cos Real.sin (0 : ℝ) (0 : ℝ) (1 : ℝ)
              ((1 : ℝ) * Bezier_s Real.cos Real.sin (((1 : ℝ) - (0 : ℝ)) / ((arc_count Real.pi ((1 : ℝ) - (0 : ℝ)) 0) : Nat)))
              (arc_angle (0 : ℝ) (1 : ℝ) (arc_count Real.pi ((1 : ℝ) - (0 : ℝ)) 0) k)
              (arc_angle (0 : ℝ) (1 : ℝ) (arc_count Real.pi ((1 : ℝ) - (0 : ℝ)) 0) (k + 1)))).reverse.map Bezier.reverse).length = (arc_count Real.pi ((1 : ℝ) - (0 : ℝ)) 0)
      ∧ 1 ≤ (arc_count Real.pi ((1 : ℝ) - (0 : ℝ)) 0)
      ∧ (∀ k, ((fun k =>
            arc_segment Real.cos Real.sin (0 : ℝ) (0 : ℝ) (1 : ℝ)
              ((1 : ℝ) * Bezier_s Real.cos Real.sin (((1 : ℝ) - (0 : ℝ)) / ((arc_count Real.pi ((1 : ℝ) - (0 : ℝ)) 0) : Nat)))
              (arc_angle (0 : ℝ) (1 : ℝ) (arc_count Real.pi ((1 : ℝ) - (0 : ℝ)) 0) k)
              (arc_angle (0 : ℝ) (1 : ℝ) (arc_count Real.pi ((1 : ℝ) - (0 : ℝ)) 0) (k + 1))) (k + 1)).p0 = ((fun k =>
            arc_segment Real.cos Real.sin (0 : ℝ) (0 : ℝ) (1 : ℝ)
              ((1 : ℝ) * Bezier_s Real.cos Real.sin (((1 : ℝ) - (0 : ℝ)) / ((arc_count Real.pi ((1 : ℝ) - (0 : ℝ)) 0) : Nat)))
              (arc_angle (0 : ℝ) (1 : ℝ) (arc_count Real.pi ((1 : ℝ) - (0 : ℝ)) 0) k)
              (arc_angle (0 : ℝ) (1 : ℝ) (arc_count Real.pi ((1 : ℝ) - (0 : ℝ)) 0) (k + 1))) k).p3)
      ∧ ((fun k =>
            arc_segment Real.cos Real.sin (0 : ℝ) (0 : ℝ) (1 : ℝ)
              ((1 : ℝ) * Bezier_s Real.cos Real.sin (((1 : ℝ) - (0 : ℝ)) / ((arc_count Real.pi ((1 : ℝ) - (0 : ℝ)) 0) : Nat)))
              (arc_angle (0 : ℝ) (1 : ℝ) (arc_count Real.pi ((1 : ℝ) - (0 : ℝ)) 0) k)
              (arc_angle (0 : ℝ) (1 : ℝ) (arc_count Real.pi ((1 : ℝ) - (0 : ℝ)) 0) (k + 1))) 0).p0 = ((0 : ℝ) + (1 : ℝ) * Real.cos (0 : ℝ), (0 : ℝ) + (1 : ℝ) * Real.sin (0 : ℝ))
      ∧ ((fun k =>
            arc_segment Real.cos Real.sin (0 : ℝ) (0 : ℝ) (1 : ℝ)
              ((1 : ℝ) * Bezier_s Real.cos Real.sin (((1 : ℝ) - (0 : ℝ)) / ((arc_count Real.pi ((1 : ℝ) - (0 : ℝ)) 0) : Nat)))
              (arc_angle (0 : ℝ) (1 : ℝ) (arc_count Real.pi ((1 : ℝ) - (0 : ℝ)) 0) k)
              (arc_angle (0 : ℝ) (1 : ℝ) (arc_count Real.pi ((1 : ℝ) - (0 : ℝ)) 0) (k + 1))) ((arc_count Real.pi ((1 : ℝ) - (0 : ℝ)) 0) - 1)).p3
          = ((0 : ℝ) + (1 : ℝ) * Real.cos (1 : ℝ), (0 : ℝ) + (1 : ℝ) * Real.sin (1 : ℝ))
      ∧ ((0 : Int) = 0 → ((1 : ℝ) - 0) / (Real.pi / 8) < 2147483648 →
          0 < Real.sin (((1 : ℝ) - 0) / (arc_count Real.pi ((1 : ℝ) - 0) 0 : Nat))) :=
  ⟨arc_loop_id 0 1 (by norm_num), by norm_num,
    arcn_reverses_arc
      { cos := Real.cos, sin := Real.sin, atan2 := fun b a => Complex.arg ⟨a, b⟩,
        hypot := fun a b => Real.sqrt (a ^ 2 + b ^ 2), M_PI := Real.pi, fmt_f := fun _ _ => "" }
      rfl rfl rfl (PDF.init "g.pdf" 612 792) (PDF.init "g.pdf" 612 792) 0 0 1 0 1 1 0
      (arc_loop_id 0 1 (by norm_num)) (by norm_num)⟩

/-! ## The page stream: claim C18 -/

section Stream

/-- The growth loop of `append`: with a capacity of at least 2 and less than `2^31` bytes
needed, it returns after the least number of doublings that makes room. -/
theorem append_loop_spec (n : Nat) (hn : n + 2 < 2 ^ 31) :
    ∀ (fuel : Nat) (s : PDFStream) (len : Nat), s.text_len + len = n → 2 ≤ s.size →
      s.size < 2 ^ 32 → n + 2 < s.size * 2 ^ fuel →
      ∃ j, PDFStream.append_loop (fuel + 1) s len = some { s with size := s.size * 2 ^ j }
        ∧ n + 2 < s.size * 2 ^ j ∧ s.size * 2 ^ j < 2 ^ 32
        ∧ ∀ i, i < j → ¬ (n + 2 < s.size * 2 ^ i) := by
  intro fuel
  induction fuel with
  | zero =>
    intro s len hlen h2 h32 hfuel
    refine ⟨0, ?_, by simpa using hfuel, by simpa using h32, fun i hi => absurd hi (by omega)⟩
    have hmod : (s.text_len + len) % 2 ^ 32 = n := by
      rw [hlen]
      exact Nat.mod_eq_of_lt (by omega)
    have hsz : PDFStream.size_minus_2 s.size = s.size - 2 := by
      unfold PDFStream.size_minus_2
      rw [if_pos h2]
    have hfuel' : n + 2 < s.size := by simpa using hfuel
    rw [PDFStream.append_loop, hmod, hsz, if_neg (by omega)]
    simp
  | succ fuel ih =>
    intro s len hlen h2 h32 hfuel
    have hmod : (s.text_len + len) % 2 ^ 32 = n := by
      rw [hlen]
      exact Nat.mod_eq_of_lt (by omega)
    have hsz : PDFStream.size_minus_2 s.size = s.size - 2 := by
      unfold PDFStream.size_minus_2
      rw [if_pos h2]
    by_cases hroom : n + 2 < s.size
    · refine ⟨0, ?_, by simpa using hroom, by simpa using h32,
        fun i hi => absurd hi (by omega)⟩
      rw [PDFStream.append_loop, hmod, hsz, if_neg (by omega)]
      simp
    · have hsmall : s.size ≤ n + 2 := by omega
      have hgrow : s.grow 0 = { s with size := 2 * s.size } := by
        unfold PDFStream.grow
        have : (2 * s.size) % 2 ^ 32 = 2 * s.size := Nat.mod_eq_of_lt (by omega)
        simp only [if_true, this]
        rw [if_neg (by omega)]
      have hpow : s.size * 2 ^ (fuel + 1) = (2 * s.size) * 2 ^ fuel := by
        rw [pow_succ]
        ring
      obtain ⟨j, hj, hj1, hj2, hj3⟩ := ih { s with size := 2 * s.size } len hlen
        (by show 2 ≤ 2 * s.size; omega) (by show 2 * s.size < 2 ^ 32; omega)
        (by show n + 2 < (2 * s.size) * 2 ^ fuel; rw [← hpow]; exact hfuel)
      have hpj : s.size * 2 ^ (j + 1) = (2 * s.size) * 2 ^ j := by
        rw [pow_succ]
        ring
      refine ⟨j + 1, ?_, by rw [hpj]; exact hj1, by rw [hpj]; exact hj2, ?_⟩
      · rw [PDFStream.append_loop, hmod, hsz, if_pos (by omega), hgrow, hj, hpj]
      · intro i hi
        cases i with
        | zero => simpa using hroom
        | succ i =>
          have := hj3 i (by omega)
          have hpi : s.size * 2 ^ (i + 1) = (2 * s.size) * 2 ^ i := by
            rw [pow_succ]
            ring
          rw [hpi]
          exact this

/-- In a stream whose capacity is `2^31` and whose contents are two bytes short of it, the
growth loop finds no room for any line and never exits: doubling the capacity wraps to 0. -/
theorem append_loop_stuck (len : Nat) (hlen : len < 2 ^ 31) :
    ∀ (fuel : Nat) (s : PDFStream), s.size = 2 ^ 31 → s.text_len = 2 ^ 31 - 2 →
      PDFStream.append_loop fuel s len = none := by
  intro fuel
  induction fuel with
  | zero => intro s _ _; rfl
  | succ fuel ih =>
    intro s hs ht
    have hgrow : s.grow 0 = s := by
      unfold PDFStream.grow
      simp only [if_true, hs]
      rw [if_pos (by norm_num)]
    have hmod : (s.text_len + len) % 2 ^ 32 = 2 ^ 31 - 2 + len := by
      rw [ht]
      exact Nat.mod_eq_of_lt (by omega)
    have hsz : PDFStream.size_minus_2 s.size = 2 ^ 31 - 2 := by
      unfold PDFStream.size_minus_2
      rw [hs, if_pos (by norm_num)]
    rw [PDFStream.append_loop, hmod, hsz, if_pos (by omega), hgrow]
    exact ih s hs ht

end Stream

/-- C18, counterexample: a stream of capacity `2^31` holding `2^31 - 2` characters satisfies
`text_len + 1 < size`, yet `append` of the empty string does not terminate: the test
`unsigned(text_len + 0) >= size - 2` holds, `grow` computes `2 * size = 0` in `unsigned`
arithmetic and returns without growing, so the loop never exits. -/
theorem append_full_stream_hangs :
    (2 ^ 31 - 2 : Nat) + 1 < 2 ^ 31
    ∧ PDFStream.append
        { text := String.mk (List.replicate (2 ^ 31 - 2) 'x'), text_len := 2 ^ 31 - 2,
          size := 2 ^ 31 } "" = none := by
  refine ⟨by norm_num, ?_⟩
  unfold PDFStream.append
  simp only
  rw [append_loop_stuck _ (by norm_num) 33 _ rfl rfl]

/-- C18, amended: for every stream state with `text_len + 1 < size < 2^32` and every string
`src` with `text_len + |src| + 2 < 2^31`, `append` terminates; the contents become the old
contents followed by `src` and one newline, the length grows by `|src| + 1` (and stays the
length of the contents), `text_len + 1 < size` still holds, and the capacity becomes
`size * 2^j` for the least `j` with `text_len + |src| + 2 < size * 2^j`, still below `2^32`. -/
theorem append_spec (s : PDFStream) (src : String) (h1 : s.text_len + 1 < s.size)
    (h2 : s.size < 2 ^ 32) (h3 : s.text_len + src.length + 2 < 2 ^ 31) :
    ∃ (s1 : PDFStream) (j : Nat), s.append src = some s1
      ∧ s1.text = s.text ++ src ++ "\n"
      ∧ s1.text_len = s.text_len + src.length + 1
      ∧ (s.text_len = s.text.length → s1.text_len = s1.text.length)
      ∧ s1.text_len + 1 < s1.size
      ∧ s1.size = s.size * 2 ^ j
      ∧ s.text_len + src.length + 2 < s.size * 2 ^ j
      ∧ (∀ i, i < j → ¬ (s.text_len + src.length + 2 < s.size * 2 ^ i))
      ∧ s1.size < 2 ^ 32 := by
  have hfuel : s.text_len + src.length + 2 < s.size * 2 ^ 32 := by
    have : s.size * 2 ≤ s.size * 2 ^ 32 := Nat.mul_le_mul_left _ (by norm_num)
    omega
  obtain ⟨j, hj, hj1, hj2, hj3⟩ :=
    append_loop_spec (s.text_len + src.length) h3 32 s src.length rfl (by omega) h2 hfuel
  refine ⟨{ text := s.text ++ src ++ "\n", text_len := s.text_len + src.length + 1,
            size := s.size * 2 ^ j }, j, ?_, rfl, rfl, ?_, ?_, rfl, hj1, hj3, hj2⟩
  · unfold PDFStream.append
    simp only [hj]
  · intro h
    show s.text_len + src.length + 1 = (s.text ++ src ++ "\n").length
    rw [String.length_append, String.length_append, h]
    rfl
  · show s.text_len + src.length + 1 + 1 < s.size * 2 ^ j
    omega

/-- Witness of C18: the line `BT` appended to the empty stream of a new page. -/
theorem append_spec_witness :
    (PDFStream.init 1024).text_len + 1 < (PDFStream.init 1024).size
    ∧ (PDFStream.init 1024).size < 2 ^ 32
    ∧ (PDFStream.init 1024).text_len + ("BT").length + 2 < 2 ^ 31
    ∧ ∃ (s1 : PDFStream) (j : Nat), (PDFStream.init 1024).append "BT" = some s1
      ∧ s1.text = (PDFStream.init 1024).text ++ "BT" ++ "\n"
      ∧ s1.text_len = (PDFStream.init 1024).text_len + ("BT").length + 1
      ∧ ((PDFStream.init 1024).text_len = (PDFStream.init 1024).text.length →
          s1.text_len = s1.text.length)
      ∧ s1.text_len + 1 < s1.size
      ∧ s1.size = (PDFStream.init 1024).size * 2 ^ j
      ∧ (PDFStream.init 1024).text_len + ("BT").length + 2 < (PDFStream.init 1024).size * 2 ^ j
      ∧ (∀ i, i < j →
          ¬ ((PDFStream.init 1024).text_len + ("BT").length + 2
              < (PDFStream.init 1024).size * 2 ^ i))
      ∧ s1.size < 2 ^ 32 :=
  ⟨by decide, by decide, by decide,
    append_spec (PDFStream.init 1024) "BT" (by decide) (by decide) (by decide)⟩

section StreamAppend

theorem append_loop_keeps : ∀ (fuel : Nat) (s : PDFStream) (len : Nat) (s1 : PDFStream),
    PDFStream.append_loop fuel s len = some s1 →
      s1.text = s.text ∧ s1.text_len = s.text_len ∧ s.size ≤ s1.size := by
  intro fuel
  induction fuel with
  | zero => intro s len s1 h; simp [PDFStream.append_loop] at h
  | succ fuel ih =>
    intro s len s1 h
    rw [PDFStream.append_loop] at h
    split at h
    · obtain ⟨h1, h2, h3⟩ := ih _ _ _ h
      have hg : (s.grow 0).text = s.text ∧ (s.grow 0).text_len = s.text_len
          ∧ s.size ≤ (s.grow 0).size := by
        unfold PDFStream.grow
        simp only [if_true]
        by_cases hc : (2 * s.size) % 2 ^ 32 < s.size
        · rw [if_pos hc]
          exact ⟨rfl, rfl, le_refl _⟩
        · rw [if_neg hc]
          exact ⟨rfl, rfl, not_lt.mp hc⟩
      exact ⟨h1.trans hg.1, h2.trans hg.2.1, le_trans hg.2.2 h3⟩
    · cases h
      exact ⟨rfl, rfl, le_refl _⟩

/-- Whenever `PDFStream::append` returns, the new contents are the old contents, the source
and one newline, the length field has grown by the length of the source plus one, and the
capacity has not shrunk. -/
theorem append_some {s s1 : PDFStream} {src : String} (h : s.append src = some s1) :
    s1.text = s.text ++ src ++ "\n" ∧ s1.text_len = s.text_len + src.length + 1
      ∧ s.size ≤ s1.size := by
  unfold PDFStream.append at h
  simp only at h
  cases hl : PDFStream.append_loop 33 s src.length with
  | none => rw [hl] at h; cases h
  | some s0 =>
    rw [hl] at h
    obtain ⟨h1, h2, h3⟩ := append_loop_keeps _ _ _ _ hl
    cases h
    exact ⟨by simp only [h1], by simp only [h2], h3⟩

/-- A stream with room for the line takes it. -/
theorem append_of_room (s : PDFStream) (src : String) (h : s.has_room src.length) :
    ∃ s1, s.append src = some s1 := by
  have h1 : s.text_len + 1 < s.size := h.1
  have h2 : s.size < 2 ^ 32 := h.2.1
  have h3 : s.text_len + src.length + 2 < 2 ^ 31 := h.2.2
  have hfuel : s.text_len + src.length + 2 < s.size * 2 ^ 32 := by
    have : s.size * 2 ≤ s.size * 2 ^ 32 := Nat.mul_le_mul_left _ (by norm_num)
    omega
  obtain ⟨j, hj, _⟩ :=
    append_loop_spec (s.text_len + src.length) h3 32 s src.length rfl (by omega) h2 hfuel
  refine ⟨{ text := s.text ++ src ++ "\n", text_len := s.text_len + src.length + 1,
            size := s.size * 2 ^ j }, ?_⟩
  unfold PDFStream.append
  simp only [hj]

end StreamAppend

/-! ## Painting operators: claim C15 -/

section Paint

variable {α : Type}

theorem paint_effect (pdf : PDF α) (c : String) :
    (∀ s, (pdf.pages pdf.page).stream.append c = some s →
      (pdf.append c >>= fun q => pure { q with current_point := false })
        = .ok { pdf with
                  pages := Function.update pdf.pages pdf.page
                    { pdf.pages pdf.page with stream := s },
                  current_point := false }
      ∧ s.text = (pdf.pages pdf.page).stream.text ++ c ++ "\n"
      ∧ s.text_len = (pdf.pages pdf.page).stream.text_len + c.length + 1)
    ∧ ((pdf.pages pdf.page).stream.append c = none →
        (pdf.append c >>= fun q => pure { q with current_point := false })
          = .error Halt.hang)
    ∧ ((pdf.pages pdf.page).stream.has_room c.length →
        ∃ s, (pdf.pages pdf.page).stream.append c = some s) := by
  refine ⟨fun s hs => ⟨?_, (append_some hs).1, (append_some hs).2.1⟩, fun hn => ?_,
    append_of_room _ _⟩
  · unfold PDF.append
    rw [hs]
    rfl
  · unfold PDF.append
    rw [hn]
    rfl

end Paint

/-- C15: for each of `fill`, `eofill`, `stroke`, `fill_stroke`, `eofill_stroke`,
`closepath_stroke`, `closepath_fill_stroke` and `closepath_eofill_stroke`, with its operator
`c`, and in every state: whenever the stream of the current page takes the line (which it
does whenever it has room for it), the call returns the document in which that stream has
grown by exactly the line `c` and a newline and `current_point` is 0, every other field,
every other page and the annotation of the current page being as before; the only other
outcome is that the growth loop of the stream never exits. -/
theorem paint_clears_current_point {α : Type} (pdf : PDF α)
    (op : PDF α → Except Halt (PDF α)) (c : String) (hop : (op, c) ∈ paint_ops) :
    (∀ s, (pdf.pages pdf.page).stream.append c = some s →
      op pdf = .ok { pdf with
                      pages := Function.update pdf.pages pdf.page
                        { pdf.pages pdf.page with stream := s },
                      current_point := false }
      ∧ s.text = (pdf.pages pdf.page).stream.text ++ c ++ "\n"
      ∧ s.text_len = (pdf.pages pdf.page).stream.text_len + c.length + 1)
    ∧ ((pdf.pages pdf.page).stream.append c = none → op pdf = .error Halt.hang)
    ∧ ((pdf.pages pdf.page).stream.has_room c.length →
        ∃ s, (pdf.pages pdf.page).stream.append c = some s) := by
  simp only [paint_ops, List.mem_cons, Prod.mk.injEq, List.mem_singleton, List.mem_nil_iff,
    or_false] at hop
  rcases hop with h | h | h | h | h | h | h | h <;> obtain ⟨rfl, rfl⟩ := h <;>
    exact paint_effect pdf _

/-- Witness of C15: `fill` on a new letter-size document over `ℚ`. -/
theorem paint_clears_current_point_witness :
    ((PDF.fill, "f") : (PDF ℚ → Except Halt (PDF ℚ)) × String) ∈ paint_ops
    ∧ ∃ s, ((PDF.init "graph.pdf" 612 792 : PDF ℚ).pages 0).stream.append "f" = some s
      ∧ PDF.fill (PDF.init "graph.pdf" 612 792 : PDF ℚ)
        = .ok { (PDF.init "graph.pdf" 612 792 : PDF ℚ) with
                  pages := Function.update (PDF.init "graph.pdf" 612 792 : PDF ℚ).pages 0
                    { (PDF.init "graph.pdf" 612 792 : PDF ℚ).pages 0 with stream := s },
                  current_point := false }
      ∧ s.text = "" ++ "f" ++ "\n" := by
  have h := paint_clears_current_point (PDF.init "graph.pdf" 612 792 : PDF ℚ) PDF.fill "f"
    (by simp [paint_ops])
  obtain ⟨s, hs⟩ := h.2.2 ⟨by decide, by decide, by decide⟩
  exact ⟨by simp [paint_ops], s, hs, (h.1 s hs).1, (h.1 s hs).2.1⟩

/-! ## Text objects: claims C16 and C17 -/

/-- C16, the code at the failing input: after `selectfont(ZapfDingbats, 10)` on a new
document the current font is index 13; `begin_text()` then passes that index to `selectfont`
as if it were a font number, `font_index(13)` is 12, so the `Tf` line names `/F12` (Symbol),
font 12 is marked as used and the current font becomes 12. -/
theorem begin_text_zapf_dingbats :
    ∃ p q : PDF ℚ,
      PDF.run Libm.rat (PDF.init "graph.pdf" 612 792) [Op.selectfont 16 10] = .ok p
      ∧ p.font = 13 ∧ p.font_scale = 10 ∧ p.fonts 12 = false
      ∧ PDF.run Libm.rat p [Op.begin_text] = .ok q
      ∧ (q.pages 0).stream.text = "BT\n/F12 10 Tf\n"
      ∧ q.font = 12 ∧ q.font_scale = 10 ∧ q.fonts 12 = true ∧ q.text = true :=
  ⟨_, _, rfl, rfl, rfl, rfl, rfl, rfl, rfl, rfl, rfl, rfl⟩

section ShowText

variable {α : Type}

/-- The three outcomes of `PDF::append`. -/
theorem PDF.append_effect (pdf : PDF α) (c : String) :
    (∀ s, (pdf.pages pdf.page).stream.append c = some s →
      pdf.append c
        = .ok { pdf with
                  pages := Function.update pdf.pages pdf.page
                    { pdf.pages pdf.page with stream := s } }
      ∧ s.text = (pdf.pages pdf.page).stream.text ++ c ++ "\n"
      ∧ s.text_len = (pdf.pages pdf.page).stream.text_len + c.length + 1)
    ∧ ((pdf.pages pdf.page).stream.append c = none → pdf.append c = .error Halt.hang)
    ∧ ((pdf.pages pdf.page).stream.has_room c.length →
        ∃ s, (pdf.pages pdf.page).stream.append c = some s) := by
  refine ⟨fun s hs => ⟨?_, (append_some hs).1, (append_some hs).2.1⟩, fun hn => ?_,
    append_of_room _ _⟩
  · unfold PDF.append
    rw [hs]
  · unfold PDF.append
    rw [hn]

theorem PDF.append_ne_too_long (pdf : PDF α) (c : String) :
    pdf.append c ≠ .error Halt.string_too_long := by
  unfold PDF.append
  cases (pdf.pages pdf.page).stream.append c with
  | none => intro h; cases h
  | some s => intro h; cases h

theorem show_line_length (src : String) (n : Nat) (hn : n ≤ src.length) :
    ("(" ++ String.mk (src.data.take n) ++ ") Tj").length = n + 5 := by
  have h : (src.data.take n).length = n := List.length_take_of_le hn
  rw [String.length_append, String.length_append]
  show 1 + (src.data.take n).length + 4 = n + 5
  omega

end ShowText

/-- C17, counterexample: `show("ab", 3)` on a new document. The guard passes (`3 + 6 < 4096`),
the copy loop also copies the terminator of `src`, so the formatted command ends before the
`) Tj` and the line appended is `(ab`, not `(ab) Tj`. -/
theorem show_past_end_of_string :
    ¬ (3 + 6 ≥ buf_size)
    ∧ ∃ q : PDF ℚ, PDF.«show» (PDF.init "graph.pdf" 612 792) "ab" 3 = .ok q
      ∧ (q.pages 0).stream.text = "(ab\n"
      ∧ (q.pages 0).stream.text ≠ "(" ++ String.mk (("ab").data.take 3) ++ ") Tj" ++ "\n" :=
  ⟨by decide, _, rfl, rfl, by decide⟩

/-- C17, amended: for every string `src` and every `n` up to the length of `src`,
`show(src, n)` terminates the run with `String too long` if and only if `n + 6 >= 4096`.
Otherwise the formatted command `(`, the first `n` characters of `src`, `) Tj` has `n + 5`
characters and fits the 4096-byte buffer with its terminator, and whenever the stream of the
current page takes the line (which it does whenever it has room for it) the call returns the
document in which that stream has grown by exactly that line and a newline, nothing else
being changed; the only other outcome is that the growth loop of the stream never exits. -/
theorem show_spec {α : Type} (pdf : PDF α) (src : String) (n : Nat) (hn : n ≤ src.length) :
    (pdf.«show» src n = .error Halt.string_too_long ↔ n + 6 ≥ buf_size)
    ∧ (n + 6 < buf_size →
        ("(" ++ String.mk (src.data.take n) ++ ") Tj").length + 1 < buf_size
        ∧ (∀ s, (pdf.pages pdf.page).stream.append
                  ("(" ++ String.mk (src.data.take n) ++ ") Tj") = some s →
            pdf.«show» src n
              = .ok { pdf with
                        pages := Function.update pdf.pages pdf.page
                          { pdf.pages pdf.page with stream := s } }
            ∧ s.text = (pdf.pages pdf.page).stream.text
                ++ ("(" ++ String.mk (src.data.take n) ++ ") Tj") ++ "\n")
        ∧ ((pdf.pages pdf.page).stream.append
              ("(" ++ String.mk (src.data.take n) ++ ") Tj") = none →
            pdf.«show» src n = .error Halt.hang)
        ∧ ((pdf.pages pdf.page).stream.has_room (n + 5) →
            ∃ s, (pdf.pages pdf.page).stream.append
                  ("(" ++ String.mk (src.data.take n) ++ ") Tj") = some s)) := by
  have hlen := show_line_length src n hn
  constructor
  · constructor
    · intro h
      by_contra hc
      unfold PDF.«show» at h
      rw [if_neg hc, if_pos hn] at h
      exact PDF.append_ne_too_long _ _ h
    · intro h
      unfold PDF.«show»
      rw [if_pos h]
  · intro hlt
    have hshow : pdf.«show» src n
        = pdf.append ("(" ++ String.mk (src.data.take n) ++ ") Tj") := by
      unfold PDF.«show»
      rw [if_neg (by omega), if_pos hn]
    have h := PDF.append_effect pdf ("(" ++ String.mk (src.data.take n) ++ ") Tj")
    rw [hlen] at h
    rw [hshow, hlen]
    exact ⟨by unfold buf_size at *; omega, fun s hs => ⟨(h.1 s hs).1, (h.1 s hs).2.1⟩,
      h.2.1, h.2.2⟩

/-- Witness of C17: the first five characters of `Hello, world` on a new document. -/
theorem show_spec_witness :
    5 ≤ ("Hello, world").length
    ∧ ((PDF.init "graph.pdf" 612 792 : PDF ℚ).«show» "Hello, world" 5
        = .error Halt.string_too_long ↔ 5 + 6 ≥ buf_size)
    ∧ ∃ s, ((PDF.init "graph.pdf" 612 792 : PDF ℚ).pages 0).stream.append
            ("(" ++ String.mk (("Hello, world").data.take 5) ++ ") Tj") = some s
      ∧ (PDF.init "graph.pdf" 612 792 : PDF ℚ).«show» "Hello, world" 5
        = .ok { (PDF.init "graph.pdf" 612 792 : PDF ℚ) with
                  pages := Function.update (PDF.init "graph.pdf" 612 792 : PDF ℚ).pages 0
                    { (PDF.init "graph.pdf" 612 792 : PDF ℚ).pages 0 with stream := s } }
      ∧ s.text = "" ++ ("(" ++ String.mk (("Hello, world").data.take 5) ++ ") Tj") ++ "\n" := by
  have h := show_spec (PDF.init "graph.pdf" 612 792 : PDF ℚ) "Hello, world" 5 (by decide)
  obtain ⟨_, h2, _, h4⟩ := h.2 (by decide)
  obtain ⟨s, hs⟩ := h4 ⟨by decide, by decide, by decide⟩
  exact ⟨by decide, h.1, s, hs, (h2 s hs).1, (h2 s hs).2⟩

/-! ## Positioned text: claims C11 and C12 -/

section PositionText

variable {α : Type}

/-- Two continuations that agree on the results allowed by a postcondition give the same
program. -/
theorem Post.bind_congr {β γ : Type} {Q : β → Prop} {E : Halt → Prop} {m : Except Halt β}
    {f g : β → Except Halt γ} (hm : Post Q E m) (h : ∀ b, Q b → f b = g b) :
    (m >>= f) = (m >>= g) := by
  cases m with
  | error e => rfl
  | ok b => exact h b hm

theorem Except.bind_ok_eq {β : Type} (m : Except Halt β) :
    (m >>= fun b => Except.ok b) = m := by
  cases m with
  | error e => rfl
  | ok b => rfl

/-- Appending a line changes neither the current font nor its scale. -/
theorem PDF.append_font (p : PDF α) (c : String) (f : Int) (s : α) (hf : p.font = f)
    (hs : p.font_scale = s) :
    Post (fun q => q.font = f ∧ q.font_scale = s) (fun _ => True) (p.append c) := by
  unfold PDF.append
  cases (p.pages p.page).stream.append c with
  | none => exact trivial
  | some st => exact ⟨hf, hs⟩

theorem PDF.begin_text_font (L : Libm α) (p : PDF α) :
    Post (fun q => q.font = font_index p.font ∧ q.font_scale = p.font_scale) (fun _ => True)
      (p.begin_text L) := by
  unfold PDF.begin_text PDF.cmd
  refine Post.bind (PDF.append_font p "BT" p.font p.font_scale rfl rfl) ?_
  intro q hq
  unfold PDF.selectfont
  simp only [if_true]
  rw [hq.1, hq.2]
  exact PDF.append_font _ _ _ _ rfl rfl

theorem PDF.run_nil [LinearOrderedField α] [FloorRing α] (L : Libm α) (p : PDF α) :
    PDF.run L p [] = .ok p := rfl

theorem PDF.run_cons [LinearOrderedField α] [FloorRing α] (L : Libm α) (p : PDF α)
    (op : Op α) (ops : List (Op α)) :
    PDF.run L p (op :: ops) = (PDF.step L p op >>= fun q => PDF.run L q ops) := by
  unfold PDF.run
  rw [List.foldlM_cons]

theorem PDF.run_append [LinearOrderedField α] [FloorRing α] (L : Libm α) (p : PDF α)
    (ops1 ops2 : List (Op α)) :
    PDF.run L p (ops1 ++ ops2) = (PDF.run L p ops1 >>= fun q => PDF.run L q ops2) := by
  unfold PDF.run
  rw [List.foldlM_append]

theorem PDF.run_single [LinearOrderedField α] [FloorRing α] (L : Libm α) (p : PDF α)
    (op : Op α) : PDF.run L p [op] = PDF.step L p op := by
  rw [PDF.run_cons]
  cases PDF.step L p op with
  | error e => rfl
  | ok q => rfl

/-- One round of the loop of `position_text`, when `stringwidth` returns the width of its
line, runs the calls of the line and leaves the current font and scale as they are. -/
theorem PDF.position_text_line_eq [LinearOrderedField α] [FloorRing α] (L : Libm α)
    (h_frac leading : α) (p : PDF α) (line : List Char) (w : α)
    (hw : stringwidth (String.mk line) line.length p.font p.font_scale = .ok w) :
    PDF.position_text_line L h_frac leading p line
      = PDF.run L p (position_text_line_ops p.font p.font_scale h_frac leading line)
    ∧ Post (fun q => q.font = p.font ∧ q.font_scale = p.font_scale) (fun _ => True)
        (PDF.position_text_line L h_frac leading p line) := by
  have hshow : ∀ q : PDF α, q.font = p.font ∧ q.font_scale = p.font_scale →
      Post (fun r => r.font = p.font ∧ r.font_scale = p.font_scale) (fun _ => True)
        (q.«show» (String.mk line) line.length) := by
    intro q hq
    unfold PDF.«show»
    split
    · exact trivial
    · split
      · exact PDF.append_font _ _ _ _ hq.1 hq.2
      · exact PDF.append_font _ _ _ _ hq.1 hq.2
  have hnl : ∀ (q : PDF α) (tx ty : α), q.font = p.font ∧ q.font_scale = p.font_scale →
      Post (fun r => r.font = p.font ∧ r.font_scale = p.font_scale) (fun _ => True)
        (q.next_line L tx ty) := by
    intro q tx ty hq
    exact PDF.append_font _ _ _ _ hq.1 hq.2
  have hlw := line_width_of_ok p.font p.font_scale line w hw
  have hb : ∀ f : α → Except Halt (PDF α), (Except.ok w >>= f) = f w := fun _ => rfl
  constructor
  · unfold PDF.position_text_line position_text_line_ops
    rw [hw, hlw, hb]
    by_cases h : h_frac ≠ 0
    · simp only [if_pos h, List.singleton_append, List.cons_append, List.nil_append,
        PDF.run_cons, PDF.run_nil, PDF.step, Except.bind_ok_eq]
    · simp only [if_neg h, List.singleton_append, List.cons_append, List.nil_append,
        PDF.run_cons, PDF.run_nil, PDF.step, Except.bind_ok_eq, pure_bind]
  · unfold PDF.position_text_line
    rw [hw, hb]
    by_cases h : h_frac ≠ 0
    · simp only [if_pos h]
      refine Post.bind (hnl p _ _ ⟨rfl, rfl⟩) (fun q hq => ?_)
      refine Post.bind (hshow q hq) (fun q hq => ?_)
      refine Post.bind (hnl q _ _ hq) (fun q hq => ?_)
      exact hnl q _ _ hq
    · simp only [if_neg h, pure_bind]
      refine Post.bind (hshow p ⟨rfl, rfl⟩) (fun q hq => ?_)
      exact hnl q _ _ hq

/-- One round of the loop of `position_text` does not return when `stringwidth` does not. -/
theorem PDF.position_text_line_error [LinearOrderedField α] (L : Libm α)
    (h_frac leading : α) (p : PDF α) (line : List Char) (e : Halt)
    (hw : stringwidth (String.mk line) line.length p.font p.font_scale = .error e) :
    PDF.position_text_line L h_frac leading p line = .error e := by
  unfold PDF.position_text_line
  rw [hw]
  rfl

/-- Every character of a line of a text is a character of the text. -/
theorem text_lines_mem : ∀ (cs : List Char) (l : List Char), l ∈ text_lines cs →
    ∀ c ∈ l, c ∈ cs := by
  intro cs
  induction cs with
  | nil => intro l hl; simp [text_lines] at hl
  | cons d ds ih =>
    intro l hl c hc
    unfold text_lines at hl
    split at hl
    · rcases List.mem_cons.1 hl with rfl | hl
      · exact absurd hc (List.not_mem_nil c)
      · exact List.mem_cons_of_mem _ (ih l hl c hc)
    · split at hl
      next h0 =>
        rw [List.mem_singleton] at hl
        subst hl
        rw [List.mem_singleton] at hc
        subst hc
        exact List.mem_cons_self _ _
      next l0 ls h0 =>
        rcases List.mem_cons.1 hl with rfl | hl
        · rcases List.mem_cons.1 hc with rfl | hc
          · exact List.mem_cons_self _ _
          · exact List.mem_cons_of_mem _ (ih l0 (by rw [h0]; exact List.mem_cons_self _ _) c hc)
        · exact List.mem_cons_of_mem _ (ih l (by rw [h0]; exact List.mem_cons_of_mem _ hl) c hc)

/-- Every character of a text other than the newline is a character of one of its lines. -/
theorem text_lines_cover : ∀ (cs : List Char) (c : Char), c ∈ cs → c ≠ '\n' →
    ∃ l ∈ text_lines cs, c ∈ l := by
  intro cs
  induction cs with
  | nil => intro c hc; exact absurd hc (List.not_mem_nil c)
  | cons d ds ih =>
    intro c hc hn
    unfold text_lines
    split
    next hd =>
      rcases List.mem_cons.1 hc with rfl | hc
      · exact absurd hd hn
      · obtain ⟨l, hl, hcl⟩ := ih c hc hn
        exact ⟨l, List.mem_cons_of_mem _ hl, hcl⟩
    next hd =>
      split
      next h0 =>
        rcases List.mem_cons.1 hc with rfl | hc
        · exact ⟨[c], List.mem_singleton.2 rfl, List.mem_singleton.2 rfl⟩
        · obtain ⟨l, hl, hcl⟩ := ih c hc hn
          rw [h0] at hl
          exact absurd hl (List.not_mem_nil l)
      next l0 ls h0 =>
        rcases List.mem_cons.1 hc with rfl | hc
        · exact ⟨c :: l0, List.mem_cons_self _ _, List.mem_cons_self _ _⟩
        · obtain ⟨l, hl, hcl⟩ := ih c hc hn
          rw [h0] at hl
          rcases List.mem_cons.1 hl with rfl | hl
          · exact ⟨d :: l, List.mem_cons_self _ _, List.mem_cons_of_mem _ hcl⟩
          · exact ⟨l, List.mem_cons_of_mem _ hl, hcl⟩

end PositionText

section PositionTextRun

variable {α : Type}

/-- The loop of `position_text` over lines of character codes below 128 runs the calls of
its lines in order. -/
theorem PDF.position_text_loop_eq [LinearOrderedField α] [FloorRing α] (L : Libm α)
    (h_frac leading : α) (f : Int) (s : α) (lines : List (List Char))
    (h7 : ∀ l ∈ lines, SevenBit l) :
    ∀ p : PDF α, p.font = f → p.font_scale = s →
      lines.foldlM (PDF.position_text_line L h_frac leading) p
        = PDF.run L p (lines.flatMap (position_text_line_ops f s h_frac leading)) := by
  induction lines with
  | nil => intro p _ _; rfl
  | cons l ls ih =>
    intro p hf hs
    obtain ⟨w, hw⟩ := stringwidth_ok (String.mk l) l.length p.font p.font_scale
      (h7 l (List.mem_cons_self _ _))
    obtain ⟨h1, h2⟩ := PDF.position_text_line_eq L h_frac leading p l w hw
    rw [List.foldlM_cons, List.flatMap_cons, PDF.run_append, ← hf, ← hs, ← h1]
    refine Post.bind_congr h2 (fun q hq => ?_)
    rw [hf, hs]
    exact ih (fun l hl => h7 l (List.mem_cons_of_mem _ hl)) q (hq.1.trans hf) (hq.2.trans hs)

/-- The loop of `position_text` does not return when one of its lines, free of NUL, has a
character code of 128 or more. -/
theorem PDF.position_text_loop_error [LinearOrderedField α] (L : Libm α)
    (h_frac leading : α) (lines : List (List Char)) (hnul : ∀ l ∈ lines, '\x00' ∉ l)
    (h7 : ∃ l ∈ lines, ¬ SevenBit l) :
    ∀ p : PDF α, ∃ e, lines.foldlM (PDF.position_text_line L h_frac leading) p = .error e := by
  induction lines with
  | nil =>
    obtain ⟨l, hl, _⟩ := h7
    exact absurd hl (List.not_mem_nil l)
  | cons l ls ih =>
    intro p
    rw [List.foldlM_cons]
    by_cases hl7 : SevenBit l
    · cases h : PDF.position_text_line L h_frac leading p l with
      | error e => exact ⟨e, rfl⟩
      | ok q =>
        refine ih (fun l hl => hnul l (List.mem_cons_of_mem _ hl)) ?_ q
        obtain ⟨m, hm, hm7⟩ := h7
        rcases List.mem_cons.1 hm with rfl | hm
        · exact absurd hl7 hm7
        · exact ⟨m, hm, hm7⟩
    · have hw := stringwidth_high (String.mk l) p.font p.font_scale
        (hnul l (List.mem_cons_self _ _)) hl7
      rw [PDF.position_text_line_error L h_frac leading p l _ hw]
      exact ⟨_, rfl⟩

/-- The method `position_text` on a text of character codes below 128 is the run of its
calls, with the widths measured in the font that `begin_text` leaves in force, `font_index`
of the current font. -/
theorem PDF.position_text_eq_run [LinearOrderedField α] [FloorRing α] (L : Libm α)
    (pdf : PDF α) (text : String) (x y h_frac v_frac : α) (h7 : SevenBit text.data) :
    pdf.position_text L text x y h_frac v_frac
      = PDF.run L pdf
          (position_text_ops (font_index pdf.font) pdf.font_scale text x y h_frac v_frac) := by
  unfold PDF.position_text position_text_ops position_text_head
  simp only [List.cons_append, List.nil_append, PDF.run_cons, PDF.run_append, PDF.step]
  refine Post.bind_congr (PDF.begin_text_font L pdf) (fun q hq => ?_)
  refine Post.bind_congr (PDF.append_font q _ _ _ hq.1 hq.2) (fun q hq => ?_)
  refine Post.bind_congr (PDF.append_font q _ _ _ hq.1 hq.2) (fun q hq => ?_)
  rw [PDF.position_text_loop_eq L h_frac pdf.font_scale _ _ _
    (fun l hl c hc => h7 c (text_lines_mem _ l hl c hc)) q hq.1 hq.2]
  simp only [PDF.run_nil, Except.bind_ok_eq]

/-- A program whose continuation never returns does not return. -/
theorem Except.bind_never {β γ : Type} (m : Except Halt β) (f : β → Except Halt γ)
    (h : ∀ b, ∃ e, f b = .error e) : ∃ e, (m >>= f) = .error e := by
  cases m with
  | error e => exact ⟨e, rfl⟩
  | ok b => exact h b

/-- The method `position_text` does not return on a text free of NUL with a character code
of 128 or more. -/
theorem PDF.position_text_error [LinearOrderedField α] (L : Libm α)
    (pdf : PDF α) (text : String) (x y h_frac v_frac : α) (hnul : '\x00' ∉ text.data)
    (h7 : ∃ c ∈ text.data, 128 ≤ c.toNat) :
    ∃ e, pdf.position_text L text x y h_frac v_frac = .error e := by
  obtain ⟨c, hc, h128⟩ := h7
  have hn : c ≠ '\n' := by
    intro e
    rw [e] at h128
    exact absurd h128 (by decide)
  obtain ⟨l, hl, hcl⟩ := text_lines_cover text.data c hc hn
  have hloop := PDF.position_text_loop_error L h_frac pdf.font_scale (text_lines text.data)
    (fun m hm h0 => hnul (text_lines_mem _ m hm _ h0))
    ⟨l, hl, fun h => absurd (h c hcl) (by omega)⟩
  unfold PDF.position_text
  simp only
  refine Except.bind_never _ _ (fun q1 => ?_)
  refine Except.bind_never _ _ (fun q2 => ?_)
  refine Except.bind_never _ _ (fun q3 => ?_)
  obtain ⟨e, he⟩ := hloop q3
  rw [he]
  exact ⟨e, rfl⟩

end PositionTextRun

section TextTrace

variable {α : Type}

theorem text_line_start_append [LinearOrderedField α] (pos : α × α) (l1 l2 : List (Op α)) :
    text_line_start pos (l1 ++ l2) = text_line_start (text_line_start pos l1) l2 := by
  unfold text_line_start
  rw [List.foldl_append]

theorem text_shows_append [LinearOrderedField α] (l1 l2 : List (Op α)) :
    ∀ pos : α × α, text_shows pos (l1 ++ l2)
      = text_shows pos l1 ++ text_shows (text_line_start pos l1) l2 := by
  induction l1 with
  | nil => intro pos; rfl
  | cons op rest ih =>
    intro pos
    rw [List.cons_append, text_shows, text_shows, ih, List.append_assoc]
    rfl

theorem shown_show_line (line : List Char) :
    shown (Op.«show» (String.mk line) line.length : Op α) = some (String.mk line) := by
  simp [shown]

/-- The calls of one line show the line at `h_frac` times its width to the left of the start
of the text line, and leave the start of the text line one leading lower at the same
horizontal position. -/
theorem line_ops_trace [LinearOrderedField α] (font : Int) (scale h_frac leading : α)
    (line : List Char) (pos : α × α) :
    text_shows pos (position_text_line_ops font scale h_frac leading line)
      = [(String.mk line,
          (pos.1 - h_frac * line_width font scale line, pos.2))]
    ∧ text_line_start pos (position_text_line_ops font scale h_frac leading line)
      = (pos.1, pos.2 - leading) := by
  unfold position_text_line_ops
  by_cases h : h_frac ≠ 0
  · simp only [if_pos h, List.singleton_append, List.cons_append, List.nil_append,
      text_shows, shown, text_move, text_line_start, List.foldl_cons, List.foldl_nil,
      List.take_length, List.append_nil, List.nil_append]
    constructor
    · congr 3
      · ring
      · ring
    · congr 1
      · ring
      · ring
  · have h0 : h_frac = 0 := not_not.mp h
    simp only [if_neg h, List.singleton_append, List.cons_append, List.nil_append,
      text_shows, shown, text_move, text_line_start, List.foldl_cons, List.foldl_nil,
      List.take_length, List.append_nil, List.nil_append]
    constructor
    · rw [h0, zero_mul, sub_zero]
    · congr 1
      · ring
      · ring

theorem lines_trace [LinearOrderedField α] (font : Int) (scale h_frac leading : α)
    (lines : List (List Char)) : ∀ pos : α × α,
    (text_shows pos (lines.flatMap (position_text_line_ops font scale h_frac leading))).map
        (fun e => (e.1, e.2.1))
      = lines.map (fun line =>
          (String.mk line,
            pos.1 - h_frac * line_width font scale line))
    ∧ text_line_start pos (lines.flatMap (position_text_line_ops font scale h_frac leading))
      = (pos.1, pos.2 - lines.length * leading) := by
  induction lines with
  | nil =>
    intro pos
    simp [text_shows, text_line_start]
  | cons l ls ih =>
    intro pos
    obtain ⟨h1, h2⟩ := line_ops_trace font scale h_frac leading l pos
    obtain ⟨h3, h4⟩ := ih (pos.1, pos.2 - leading)
    rw [List.flatMap_cons, text_shows_append, text_line_start_append, h1, h2, List.map_append,
      h3, h4]
    refine ⟨rfl, ?_⟩
    congr 1
    simp only [List.length_cons]
    push_cast
    ring

theorem head_trace [LinearOrderedField α] (scale : α) (text : String) (x y v_frac : α)
    (pos : α × α) :
    text_shows pos (position_text_head scale text x y v_frac) = []
    ∧ text_line_start pos (position_text_head scale text x y v_frac)
      = (x, y - (((count_lines text : α) - 1) * scale
          + v_frac * (((count_lines text : α) - 1) * scale + 66667 / 100000 * scale))) := by
  unfold position_text_head
  simp only [text_shows, shown, text_move, text_line_start, List.foldl_cons, List.foldl_nil,
    List.append_nil]
  refine ⟨trivial, ?_⟩
  congr 1
  · ring
  · ring

end TextTrace

/-- C11, the code against the claim. For a text whose character codes are all below 128 the
claim holds: `position_text` is the run of the calls `position_text_ops` (`begin_text`, two
`Td`, the calls of each line, `end_text`), `stringwidth` returns the width `w` of every line
in the font and scale in force inside the text object (`begin_text` re-selects the current
font, so the font is `font_index` of the current font), and reading `Td` as the move of the
start of the text line, every line is shown with the start of the text line at horizontal
position `x - h_frac * w`, and after the calls of any number of lines the start of the text
line is back at horizontal position `x`. For a text without NUL that has a character code of
128 or more `position_text` never returns, whatever the document and `h_frac`: it calls
`stringwidth` on every line, also when `h_frac = 0`, and `stringwidth` reads outside its
table (the defect of C10). The failing input is the one-character text with the code 128
positioned at `(100, 100)` with `h_frac = 0` in font 0 at scale 100: no line is shown. The
text `ab` positioned there with `h_frac = 1/2` has width `100 * (441 + 499) / 1000 = 94` and
the page stream shows it between the moves `-47 0 Td` and `47 0 Td`. -/
theorem position_text_high_byte {α : Type} [LinearOrderedField α] [FloorRing α]
    (L : Libm α) (pdf : PDF α) (text : String) (x y h_frac v_frac : α) (pos : α × α) :
    (SevenBit text.data →
      pdf.position_text L text x y h_frac v_frac
        = PDF.run L pdf
            (position_text_ops (font_index pdf.font) pdf.font_scale text x y h_frac v_frac)
      ∧ (∀ line ∈ text_lines text.data,
          stringwidth (String.mk line) line.length (font_index pdf.font) pdf.font_scale
            = .ok (line_width (font_index pdf.font) pdf.font_scale line))
      ∧ (text_shows pos
            (position_text_ops (font_index pdf.font) pdf.font_scale text x y h_frac
              v_frac)).map
          (fun e => (e.1, e.2.1))
        = (text_lines text.data).map (fun line =>
            (String.mk line,
              x - h_frac * line_width (font_index pdf.font) pdf.font_scale line))
      ∧ ∀ k : Nat,
          (text_line_start pos
            (position_text_head pdf.font_scale text x y v_frac
              ++ ((text_lines text.data).take k).flatMap
                  (position_text_line_ops (font_index pdf.font) pdf.font_scale h_frac
                    pdf.font_scale))).1 = x)
    ∧ ('\x00' ∉ text.data → (∃ c ∈ text.data, 128 ≤ c.toNat) →
        ∃ e, pdf.position_text L text x y h_frac v_frac = .error e)
    ∧ ∃ p q : PDF ℚ,
        PDF.run Libm.rat (PDF.init "graph.pdf" 612 792) [Op.selectfont 0 100] = .ok p
        ∧ p.font = 0 ∧ p.font_scale = 100
        ∧ (Char.ofNat 128).toNat = 128
        ∧ p.position_text Libm.rat (String.singleton (Char.ofNat 128)) 100 100 0 0
            = .error (Halt.die "stringwidth: index outside FontCharWidths")
        ∧ stringwidth "ab" 2 0 (100 : ℚ) = .ok 94
        ∧ p.position_text Libm.rat "ab" 100 100 (1 / 2) 0 = .ok q
        ∧ (q.pages 0).stream.text
            = "BT\n/F0 100 Tf\n100 100 Td\n0 0 Td\n-47 0 Td\n(ab) Tj\n47 0 Td\n0 -100 Td\nET\n" := by
  refine ⟨fun h7 => ⟨PDF.position_text_eq_run L pdf text x y h_frac v_frac h7, ?_, ?_, ?_⟩,
    fun hnul h128 => PDF.position_text_error L pdf text x y h_frac v_frac hnul h128,
    ⟨_, _, rfl, rfl, rfl, by decide, by with_unfolding_all rfl, by with_unfolding_all rfl,
      by with_unfolding_all rfl, by with_unfolding_all rfl⟩⟩
  · intro line hl
    obtain ⟨w, hw⟩ := stringwidth_ok (String.mk line) line.length (font_index pdf.font)
      pdf.font_scale (fun c hc => h7 c (text_lines_mem _ line hl c hc))
    rw [line_width_of_ok _ _ _ w hw, hw]
  · unfold position_text_ops
    obtain ⟨h1, h2⟩ := head_trace pdf.font_scale text x y v_frac pos
    rw [text_shows_append, text_shows_append, h1, text_line_start_append, h2, List.nil_append,
      List.map_append, (lines_trace _ _ _ _ _ _).1]
    simp [text_shows, shown]
  · intro k
    obtain ⟨_, h2⟩ := head_trace pdf.font_scale text x y v_frac pos
    rw [text_line_start_append, h2, (lines_trace _ _ _ _ _ _).2]

/-- C12, the code at the failing input: the two-line text `a`, newline, `b` positioned at
`(100, 100)` with `h_frac = 0` and `v_frac = 0` in font 0 at scale 12. The block height is
`(2 - 1) * 12 + 0.66667 * 12`, so the claim puts the baseline of the last line at
`100 - 0 * H = 100`. The code moves down by `ty = (2 - 1) * 12 + 0 * H = 12` before the first
line and by the leading 12 after it: the lines are shown at heights 88 and 76, and the page
stream holds the corresponding `Td` lines. -/
theorem position_text_two_lines_low :
    ∃ p q : PDF ℚ,
      PDF.run Libm.rat (PDF.init "graph.pdf" 612 792) [Op.selectfont 0 12] = .ok p
      ∧ p.font = 0 ∧ p.font_scale = 12 ∧ count_lines "a\nb" = 2
      ∧ p.position_text Libm.rat "a\nb" 100 100 0 0 = .ok q
      ∧ (q.pages 0).stream.text
          = "BT\n/F0 12 Tf\n100 100 Td\n0 -12 Td\n(a) Tj\n0 -12 Td\n(b) Tj\n0 -12 Td\nET\n"
      ∧ text_shows (0, 0) (position_text_ops 0 (12 : ℚ) "a\nb" 100 100 0 0)
          = [("a", ((100 : ℚ), (88 : ℚ))), ("b", ((100 : ℚ), (76 : ℚ)))]
      ∧ (76 : ℚ) ≠ 100 - 0 * ((2 - 1) * 12 + 66667 / 100000 * 12) :=
  ⟨_, _, rfl, rfl, rfl, by decide, by with_unfolding_all rfl, by with_unfolding_all rfl,
    by with_unfolding_all rfl, by norm_num⟩

/-! ## Angular spans and segment angles: claims C13 and C14 -/

section ArcSpans

theorem toNat_ceil_eq_zero (pi span : ℝ) (hpi : 0 < pi) (h : span ≤ 0) :
    Int.toNat ⌈span / (2 * pi)⌉ = 0 := by
  have h1 : span / (2 * pi) ≤ 0 := div_nonpos_of_nonpos_of_nonneg h (by linarith)
  have h2 : ⌈span / (2 * pi)⌉ ≤ 0 := Int.ceil_le.mpr (by simpa using h1)
  omega

/-- The span left by a normalisation loop that has to cover `span`: it is not negative, it is
less than a full turn when `span` is positive, and nothing is added when `span` is not
positive. -/
theorem turns_span (span : ℝ) :
    0 ≤ 2 * Real.pi * (Int.toNat ⌈span / (2 * Real.pi)⌉ : Nat) - span
    ∧ (0 < span → 2 * Real.pi * (Int.toNat ⌈span / (2 * Real.pi)⌉ : Nat) - span < 2 * Real.pi)
    ∧ (span ≤ 0 → Int.toNat ⌈span / (2 * Real.pi)⌉ = 0) := by
  obtain ⟨h1, h2⟩ := turns_spec Real.pi span Real.pi_pos
  refine ⟨by linarith, fun hpos => ?_, toNat_ceil_eq_zero Real.pi span Real.pi_pos⟩
  have hK : 1 ≤ Int.toNat ⌈span / (2 * Real.pi)⌉ := by
    by_contra hc
    have h0 : Int.toNat ⌈span / (2 * Real.pi)⌉ = 0 := by omega
    rw [h0] at h1
    simp only [Nat.cast_zero, mul_zero] at h1
    linarith
  have h3 := h2 (Int.toNat ⌈span / (2 * Real.pi)⌉ - 1) (by omega)
  have hc : ((Int.toNat ⌈span / (2 * Real.pi)⌉ - 1 : Nat) : ℝ)
      = ((Int.toNat ⌈span / (2 * Real.pi)⌉ : Nat) : ℝ) - 1 := by
    rw [Nat.cast_sub hK]
    simp
  rw [hc] at h3
  linarith

/-- With the automatic count a span of at least an eighth of pi is cut into segments of at
least an eighth of pi. -/
theorem arc_count_auto_angle_ge (span : ℝ) (hb : span / (Real.pi / 8) < 2147483648)
    (h : Real.pi / 8 ≤ span) :
    Real.pi / 8 ≤ span / (arc_count Real.pi span 0 : Nat) := by
  have hpi := Real.pi_pos
  have hq : 1 ≤ span / (Real.pi / 8) := by
    rw [le_div_iff₀ (by positivity)]
    linarith
  have hc : c_int (span / (Real.pi / 8)) = ⌊span / (Real.pi / 8)⌋ :=
    c_int_floor _ (by linarith) hb
  have h1 : 1 ≤ ⌊span / (Real.pi / 8)⌋ := Int.le_floor.mpr (by simpa using hq)
  have hN : ((arc_count Real.pi span 0 : Nat) : Int) = ⌊span / (Real.pi / 8)⌋ := by
    unfold arc_count
    simp only [if_true, hc, if_neg (not_lt.mpr h1)]
    omega
  have hNr : ((arc_count Real.pi span 0 : Nat) : ℝ) = (⌊span / (Real.pi / 8)⌋ : ℝ) := by
    exact_mod_cast hN
  have hpos : (1 : ℝ) ≤ (⌊span / (Real.pi / 8)⌋ : ℝ) := by exact_mod_cast h1
  have hfl : (⌊span / (Real.pi / 8)⌋ : ℝ) ≤ span / (Real.pi / 8) := Int.floor_le _
  rw [hNr, le_div_iff₀ (by linarith)]
  rw [le_div_iff₀ (by positivity)] at hfl
  linarith

theorem arc_angle_step (a0 a1 : ℝ) (N k : Nat) :
    arc_angle a0 a1 N (k + 1) - arc_angle a0 a1 N k = (a1 - a0) / N := by
  unfold arc_angle
  push_cast
  ring

/-- The automatic count of a span whose quotient by an eighth of pi is within the range of
an `int`. -/
theorem arc_count_auto (span : ℝ) (h : 0 < span) (hb : span / (Real.pi / 8) < 2147483648) :
    (arc_count Real.pi span 0 : Int) = max 1 ⌊span / (Real.pi / 8)⌋ := by
  have hq : 0 ≤ span / (Real.pi / 8) := by
    have := Real.pi_pos
    positivity
  unfold arc_count
  simp only [if_true, c_int_floor _ hq hb]
  split <;> omega

/-- The automatic count of a span whose quotient by an eighth of pi is beyond the range of
an `int`: one segment. -/
theorem arc_count_overflow (span : ℝ) (hb : 2147483648 ≤ span / (Real.pi / 8)) :
    arc_count Real.pi span 0 = 1 := by
  have hc : c_int (span / (Real.pi / 8)) = -2147483648 := by
    unfold c_int
    rw [if_neg (fun h => absurd h.2 (not_lt.mpr hb))]
  unfold arc_count
  simp only [if_true, hc]
  rfl

end ArcSpans

/-- C13, counterexample: `arc` from angle 0 to angle `3 pi / 16` with the automatic count on
a new document. The loop leaves the end angle as it is,
`int((3 pi / 16) / (pi / 8)) = int(1.5) = 1`, so the arc is drawn as a `moveto` and one
`curveto`, the cubic from angle 0 to angle `3 pi / 16`, which is more than `pi / 8`. -/
theorem arc_auto_segment_too_wide :
    arc_count Real.pi (3 * Real.pi / 16 - 0) 0 = 1
    ∧ (PDF.init "g.pdf" 612 792 : PDF ℝ).arc
          { cos := Real.cos, sin := Real.sin, atan2 := fun b a => Complex.arg ⟨a, b⟩,
            hypot := fun a b => Real.sqrt (a ^ 2 + b ^ 2), M_PI := Real.pi,
            fmt_f := fun _ _ => "" } 0 0 1 0 (3 * Real.pi / 16) 0
        = ((if (PDF.init "g.pdf" 612 792 : PDF ℝ).current_point then
              (PDF.init "g.pdf" 612 792 : PDF ℝ).lineto 
          { cos := Real.cos, sin := Real.sin, atan2 := fun b a => Complex.arg ⟨a, b⟩,
            hypot := fun a b => Real.sqrt (a ^ 2 + b ^ 2), M_PI := Real.pi,
            fmt_f := fun _ _ => "" }
          ((0 : ℝ) + (1 : ℝ) * Real.cos (0 : ℝ)) ((0 : ℝ) + (1 : ℝ) * Real.sin (0 : ℝ))
            else (PDF.init "g.pdf" 612 792 : PDF ℝ).moveto 
          { cos := Real.cos, sin := Real.sin, atan2 := fun b a => Complex.arg ⟨a, b⟩,
            hypot := fun a b => Real.sqrt (a ^ 2 + b ^ 2), M_PI := Real.pi,
            fmt_f := fun _ _ => "" }
          ((0 : ℝ) + (1 : ℝ) * Real.cos (0 : ℝ)) ((0 : ℝ) + (1 : ℝ) * Real.sin (0 : ℝ))) >>= fun p =>
          ((List.range 1).map (fun k =>
            arc_segment Real.cos Real.sin (0 : ℝ) 0 1
              (1 * Bezier_s Real.cos Real.sin ((3 * Real.pi / 16 - 0) / ((1 : Nat) : ℝ)))
              (arc_angle 0 (3 * Real.pi / 16) 1 k)
              (arc_angle 0 (3 * Real.pi / 16) 1 (k + 1)))).foldlM
            (fun p b => p.curveto 
          { cos := Real.cos, sin := Real.sin, atan2 := fun b a => Complex.arg ⟨a, b⟩,
            hypot := fun a b => Real.sqrt (a ^ 2 + b ^ 2), M_PI := Real.pi,
            fmt_f := fun _ _ => "" }
          b.p1.1 b.p1.2 b.p2.1 b.p2.2 b.p3.1 b.p3.2) p)
    ∧ arc_angle 0 (3 * Real.pi / 16) 1 0 = 0
    ∧ arc_angle 0 (3 * Real.pi / 16) 1 1 = 3 * Real.pi / 16
    ∧ ¬ (3 * Real.pi / 16 - 0 ≤ Real.pi / 8) := by
  have hpi := Real.pi_pos
  have hq : (3 * Real.pi / 16 - 0) / (Real.pi / 8) = 3 / 2 := by
    field_simp
    ring
  have hfl : ⌊(3 / 2 : ℝ)⌋ = 1 := by
    rw [Int.floor_eq_iff]
    constructor <;> norm_num
  have hN : arc_count Real.pi (3 * Real.pi / 16 - 0) 0 = 1 := by
    have h := arc_count_auto (3 * Real.pi / 16 - 0) (by linarith) (by rw [hq]; norm_num)
    rw [hq, hfl] at h
    omega
  have hloop := arc_loop_id 0 (3 * Real.pi / 16) (by positivity)
  refine ⟨hN, ?_, arc_angle_zero _ _ _, arc_angle_last _ _ _ le_rfl, by linarith⟩
  rw [PDF.arc_segments _ rfl rfl rfl _ 0 0 1 0 (3 * Real.pi / 16) _ 0 hloop, hN]

/-- C13, amended: over the reals, with the automatic segment count and a positive normalised
span whose quotient by `pi / 8` is below `2^31` (within the range of the `int` that holds the
count), `arc` and `arcn` are a `lineto` or `moveto` followed by one `curveto` per cubic of the
`N = max 1 (int(span / (pi / 8)))` cubics between evenly spaced angles; each cubic spans the
angle `span / N`, which is positive and less than `pi / 4`, and which is at least `pi / 8`
whenever the span is at least `pi / 8` (the quotient is rounded down, so a segment is at most
`pi / 8` only for a span below `pi / 8` or an exact multiple of it). For a span whose quotient
is `2^31` or more the conversion to `int` does not give the quotient and the count is 1. -/
theorem arc_auto_segment_angle (L : Libm ℝ) (hcos : L.cos = Real.cos)
    (hsin : L.sin = Real.sin) (hpi : L.M_PI = Real.pi) (pdf : PDF ℝ) (x y r a0 a1 : ℝ) :
    (∀ a1n, arc_loop Real.pi (arc_fuel Real.pi (a0 - a1)) a0 a1 = some a1n → 0 < a1n - a0 →
        (a1n - a0) / (Real.pi / 8) < 2147483648 →
        pdf.arc L x y r a0 a1 0
          = ((if pdf.current_point then
              pdf.lineto L (x + r * Real.cos a0) (y + r * Real.sin a0)
            else pdf.moveto L (x + r * Real.cos a0) (y + r * Real.sin a0)) >>= fun p =>
            ((List.range (arc_count Real.pi (a1n - a0) 0)).map (fun k =>
              arc_segment Real.cos Real.sin x y r
                (r * Bezier_s Real.cos Real.sin ((a1n - a0) / ((arc_count Real.pi (a1n - a0) 0) : Nat)))
                (arc_angle a0 a1n (arc_count Real.pi (a1n - a0) 0) k)
                (arc_angle a0 a1n (arc_count Real.pi (a1n - a0) 0) (k + 1)))).foldlM
              (fun p b => p.curveto L b.p1.1 b.p1.2 b.p2.1 b.p2.2 b.p3.1 b.p3.2) p)
        ∧ ((arc_count Real.pi (a1n - a0) 0) : Int) = max 1 ⌊(a1n - a0) / (Real.pi / 8)⌋
        ∧ (∀ k : Nat, arc_angle a0 a1n (arc_count Real.pi (a1n - a0) 0) (k + 1) - arc_angle a0 a1n (arc_count Real.pi (a1n - a0) 0) k = (a1n - a0) / ((arc_count Real.pi (a1n - a0) 0) : Nat))
        ∧ 0 < (a1n - a0) / ((arc_count Real.pi (a1n - a0) 0) : Nat)
        ∧ (a1n - a0) / ((arc_count Real.pi (a1n - a0) 0) : Nat) < Real.pi / 4
        ∧ (Real.pi / 8 ≤ (a1n - a0) → Real.pi / 8 ≤ (a1n - a0) / ((arc_count Real.pi (a1n - a0) 0) : Nat)))
    ∧ (∀ a1n, arcn_loop Real.pi (arc_fuel Real.pi (a1 - a0)) a0 a1 = some a1n →
        0 < a0 - a1n → (a0 - a1n) / (Real.pi / 8) < 2147483648 →
        pdf.arcn L x y r a0 a1 0
          = ((if pdf.current_point then
              pdf.lineto L (x + r * Real.cos a0) (y + r * Real.sin a0)
            else pdf.moveto L (x + r * Real.cos a0) (y + r * Real.sin a0)) >>= fun p =>
            ((List.range (arc_count Real.pi (a0 - a1n) 0)).map (fun k =>
              arc_segment Real.cos Real.sin x y r
                (-(r * Bezier_s Real.cos Real.sin ((a0 - a1n) / ((arc_count Real.pi (a0 - a1n) 0) : Nat))))
                (arc_angle a0 a1n (arc_count Real.pi (a0 - a1n) 0) k)
                (arc_angle a0 a1n (arc_count Real.pi (a0 - a1n) 0) (k + 1)))).foldlM
              (fun p b => p.curveto L b.p1.1 b.p1.2 b.p2.1 b.p2.2 b.p3.1 b.p3.2) p)
        ∧ ((arc_count Real.pi (a0 - a1n) 0) : Int) = max 1 ⌊(a0 - a1n) / (Real.pi / 8)⌋
        ∧ (∀ k : Nat, arc_angle a0 a1n (arc_count Real.pi (a0 - a1n) 0) k - arc_angle a0 a1n (arc_count Real.pi (a0 - a1n) 0) (k + 1) = (a0 - a1n) / ((arc_count Real.pi (a0 - a1n) 0) : Nat))
        ∧ 0 < (a0 - a1n) / ((arc_count Real.pi (a0 - a1n) 0) : Nat)
        ∧ (a0 - a1n) / ((arc_count Real.pi (a0 - a1n) 0) : Nat) < Real.pi / 4
        ∧ (Real.pi / 8 ≤ (a0 - a1n) → Real.pi / 8 ≤ (a0 - a1n) / ((arc_count Real.pi (a0 - a1n) 0) : Nat)))
    ∧ (∀ span : ℝ, 2147483648 ≤ span / (Real.pi / 8) → arc_count Real.pi span 0 = 1) := by
  refine ⟨?_, ?_, arc_count_overflow⟩
  · intro a1n hloop hpos hb
    obtain ⟨h1, h2⟩ := arc_count_auto_angle (a1n - a0) hpos hb
    exact ⟨PDF.arc_segments L hcos hsin hpi pdf x y r a0 a1 a1n 0 hloop,
      arc_count_auto _ hpos hb, fun k => arc_angle_step a0 a1n _ k,
      h1, h2, arc_count_auto_angle_ge (a1n - a0) hb⟩
  · intro a1n hloop hpos hb
    obtain ⟨h1, h2⟩ := arc_count_auto_angle (a0 - a1n) hpos hb
    refine ⟨PDF.arcn_segments L hcos hsin hpi pdf x y r a0 a1 a1n 0 hloop,
      arc_count_auto _ hpos hb, fun k => ?_, h1, h2,
      arc_count_auto_angle_ge (a0 - a1n) hb⟩
    have := arc_angle_step a0 a1n (arc_count Real.pi (a0 - a1n) 0) k
    rw [← neg_sub, this]
    ring

/-- Witness of C13: `arc` about the origin with radius 1 from angle 0 to angle 1 on a new
document, with the functions of the real numbers. -/
theorem arc_auto_segment_angle_witness :
    arc_loop Real.pi (arc_fuel Real.pi ((0 : ℝ) - 1)) 0 1 = some 1 ∧ (0 : ℝ) < 1 - 0
    ∧ ((1 : ℝ) - 0) / (Real.pi / 8) < 2147483648
    ∧ (PDF.init "g.pdf" 612 792 : PDF ℝ).arc 
          { cos := Real.cos, sin := Real.sin, atan2 := fun b a => Complex.arg ⟨a, b⟩,
            hypot := fun a b => Real.sqrt (a ^ 2 + b ^ 2), M_PI := Real.pi,
            fmt_f := fun _ _ => "" }
          (0 : ℝ) (0 : ℝ) (1 : ℝ) (0 : ℝ) (1 : ℝ) 0
          = ((if (PDF.init "g.pdf" 612 792 : PDF ℝ).current_point then
              (PDF.init "g.pdf" 612 792 : PDF ℝ).lineto 
          { cos := Real.cos, sin := Real.sin, atan2 := fun b a => Complex.arg ⟨a, b⟩,
            hypot := fun a b => Real.sqrt (a ^ 2 + b ^ 2), M_PI := Real.pi,
            fmt_f := fun _ _ => "" }
          ((0 : ℝ) + (1 : ℝ) * Real.cos (0 : ℝ)) ((0 : ℝ) + (1 : ℝ) * Real.sin (0 : ℝ))
            else (PDF.init "g.pdf" 612 792 : PDF ℝ).moveto 
          { cos := Real.cos, sin := Real.sin, atan2 := fun b a => Complex.arg ⟨a, b⟩,
            hypot := fun a b => Real.sqrt (a ^ 2 + b ^ 2), M_PI := Real.pi,
            fmt_f := fun _ _ => "" }
          ((0 : ℝ) + (1 : ℝ) * Real.cos (0 : ℝ)) ((0 : ℝ) + (1 : ℝ) * Real.sin (0 : ℝ))) >>= fun p =>
            ((List.range (arc_count Real.pi ((1 : ℝ) - (0 : ℝ)) 0)).map (fun k =>
              arc_segment Real.cos Real.sin (0 : ℝ) (0 : ℝ) (1 : ℝ)
                ((1 : ℝ) * Bezier_s Real.cos Real.sin (((1 : ℝ) - (0 : ℝ)) / ((arc_count Real.pi ((1 : ℝ) - (0 : ℝ)) 0) : Nat)))
                (arc_angle (0 : ℝ) (1 : ℝ) (arc_count Real.pi ((1 : ℝ) - (0 : ℝ)) 0) k)
                (arc_angle (0 : ℝ) (1 : ℝ) (arc_count Real.pi ((1 : ℝ) - (0 : ℝ)) 0) (k + 1)))).foldlM
              (fun p b => p.curveto 
          { cos := Real.cos, sin := Real.sin, atan2 := fun b a => Complex.arg ⟨a, b⟩,
            hypot := fun a b => Real.sqrt (a ^ 2 + b ^ 2), M_PI := Real.pi,
            fmt_f := fun _ _ => "" }
          b.p1.1 b.p1.2 b.p2.1 b.p2.2 b.p3.1 b.p3.2) p)
        ∧ ((arc_count Real.pi ((1 : ℝ) - (0 : ℝ)) 0) : Int) = max 1 ⌊((1 : ℝ) - (0 : ℝ)) / (Real.pi / 8)⌋
        ∧ (∀ k : Nat, arc_angle (0 : ℝ) (1 : ℝ) (arc_count Real.pi ((1 : ℝ) - (0 : ℝ)) 0) (k + 1) - arc_angle (0 : ℝ) (1 : ℝ) (arc_count Real.pi ((1 : ℝ) - (0 : ℝ)) 0) k = ((1 : ℝ) - (0 : ℝ)) / ((arc_count Real.pi ((1 : ℝ) - (0 : ℝ)) 0) : Nat))
        ∧ 0 < ((1 : ℝ) - (0 : ℝ)) / ((arc_count Real.pi ((1 : ℝ) - (0 : ℝ)) 0) : Nat)
        ∧ ((1 : ℝ) - (0 : ℝ)) / ((arc_count Real.pi ((1 : ℝ) - (0 : ℝ)) 0) : Nat) < Real.pi / 4
        ∧ (Real.pi / 8 ≤ ((1 : ℝ) - (0 : ℝ)) → Real.pi / 8 ≤ ((1 : ℝ) - (0 : ℝ)) / ((arc_count Real.pi ((1 : ℝ) - (0 : ℝ)) 0) : Nat)) :=
  have hb : ((1 : ℝ) - 0) / (Real.pi / 8) < 2147483648 := by
    rw [div_lt_iff₀ (by positivity)]
    nlinarith [Real.pi_gt_three]
  ⟨arc_loop_id 0 1 (by norm_num), by norm_num, hb,
    (arc_auto_segment_angle
      { cos := Real.cos, sin := Real.sin, atan2 := fun b a => Complex.arg ⟨a, b⟩,
            hypot := fun a b => Real.sqrt (a ^ 2 + b ^ 2), M_PI := Real.pi,
            fmt_f := fun _ _ => "" }
      rfl rfl rfl (PDF.init "g.pdf" 612 792) 0 0 1 0 1).1 1 (arc_loop_id 0 1 (by norm_num))
      (by norm_num) hb⟩

/-! ## Arrowheads and arrowed lines: claims C19 and C20 -/

section Arrowhead

/-- The direction from `(x, y)` to a different point `(x0, y0)` is a unit vector. -/
theorem unit_direction (x y x0 y0 : ℝ) (hne : (x0, y0) ≠ (x, y)) :
    0 < Real.sqrt ((x0 - x) ^ 2 + (y0 - y) ^ 2)
    ∧ ((x0 - x) / Real.sqrt ((x0 - x) ^ 2 + (y0 - y) ^ 2)) ^ 2
        + ((y0 - y) / Real.sqrt ((x0 - x) ^ 2 + (y0 - y) ^ 2)) ^ 2 = 1 := by
  have hpos : 0 < (x0 - x) ^ 2 + (y0 - y) ^ 2 := by
    by_contra hc
    have h0 : (x0 - x) ^ 2 + (y0 - y) ^ 2 = 0 :=
      le_antisymm (not_lt.mp hc) (by positivity)
    have hx : x0 - x = 0 := by nlinarith [sq_nonneg (x0 - x), sq_nonneg (y0 - y)]
    have hy : y0 - y = 0 := by nlinarith [sq_nonneg (x0 - x), sq_nonneg (y0 - y)]
    exact hne (by rw [sub_eq_zero.mp hx, sub_eq_zero.mp hy])
  have hd : 0 < Real.sqrt ((x0 - x) ^ 2 + (y0 - y) ^ 2) := Real.sqrt_pos.mpr hpos
  refine ⟨hd, ?_⟩
  rw [div_pow, div_pow, ← add_div, Real.sq_sqrt hpos.le]
  exact div_self hpos.ne'

/-- The cosine and sine of `atan2(y0 - y, x0 - x)`. -/
theorem cos_sin_atan2 (x y x0 y0 : ℝ) (hne : (x0, y0) ≠ (x, y)) :
    Real.cos (Complex.arg ⟨x0 - x, y0 - y⟩)
      = (x0 - x) / Real.sqrt ((x0 - x) ^ 2 + (y0 - y) ^ 2)
    ∧ Real.sin (Complex.arg ⟨x0 - x, y0 - y⟩)
      = (y0 - y) / Real.sqrt ((x0 - x) ^ 2 + (y0 - y) ^ 2) := by
  have habs : Complex.abs ⟨x0 - x, y0 - y⟩ = Real.sqrt ((x0 - x) ^ 2 + (y0 - y) ^ 2) := by
    rw [Complex.abs_apply, Complex.normSq_mk]
    congr 1
    ring
  have hz : (⟨x0 - x, y0 - y⟩ : ℂ) ≠ 0 := by
    intro h
    have h1 := congrArg Complex.re h
    have h2 := congrArg Complex.im h
    simp only [Complex.zero_re, Complex.zero_im] at h1 h2
    exact hne (by rw [sub_eq_zero.mp h1, sub_eq_zero.mp h2])
  rw [Complex.cos_arg hz, Complex.sin_arg, habs]
  exact ⟨rfl, rfl⟩

/-- The three vertices of the arrowhead in terms of the unit direction `(u1, u2)`. -/
theorem arrowhead_points_eq (L : Libm ℝ) (x y x0 y0 length width u1 u2 : ℝ)
    (hc : L.cos (L.atan2 (y0 - y) (x0 - x)) = u1)
    (hs : L.sin (L.atan2 (y0 - y) (x0 - x)) = u2) :
    PDF.arrowhead_points L x y x0 y0 length width
      = [(x, y),
         (x + length * u1 + width / 2 * u2, y + length * u2 - width / 2 * u1),
         (x + length * u1 - width / 2 * u2, y + length * u2 + width / 2 * u1)] := by
  unfold PDF.arrowhead_points
  simp only [List.map_cons, List.map_nil, hc, hs]
  congr 1
  · congr 1 <;> ring
  · congr 1
    · congr 1 <;> ring
    · congr 1
      congr 1 <;> ring

theorem basic_arrowhead_eq {α : Type} [LinearOrderedField α] (L : Libm α) (pdf : PDF α)
    (x y x0 y0 length width : α) (p0 p1 p2 : α × α)
    (h : PDF.arrowhead_points L x y x0 y0 length width = [p0, p1, p2]) :
    pdf.basic_arrowhead L x y x0 y0 length width
      = (do
          let q ← pdf.moveto L p0.1 p0.2
          let q ← q.lineto L p1.1 p1.2
          let q ← q.lineto L p2.1 p2.2
          let q ← q.closepath
          q.fill) := by
  unfold PDF.basic_arrowhead
  rw [h]
  simp only [List.foldlM_cons, List.foldlM_nil, bind_assoc, bind_pure]

end Arrowhead

/-- The triangle with apex `(x, y)` built on a unit vector `(u1, u2)`. -/
theorem arrowhead_core (x y length width u1 u2 : ℝ) (hu : u1 ^ 2 + u2 ^ 2 = 1)
    (hl : 0 ≤ length) (hw : 0 ≤ width) :
    Real.sqrt ((x + length * u1 + width / 2 * u2 - x) ^ 2
        + (y + length * u2 - width / 2 * u1 - y) ^ 2)
      = Real.sqrt ((x + length * u1 - width / 2 * u2 - x) ^ 2
        + (y + length * u2 + width / 2 * u1 - y) ^ 2)
    ∧ Real.sqrt ((x + length * u1 + width / 2 * u2 - (x + length * u1 - width / 2 * u2)) ^ 2
        + (y + length * u2 - width / 2 * u1 - (y + length * u2 + width / 2 * u1)) ^ 2)
      = width
    ∧ (((x + length * u1 + width / 2 * u2) + (x + length * u1 - width / 2 * u2)) / 2,
        ((y + length * u2 - width / 2 * u1) + (y + length * u2 + width / 2 * u1)) / 2)
      = (x + length * u1, y + length * u2)
    ∧ Real.sqrt ((((x + length * u1 + width / 2 * u2) + (x + length * u1 - width / 2 * u2)) / 2
          - x) ^ 2
        + (((y + length * u2 - width / 2 * u1) + (y + length * u2 + width / 2 * u1)) / 2
          - y) ^ 2)
      = length := by
  refine ⟨?_, ?_, ?_, ?_⟩
  · congr 1
    ring
  · have e : (x + length * u1 + width / 2 * u2 - (x + length * u1 - width / 2 * u2)) ^ 2
        + (y + length * u2 - width / 2 * u1 - (y + length * u2 + width / 2 * u1)) ^ 2
        = width ^ 2 := by
      linear_combination width ^ 2 * hu
    rw [e]
    exact Real.sqrt_sq hw
  · congr 1 <;> ring
  · have e : (((x + length * u1 + width / 2 * u2) + (x + length * u1 - width / 2 * u2)) / 2
          - x) ^ 2
        + (((y + length * u2 - width / 2 * u1) + (y + length * u2 + width / 2 * u1)) / 2
          - y) ^ 2
        = length ^ 2 := by
      linear_combination length ^ 2 * hu
    rw [e]
    exact Real.sqrt_sq hl

/-- C19, counterexample: the arrowhead at the origin for the reference point `(1, 0)` with
length 1 and width -2, over the reals. The angle is `atan2(0, 1) = 0`, the vertices are
`(0, 0)`, `(1, 1)` and `(1, -1)`: the two base vertices are 2 apart, which is not the width
passed. -/
theorem arrowhead_negative_width :
    PDF.arrowhead_points
        { cos := Real.cos, sin := Real.sin, atan2 := fun b a => Complex.arg ⟨a, b⟩,
          hypot := fun a b => Real.sqrt (a ^ 2 + b ^ 2), M_PI := Real.pi,
          fmt_f := fun _ _ => "" }
        0 0 1 0 1 (-2)
      = [((0 : ℝ), (0 : ℝ)), (1, 1), (1, -1)]
    ∧ Real.sqrt (((1 : ℝ) - 1) ^ 2 + ((1 : ℝ) - -1) ^ 2) ≠ -2 := by
  constructor
  · have h := cos_sin_atan2 0 0 1 0 (by simp)
    rw [arrowhead_points_eq _ 0 0 1 0 1 (-2) _ _ h.1 h.2]
    norm_num
  · exact ne_of_gt (lt_of_lt_of_le (by norm_num) (Real.sqrt_nonneg _))

/-- C19, amended: over the reals (`cos`, `sin` and `atan2` being the real functions), for
every target `(x, y)`, every reference point `(x0, y0)` different from it, every length
`>= 0` and every width `>= 0`, `basic_arrowhead` is `moveto`, `lineto`, `lineto`, `closepath`,
`fill` on three vertices of which the first is exactly `(x, y)`; the two others are at equal
distance from it and exactly `width` apart; their midpoint is `(x, y) + t (x0 - x, y0 - y)`
for a `t >= 0`, that is on the ray from the target towards the reference point, and at
distance `length` from the target. -/
theorem arrowhead_geometry (L : Libm ℝ) (hcos : L.cos = Real.cos) (hsin : L.sin = Real.sin)
    (hatan : ∀ b a, L.atan2 b a = Complex.arg ⟨a, b⟩)
    (x y x0 y0 length width : ℝ) (hne : (x0, y0) ≠ (x, y))
    (hl : 0 ≤ length) (hw : 0 ≤ width) :
    ∃ p1 p2 : ℝ × ℝ,
      PDF.arrowhead_points L x y x0 y0 length width = [(x, y), p1, p2]
      ∧ (∀ pdf : PDF ℝ, pdf.basic_arrowhead L x y x0 y0 length width
          = (do
              let q ← pdf.moveto L x y
              let q ← q.lineto L p1.1 p1.2
              let q ← q.lineto L p2.1 p2.2
              let q ← q.closepath
              q.fill))
      ∧ Real.sqrt ((p1.1 - x) ^ 2 + (p1.2 - y) ^ 2)
          = Real.sqrt ((p2.1 - x) ^ 2 + (p2.2 - y) ^ 2)
      ∧ Real.sqrt ((p1.1 - p2.1) ^ 2 + (p1.2 - p2.2) ^ 2) = width
      ∧ (∃ t : ℝ, 0 ≤ t
          ∧ ((p1.1 + p2.1) / 2, (p1.2 + p2.2) / 2) = (x + t * (x0 - x), y + t * (y0 - y)))
      ∧ Real.sqrt (((p1.1 + p2.1) / 2 - x) ^ 2 + ((p1.2 + p2.2) / 2 - y) ^ 2) = length := by
  obtain ⟨hd, hu⟩ := unit_direction x y x0 y0 hne
  obtain ⟨hc, hs⟩ := cos_sin_atan2 x y x0 y0 hne
  have hc1 : L.cos (L.atan2 (y0 - y) (x0 - x))
      = (x0 - x) / Real.sqrt ((x0 - x) ^ 2 + (y0 - y) ^ 2) := by
    rw [hcos, hatan, hc]
  have hs1 : L.sin (L.atan2 (y0 - y) (x0 - x))
      = (y0 - y) / Real.sqrt ((x0 - x) ^ 2 + (y0 - y) ^ 2) := by
    rw [hsin, hatan, hs]
  have hpts := arrowhead_points_eq L x y x0 y0 length width _ _ hc1 hs1
  obtain ⟨g1, g2, g3, g4⟩ := arrowhead_core x y length width _ _ hu hl hw
  refine ⟨(x + length * ((x0 - x) / Real.sqrt ((x0 - x) ^ 2 + (y0 - y) ^ 2))
        + width / 2 * ((y0 - y) / Real.sqrt ((x0 - x) ^ 2 + (y0 - y) ^ 2)),
      y + length * ((y0 - y) / Real.sqrt ((x0 - x) ^ 2 + (y0 - y) ^ 2))
        - width / 2 * ((x0 - x) / Real.sqrt ((x0 - x) ^ 2 + (y0 - y) ^ 2))),
    (x + length * ((x0 - x) / Real.sqrt ((x0 - x) ^ 2 + (y0 - y) ^ 2))
        - width / 2 * ((y0 - y) / Real.sqrt ((x0 - x) ^ 2 + (y0 - y) ^ 2)),
      y + length * ((y0 - y) / Real.sqrt ((x0 - x) ^ 2 + (y0 - y) ^ 2))
        + width / 2 * ((x0 - x) / Real.sqrt ((x0 - x) ^ 2 + (y0 - y) ^ 2))),
    hpts, fun pdf => by rw [basic_arrowhead_eq L pdf x y x0 y0 length width _ _ _ hpts],
    g1, g2, ⟨length / Real.sqrt ((x0 - x) ^ 2 + (y0 - y) ^ 2), div_nonneg hl hd.le, ?_⟩, g4⟩
  rw [g3]
  congr 1 <;> ring

/-- Witness of C19: the arrowhead at the origin for the reference point `(3, 4)` with length
10 and width 4. -/
theorem arrowhead_geometry_witness :
    ((3 : ℝ), (4 : ℝ)) ≠ (0, 0) ∧ (0 : ℝ) ≤ 10 ∧ (0 : ℝ) ≤ 4
    ∧ ∃ p1 p2 : ℝ × ℝ,
      PDF.arrowhead_points
          { cos := Real.cos, sin := Real.sin, atan2 := fun b a => Complex.arg ⟨a, b⟩,
            hypot := fun a b => Real.sqrt (a ^ 2 + b ^ 2), M_PI := Real.pi,
            fmt_f := fun _ _ => "" }
          0 0 3 4 10 4
        = [(0, 0), p1, p2]
      ∧ Real.sqrt ((p1.1 - p2.1) ^ 2 + (p1.2 - p2.2) ^ 2) = 4
      ∧ Real.sqrt (((p1.1 + p2.1) / 2 - 0) ^ 2 + ((p1.2 + p2.2) / 2 - 0) ^ 2) = 10 := by
  have hne : ((3 : ℝ), (4 : ℝ)) ≠ (0, 0) := by simp
  obtain ⟨p1, p2, h1, _, _, h4, _, h6⟩ :=
    arrowhead_geometry
      { cos := Real.cos, sin := Real.sin, atan2 := fun b a => Complex.arg ⟨a, b⟩,
        hypot := fun a b => Real.sqrt (a ^ 2 + b ^ 2), M_PI := Real.pi,
        fmt_f := fun _ _ => "" }
      rfl rfl (fun _ _ => rfl) 0 0 3 4 10 4 hne (by norm_num) (by norm_num)
  exact ⟨hne, by norm_num, by norm_num, p1, p2, h1, h4, h6⟩

theorem arrowhead_points_head {α : Type} [LinearOrderedField α] (L : Libm α)
    (x y x0 y0 length width : α) :
    (PDF.arrowhead_points L x y x0 y0 length width).head? = some (x, y) := by
  unfold PDF.arrowhead_points
  simp only [List.map_cons, List.head?_cons, mul_zero, add_zero, sub_zero]

/-- C20: over the reals (with `hypot` the euclidean norm), for every pair of distinct
endpoints `p0 = (x0, y0)`, `p1 = (x1, y1)` with unit direction `u = (p1 - p0) / |p1 - p0|`,
every arrowhead length and width, every `heads` and all offsets `b`, `f`: `arrowed_line` is
`moveto (p0 + u (b + 0.3 length [Backward]))`, `lineto (p1 - u (f + 0.3 length [Forward]))`,
`stroke`, then `basic_arrowhead` at the apex `p0 + u b` towards `p1 - u f` exactly when the
`Backward` bit of `heads` is set, then `basic_arrowhead` at the apex `p1 - u f` towards
`p0 + u b` exactly when the `Forward` bit is set; the first vertex of an arrowhead is its
apex argument. So the stroked line starts, respectively ends, `0.3 length` along `u` short of
each apex that is drawn. -/
theorem arrowed_line_geometry (L : Libm ℝ)
    (hhyp : ∀ a b, L.hypot a b = Real.sqrt (a ^ 2 + b ^ 2)) (pdf : PDF ℝ)
    (x0 y0 x1 y1 length width : ℝ) (heads : Nat) (b f : ℝ) (hne : (x1, y1) ≠ (x0, y0)) :
    ∃ u1 u2 : ℝ,
      u1 = (x1 - x0) / Real.sqrt ((x1 - x0) ^ 2 + (y1 - y0) ^ 2)
      ∧ u2 = (y1 - y0) / Real.sqrt ((x1 - x0) ^ 2 + (y1 - y0) ^ 2)
      ∧ u1 ^ 2 + u2 ^ 2 = 1
      ∧ pdf.arrowed_line L x0 y0 x1 y1 length width heads b f
        = (do
            let q ← pdf.moveto L
              (x0 + u1 * (b + 3 / 10 * length * (if heads &&& Backward ≠ 0 then 1 else 0)))
              (y0 + u2 * (b + 3 / 10 * length * (if heads &&& Backward ≠ 0 then 1 else 0)))
            let q ← q.lineto L
              (x1 - u1 * (f + 3 / 10 * length * (if heads &&& Forward ≠ 0 then 1 else 0)))
              (y1 - u2 * (f + 3 / 10 * length * (if heads &&& Forward ≠ 0 then 1 else 0)))
            let q ← q.stroke
            let q ←
              (if heads &&& Backward ≠ 0 then
                q.basic_arrowhead L (x0 + u1 * b) (y0 + u2 * b) (x1 - u1 * f) (y1 - u2 * f)
                  length width
              else pure q)
            if heads &&& Forward ≠ 0 then
              q.basic_arrowhead L (x1 - u1 * f) (y1 - u2 * f) (x0 + u1 * b) (y0 + u2 * b)
                length width
            else pure q)
      ∧ ∀ px py qx qy : ℝ,
          (PDF.arrowhead_points L px py qx qy length width).head? = some (px, py) := by
  refine ⟨_, _, rfl, rfl, (unit_direction x0 y0 x1 y1 hne).2, ?_,
    fun px py qx qy => arrowhead_points_head L px py qx qy length width⟩
  unfold PDF.arrowed_line
  simp only [hhyp]
  generalize (x1 - x0) / Real.sqrt ((x1 - x0) ^ 2 + (y1 - y0) ^ 2) = u1
  generalize (y1 - y0) / Real.sqrt ((x1 - x0) ^ 2 + (y1 - y0) ^ 2) = u2
  have e1 : ∀ t : ℝ, x0 + u1 * b + u1 * t = x0 + u1 * (b + t) := fun t => by ring
  have e2 : ∀ t : ℝ, y0 + u2 * b + u2 * t = y0 + u2 * (b + t) := fun t => by ring
  have e3 : ∀ t : ℝ, x1 - u1 * f - u1 * t = x1 - u1 * (f + t) := fun t => by ring
  have e4 : ∀ t : ℝ, y1 - u2 * f - u2 * t = y1 - u2 * (f + t) := fun t => by ring
  by_cases hB : heads &&& Backward ≠ 0 <;> by_cases hF : heads &&& Forward ≠ 0 <;>
    simp only [if_pos, if_neg, hB, hF, not_false_eq_true, not_true_eq_false, e1, e2, e3, e4,
      mul_one, mul_zero, add_zero, ne_eq]

/-- Witness of C20: the line from the origin to `(3, 4)` on a new document, with both
arrowheads of length 10 and width 4 and no offsets. -/
theorem arrowed_line_geometry_witness :
    ((3 : ℝ), (4 : ℝ)) ≠ (0, 0)
    ∧ ∃ u1 u2 : ℝ,
      u1 = (3 - 0) / Real.sqrt ((3 - 0) ^ 2 + (4 - 0) ^ 2)
      ∧ u2 = (4 - 0) / Real.sqrt ((3 - 0) ^ 2 + (4 - 0) ^ 2)
      ∧ u1 ^ 2 + u2 ^ 2 = 1
      ∧ (PDF.init "graph.pdf" 612 792 : PDF ℝ).arrowed_line
          { cos := Real.cos, sin := Real.sin, atan2 := fun b a => Complex.arg ⟨a, b⟩,
            hypot := fun a b => Real.sqrt (a ^ 2 + b ^ 2), M_PI := Real.pi,
            fmt_f := fun _ _ => "" }
          0 0 3 4 10 4 3 0 0
        = (do
            let q ← (PDF.init "graph.pdf" 612 792 : PDF ℝ).moveto
              { cos := Real.cos, sin := Real.sin, atan2 := fun b a => Complex.arg ⟨a, b⟩,
                hypot := fun a b => Real.sqrt (a ^ 2 + b ^ 2), M_PI := Real.pi,
                fmt_f := fun _ _ => "" }
              (0 + u1 * (0 + 3 / 10 * 10 * (if 3 &&& Backward ≠ 0 then 1 else 0)))
              (0 + u2 * (0 + 3 / 10 * 10 * (if 3 &&& Backward ≠ 0 then 1 else 0)))
            let q ← q.lineto
              { cos := Real.cos, sin := Real.sin, atan2 := fun b a => Complex.arg ⟨a, b⟩,
                hypot := fun a b => Real.sqrt (a ^ 2 + b ^ 2), M_PI := Real.pi,
                fmt_f := fun _ _ => "" }
              (3 - u1 * (0 + 3 / 10 * 10 * (if 3 &&& Forward ≠ 0 then 1 else 0)))
              (4 - u2 * (0 + 3 / 10 * 10 * (if 3 &&& Forward ≠ 0 then 1 else 0)))
            let q ← q.stroke
            let q ←
              (if 3 &&& Backward ≠ 0 then
                q.basic_arrowhead
                  { cos := Real.cos, sin := Real.sin, atan2 := fun b a => Complex.arg ⟨a, b⟩,
                    hypot := fun a b => Real.sqrt (a ^ 2 + b ^ 2), M_PI := Real.pi,
                    fmt_f := fun _ _ => "" }
                  (0 + u1 * 0) (0 + u2 * 0) (3 - u1 * 0) (4 - u2 * 0) 10 4
              else pure q)
            if 3 &&& Forward ≠ 0 then
              q.basic_arrowhead
                { cos := Real.cos, sin := Real.sin, atan2 := fun b a => Complex.arg ⟨a, b⟩,
                  hypot := fun a b => Real.sqrt (a ^ 2 + b ^ 2), M_PI := Real.pi,
                  fmt_f := fun _ _ => "" }
                (3 - u1 * 0) (4 - u2 * 0) (0 + u1 * 0) (0 + u2 * 0) 10 4
            else pure q) := by
  have hne : ((3 : ℝ), (4 : ℝ)) ≠ (0, 0) := by simp
  obtain ⟨u1, u2, h1, h2, h3, h4, _⟩ :=
    arrowed_line_geometry
      { cos := Real.cos, sin := Real.sin, atan2 := fun b a => Complex.arg ⟨a, b⟩,
        hypot := fun a b => Real.sqrt (a ^ 2 + b ^ 2), M_PI := Real.pi,
        fmt_f := fun _ _ => "" }
      (fun _ _ => rfl) (PDF.init "graph.pdf" 612 792) 0 0 3 4 10 4 3 0 0 hne
  exact ⟨hne, u1, u2, h1, h2, h3, h4⟩

/-! ## Arcs of a graph: claims C29 and C30 -/

section GraphArcs

variable {α : Type}

theorem check_index_iff (i : Int) (n : Nat) : check_index i n = true ↔ 0 ≤ i ∧ i < n := by
  unfold check_index
  by_cases h1 : i < 0
  · simp only [if_pos h1]
    constructor
    · intro h; cases h
    · intro h; omega
  · by_cases h2 : i ≥ n
    · simp only [if_neg h1, if_pos h2]
      constructor
      · intro h; cases h
      · intro h; omega
    · simp only [if_neg h1, if_neg h2]
      constructor
      · intro _; omega
      · intro _; trivial

theorem check_index_nat (k n : Nat) : check_index (k : Int) n = true ↔ k < n := by
  rw [check_index_iff]
  omega

theorem update2_same {β : Type} (f : Nat → Nat → β) (a b : Nat) (v : β) :
    Function.update f a (Function.update (f a) b v) a b = v := by
  simp

theorem update2_other {β : Type} (f : Nat → Nat → β) (a b : Nat) (v : β) (c d : Nat)
    (h : ¬ (c = a ∧ d = b)) :
    Function.update f a (Function.update (f a) b v) c d = f c d := by
  by_cases hc : c = a
  · subst hc
    have hd : d ≠ b := fun hd => h ⟨rfl, hd⟩
    simp [Function.update_noteq hd]
  · simp [Function.update_noteq hc]

theorem Graph.add_arc_eq [LinearOrderedField α] (g : Graph α) (i j : Int)
    (ci : check_index i g.n = true) (cj : check_index j g.n = true) :
    g.add_arc i j
      = ({ g with
            adj := Function.update g.adj i.toNat (Function.update (g.adj i.toNat) j.toNat 1) },
          decide (g.adj i.toNat j.toNat > 0)) := by
  unfold Graph.add_arc
  simp only [ci, cj, Bool.not_true, Bool.false_eq_true, if_false]
  by_cases h : g.adj i.toNat j.toNat > 0
  · rw [if_pos h, decide_eq_true h]
  · rw [if_neg h, decide_eq_false h]

theorem Graph.add_weighted_arc_eq [LinearOrderedField α] (g : Graph α) (i j : Int) (w : α)
    (ci : check_index i g.n = true) (cj : check_index j g.n = true) :
    g.add_weighted_arc i j w
      = ({ g with
            adj := Function.update g.adj i.toNat
              (Function.update (g.adj i.toNat) j.toNat (if w ≤ 0 then 1 else w)) },
          decide (g.adj i.toNat j.toNat > 0)) := by
  unfold Graph.add_weighted_arc
  simp only [ci, cj, Bool.not_true, Bool.false_eq_true, if_false]
  by_cases h : g.adj i.toNat j.toNat > 0
  · rw [if_pos h, decide_eq_true h]
  · rw [if_neg h, decide_eq_false h]

theorem Graph.adjacent_eq [LinearOrderedField α] (g : Graph α) (i j : Int)
    (ci : check_index i g.n = true) (cj : check_index j g.n = true) :
    g.adjacent i j = decide (g.adj i.toNat j.toNat > 0) := by
  unfold Graph.adjacent
  simp only [ci, cj, Bool.not_true, Bool.false_eq_true, if_false]

theorem Graph.get_arc_weight_eq [LinearOrderedField α] (g : Graph α) (i j : Int)
    (ci : check_index i g.n = true) (cj : check_index j g.n = true) :
    g.get_arc_weight i j = g.adj i.toNat j.toNat := by
  unfold Graph.get_arc_weight
  simp only [ci, cj, Bool.not_true, Bool.false_eq_true, if_false]

end GraphArcs

section WeightsOk

variable {α : Type}

theorem Graph.init_weights_ok [LinearOrderedField α] (n : Nat) :
    (Graph.init n : Graph α).weights_ok :=
  fun _ _ _ _ => Or.inl rfl

theorem weights_ok_update [LinearOrderedField α] (g : Graph α) (h : g.weights_ok)
    (a b : Nat) (v : α) (hv : v = 0 ∨ 0 < v) :
    Graph.weights_ok
      { g with adj := Function.update g.adj a (Function.update (g.adj a) b v) } := by
  intro i j hi hj
  show Function.update g.adj a (Function.update (g.adj a) b v) i j = 0 ∨
    0 < Function.update g.adj a (Function.update (g.adj a) b v) i j
  by_cases hab : i = a ∧ j = b
  · obtain ⟨rfl, rfl⟩ := hab
    rw [update2_same]
    exact hv
  · rw [update2_other _ _ _ _ _ _ hab]
    exact h i j hi hj

theorem one_or_weight_pos [LinearOrderedField α] (w : α) :
    (if w ≤ 0 then (1 : α) else w) = 0 ∨ 0 < (if w ≤ 0 then (1 : α) else w) := by
  right
  split
  · exact zero_lt_one
  · rename_i h; exact not_le.mp h

/-- The arc mutators other than `set_all_arc_weights` keep every adjacency entry 0 or
positive, and so does `set_all_arc_weights` for a weight that is not negative. -/
theorem arc_mutators_keep_weights [LinearOrderedField α] (g : Graph α) (h : g.weights_ok)
    (i j : Int) (w : α) :
    (g.add_arc i j).1.weights_ok ∧ (g.add_weighted_arc i j w).1.weights_ok
    ∧ (g.set_arc_weight i j w).weights_ok ∧ (g.remove_arc i j).1.weights_ok
    ∧ (g.remove_outgoing_arcs i).weights_ok ∧ (g.remove_incoming_arcs i).weights_ok
    ∧ g.remove_all_arcs.weights_ok ∧ g.unweight_arcs.weights_ok
    ∧ (0 ≤ w → (g.set_all_arc_weights w).weights_ok) := by
  refine ⟨?_, ?_, ?_, ?_, ?_, ?_, ?_, ?_, ?_⟩
  · unfold Graph.add_arc
    split
    · exact h
    · split
      · exact h
      · split
        · exact weights_ok_update g h _ _ _ (Or.inr zero_lt_one)
        · exact weights_ok_update g h _ _ _ (Or.inr zero_lt_one)
  · unfold Graph.add_weighted_arc
    split
    · exact h
    · split
      · exact h
      · simp only
        split
        · exact weights_ok_update g h _ _ _ (one_or_weight_pos w)
        · exact weights_ok_update g h _ _ _ (one_or_weight_pos w)
  · unfold Graph.set_arc_weight
    split
    · exact h
    · split
      · exact h
      · exact weights_ok_update g h _ _ _ (one_or_weight_pos w)
  · unfold Graph.remove_arc
    split
    · exact h
    · split
      · exact h
      · split
        · exact weights_ok_update g h _ _ _ (Or.inl rfl)
        · exact weights_ok_update g h _ _ _ (Or.inl rfl)
  · unfold Graph.remove_outgoing_arcs
    split
    · exact h
    · intro a b ha hb
      show (if a = i.toNat ∧ b < g.n then (0 : α) else g.adj a b) = 0 ∨
        0 < (if a = i.toNat ∧ b < g.n then (0 : α) else g.adj a b)
      split
      · exact Or.inl rfl
      · exact h a b ha hb
  · unfold Graph.remove_incoming_arcs
    split
    · exact h
    · intro a b ha hb
      show (if a < g.n ∧ b = i.toNat then (0 : α) else g.adj a b) = 0 ∨
        0 < (if a < g.n ∧ b = i.toNat then (0 : α) else g.adj a b)
      split
      · exact Or.inl rfl
      · exact h a b ha hb
  · intro a b ha hb
    show (if a < g.n ∧ b < g.n then (0 : α) else g.adj a b) = 0 ∨
      0 < (if a < g.n ∧ b < g.n then (0 : α) else g.adj a b)
    rw [if_pos ⟨ha, hb⟩]
    exact Or.inl rfl
  · intro a b ha hb
    show (if a < g.n ∧ b < g.n ∧ g.adj a b > 0 then (1 : α) else g.adj a b) = 0 ∨
      0 < (if a < g.n ∧ b < g.n ∧ g.adj a b > 0 then (1 : α) else g.adj a b)
    split
    · exact Or.inr zero_lt_one
    · exact h a b ha hb
  · intro hw a b ha hb
    show (if a < g.n ∧ b < g.n ∧ g.adj a b > 0 then w else g.adj a b) = 0 ∨
      0 < (if a < g.n ∧ b < g.n ∧ g.adj a b > 0 then w else g.adj a b)
    split
    · rcases eq_or_lt_of_le hw with h0 | h0
      · exact Or.inl h0.symm
      · exact Or.inr h0
    · exact h a b ha hb

end WeightsOk

/-- C30, the code at the failing input: the graph with two nodes and the arc from node 0 to
node 1 (weight 1) has every adjacency entry 0 or positive; after `set_all_arc_weights(-1)`
the entry of that arc is -1, neither 0 nor positive. The weight is stored without the test
`weight <= 0` that `set_arc_weight` and `add_arc` make. -/
theorem set_all_arc_weights_negative :
    ((Graph.init 2 : Graph ℚ).add_arc 0 1).1.weights_ok
    ∧ (((Graph.init 2 : Graph ℚ).add_arc 0 1).1.set_all_arc_weights (-1)).adj 0 1 = -1
    ∧ ¬ (((Graph.init 2 : Graph ℚ).add_arc 0 1).1.set_all_arc_weights (-1)).weights_ok := by
  have h1 : (((Graph.init 2 : Graph ℚ).add_arc 0 1).1.set_all_arc_weights (-1)).adj 0 1
      = -1 := by
    rw [Graph.add_arc_eq _ 0 1 (by decide) (by decide)]
    simp [Graph.set_all_arc_weights, Graph.init]
  refine ⟨(arc_mutators_keep_weights _ (Graph.init_weights_ok 2) 0 1 0).1, h1, fun h => ?_⟩
  have h2 := h 0 1 (by decide) (by decide)
  rw [h1] at h2
  norm_num at h2

section ArcCentre

theorem arc_centre_dot [LinearOrderedField α] (p0 p1 p2 : PDFPoint α)
    (hD : arc_det p0 p1 p2 ≠ 0) :
    (arc_centre p0 p1 p2).x * (p1.x - p0.x) + (arc_centre p0 p1 p2).y * (p1.y - p0.y)
        = (p1.length_sqr - p0.length_sqr) / 2
    ∧ (arc_centre p0 p1 p2).x * (p2.x - p1.x) + (arc_centre p0 p1 p2).y * (p2.y - p1.y)
        = (p2.length_sqr - p1.length_sqr) / 2 := by
  have hD' : (p1.x - p0.x) * (p2.y - p1.y) - (p1.y - p0.y) * (p2.x - p1.x) ≠ 0 := hD
  simp only [arc_centre, PDFPoint.sub, PDFPoint.length_sqr]
  constructor
  · field_simp
    ring
  · field_simp
    ring

theorem arc_centre_unique [LinearOrderedField α] (p0 p1 p2 c : PDFPoint α)
    (hD : arc_det p0 p1 p2 ≠ 0)
    (h1 : c.x * (p1.x - p0.x) + c.y * (p1.y - p0.y) = (p1.length_sqr - p0.length_sqr) / 2)
    (h2 : c.x * (p2.x - p1.x) + c.y * (p2.y - p1.y) = (p2.length_sqr - p1.length_sqr) / 2) :
    c = arc_centre p0 p1 p2 := by
  have hD' : (p1.x - p0.x) * (p2.y - p1.y) - (p1.y - p0.y) * (p2.x - p1.x) ≠ 0 := hD
  obtain ⟨cx, cy⟩ := c
  simp only [arc_centre, PDFPoint.sub, PDFPoint.mk.injEq]
  simp only at h1 h2
  constructor
  · rw [eq_div_iff hD']
    linear_combination (p2.y - p1.y) * h1 - (p1.y - p0.y) * h2
  · rw [eq_div_iff hD']
    linear_combination (-(p2.x - p1.x)) * h1 + (p1.x - p0.x) * h2

theorem sq_dist_eq_iff (L : Libm ℝ) (hL : ∀ a b, L.hypot a b = Real.sqrt (a ^ 2 + b ^ 2))
    (c p q : PDFPoint ℝ) :
    c.dist L p = c.dist L q ↔
      c.x * (q.x - p.x) + c.y * (q.y - p.y) = (q.length_sqr - p.length_sqr) / 2 := by
  simp only [PDFPoint.dist, hL, PDFPoint.length_sqr]
  rw [Real.sqrt_inj (by positivity) (by positivity)]
  constructor
  · intro h
    linear_combination h / 2
  · intro h
    linear_combination 2 * h

end ArcCentre

/-- C21: for three points `p0`, `p1`, `p2` whose determinant `D` is not 0, the centre `c`
that `draw_general` computes is at the same distance from `p0`, `p1` and `p2`; the arc is
drawn (by `arrowed_arcn` or `arrowed_arc`) about `c` with the radius `r = c.dist(p0)`, that
common distance; and `c`, `r` is the only circle through the three points. -/
theorem arc_centre_circumcircle (L : Libm ℝ)
    (hL : ∀ a b, L.hypot a b = Real.sqrt (a ^ 2 + b ^ 2)) (p0 p1 p2 : PDFPoint ℝ)
    (hD : arc_det p0 p1 p2 ≠ 0) :
    (arc_centre p0 p1 p2).dist L p0 = (arc_centre p0 p1 p2).dist L p1
    ∧ (arc_centre p0 p1 p2).dist L p1 = (arc_centre p0 p1 p2).dist L p2
    ∧ (∀ (pdf : PDF ℝ) (al aw : ℝ) (heads : Nat) (node_r : ℝ),
        |arc_det p0 p1 p2| ≠ 1 / 1000000 →
        PDFGraph.draw_arc_through L pdf p0 p1 p2 al aw heads node_r =
          if (p0.sub (arc_centre p0 p1 p2)).cross_z (p1.sub (arc_centre p0 p1 p2)) < 0 then
            pdf.arrowed_arcn L (arc_centre p0 p1 p2).x (arc_centre p0 p1 p2).y
              ((arc_centre p0 p1 p2).dist L p0)
              (L.atan2 (p0.y - (arc_centre p0 p1 p2).y) (p0.x - (arc_centre p0 p1 p2).x))
              (L.atan2 (p1.y - (arc_centre p0 p1 p2).y) (p1.x - (arc_centre p0 p1 p2).x))
              al aw heads node_r node_r
          else
            pdf.arrowed_arc L (arc_centre p0 p1 p2).x (arc_centre p0 p1 p2).y
              ((arc_centre p0 p1 p2).dist L p0)
              (L.atan2 (p0.y - (arc_centre p0 p1 p2).y) (p0.x - (arc_centre p0 p1 p2).x))
              (L.atan2 (p1.y - (arc_centre p0 p1 p2).y) (p1.x - (arc_centre p0 p1 p2).x))
              al aw heads node_r node_r)
    ∧ (∀ (c : PDFPoint ℝ) (r : ℝ), c.dist L p0 = r → c.dist L p1 = r → c.dist L p2 = r →
        c = arc_centre p0 p1 p2 ∧ r = (arc_centre p0 p1 p2).dist L p0) := by
  obtain ⟨h1, h2⟩ := arc_centre_dot p0 p1 p2 hD
  refine ⟨(sq_dist_eq_iff L hL _ _ _).2 h1, (sq_dist_eq_iff L hL _ _ _).2 h2, ?_, ?_⟩
  · intro pdf al aw heads node_r hne
    unfold PDFGraph.draw_arc_through
    rw [if_neg hne]
  · intro c r e0 e1 e2
    have hc : c = arc_centre p0 p1 p2 :=
      arc_centre_unique p0 p1 p2 c hD ((sq_dist_eq_iff L hL _ _ _).1 (e0.trans e1.symm))
        ((sq_dist_eq_iff L hL _ _ _).1 (e1.trans e2.symm))
    exact ⟨hc, by rw [← hc, e0]⟩

theorem arc_centre_circumcircle_witness :
    arc_det (⟨-1, 0⟩ : PDFPoint ℝ) ⟨1, 0⟩ ⟨0, 3⟩ ≠ 0
    ∧ (arc_centre (⟨-1, 0⟩ : PDFPoint ℝ) ⟨1, 0⟩ ⟨0, 3⟩).dist
        { cos := Real.cos, sin := Real.sin, atan2 := fun b a => Complex.arg ⟨a, b⟩,
          hypot := fun a b => Real.sqrt (a ^ 2 + b ^ 2), M_PI := Real.pi,
          fmt_f := fun _ _ => "" } ⟨-1, 0⟩
      = (arc_centre (⟨-1, 0⟩ : PDFPoint ℝ) ⟨1, 0⟩ ⟨0, 3⟩).dist
        { cos := Real.cos, sin := Real.sin, atan2 := fun b a => Complex.arg ⟨a, b⟩,
          hypot := fun a b => Real.sqrt (a ^ 2 + b ^ 2), M_PI := Real.pi,
          fmt_f := fun _ _ => "" } ⟨0, 3⟩ := by
  have hD : arc_det (⟨-1, 0⟩ : PDFPoint ℝ) ⟨1, 0⟩ ⟨0, 3⟩ ≠ 0 := by
    simp only [arc_det, PDFPoint.sub]
    norm_num
  have h := arc_centre_circumcircle
    { cos := Real.cos, sin := Real.sin, atan2 := fun b a => Complex.arg ⟨a, b⟩,
      hypot := fun a b => Real.sqrt (a ^ 2 + b ^ 2), M_PI := Real.pi,
      fmt_f := fun _ _ => "" } (fun _ _ => rfl) ⟨-1, 0⟩ ⟨1, 0⟩ ⟨0, 3⟩ hD
  exact ⟨hD, h.1.trans h.2.1⟩

/-- C28, the code at the failing input: on the graph with two nodes and the single arc from
node 0 to node 1 of weight 1/2, `shortest_path(0)` prints the distance 0 for node 1, whose
only path from the source has length 1/2: the sum `dist[u] + adj[u][v]` is stored in a
`vector<int>`. -/
theorem shortest_path_truncates :
    ((Graph.init 2 : Graph ℚ).add_weighted_arc 0 1 (1 / 2)).1.adj 0 1 = 1 / 2
    ∧ (∀ a b, ¬ (a = 0 ∧ b = 1) →
        ((Graph.init 2 : Graph ℚ).add_weighted_arc 0 1 (1 / 2)).1.adj a b = 0)
    ∧ (((Graph.init 2 : Graph ℚ).add_weighted_arc 0 1 (1 / 2)).1.shortest_path 0).map
        Prod.snd = .ok "Vertex   Distance from Source\n  0\n  0\n" := by
  refine ⟨?_, ?_, ?_⟩
  · rw [Graph.add_weighted_arc_eq _ 0 1 _ (by decide) (by decide)]
    simp [Graph.init]
  · intro a b hab
    rw [Graph.add_weighted_arc_eq _ 0 1 _ (by decide) (by decide)]
    exact update2_other _ 0 1 _ a b hab
  · with_unfolding_all rfl

section ArcSide

theorem arc_centre_example :
    arc_centre (⟨-1, 0⟩ : PDFPoint ℝ) ⟨1, 0⟩ ⟨0, 3⟩ = ⟨0, 4 / 3⟩ := by
  simp only [arc_centre, PDFPoint.sub, PDFPoint.length_sqr, PDFPoint.mk.injEq]
  constructor <;> norm_num

theorem arc_det_example : arc_det (⟨-1, 0⟩ : PDFPoint ℝ) ⟨1, 0⟩ ⟨0, 3⟩ = 6 := by
  simp only [arc_det, PDFPoint.sub]
  norm_num

theorem sqrt_25_9 : Real.sqrt ((-1 - 0 : ℝ) ^ 2 + (0 - 4 / 3) ^ 2) = 5 / 3 := by
  rw [show ((-1 - 0 : ℝ) ^ 2 + (0 - 4 / 3) ^ 2) = (5 / 3) ^ 2 by norm_num]
  exact Real.sqrt_sq (by norm_num)

end ArcSide

/-- C22, the code at the failing input: for the end points `p0 = (-1, 0)`, `p1 = (1, 0)` and
the control point `p2 = (0, 3)` (not collinear), the arc branch of `draw_general` calls
`arrowed_arc` about the centre `(0, 4/3)` with radius `5/3` from the angle `a0` of `p0` to
the angle `a1` of `p1`, where `-π < a0 < a1 < 0`; every point of that sweep lies below the
centre, so none of them is the control point, which is the point at angle `π/2`. -/
theorem draw_arc_misses_control_point (pdf : PDF ℝ) (al aw : ℝ) (heads : Nat) (node_r : ℝ) :
    arc_det (⟨-1, 0⟩ : PDFPoint ℝ) ⟨1, 0⟩ ⟨0, 3⟩ ≠ 0
    ∧ PDFGraph.draw_arc_through
        { cos := Real.cos, sin := Real.sin, atan2 := fun b a => Complex.arg ⟨a, b⟩,
          hypot := fun a b => Real.sqrt (a ^ 2 + b ^ 2), M_PI := Real.pi,
          fmt_f := fun _ _ => "" }
        pdf ⟨-1, 0⟩ ⟨1, 0⟩ ⟨0, 3⟩ al aw heads node_r
      = pdf.arrowed_arc
        { cos := Real.cos, sin := Real.sin, atan2 := fun b a => Complex.arg ⟨a, b⟩,
          hypot := fun a b => Real.sqrt (a ^ 2 + b ^ 2), M_PI := Real.pi,
          fmt_f := fun _ _ => "" }
        0 (4 / 3) (5 / 3) (Complex.arg ⟨-1 - 0, 0 - 4 / 3⟩) (Complex.arg ⟨1 - 0, 0 - 4 / 3⟩)
        al aw heads node_r node_r
    ∧ -Real.pi < Complex.arg ⟨-1 - 0, 0 - 4 / 3⟩
    ∧ Complex.arg ⟨-1 - 0, 0 - 4 / 3⟩ < Complex.arg ⟨1 - 0, 0 - 4 / 3⟩
    ∧ Complex.arg ⟨1 - 0, 0 - 4 / 3⟩ < 0
    ∧ (0 : ℝ) + 5 / 3 * Real.cos (Real.pi / 2) = 0
    ∧ (4 / 3 : ℝ) + 5 / 3 * Real.sin (Real.pi / 2) = 3
    ∧ ∀ t : ℝ, Complex.arg ⟨-1 - 0, 0 - 4 / 3⟩ ≤ t → t ≤ Complex.arg ⟨1 - 0, 0 - 4 / 3⟩ →
        (4 / 3 : ℝ) + 5 / 3 * Real.sin t < 4 / 3 := by
  have h0 : Complex.arg ⟨-1 - 0, 0 - 4 / 3⟩ < -(Real.pi / 2) := by
    rw [← not_le, Complex.neg_pi_div_two_le_arg_iff]
    simp only [not_or, not_le]
    constructor <;> norm_num
  have h1 : -(Real.pi / 2) ≤ Complex.arg ⟨1 - 0, 0 - 4 / 3⟩ := by
    rw [Complex.neg_pi_div_two_le_arg_iff]
    left
    norm_num
  have h2 : Complex.arg ⟨1 - 0, 0 - 4 / 3⟩ < 0 := by
    rw [Complex.arg_neg_iff]
    norm_num
  refine ⟨by rw [arc_det_example]; norm_num, ?_, Complex.neg_pi_lt_arg _, by linarith, h2,
    by rw [Real.cos_pi_div_two]; norm_num, by rw [Real.sin_pi_div_two]; norm_num, ?_⟩
  · unfold PDFGraph.draw_arc_through
    rw [if_neg (by rw [arc_det_example]; norm_num)]
    simp only [arc_centre_example, PDFPoint.dist, PDFPoint.sub, PDFPoint.cross_z, sqrt_25_9]
    rw [if_neg (by norm_num)]
  · intro t ht0 ht1
    have hs : Real.sin t < 0 :=
      Real.sin_neg_of_neg_of_neg_pi_lt (by linarith)
        (by linarith [Complex.neg_pi_lt_arg ⟨-1 - 0, 0 - 4 / 3⟩])
    linarith

section Events

variable {α : Type}

theorem Post.bind_true {β γ : Type} {P : γ → Prop} {m : Except Halt β}
    {f : β → Except Halt γ} (hf : ∀ b, Post P (fun _ => True) (f b)) :
    Post P (fun _ => True) (m >>= f) := by
  cases m with
  | error e => trivial
  | ok b => exact hf b

theorem PDFGraph.new_page_events [LinearOrderedField α] (L : Libm α) (p : PDFGraph α)
    (annot : Option String) :
    Post (fun p' => p'.events = p.events ++ [GEvent.page annot]
        ∧ p'.display_flags = p.display_flags) (fun _ => True) (p.new_page L annot) := by
  unfold PDFGraph.new_page
  exact Post.bind_true (fun pdf => Post.pure' ⟨rfl, rfl⟩)

theorem PDFGraph.comment_events (p : PDFGraph α) (src : String) :
    Post (fun p' => p'.events = p.events ∧ p'.display_flags = p.display_flags)
      (fun _ => True) (p.comment src) := by
  unfold PDFGraph.comment
  exact Post.bind_true (fun pdf => Post.pure' ⟨rfl, rfl⟩)

theorem PDFGraph.draw_general_events [LinearOrderedField α] [FloorRing α] (L : Libm α)
    (F : NumFmt α) (p : PDFGraph α) (graph : Graph α) (src : Option (Graph α)) (flags : Nat)
    (node_color arc_color : PDFColor α)
    (node_r node_line_width arc_line_width arrowhead_length arrowhead_width : α) :
    Post (fun p' => p'.events = p.events ++ draw_events (src.getD graph) flags
        ∧ p'.display_flags = p.display_flags) (fun _ => True)
      (p.draw_general L F graph src flags node_color arc_color node_r node_line_width
        arc_line_width arrowhead_length arrowhead_width) := by
  unfold PDFGraph.draw_general
  simp only []
  refine Post.bind (Q := fun p1 => p1.events = p.events
      ++ (if flags &&& NewPage ≠ 0 then [GEvent.page none] else [])
      ∧ p1.display_flags = p.display_flags) ?_ ?_
  · split
    · exact PDFGraph.new_page_events L p none
    · exact Post.pure' ⟨(List.append_nil _).symm, rfl⟩
  · intro p1 h1
    refine Post.bind_true (fun pdf => Post.pure' ⟨?_, h1.2⟩)
    show p1.events ++ [GEvent.draw (src.getD graph) flags] = _
    rw [h1.1, draw_events, List.append_assoc]

theorem PDFGraph.draw_post [LinearOrderedField α] [FloorRing α] (L : Libm α)
    (F : NumFmt α) (p : PDFGraph α) (graph : Graph α) (flags : Nat) (src : Option (Graph α)) :
    Post (fun p' => p'.events = p.events
          ++ draw_events (src.getD graph) (draw_flags p.display_flags flags (src.getD graph))
        ∧ p'.display_flags = p.display_flags) (fun _ => True)
      (p.draw L F graph flags src) :=
  PDFGraph.draw_general_events L F p graph (some (src.getD graph)) _ _ _ _ _ _ _ _

theorem PDFGraph.draw_beneath_post [LinearOrderedField α] [FloorRing α] (L : Libm α)
    (F : NumFmt α) (p : PDFGraph α) (graph : Graph α) (flags : Nat) (src : Option (Graph α)) :
    Post (fun p' => p'.events = p.events
          ++ draw_events (src.getD graph) (beneath_flags p.display_flags flags (src.getD graph))
        ∧ p'.display_flags = p.display_flags) (fun _ => True)
      (p.draw_beneath L F graph flags src) :=
  PDFGraph.draw_general_events L F p graph (some (src.getD graph)) _ _ _ _ _ _ _ _

theorem Graph.highlighted_restore (g : Graph α) (i : Nat) :
    ({ g.highlighted i with
        nodes := Function.update (g.highlighted i).nodes i
          { (g.highlighted i).nodes i with flags := (g.nodes i).flags } } : Graph α) = g := by
  obtain ⟨n, nodes, adj, w, d, s, np, ap⟩ := g
  simp only [Graph.highlighted, Graph.mk.injEq, true_and, and_true, Function.update_same,
    Function.update_idem]
  funext k
  by_cases hk : k = i
  · subst hk
    simp
  · simp [Function.update_noteq hk]

theorem Graph.visit_node_post [LinearOrderedField α] [FloorRing α] (L : Libm α)
    (F : NumFmt α) (g : Graph α) (p : PDFGraph α) (i : Int) (annot : String)
    (beneath : Option (Graph α)) (hi : check_index i g.n = true) :
    Post (fun r => r.1 = g ∧ ∃ p', r.2 = some p'
        ∧ p'.events = p.events ++ visit_events p.display_flags g i annot beneath
        ∧ p'.display_flags = p.display_flags) (fun _ => True)
      (g.visit_node L F (some p) i annot beneath) := by
  unfold Graph.visit_node
  simp only [hi, Bool.not_true, Bool.false_eq_true, if_false]
  refine Post.bind (PDFGraph.new_page_events L p _) ?_
  intro p1 h1
  refine Post.bind (Q := fun p2 => p2.events = p1.events
      ∧ p2.display_flags = p1.display_flags) ?_ ?_
  · split
    · trivial
    · exact PDFGraph.comment_events p1 _
  · intro p2 h2
    refine Post.bind (Q := fun p3 => p3.events = p2.events
      ++ (match beneath with
          | some b => draw_events b (beneath_flags p.display_flags 0 b)
          | none => [])
      ∧ p3.display_flags = p2.display_flags) ?_ ?_
    · cases beneath with
      | none => exact Post.pure' ⟨(List.append_nil _).symm, rfl⟩
      | some b =>
        refine Post.bind (PDFGraph.comment_events p2 _) ?_
        intro p2' h2'
        refine Post.mono (PDFGraph.draw_beneath_post L F p2' _ 0 (some b)) ?_ (fun _ h => h)
        intro p3 h3
        refine ⟨?_, h3.2.trans h2'.2⟩
        rw [h3.1, h2'.1, h2'.2, h2.2, h1.2]
        rfl
    · intro p3 h3
      refine Post.bind (PDFGraph.comment_events p3 _) ?_
      intro p4 h4
      refine Post.bind (PDFGraph.draw_post L F p4 _ 0 none) ?_
      intro p5 h5
      refine Post.pure' ⟨Graph.highlighted_restore g i.toNat, p5, rfl, ?_, ?_⟩
      · rw [h5.1, h4.1, h3.1, h2.1, h1.1, h4.2, h3.2, h2.2, h1.2]
        simp only [visit_events, List.append_assoc]
        rfl
      · rw [h5.2, h4.2, h3.2, h2.2, h1.2]

theorem Graph.visit_node_out_of_range [LinearOrderedField α] [FloorRing α] (L : Libm α)
    (F : NumFmt α) (g : Graph α) (pdf : Option (PDFGraph α)) (i : Int) (annot : String)
    (beneath : Option (Graph α)) (hi : check_index i g.n = false) :
    g.visit_node L F pdf i annot beneath = .ok (g, pdf) := by
  unfold Graph.visit_node
  simp only [hi, Bool.not_false, if_true]
  rfl

end Events

section VisitNode

theorem or_one_and_one (a : Nat) : (a ||| 1) &&& 1 = 1 := by
  apply Nat.eq_of_testBit_eq
  intro i
  rw [Nat.testBit_and, Nat.testBit_or]
  cases i with
  | zero => simp
  | succ i => simp [Nat.testBit_one_eq_true_iff_self_eq_zero]

theorem check_index_false {i : Int} {n : Nat} (h : ¬ (0 ≤ i ∧ i < n)) :
    check_index i n = false := by
  cases hc : check_index i n with
  | false => rfl
  | true => exact absurd ((check_index_iff i n).1 hc) h

end VisitNode

/-- C23: for a graph with a PDF object `p` and an index `i` in range, whenever `visit_node`
returns, the graph is exactly as before the call (so node `i` has its flags of before the
call), and the calls logged are the new page, the drawing of `beneath` if there is one, and
last the drawing of the graph in which node `i` carries the highlight bit; for an index out
of range `visit_node` returns with the graph and the PDF object unchanged, so that no page
is started. -/
theorem visit_node_spec {α : Type} [LinearOrderedField α] [FloorRing α] (L : Libm α)
    (F : NumFmt α) (g : Graph α) (p : PDFGraph α) (i : Int) (annot : String)
    (beneath : Option (Graph α)) :
    ((0 ≤ i ∧ i < g.n) →
      Post (fun r => r.1 = g ∧ ∃ p', r.2 = some p'
          ∧ p'.events = p.events ++ visit_events p.display_flags g i annot beneath)
        (fun _ => True) (g.visit_node L F (some p) i annot beneath)
      ∧ (visit_events p.display_flags g i annot beneath).getLast?
          = some (GEvent.draw (g.highlighted i.toNat)
              (draw_flags p.display_flags 0 (g.highlighted i.toNat)))
      ∧ ((g.highlighted i.toNat).nodes i.toNat).flags &&& HighlightFlag = HighlightFlag
      ∧ (∀ k, k ≠ i.toNat → (g.highlighted i.toNat).nodes k = g.nodes k)
      ∧ (g.highlighted i.toNat).adj = g.adj)
    ∧ (¬ (0 ≤ i ∧ i < g.n) →
        ∀ pdf : Option (PDFGraph α), g.visit_node L F pdf i annot beneath = .ok (g, pdf)) := by
  refine ⟨fun hi => ⟨?_, ?_, ?_, ?_, rfl⟩, fun hi pdf => ?_⟩
  · exact Post.mono
      (Graph.visit_node_post L F g p i annot beneath ((check_index_iff i g.n).2 hi))
      (fun r hr => ⟨hr.1, hr.2.imp (fun p' hp' => ⟨hp'.1, hp'.2.1⟩)⟩) (fun _ h => h)
  · simp only [visit_events, draw_events, ← List.append_assoc, List.getLast?_append,
      List.getLast?_singleton]
    rfl
  · show ((Function.update g.nodes i.toNat _) i.toNat).flags &&& HighlightFlag = HighlightFlag
    rw [Function.update_same]
    exact or_one_and_one _
  · intro k hk
    show (Function.update g.nodes i.toNat _) k = g.nodes k
    rw [Function.update_noteq hk]
  · exact Graph.visit_node_out_of_range L F g pdf i annot beneath (check_index_false hi)

theorem visit_node_spec_witness :
    ((0 : Int) ≤ 0 ∧ (0 : Int) < (Graph.init 1 : Graph ℚ).n)
    ∧ (∃ r, (Graph.init 1 : Graph ℚ).visit_node Libm.rat NumFmt.rat
          (some (PDFGraph.new "g.pdf" (Graph.init 1))) 0 "a" none = .ok r
        ∧ r.1 = Graph.init 1
        ∧ ∃ p', r.2 = some p'
          ∧ p'.events = (PDFGraph.new "g.pdf" (Graph.init 1 : Graph ℚ)).events
              ++ visit_events 0 (Graph.init 1) 0 "a" none) := by
  have hi : (0 : Int) ≤ 0 ∧ (0 : Int) < (Graph.init 1 : Graph ℚ).n := by decide
  have h := ((visit_node_spec Libm.rat NumFmt.rat
    (Graph.init 1 : Graph ℚ) (PDFGraph.new "g.pdf" (Graph.init 1)) 0 "a" none).1 hi).1
  have hok : ((Graph.init 1 : Graph ℚ).visit_node Libm.rat NumFmt.rat
      (some (PDFGraph.new "g.pdf" (Graph.init 1))) 0 "a" none).isOk = true := by
    with_unfolding_all rfl
  refine ⟨hi, ?_⟩
  cases hr : (Graph.init 1 : Graph ℚ).visit_node Libm.rat NumFmt.rat
      (some (PDFGraph.new "g.pdf" (Graph.init 1))) 0 "a" none with
  | error e =>
    rw [hr] at hok
    exact absurd hok (fun h => Bool.noConfusion h)
  | ok r =>
    rw [hr] at h
    exact ⟨r, rfl, h⟩

section TraversalBasics

variable {α : Type}

theorem Post.foldlM_range {γ : Type} {E : Halt → Prop} (f : γ → Nat → Except Halt γ)
    (P : Nat → γ → Prop) (n : Nat) (c : γ) (h0 : P 0 c)
    (hstep : ∀ k c, k < n → P k c → Post (P (k + 1)) E (f c k)) :
    Post (P n) E ((List.range n).foldlM f c) := by
  induction n with
  | zero => exact h0
  | succ n ih =>
    rw [List.range_succ, List.foldlM_append]
    refine Post.bind (ih (fun k c hk hP => hstep k c (Nat.lt_succ_of_lt hk) hP)) ?_
    intro c' hc'
    rw [List.foldlM_cons]
    exact Post.bind (hstep n c' (Nat.lt_succ_self n) hc') (fun b hb => hb)

theorem length_le_of_nodup_lt (l : List Nat) (n : Nat) (hn : l.Nodup) (h : ∀ j ∈ l, j < n) :
    l.length ≤ n := by
  have h1 : l.toFinset ⊆ Finset.range n := by
    intro j hj
    rw [List.mem_toFinset] at hj
    exact Finset.mem_range.2 (h j hj)
  have h2 := Finset.card_le_card h1
  rw [List.toFinset_card_of_nodup hn, Finset.card_range] at h2
  exact h2

theorem page_annotations_append (a b : List (GEvent α)) :
    page_annotations (a ++ b) = page_annotations a ++ page_annotations b := by
  simp [page_annotations, List.filterMap_append]

theorem local_flags_no_new_page (w d : Bool) :
    (0 ||| 0 ||| ((if w then ArcWeights else 0) ||| (if d then 0 else NoArcArrows)))
        &&& NewPage = 0
    ∧ (0 ||| 0 ||| ((if w then ArcWeights else 0) ||| (if d then 0 else NoArcArrows)
        ||| ThickArcs ||| NoNodes)) &&& NewPage = 0 := by
  cases w <;> cases d <;> decide

theorem page_annotations_draw (src : Graph α) :
    page_annotations (draw_events src (draw_flags 0 0 src)) = []
    ∧ page_annotations (draw_events src (beneath_flags 0 0 src)) = [] := by
  have h := local_flags_no_new_page src.weighted src.directed
  constructor
  · simp only [draw_events, draw_flags, h.1]
    rfl
  · simp only [draw_events, beneath_flags, h.2]
    rfl

theorem page_annotations_visit (g : Graph α) (i : Int) (annot : String) (b : Graph α) :
    page_annotations (visit_events 0 g i annot (some b)) = [some (visit_label annot i)] := by
  simp only [visit_events, page_annotations_append, (page_annotations_draw _).1,
    (page_annotations_draw _).2, List.append_nil]
  rfl

theorem or_two_and_two (a : Nat) : (a ||| 2) &&& 2 ≠ 0 := by
  intro h
  have h1 := congrArg (fun x => Nat.testBit x 1) h
  simp only [Nat.testBit_and, Nat.testBit_or, Nat.zero_testBit] at h1
  have h2 : Nat.testBit 2 1 = true := by decide
  rw [h2] at h1
  simp at h1

theorem beneath_flags_no_nodes (d f : Nat) (src : Graph α) :
    beneath_flags d f src &&& NoNodes ≠ 0 := by
  unfold beneath_flags
  rw [← Nat.lor_assoc]
  exact or_two_and_two _

theorem draws_visited_draw_events (s : Nat) (src : Graph α) (flags : Nat)
    (h : flags &&& NoNodes ≠ 0 ∨ ((src.nodes s).state = 2 ∧ s < src.n)) :
    ∀ e ∈ draw_events src flags, DrawsVisited s e := by
  intro e he
  unfold draw_events at he
  rw [List.mem_append] at he
  rcases he with he | he
  · split at he
    · rw [List.mem_singleton] at he
      subst he
      trivial
    · exact absurd he (List.not_mem_nil _)
  · rw [List.mem_singleton] at he
    subst he
    exact h

theorem draws_visited_visit (s : Nat) (d : Nat) (g : Graph α) (i : Int) (annot : String)
    (b : Graph α) (h : (g.nodes s).state = 2) (hs : s < g.n) :
    ∀ e ∈ visit_events d g i annot (some b), DrawsVisited s e := by
  intro e he
  unfold visit_events at he
  rw [List.mem_append, List.mem_append] at he
  rcases he with (he | he) | he
  · rw [List.mem_singleton] at he
    subst he
    trivial
  · exact draws_visited_draw_events s b _ (Or.inl (beneath_flags_no_nodes _ _ _)) e he
  · refine draws_visited_draw_events s (g.highlighted i.toNat) _ (Or.inr ⟨?_, hs⟩) e he
    show ((Function.update g.nodes i.toNat _) s).state = 2
    by_cases hsi : s = i.toNat
    · subst hsi
      rw [Function.update_same]
      exact h
    · rw [Function.update_noteq hsi]
      exact h

theorem IsParent.unique [LinearOrderedField α] {g : Graph α} {order : List Nat} {a b b' : Nat}
    (h : IsParent g order a b) (h' : IsParent g order a b') : b = b' := by
  obtain ⟨ia, ib, _, _, hb, hadj, hfirst⟩ := h
  obtain ⟨ia', ib', _, _, hb', hadj', hfirst'⟩ := h'
  rcases Nat.lt_trichotomy ib ib' with hlt | heq | hgt
  · exact absurd (hfirst' ib b hlt hb) hadj
  · subst heq
    rw [hb] at hb'
    exact Option.some.inj hb'
  · exact absurd (hfirst ib' b' hgt hb') hadj'

theorem getElem?_append_of_some {l : List Nat} {i a : Nat} (k : Nat) (h : l[i]? = some a) :
    (l ++ [k])[i]? = some a := by
  have hi : i < l.length := by
    by_contra hc
    rw [List.getElem?_eq_none (not_lt.mp hc)] at h
    exact Option.noConfusion h
  rw [List.getElem?_append_left hi]
  exact h

theorem getElem?_of_append {l : List Nat} {i a k : Nat} (h : (l ++ [k])[i]? = some a) :
    l[i]? = some a ∨ (i = l.length ∧ a = k) := by
  by_cases hi : i < l.length
  · rw [List.getElem?_append_left hi] at h
    exact Or.inl h
  · right
    rw [List.getElem?_append_right (not_lt.mp hi)] at h
    have h0 : i - l.length = 0 := by
      by_contra hc
      obtain ⟨m, hm⟩ := Nat.exists_eq_succ_of_ne_zero hc
      rw [hm] at h
      exact Option.noConfusion h
    rw [h0] at h
    exact ⟨by omega, (Option.some.inj h).symm⟩

theorem IsParent.append [LinearOrderedField α] {g : Graph α} {order : List Nat} {a b : Nat}
    (k : Nat) (h : IsParent g order a b) : IsParent g (order ++ [k]) a b := by
  obtain ⟨ia, ib, hlt, ha, hb, hadj, hfirst⟩ := h
  refine ⟨ia, ib, hlt, getElem?_append_of_some k ha, getElem?_append_of_some k hb, hadj, ?_⟩
  intro ic c hic hc
  rcases getElem?_of_append hc with h1 | ⟨h1, _⟩
  · exact hfirst ic c hic h1
  · have : ib < order.length := by
      by_contra hcon
      rw [List.getElem?_eq_none (not_lt.mp hcon)] at hb
      exact Option.noConfusion hb
    omega

theorem IsParent.of_append [LinearOrderedField α] {g : Graph α} {order : List Nat}
    {a b k : Nat} (hak : a ≠ k) (h : IsParent g (order ++ [k]) a b) :
    IsParent g order a b := by
  obtain ⟨ia, ib, hlt, ha, hb, hadj, hfirst⟩ := h
  rcases getElem?_of_append ha with ha1 | ⟨_, ha1⟩
  · have hia : ia < order.length := by
      by_contra hcon
      rw [List.getElem?_eq_none (not_lt.mp hcon)] at ha1
      exact Option.noConfusion ha1
    have hb1 : order[ib]? = some b := by
      rcases getElem?_of_append hb with hb1 | ⟨hb1, _⟩
      · exact hb1
      · omega
    exact ⟨ia, ib, hlt, ha1, hb1, hadj,
      fun ic c hic hc => hfirst ic c hic (getElem?_append_of_some k hc)⟩
  · exact absurd ha1 hak

theorem IsParent.mem [LinearOrderedField α] {g : Graph α} {order : List Nat} {a b : Nat}
    (h : IsParent g order a b) : a ∈ order ∧ b ∈ order := by
  obtain ⟨ia, ib, _, ha, hb, _, _⟩ := h
  exact ⟨List.mem_iff_getElem?.2 ⟨ia, ha⟩, List.mem_iff_getElem?.2 ⟨ib, hb⟩⟩

end TraversalBasics

section BFSStep

variable {α : Type}

theorem Graph.set_node_state_nat (g : Graph α) (k : Nat) (v : Int) (hk : k < g.n) :
    g.set_node_state (k : Int) v
      = { g with nodes := Function.update g.nodes k { g.nodes k with state := v } } := by
  unfold Graph.set_node_state
  simp only [(check_index_nat k g.n).2 hk, Bool.not_true, Bool.false_eq_true, if_false,
    Int.toNat_ofNat]

theorem Graph.add_arc_nat [LinearOrderedField α] (t : Graph α) (a b : Nat) (ha : a < t.n)
    (hb : b < t.n) :
    (t.add_arc (a : Int) (b : Int)).1
      = { t with adj := Function.update t.adj a (Function.update (t.adj a) b 1) } := by
  rw [Graph.add_arc_eq t a b ((check_index_nat a t.n).2 ha) ((check_index_nat b t.n).2 hb)]
  simp only [Int.toNat_ofNat]

theorem Graph.with_nodes_eq {g g0 : Graph α} (h : g = { g0 with nodes := g.nodes })
    (N : Nat → GraphNode α) :
    ({ g with nodes := N } : Graph α) = { g0 with nodes := N } := by
  obtain ⟨n, nodes, adj, w, d, sc, np, ap⟩ := g
  obtain ⟨n0, nodes0, adj0, w0, d0, sc0, np0, ap0⟩ := g0
  simp only [Graph.mk.injEq] at h ⊢
  tauto

theorem Graph.with_adj_eq {g g0 : Graph α} (h : g = { g0 with adj := g.adj })
    (A : Nat → Nat → α) :
    ({ g with adj := A } : Graph α) = { g0 with adj := A } := by
  obtain ⟨n, nodes, adj, w, d, sc, np, ap⟩ := g
  obtain ⟨n0, nodes0, adj0, w0, d0, sc0, np0, ap0⟩ := g0
  simp only [Graph.mk.injEq] at h ⊢
  tauto

theorem head?_append_of_some {l : List Nat} {s : Nat} (k : Nat) (h : l.head? = some s) :
    (l ++ [k]).head? = some s := by
  cases l with
  | nil => exact Option.noConfusion h
  | cons a l => exact h

theorem getElem?_lt_length {l : List Nat} {i a : Nat} (h : l[i]? = some a) : i < l.length := by
  by_contra hc
  rw [List.getElem?_eq_none (not_lt.mp hc)] at h
  exact Option.noConfusion h

theorem head?_eq_getElem?_zero (l : List Nat) : l.head? = l[0]? := by
  cases l <;> simp

end BFSStep

section BFSLoop

variable {α : Type}

theorem Graph.bfs_step_inv [LinearOrderedField α] [FloorRing α] (L : Libm α) (F : NumFmt α)
    (g0 : Graph α) (p0 : PDFGraph α) (s front k : Nat) (st : BFSState α) (order : List Nat)
    (root : Nat) (hinv : BFSInv g0 p0 s front k st order) (hk : k < g0.n)
    (hroot : order[front]? = some root) :
    Post (fun st' => ∃ order', BFSInv g0 p0 s front (k + 1) st' order'
        ∧ order'[front]? = some root) (fun _ => True)
      (Graph.bfs_step L F (root : Int) st k) := by
  have hgn : st.g.n = g0.n := by rw [hinv.g_eq]
  have hgadj : st.g.adj = g0.adj := by rw [hinv.g_eq]
  have htn : st.tree.n = g0.n := by rw [hinv.tree_eq]; rfl
  have hrootn : root < g0.n := hinv.lt_n root (List.getElem?_mem hroot)
  have hfront : front < order.length := getElem?_lt_length hroot
  have hs_mem : s ∈ order := List.mem_of_mem_head? hinv.head
  unfold Graph.bfs_step
  simp only [(check_index_nat root st.g.n).2 (hgn ▸ hrootn), Bool.not_true,
    Bool.false_eq_true, if_false, Int.toNat_ofNat]
  by_cases hc : st.g.adj root k ≠ 0 ∧ ¬ (st.g.nodes k).state = 2
  · rw [if_pos hc]
    have hknot : k ∉ order := fun hmem => hc.2 ((hinv.state_iff k hk).2 hmem)
    have harc : g0.arc root k := ⟨hrootn, hk, hgadj ▸ hc.1⟩
    have hkr : k ≠ root := fun h => hknot (h ▸ List.getElem?_mem hroot)
    obtain ⟨p, later, hp, hdf, hev, hlater, hpages⟩ := hinv.pdf_ok
    rw [hp]
    have hg1 := Graph.set_node_state_nat st.g k 2 (hgn ▸ hk)
    have hci : check_index (k : Int) (st.g.set_node_state (k : Int) 2).n = true := by
      rw [hg1]
      exact (check_index_nat k st.g.n).2 (hgn ▸ hk)
    refine Post.bind (Graph.visit_node_post L F _ p k " Breadth First Algorithm "
      (some (st.tree.add_arc (k : Int) (root : Int)).1) hci) ?_
    rintro ⟨rg, rp⟩ ⟨hr1, p', hr2, hev', hdf'⟩
    simp only at hr1 hr2
    subst hr1 hr2
    have htree := Graph.add_arc_nat st.tree k root (htn ▸ hk) (htn ▸ hrootn)
    have hstate : ∀ j, ((st.g.set_node_state (k : Int) 2).nodes j).state
        = if j = k then 2 else (st.g.nodes j).state := by
      intro j
      rw [hg1]
      by_cases hj : j = k
      · subst hj
        simp
      · simp [Function.update_noteq hj, hj]
    have hpar : IsParent g0 (order ++ [k]) k root := by
      refine ⟨order.length, front, hfront, ?_, getElem?_append_of_some k hroot, harc.2.2, ?_⟩
      · simp
      · intro ic c hic hcc
        have hcc' : order[ic]? = some c := by
          rcases getElem?_of_append hcc with h1 | ⟨h1, _⟩
          · exact h1
          · omega
        by_contra hne
        exact hknot (hinv.closed ic c hic hcc' k
          ⟨hinv.lt_n c (List.getElem?_mem hcc'), hk, hne⟩)
    refine Post.pure' ⟨order ++ [k], ?_, getElem?_append_of_some k hroot⟩
    refine
      { queue_eq := ?_, rear_eq := ?_, front_le := ?_, nodup := ?_, head := ?_, lt_n := ?_,
        g_eq := ?_, state_iff := ?_, reach := ?_, closed := ?_, inner := ?_, pdf_ok := ?_,
        tree_eq := ?_, tree_arc := ?_, tree_w := ?_, tree_has := ?_ }
    · show st.queue ++ [(k : Int)] = _
      rw [hinv.queue_eq, List.map_append]
      rfl
    · show st.rear + 1 = _
      rw [hinv.rear_eq, List.length_append]
      rfl
    · rw [List.length_append]
      exact Nat.le_succ_of_le hinv.front_le
    · exact List.nodup_append_comm.1 (List.nodup_cons.2 ⟨hknot, hinv.nodup⟩)
    · exact head?_append_of_some k hinv.head
    · intro j hj
      rcases List.mem_append.1 hj with h | h
      · exact hinv.lt_n j h
      · rw [List.mem_singleton.1 h]
        exact hk
    · show st.g.set_node_state (k : Int) 2 = _
      rw [hg1]
      exact Graph.with_nodes_eq hinv.g_eq _
    · intro j hj
      show ((st.g.set_node_state (k : Int) 2).nodes j).state = 2 ↔ _
      rw [hstate j, List.mem_append, List.mem_singleton]
      by_cases hjk : j = k
      · simp [hjk]
      · simp only [if_neg hjk, hjk, or_false]
        exact hinv.state_iff j hj
    · intro j hj
      rcases List.mem_append.1 hj with h | h
      · exact hinv.reach j h
      · rw [List.mem_singleton.1 h]
        exact Relation.ReflTransGen.tail (hinv.reach root (List.getElem?_mem hroot)) harc
    · intro i a hi ha b hab
      have ha' : order[i]? = some a := by
        rcases getElem?_of_append ha with h1 | ⟨h1, _⟩
        · exact h1
        · omega
      exact List.mem_append_left _ (hinv.closed i a hi ha' b hab)
    · intro a ha b hb hab
      have ha' : order[front]? = some a := by
        rcases getElem?_of_append ha with h1 | ⟨h1, _⟩
        · exact h1
        · omega
      rcases Nat.lt_succ_iff_lt_or_eq.1 hb with h | h
      · exact List.mem_append_left _ (hinv.inner a ha' b h hab)
      · rw [h]
        exact List.mem_append_right _ (List.mem_singleton_self k)
    · refine ⟨p', later ++ visit_events p.display_flags (st.g.set_node_state (k : Int) 2)
        (k : Int) " Breadth First Algorithm " (some (st.tree.add_arc (k : Int) (root : Int)).1),
        rfl, hdf'.trans hdf, ?_, ?_, ?_⟩
      · rw [hev', hev]
        simp only [List.append_assoc]
      · intro e he
        rcases List.mem_append.1 he with h | h
        · exact hlater e h
        · refine draws_visited_visit s _ _ _ _ _ ?_ ?_ e h
          · rw [hstate s]
            split
            · rfl
            · exact (hinv.state_iff s (hinv.lt_n s hs_mem)).2 hs_mem
          · rw [hg1]
            show s < st.g.n
            rw [hgn]
            exact hinv.lt_n s hs_mem
      · intro h0
        rw [hev', page_annotations_append, hpages h0, hdf, h0, page_annotations_visit,
          List.map_append, List.append_assoc]
        rfl
    · show (st.tree.add_arc (k : Int) (root : Int)).1 = _
      rw [htree]
      exact Graph.with_adj_eq hinv.tree_eq _
    · intro a b ha hb
      show (st.tree.add_arc (k : Int) (root : Int)).1.adj a b ≠ 0 ↔ _
      rw [htree]
      show Function.update st.tree.adj k (Function.update (st.tree.adj k) root 1) a b ≠ 0 ↔ _
      by_cases hab : a = k ∧ b = root
      · obtain ⟨rfl, rfl⟩ := hab
        rw [update2_same]
        exact ⟨fun _ => hpar, fun _ => one_ne_zero⟩
      · rw [update2_other _ _ _ _ _ _ hab, hinv.tree_arc a b ha hb]
        constructor
        · exact fun h => h.append k
        · intro h
          by_cases hak : a = k
          · subst hak
            exact absurd ⟨rfl, h.unique hpar⟩ hab
          · exact h.of_append hak
    · intro a b ha hb
      show (st.tree.add_arc (k : Int) (root : Int)).1.adj a b = 0 ∨ _
      rw [htree]
      show Function.update st.tree.adj k (Function.update (st.tree.adj k) root 1) a b = 0
        ∨ Function.update st.tree.adj k (Function.update (st.tree.adj k) root 1) a b = 1
      by_cases hab : a = k ∧ b = root
      · obtain ⟨rfl, rfl⟩ := hab
        rw [update2_same]
        exact Or.inr rfl
      · rw [update2_other _ _ _ _ _ _ hab]
        exact hinv.tree_w a b ha hb
    · intro a ha has
      rcases List.mem_append.1 ha with h | h
      · obtain ⟨b, hb⟩ := hinv.tree_has a h has
        exact ⟨b, hb.append k⟩
      · rw [List.mem_singleton.1 h]
        exact ⟨root, hpar⟩
  · rw [if_neg hc]
    refine Post.pure' ⟨order, { hinv with inner := ?_ }, hroot⟩
    intro a ha b hb hab
    rcases Nat.lt_succ_iff_lt_or_eq.1 hb with h | h
    · exact hinv.inner a ha b h hab
    · subst h
      rw [hroot] at ha
      have har : root = a := Option.some.inj ha
      subst har
      by_contra hmem
      refine hc ⟨hgadj ▸ hab.2.2, fun h2 => hmem ((hinv.state_iff b hab.2.1).1 h2)⟩

end BFSLoop

section BFSRun

variable {α : Type}

theorem Graph.draw_pages_post [LinearOrderedField α] [FloorRing α] (L : Libm α) (F : NumFmt α)
    (g : Graph α) (p : PDFGraph α) (flags : Nat) ( annotation : String) (b : Graph α) :
    Post (fun r => ∃ p', r = some p' ∧ p'.display_flags = p.display_flags
        ∧ p'.events = p.events ++ [GEvent.page (some annotation)]
            ++ draw_events b (beneath_flags p.display_flags flags b)
            ++ draw_events g (draw_flags p.display_flags flags g)) (fun _ => True)
      (g.draw L F (some p) flags annotation (some b)) := by
  unfold Graph.draw
  refine Post.bind (PDFGraph.new_page_events L p _) ?_
  intro p1 h1
  refine Post.bind (PDFGraph.draw_beneath_post L F p1 g flags (some b)) ?_
  intro p2 h2
  refine Post.bind (PDFGraph.draw_post L F p2 g flags none) ?_
  intro p3 h3
  refine Post.pure' ⟨p3, rfl, by rw [h3.2, h2.2, h1.2], ?_⟩
  rw [h3.1, h2.1, h1.1, h2.2, h1.2]
  rfl

theorem Graph.bfs_inner_inv [LinearOrderedField α] [FloorRing α] (L : Libm α) (F : NumFmt α)
    (g0 : Graph α) (p0 : PDFGraph α) (s front : Nat) (st : BFSState α) (order : List Nat)
    (root : Nat) (hinv : BFSInv g0 p0 s front 0 st order) (hroot : order[front]? = some root) :
    Post (fun st' => ∃ order', BFSInv g0 p0 s (front + 1) 0 st' order') (fun _ => True)
      ((List.range st.g.n).foldlM (Graph.bfs_step L F (root : Int)) st) := by
  have hgn : st.g.n = g0.n := by rw [hinv.g_eq]
  rw [hgn]
  refine Post.mono (Post.foldlM_range (Graph.bfs_step L F (root : Int))
    (fun k st' => ∃ order', BFSInv g0 p0 s front k st' order' ∧ order'[front]? = some root)
    g0.n st ⟨order, hinv, hroot⟩ ?_) ?_ (fun _ h => h)
  · rintro k c hk ⟨o, ho, hr⟩
    exact Graph.bfs_step_inv L F g0 p0 s front k c o root ho hk hr
  · rintro st' ⟨o, ho, hr⟩
    refine ⟨o, { ho with front_le := getElem?_lt_length hr, closed := ?_, inner := ?_ }⟩
    · intro i a hi ha b hab
      rcases Nat.lt_succ_iff_lt_or_eq.1 hi with h | h
      · exact ho.closed i a h ha b hab
      · subst h
        exact ho.inner a ha b hab.2.1 hab
    · intro a _ b hb
      exact absurd hb (Nat.not_lt_zero b)

theorem Graph.bfs_loop_inv [LinearOrderedField α] [FloorRing α] (L : Libm α) (F : NumFmt α)
    (g0 : Graph α) (p0 : PDFGraph α) (s : Nat) :
    ∀ (fuel front : Nat) (st : BFSState α) (order : List Nat),
      BFSInv g0 p0 s front 0 st order → g0.n + 1 ≤ fuel + front →
      ∃ r, Graph.bfs_loop L F fuel front st = some r
        ∧ Post (fun st' => ∃ order', BFSInv g0 p0 s order'.length 0 st' order')
            (fun _ => True) r := by
  intro fuel
  induction fuel with
  | zero =>
    intro front st order hinv hfuel
    have := length_le_of_nodup_lt order g0.n hinv.nodup hinv.lt_n
    have := hinv.front_le
    omega
  | succ fuel ih =>
    intro front st order hinv hfuel
    rw [Graph.bfs_loop]
    by_cases hfr : front = st.rear
    · rw [if_pos hfr]
      refine ⟨_, rfl, order, ?_⟩
      rw [hinv.rear_eq] at hfr
      rw [← hfr]
      exact hinv
    · rw [if_neg hfr]
      have hlt : front < order.length := by
        have := hinv.front_le
        rw [hinv.rear_eq] at hfr
        omega
      have hroot : order[front]? = some order[front] := List.getElem?_eq_getElem hlt
      have hq : st.queue.get? front = some ((order[front] : Nat) : Int) := by
        rw [hinv.queue_eq, List.get?_eq_getElem?, List.getElem?_map, hroot]
        rfl
      rw [hq]
      simp only []
      have hpost := Graph.bfs_inner_inv L F g0 p0 s front st order order[front] hinv hroot
      cases hrun : (List.range st.g.n).foldlM (Graph.bfs_step L F ((order[front] : Nat) : Int))
          st with
      | error e => exact ⟨_, rfl, trivial⟩
      | ok st1 =>
        rw [hrun] at hpost
        obtain ⟨o1, ho1⟩ := hpost
        exact ih (front + 1) st1 o1 ho1 (by omega)

theorem BFSInv.mem_iff [LinearOrderedField α] {g0 : Graph α} {p0 : PDFGraph α} {s : Nat}
    {st : BFSState α} {order : List Nat} (h : BFSInv g0 p0 s order.length 0 st order) (k : Nat) :
    k ∈ order ↔ g0.reachable s k := by
  constructor
  · exact h.reach k
  · intro hr
    induction hr with
    | refl => exact List.mem_of_mem_head? h.head
    | tail _ hab ih =>
      obtain ⟨i, hi⟩ := List.mem_iff_getElem?.1 ih
      exact h.closed i _ (getElem?_lt_length hi) hi _ hab

end BFSRun

section BFSTop

variable {α : Type}

theorem IsParent.not_singleton [LinearOrderedField α] {g : Graph α} {s a b : Nat}
    (h : IsParent g [s] a b) : False := by
  obtain ⟨ia, ib, hlt, ha, _, _, _⟩ := h
  have := getElem?_lt_length ha
  simp only [List.length_singleton] at this
  omega

theorem Graph.bfs_init_inv [LinearOrderedField α] (g : Graph α) (p p1 : PDFGraph α) (s : Nat)
    (hs : s < g.n) (hun : ∀ k, k < g.n → (g.nodes k).state ≠ 2)
    (hdf : p1.display_flags = p.display_flags)
    (hev : p1.events = p.events
      ++ visit_events p.display_flags g (s : Int) " Breadth First Algorithm "
          (some g.node_subgraph)) :
    BFSInv g p s 0 0
      { g := g.set_node_state (s : Int) 2, tree := g.node_subgraph, pdf := some p1,
        queue := [(s : Int)], rear := 1 } [s] := by
  have hg1 := Graph.set_node_state_nat g s 2 hs
  refine
    { queue_eq := rfl, rear_eq := rfl, front_le := Nat.zero_le _,
      nodup := List.nodup_singleton s, head := rfl, lt_n := ?_,
      g_eq := ?_, state_iff := ?_, reach := ?_, closed := ?_, inner := ?_, pdf_ok := ?_,
      tree_eq := rfl, tree_arc := ?_, tree_w := ?_, tree_has := ?_ }
  · intro j hj
    rw [List.mem_singleton.1 hj]
    exact hs
  · show g.set_node_state (s : Int) 2 = _
    rw [hg1]
  · intro j hj
    show ((g.set_node_state (s : Int) 2).nodes j).state = 2 ↔ _
    rw [hg1, List.mem_singleton]
    by_cases hjs : j = s
    · subst hjs
      simp
    · simp only [Function.update_noteq hjs, hjs, iff_false]
      exact hun j hj
  · intro j hj
    rw [List.mem_singleton.1 hj]
    exact Relation.ReflTransGen.refl
  · intro i a hi
    exact absurd hi (Nat.not_lt_zero i)
  · intro a _ b hb
    exact absurd hb (Nat.not_lt_zero b)
  · refine ⟨p1, [], rfl, hdf, by rw [hev, List.append_nil], ?_, ?_⟩
    · intro e he
      exact absurd he (List.not_mem_nil e)
    · intro h0
      rw [hev, page_annotations_append, h0, page_annotations_visit]
      rfl
  · intro a b ha hb
    constructor
    · intro h
      exact absurd (by show (if a < g.n ∧ b < g.n then (0 : α) else g.adj a b) = 0
                       rw [if_pos ⟨ha, hb⟩]) h
    · intro h
      exact h.not_singleton.elim
  · intro a b ha hb
    left
    show (if a < g.n ∧ b < g.n then (0 : α) else g.adj a b) = 0
    rw [if_pos ⟨ha, hb⟩]
  · intro a ha has
    exact absurd (List.mem_singleton.1 ha) has

theorem Graph.breadth_first_run [LinearOrderedField α] [FloorRing α] (L : Libm α)
    (F : NumFmt α) (g : Graph α) (p : PDFGraph α) (s : Nat) (hs : s < g.n)
    (hun : ∀ k, k < g.n → (g.nodes k).state ≠ 2) :
    ∃ r, g.breadth_first L F (some p) (s : Int) = some r
      ∧ Post (fun res => ∃ (st : BFSState α) (order : List Nat) (pl p' : PDFGraph α),
          BFSInv g p s order.length 0 st order ∧ res = (st.g, st.tree, some p')
          ∧ st.pdf = some pl ∧ p'.display_flags = pl.display_flags
          ∧ p'.events = pl.events ++ [GEvent.page (some "Completed Breadth-first traversal")]
              ++ draw_events st.tree (beneath_flags pl.display_flags 0 st.tree)
              ++ draw_events st.g (draw_flags pl.display_flags 0 st.g))
        (fun _ => True) r := by
  unfold Graph.breadth_first
  simp only []
  have hv := Graph.visit_node_post L F g p (s : Int) " Breadth First Algorithm "
    (some g.node_subgraph) ((check_index_nat s g.n).2 hs)
  cases hvr : g.visit_node L F (some p) (s : Int) " Breadth First Algorithm "
      (some g.node_subgraph) with
  | error e => exact ⟨_, rfl, trivial⟩
  | ok r =>
    rw [hvr] at hv
    obtain ⟨rg, rp⟩ := r
    obtain ⟨hr1, p1, hr2, hev, hdf⟩ := hv
    simp only at hr1 hr2
    subst hr1 hr2
    simp only []
    obtain ⟨r, hr, hpost⟩ := Graph.bfs_loop_inv L F rg p s (rg.n + 2) 0 _ [s]
      (Graph.bfs_init_inv rg p p1 s hs hun hdf hev) (by omega)
    rw [hr]
    cases r with
    | error e => exact ⟨_, rfl, trivial⟩
    | ok st =>
      obtain ⟨order, hinv⟩ := hpost
      obtain ⟨pl, later, hpl, _, _, _, _⟩ := hinv.pdf_ok
      simp only []
      rw [hpl]
      have hd := Graph.draw_pages_post L F st.g pl 0 "Completed Breadth-first traversal" st.tree
      cases hdr : st.g.draw L F (some pl) 0 "Completed Breadth-first traversal"
          (some st.tree) with
      | error e => exact ⟨_, rfl, trivial⟩
      | ok pdf1 =>
        rw [hdr] at hd
        obtain ⟨p', hp', hdf', hev'⟩ := hd
        subst hp'
        exact ⟨_, rfl, st, order, pl, p', hinv, rfl, hpl, hdf', hev'⟩

end BFSTop

/-- C24 (as stated) fails at the page limit of the PDF engine: for the graph with one node,
not Visited, and a PDF object whose document is at its last page (index 1023), the call
`breadth_first(0)` is ended by `new_page` with `Too many pages`, so that no visit page and
no completed-state page is rendered. -/
theorem breadth_first_page_limit :
    ((0 : Int) ≤ 0 ∧ (0 : Int) < (Graph.init 1 : Graph ℚ).n)
    ∧ (∀ k, k < (Graph.init 1 : Graph ℚ).n → ((Graph.init 1 : Graph ℚ).nodes k).state ≠ Visited)
    ∧ (full_document (Graph.init 1)).display_flags = 0
    ∧ (full_document (Graph.init 1)).pdf.page = 1023
    ∧ (Graph.init 1 : Graph ℚ).breadth_first Libm.rat NumFmt.rat
        (some (full_document (Graph.init 1))) 0
      = some (.error Halt.too_many_pages) := by
  refine ⟨by decide, ?_, rfl, rfl, ?_⟩
  · intro k _
    show (0 : Int) ≠ 2
    decide
  · with_unfolding_all rfl

/-- C24 (amended): for a graph in which no node is Visited, a valid start node and the PDF
object of the graph (display flags 0), `breadth_first(start)` terminates, and unless the PDF
engine ends the run, the pages it starts are exactly one visit page for each node reachable
from the start node, each such node once and the start node first, followed by exactly one
completed-state page: `R + 1` pages for the `R` reachable nodes, and no page for a node that
is not reachable. `order` is the order in which the nodes are visited. -/
theorem breadth_first_pages {α : Type} [LinearOrderedField α] [FloorRing α] (L : Libm α)
    (F : NumFmt α) (g : Graph α) (p : PDFGraph α) (start : Int)
    (hstart : 0 ≤ start ∧ start < g.n)
    (hun : ∀ k, k < g.n → (g.nodes k).state ≠ Visited)
    (hflags : p.display_flags = 0) :
    ∃ r, g.breadth_first L F (some p) start = some r
      ∧ ∀ g' tree pdf', r = .ok (g', tree, pdf') →
          ∃ (p' : PDFGraph α) (order : List Nat), pdf' = some p'
            ∧ order.Nodup ∧ order.head? = some start.toNat
            ∧ (∀ k, k ∈ order ↔ g.reachable start.toNat k)
            ∧ page_annotations p'.events = page_annotations p.events
                ++ order.map (fun k : Nat =>
                    some (visit_label " Breadth First Algorithm " (k : Int)))
                ++ [some "Completed Breadth-first traversal"]
            ∧ (page_annotations p'.events).length
                = (page_annotations p.events).length + order.length + 1 := by
  obtain ⟨s, rfl⟩ := Int.eq_ofNat_of_zero_le hstart.1
  have hs : s < g.n := by omega
  obtain ⟨r, hr, hpost⟩ := Graph.breadth_first_run L F g p s hs hun
  refine ⟨r, hr, ?_⟩
  intro g' tree pdf' hres
  subst hres
  obtain ⟨st, order, pl, p', hinv, hres, hpl, hdf', hev'⟩ := hpost
  obtain ⟨pl', later, hpl', hdf, _, _, hpages⟩ := hinv.pdf_ok
  rw [hpl] at hpl'
  obtain rfl := Option.some.inj hpl'
  have hpages' : page_annotations p'.events = page_annotations p.events
      ++ order.map (fun k : Nat => some (visit_label " Breadth First Algorithm " (k : Int)))
      ++ [some "Completed Breadth-first traversal"] := by
    rw [hev', page_annotations_append, page_annotations_append, page_annotations_append,
      hpages hflags, hdf, hflags, (page_annotations_draw _).1, (page_annotations_draw _).2,
      List.append_nil, List.append_nil]
    rfl
  simp only [Prod.mk.injEq] at hres
  refine ⟨p', order, hres.2.2, hinv.nodup, hinv.head, hinv.mem_iff, hpages', ?_⟩
  rw [hpages', List.length_append, List.length_append, List.length_map, List.length_singleton]

theorem breadth_first_pages_witness :
    ((0 : Int) ≤ 0 ∧ (0 : Int) < chain_graph.n)
    ∧ (∀ k, k < chain_graph.n → (chain_graph.nodes k).state ≠ Visited)
    ∧ (PDFGraph.new "g.pdf" chain_graph).display_flags = 0
    ∧ (∀ k, chain_graph.reachable 0 k ↔ k ∈ [0, 1, 2, 4])
    ∧ ∃ r, chain_graph.breadth_first Libm.rat NumFmt.rat
          (some (PDFGraph.new "g.pdf" chain_graph)) 0 = some r
        ∧ ∀ g' tree pdf', r = .ok (g', tree, pdf') →
            ∃ p' : PDFGraph ℚ, pdf' = some p'
              ∧ (page_annotations p'.events).length = 4 + 1 := by
  have h1 : (0 : Int) ≤ 0 ∧ (0 : Int) < chain_graph.n := by decide
  have h2 : ∀ k, k < chain_graph.n → (chain_graph.nodes k).state ≠ Visited := by
    intro k _
    show (0 : Int) ≠ 2
    decide
  have hstep : ∀ b, b < 5 → b ∈ [0, 1, 2, 4] → ∀ c, c < 5 → chain_graph.adj b c ≠ 0 →
      c ∈ [0, 1, 2, 4] := by decide!
  have harcs : chain_graph.arc 0 1 ∧ chain_graph.arc 1 2 ∧ chain_graph.arc 2 4 := by
    unfold Graph.arc
    decide!
  have hreach : ∀ k, chain_graph.reachable 0 k ↔ k ∈ [0, 1, 2, 4] := by
    intro k
    constructor
    · intro h
      induction h with
      | refl => decide
      | tail _ hbc ih => exact hstep _ hbc.1 ih _ hbc.2.1 hbc.2.2
    · intro h
      have r1 : chain_graph.reachable 0 1 := Relation.ReflTransGen.single harcs.1
      have r2 : chain_graph.reachable 0 2 := Relation.ReflTransGen.tail r1 harcs.2.1
      have r4 : chain_graph.reachable 0 4 := Relation.ReflTransGen.tail r2 harcs.2.2
      simp only [List.mem_cons, List.mem_singleton, List.not_mem_nil, or_false] at h
      rcases h with rfl | rfl | rfl | rfl
      · exact Relation.ReflTransGen.refl
      · exact r1
      · exact r2
      · exact r4
  obtain ⟨r, hr, hpost⟩ := breadth_first_pages Libm.rat NumFmt.rat chain_graph
    (PDFGraph.new "g.pdf" chain_graph) 0 h1 h2 rfl
  refine ⟨h1, h2, rfl, hreach, r, hr, ?_⟩
  intro g' tree pdf' hres
  obtain ⟨p', order, hp', hnd, _, hmem, _, hlen⟩ := hpost g' tree pdf' hres
  refine ⟨p', hp', ?_⟩
  have hperm : order.Perm [0, 1, 2, 4] :=
    (List.perm_ext_iff_of_nodup hnd (by decide)).2 (fun k => (hmem k).trans (hreach k))
  rw [hlen, hperm.length_eq]
  rfl

section Shade

variable {α : Type}

theorem node_shade_visited [LinearOrderedField α] :
    node_shade (α := α) 2 = 3 / 4 := by
  simp [node_shade, Active, Finished, Visited]

theorem or_no_nodes_and (a c : Nat) (h : NoNodes &&& c = 0) :
    (a ||| NoNodes) &&& c = a &&& c := by
  rw [Nat.and_comm, Nat.and_or_distrib_left, Nat.and_comm c NoNodes, h, Nat.or_zero,
    Nat.and_comm]

theorem range_pos (n : Nat) (h : 0 < n) : List.range n = 0 :: List.range' 1 (n - 1) := by
  obtain ⟨m, rfl⟩ : ∃ m, n = m + 1 := ⟨n - 1, by omega⟩
  rw [List.range_eq_range', List.range'_succ]
  rfl

/-- When the flag `NoNodes` is not set, the drawing calls of `draw_general` are those of the
nodes followed by those that the same flags with `NoNodes` give: the arcs and the weights. -/
theorem PDFGraph.draw_scene_nodes [LinearOrderedField α] [FloorRing α] (L : Libm α)
    (F : NumFmt α) (q : PDFGraph α) (graph src : Graph α) (flags : Nat) (nc ac : PDFColor α)
    (nr nlw alw ahl ahw : α) (pdf : PDF α) (h : flags &&& NoNodes = 0) :
    PDFGraph.draw_scene L F q graph src flags nc ac nr nlw alw ahl ahw pdf
      = (pdf.setlinewidth L nlw >>= fun pdf => pdf.setcolor L nc >>= fun pdf =>
          (List.range src.n).foldlM (PDFGraph.draw_node L F q src flags nc nr) pdf
            >>= fun pdf =>
          PDFGraph.draw_scene L F q graph src (flags ||| NoNodes) nc ac nr nlw alw ahl ahw
            pdf) := by
  unfold PDFGraph.draw_scene
  have h2 : ¬ (flags ||| NoNodes) &&& NoNodes = 0 := or_two_and_two flags
  simp only [h2, or_no_nodes_and _ NoArcs (by decide),
    or_no_nodes_and _ ArcWeights (by decide), h, if_true, if_false, bind_assoc, pure_bind]

/-- A call of `draw_general` that draws the nodes of a graph with at least one node: after
the optional new page, the line width and the colour of the nodes, the calls of node 0, the
calls of the other nodes, the arcs and weights, and the entry in the log. -/
theorem PDFGraph.draw_general_nodes [LinearOrderedField α] [FloorRing α] (L : Libm α)
    (F : NumFmt α) (q : PDFGraph α) (graph src : Graph α) (flags : Nat) (nc ac : PDFColor α)
    (nr nlw alw ahl ahw : α) (hn : 0 < src.n) (h : flags &&& NoNodes = 0) :
    q.draw_general L F graph (some src) flags nc ac nr nlw alw ahl ahw
      = ((if flags &&& NewPage ≠ 0 then q.new_page L none else pure q) >>= fun q1 =>
          q1.pdf.setlinewidth L nlw >>= fun pdf => pdf.setcolor L nc >>= fun pdf =>
          PDFGraph.draw_node L F q1 src flags nc nr pdf 0 >>= fun pdf =>
          (List.range' 1 (src.n - 1)).foldlM (PDFGraph.draw_node L F q1 src flags nc nr) pdf
            >>= fun pdf =>
          PDFGraph.draw_scene L F q1 graph src (flags ||| NoNodes) nc ac nr nlw
            (if flags &&& ThickArcs ≠ 0 then ThickArcLineWidth else alw)
            (if flags &&& ThickArcs ≠ 0 then ahl * (1414 / 1000) else ahl)
            (if flags &&& ThickArcs ≠ 0 then
              (if flags &&& ThickArcs ≠ 0 then ahl * (1414 / 1000) else ahl) else ahw)
            pdf >>= fun pdf =>
          pure { q1 with pdf := pdf, events := q1.events ++ [GEvent.draw src flags] }) := by
  unfold PDFGraph.draw_general
  simp only [Option.getD_some, PDFGraph.draw_scene_nodes L F _ graph src flags nc ac nr nlw _
    _ _ _ h, range_pos src.n hn, List.foldlM_cons, bind_assoc]

/-- The calls of `draw_general` for the node `i`. -/
theorem PDFGraph.draw_node_calls [LinearOrderedField α] [FloorRing α] (L : Libm α)
    (F : NumFmt α) (q : PDFGraph α) (src : Graph α) (flags : Nat) (nc : PDFColor α)
    (nr : α) (pdf : PDF α) (i : Nat) :
    PDFGraph.draw_node L F q src flags nc nr pdf i
      = ((if (src.nodes i).flags &&& HighlightFlag ≠ 0 then
            pdf.setcolor L { r := 1, g := 1, b := 1 / 2 } >>= fun pdf =>
            pdf.circle_path L (q.gtransform (src.node_pos i).x (src.node_pos i).y).x
              (q.gtransform (src.node_pos i).x (src.node_pos i).y).y (1618 / 1000 * nr)
              >>= fun pdf =>
            pdf.fill >>= fun pdf => pdf.setcolor L nc
          else pure pdf) >>= fun pdf =>
        pdf.circle_path L (q.gtransform (src.node_pos i).x (src.node_pos i).y).x
          (q.gtransform (src.node_pos i).x (src.node_pos i).y).y nr >>= fun pdf =>
        pdf.setcolor_nonstroke L (PDFColor.gray (node_shade (src.nodes i).state))
          >>= fun pdf =>
        pdf.closepath_fill_stroke >>= fun pdf =>
        if flags &&& NoNodeLabels = 0 then
          pdf.setcolor_nonstroke L nc >>= fun pdf =>
          if flags &&& ShowNodeValues ≠ 0 then
            pdf.selectfont L (Int.lor Helvetica BoldFlag) ArcFontScale >>= fun pdf =>
            pdf.position_text L (F.g2 (src.nodes i).value)
              (q.gtransform (src.node_pos i).x (src.node_pos i).y).x
              (q.gtransform (src.node_pos i).x (src.node_pos i).y).y (1 / 2) (1 / 2)
          else
            pdf.selectfont L (Int.lor Helvetica BoldFlag) NodeFontScale >>= fun pdf =>
            pdf.position_text L (toString (i + 1))
              (q.gtransform (src.node_pos i).x (src.node_pos i).y).x
              (q.gtransform (src.node_pos i).x (src.node_pos i).y).y (1 / 2) (1 / 2)
        else pure pdf) := by
  unfold PDFGraph.draw_node
  simp only [bind_assoc]

end Shade

/-- The breadth-first run from node 0 on the graph with one node and its PDF object, set to
draw neither node labels nor arcs, with the library that prints thousandths: the drawings
logged, page by page (`none` for a new page and otherwise the `NoNodes` bit of the flags and
the fill of node 0), and the text of the two pages. -/
theorem Graph.breadth_first_one_node :
    (match (Graph.init 1 : Graph ℚ).breadth_first Libm.milli NumFmt.rat
          (some ((PDFGraph.new "g.pdf" (Graph.init 1)).set_display_flags
            (NoNodeLabels ||| NoArcs))) 0 with
      | some (.ok r) => r.2.2.map (fun (p : PDFGraph ℚ) =>
          (p.events.map (fun e =>
            match e with
            | GEvent.page _ => none
            | GEvent.draw src flags =>
              some (flags &&& NoNodes, (node_shade (src.nodes 0).state : ℚ))),
            (p.pdf.pages 0).stream.text, (p.pdf.pages 1).stream.text))
      | _ => none)
    = some ([none, some (2, 1), some (0, 1), none, some (2, 1), some (0, 3 / 4)],
        ("%! Visiting node 0 ' Breadth First Algorithm '\n%! Beneath graph:\n%Graph\n%1\n" ++
          "%! Graph:\n%Graph\n%1\n500 w\n0 0 0 RG\n0 0 0 rg\n1000 1000 500 RG\n" ++
          "1000 1000 500 rg\n325416 396000 m\n325416 396000 325416 396000 325416 396000 c\n" ++
          "325416 396000 325416 396000 325416 396000 c\n" ++
          "325416 396000 325416 396000 325416 396000 c\n" ++
          "325416 396000 325416 396000 325416 396000 c\n" ++
          "325416 396000 325416 396000 325416 396000 c\n" ++
          "325416 396000 325416 396000 325416 396000 c\n" ++
          "325416 396000 325416 396000 325416 396000 c\n" ++
          "325416 396000 325416 396000 325416 396000 c\nh\nf\n0 0 0 RG\n0 0 0 rg\n" ++
          "318000 396000 m\n318000 396000 318000 396000 318000 396000 c\n" ++
          "318000 396000 318000 396000 318000 396000 c\n" ++
          "318000 396000 318000 396000 318000 396000 c\n" ++
          "318000 396000 318000 396000 318000 396000 c\n" ++
          "318000 396000 318000 396000 318000 396000 c\n" ++
          "318000 396000 318000 396000 318000 396000 c\n" ++
          "318000 396000 318000 396000 318000 396000 c\n" ++
          "318000 396000 318000 396000 318000 396000 c\nh\n1000 1000 1000 rg\nb\n0 0 0 rg\n" ++
          "BT\n/F6 12000 Tf\n72000 708000 Td\n0 0 Td\n" ++
          "( Breadth First Algorithm : visiting node 1) Tj\n0 -12000 Td\nET\n"),
        ("500 w\n0 0 0 RG\n0 0 0 rg\n318000 396000 m\n" ++
          "318000 396000 318000 396000 318000 396000 c\n" ++
          "318000 396000 318000 396000 318000 396000 c\n" ++
          "318000 396000 318000 396000 318000 396000 c\n" ++
          "318000 396000 318000 396000 318000 396000 c\n" ++
          "318000 396000 318000 396000 318000 396000 c\n" ++
          "318000 396000 318000 396000 318000 396000 c\n" ++
          "318000 396000 318000 396000 318000 396000 c\n" ++
          "318000 396000 318000 396000 318000 396000 c\nh\n750 750 750 rg\nb\n")) := by
  set_option maxRecDepth 1000000 in decide!

section BFSTree

variable {α : Type}

theorem nodup_index_eq {l : List Nat} (hn : l.Nodup) {i j a : Nat} (hi : l[i]? = some a)
    (hj : l[j]? = some a) : i = j :=
  List.getElem?_inj (getElem?_lt_length hi) hn (hi.trans hj.symm)

theorem BFSInv.tree_arc_index [LinearOrderedField α] {g0 : Graph α} {p0 : PDFGraph α}
    {s front k : Nat} {st : BFSState α} {order : List Nat}
    (h : BFSInv g0 p0 s front k st order) {a b : Nat} (hab : st.tree.arc a b) :
    ∃ ia ib : Nat, ib < ia ∧ order[ia]? = some a ∧ order[ib]? = some b := by
  have htn : st.tree.n = g0.n := by rw [h.tree_eq]; rfl
  obtain ⟨ia, ib, hlt, ha, hb, _, _⟩ :=
    (h.tree_arc a b (htn ▸ hab.1) (htn ▸ hab.2.1)).1 hab.2.2
  exact ⟨ia, ib, hlt, ha, hb⟩

theorem BFSInv.tree_path_index [LinearOrderedField α] {g0 : Graph α} {p0 : PDFGraph α}
    {s front k : Nat} {st : BFSState α} {order : List Nat}
    (h : BFSInv g0 p0 s front k st order) {a b : Nat}
    (hab : Relation.TransGen st.tree.arc a b) :
    ∃ ia ib : Nat, ib < ia ∧ order[ia]? = some a ∧ order[ib]? = some b := by
  induction hab with
  | single hab => exact h.tree_arc_index hab
  | tail _ hbc ih =>
    obtain ⟨ia, ib, hlt, ha, hb⟩ := ih
    obtain ⟨jb, jc, hlt', hb', hc⟩ := h.tree_arc_index hbc
    have := nodup_index_eq h.nodup hb hb'
    exact ⟨ia, jc, by omega, ha, hc⟩

theorem BFSInv.tree_reaches_start [LinearOrderedField α] {g0 : Graph α} {p0 : PDFGraph α}
    {s front k : Nat} {st : BFSState α} {order : List Nat}
    (h : BFSInv g0 p0 s front k st order) :
    ∀ (i a : Nat), order[i]? = some a → st.tree.reachable a s := by
  have htn : st.tree.n = g0.n := by rw [h.tree_eq]; rfl
  intro i
  induction i using Nat.strong_induction_on with
  | _ i ih =>
    intro a ha
    by_cases has : a = s
    · rw [has]
      exact Relation.ReflTransGen.refl
    · obtain ⟨q, hq⟩ := h.tree_has a (List.getElem?_mem ha) has
      have hmem := hq.mem
      have han : a < g0.n := h.lt_n a hmem.1
      have hqn : q < g0.n := h.lt_n q hmem.2
      have harc : st.tree.arc a q :=
        ⟨htn.symm ▸ han, htn.symm ▸ hqn, (h.tree_arc a q han hqn).2 hq⟩
      obtain ⟨ia, ib, hlt, ha', hb, _, _⟩ := hq
      have hia : ia = i := nodup_index_eq h.nodup ha' ha
      exact Relation.ReflTransGen.head harc (ih ib (by omega) q hb)

theorem Graph.breadth_first_no_pdf [LinearOrderedField α] [FloorRing α] (L : Libm α)
    (F : NumFmt α) (g : Graph α) (s : Nat) (hs : s < g.n) :
    g.breadth_first L F none (s : Int)
      = some (.error (Halt.die "visit_node: no PDF object")) := by
  unfold Graph.breadth_first Graph.visit_node
  simp only [(check_index_nat s g.n).2 hs, Bool.not_true, Bool.false_eq_true, if_false]

/-- The breadth-first run from node 0 on the graph with the arc from node 0 to node 1, with a
PDF object that draws neither nodes nor arcs: the number of nodes of the tree returned and
its four adjacency entries. -/
theorem Graph.breadth_first_pair :
    (match pair_graph.breadth_first Libm.rat NumFmt.rat
          (some ((PDFGraph.new "g.pdf" pair_graph).set_display_flags (NoNodes ||| NoArcs)))
          0 with
      | some (.ok r) =>
        some (r.2.1.n, r.2.1.adj 0 0, r.2.1.adj 0 1, r.2.1.adj 1 0, r.2.1.adj 1 1)
      | _ => none)
    = some (2, 0, 0, 1, 0) := by
  set_option maxRecDepth 100000 in decide!

end BFSTree

/-- C26 (as stated) fails when the run is ended before `breadth_first` returns: for the
graph with the arc from node 0 to node 1, no node Visited, and the start node 0, the call
without a PDF object is ended in `visit_node`, which uses the NULL pointer `pdf`, and the
call with a PDF object whose document is at its last page (index 1023) is ended by
`new_page` with `Too many pages`; no graph is returned. -/
theorem breadth_first_no_tree :
    ((0 : Int) ≤ 0 ∧ (0 : Int) < pair_graph.n)
    ∧ (∀ k, k < pair_graph.n → (pair_graph.nodes k).state ≠ Visited)
    ∧ pair_graph.breadth_first Libm.rat NumFmt.rat none 0
      = some (.error (Halt.die "visit_node: no PDF object"))
    ∧ (full_document pair_graph).pdf.page = 1023
    ∧ pair_graph.breadth_first Libm.rat NumFmt.rat (some (full_document pair_graph)) 0
      = some (.error Halt.too_many_pages) := by
  refine ⟨by decide, ?_, ?_, rfl, ?_⟩
  · intro k _
    show (0 : Int) ≠ 2
    decide
  · exact Graph.breadth_first_no_pdf Libm.rat NumFmt.rat pair_graph 0 (by decide)
  · with_unfolding_all rfl

/-- C26 (amended): for a graph in which no node is Visited, with a PDF object, and a valid
start node, `breadth_first` terminates, and unless the PDF engine ends the run it returns a
tree that has the nodes of the graph and these arcs, where `order` lists the nodes reachable
from the start node, each once, in the order of their discovery, the start node first: the
start node has no outgoing arc; every other reachable node `k` has exactly one outgoing arc,
of weight 1, to the node `q` from which it was discovered (`q` comes before `k` in `order`,
the graph has the arc from `q` to `k`, and no node before `q` has an arc to `k`); there is no
arc from or to a node that is not reachable; following the arcs of the tree from a reachable
node leads to the start node, and the arcs of the tree form no cycle. -/
theorem breadth_first_tree {α : Type} [LinearOrderedField α] [FloorRing α] (L : Libm α)
    (F : NumFmt α) (g : Graph α) (p : PDFGraph α) (start : Int)
    (hstart : 0 ≤ start ∧ start < g.n)
    (hun : ∀ k, k < g.n → (g.nodes k).state ≠ Visited) :
    ∃ r, g.breadth_first L F (some p) start = some r
      ∧ ∀ g' tree pdf', r = .ok (g', tree, pdf') →
          tree.n = g.n
          ∧ ∃ order : List Nat, order.Nodup ∧ order.head? = some start.toNat
            ∧ (∀ k, k ∈ order ↔ g.reachable start.toNat k)
            ∧ (∀ b, b < g.n → tree.adj start.toNat b = 0)
            ∧ (∀ k, g.reachable start.toNat k → k ≠ start.toNat →
                ∃ q, q < g.n ∧ tree.adj k q = 1 ∧ (∀ b, b < g.n → b ≠ q → tree.adj k b = 0)
                  ∧ ∃ ik iq : Nat, iq < ik ∧ order[ik]? = some k ∧ order[iq]? = some q
                    ∧ g.adj q k ≠ 0
                    ∧ ∀ ic c : Nat, ic < iq → order[ic]? = some c → g.adj c k = 0)
            ∧ (∀ a b, a < g.n → b < g.n →
                ¬ g.reachable start.toNat a ∨ ¬ g.reachable start.toNat b → tree.adj a b = 0)
            ∧ (∀ k, g.reachable start.toNat k → tree.reachable k start.toNat)
            ∧ (∀ k, ¬ Relation.TransGen tree.arc k k) := by
  obtain ⟨s, rfl⟩ := Int.eq_ofNat_of_zero_le hstart.1
  have hs : s < g.n := by omega
  obtain ⟨r, hr, hpost⟩ := Graph.breadth_first_run L F g p s hs hun
  refine ⟨r, hr, ?_⟩
  intro g' tree pdf' hres
  subst hres
  obtain ⟨st, order, pl, p', hinv, hres, _, _, _⟩ := hpost
  simp only [Prod.mk.injEq] at hres
  obtain ⟨_, rfl, _⟩ := hres
  have htn : st.tree.n = g.n := by rw [hinv.tree_eq]; rfl
  have hhead : order[0]? = some s := by rw [← head?_eq_getElem?_zero]; exact hinv.head
  simp only [Int.toNat_ofNat]
  refine ⟨htn, order, hinv.nodup, hinv.head, hinv.mem_iff, ?_, ?_, ?_, ?_, ?_⟩
  · intro b hb
    by_contra hne
    obtain ⟨ia, ib, hlt, ha, _, _, _⟩ := (hinv.tree_arc s b hs hb).1 hne
    have := nodup_index_eq hinv.nodup ha hhead
    omega
  · intro k hk hks
    have hmem : k ∈ order := (hinv.mem_iff k).2 hk
    obtain ⟨q, hq⟩ := hinv.tree_has k hmem hks
    have hkn : k < g.n := hinv.lt_n k hmem
    have hqn : q < g.n := hinv.lt_n q hq.mem.2
    have hne : st.tree.adj k q ≠ 0 := (hinv.tree_arc k q hkn hqn).2 hq
    refine ⟨q, hqn, (hinv.tree_w k q hkn hqn).resolve_left hne, ?_, hq⟩
    intro b hb hbq
    by_contra hne'
    exact hbq (((hinv.tree_arc k b hkn hb).1 hne').unique hq)
  · intro a b ha hb hor
    by_contra hne
    have hpar := ((hinv.tree_arc a b ha hb).1 hne).mem
    rcases hor with h | h
    · exact h ((hinv.mem_iff a).1 hpar.1)
    · exact h ((hinv.mem_iff b).1 hpar.2)
  · intro k hk
    obtain ⟨i, hi⟩ := List.mem_iff_getElem?.1 ((hinv.mem_iff k).2 hk)
    exact hinv.tree_reaches_start i k hi
  · intro k hcyc
    obtain ⟨ia, ib, hlt, ha, hb⟩ := hinv.tree_path_index hcyc
    have := nodup_index_eq hinv.nodup ha hb
    omega

/-- Witness of C26: the graph with the arc from node 0 to node 1 and a PDF object that draws
neither nodes nor arcs; the run from node 0 returns the tree whose only arc is the arc from
node 1 to node 0. -/
theorem breadth_first_tree_witness :
    ((0 : Int) ≤ 0 ∧ (0 : Int) < pair_graph.n)
    ∧ (∀ k, k < pair_graph.n → (pair_graph.nodes k).state ≠ Visited)
    ∧ ∃ (g' tree : Graph ℚ) (pdf' : Option (PDFGraph ℚ)),
        pair_graph.breadth_first Libm.rat NumFmt.rat
          (some ((PDFGraph.new "g.pdf" pair_graph).set_display_flags (NoNodes ||| NoArcs))) 0
          = some (.ok (g', tree, pdf'))
        ∧ tree.n = 2 ∧ tree.adj 0 0 = 0 ∧ tree.adj 0 1 = 0 ∧ tree.adj 1 0 = 1
        ∧ tree.adj 1 1 = 0
        ∧ (∀ k, pair_graph.reachable 0 k → tree.reachable k 0)
        ∧ (∀ k, ¬ Relation.TransGen tree.arc k k) := by
  have h1 : (0 : Int) ≤ 0 ∧ (0 : Int) < pair_graph.n := by decide
  have h2 : ∀ k, k < pair_graph.n → (pair_graph.nodes k).state ≠ Visited := by
    intro k _
    show (0 : Int) ≠ 2
    decide
  obtain ⟨r, hr, hpost⟩ := breadth_first_tree Libm.rat NumFmt.rat pair_graph
    ((PDFGraph.new "g.pdf" pair_graph).set_display_flags (NoNodes ||| NoArcs)) 0 h1 h2
  have hh := Graph.breadth_first_pair
  rw [hr] at hh
  cases r with
  | error e => exact absurd hh (by simp)
  | ok res =>
    obtain ⟨g', tree, pdf'⟩ := res
    obtain ⟨_, order, _, _, _, _, _, _, hreach, hcyc⟩ := hpost g' tree pdf' rfl
    simp only [Option.some.injEq, Prod.mk.injEq] at hh
    obtain ⟨e0, e1, e2, e3, e4⟩ := hh
    exact ⟨h1, h2, g', tree, pdf', hr, e0, e1, e2, e3, e4, hreach, hcyc⟩

section DFS

variable {α : Type}

theorem foldl_range_inv {γ : Type} (f : γ → Nat → γ) (P : Nat → γ → Prop) (n : Nat) (c : γ)
    (h0 : P 0 c) (hstep : ∀ k c, k < n → P k c → P (k + 1) (f c k)) :
    P n ((List.range n).foldl f c) := by
  induction n with
  | zero => exact h0
  | succ n ih =>
    rw [List.range_succ, List.foldl_append]
    exact hstep n _ (Nat.lt_succ_self n)
      (ih (fun k c hk hP => hstep k c (Nat.lt_succ_of_lt hk) hP))

theorem Graph.dfs_spec [LinearOrderedField α] [FloorRing α] (L : Libm α) (F : NumFmt α)
    (g0 : Graph α) (pages0 : List (Option String)) :
    ∀ (fuel i : Nat) (st : DFSState α) (order : List Nat),
      DFSInv g0 pages0 st order → i < g0.n → i ∉ order → g0.n - order.length ≤ fuel →
      ∃ r, Graph.dfs L F fuel (i : Int) st = some r
        ∧ Post (fun st' => ∃ new : List Nat, DFSInv g0 pages0 st' (order ++ i :: new)
            ∧ (∀ j ∈ new, g0.reachable i j)
            ∧ (∀ a ∈ i :: new, ∀ b, g0.arc a b → b ∈ order ++ i :: new))
          (fun _ => True) r := by
  intro fuel
  induction fuel with
  | zero =>
    intro i st order hinv hi hnot hfuel
    have h1 := length_le_of_nodup_lt (i :: order) g0.n (List.nodup_cons.2 ⟨hnot, hinv.nodup⟩)
      (by
        intro j hj
        rcases List.mem_cons.1 hj with h | h
        · rw [h]; exact hi
        · exact hinv.lt_n j h)
    rw [List.length_cons] at h1
    omega
  | succ fuel ih =>
    intro i st order hinv hi hnot hfuel
    have hlen : order.length + 1 ≤ g0.n := by
      have h1 := length_le_of_nodup_lt (i :: order) g0.n
        (List.nodup_cons.2 ⟨hnot, hinv.nodup⟩)
        (by
          intro j hj
          rcases List.mem_cons.1 hj with h | h
          · rw [h]; exact hi
          · exact hinv.lt_n j h)
      rw [List.length_cons] at h1
      exact h1
    have hgn : st.g.n = g0.n := by rw [hinv.g_eq]
    obtain ⟨p, hp, hdf, hpages⟩ := hinv.pdf_ok
    rw [Graph.dfs, hp]
    have hv := Graph.visit_node_post L F st.g p (i : Int) " Depth First Algorithm "
      (some st.tree) ((check_index_nat i st.g.n).2 (hgn ▸ hi))
    cases hvr : st.g.visit_node L F (some p) (i : Int) " Depth First Algorithm "
        (some st.tree) with
    | error e => exact ⟨_, rfl, trivial⟩
    | ok r =>
      rw [hvr] at hv
      obtain ⟨rg, rp⟩ := r
      obtain ⟨hr1, p1, hr2, hev, hdf1⟩ := hv
      simp only at hr1 hr2
      subst hr1 hr2
      simp only []
      have hg1 := Graph.set_node_state_nat st.g i 2 (hgn ▸ hi)
      have hinv1 : DFSInv g0 pages0
          { g := st.g.set_node_state (i : Int) 2, tree := st.tree, pdf := some p1 }
          (order ++ i :: []) := by
        refine { nodup := ?_, lt_n := ?_, g_eq := ?_, state_iff := ?_, pdf_ok := ?_ }
        · exact List.nodup_append_comm.1 (List.nodup_cons.2 ⟨hnot, hinv.nodup⟩)
        · intro j hj
          rcases List.mem_append.1 hj with h | h
          · exact hinv.lt_n j h
          · rw [List.mem_singleton.1 h]
            exact hi
        · show st.g.set_node_state (i : Int) 2 = _
          rw [hg1]
          exact Graph.with_nodes_eq hinv.g_eq _
        · intro j hj
          show ((st.g.set_node_state (i : Int) 2).nodes j).state = 2 ↔ _
          rw [hg1, List.mem_append, List.mem_singleton]
          by_cases hji : j = i
          · subst hji
            simp
          · simp only [Function.update_noteq hji, hji, or_false]
            exact hinv.state_iff j hj
        · refine ⟨p1, rfl, hdf1.trans hdf, ?_⟩
          rw [hev, page_annotations_append, hpages, hdf, page_annotations_visit,
            List.map_append, List.append_assoc]
          rfl
      refine foldl_range_inv _
        (fun l acc => ∃ r, acc = some r
          ∧ Post (fun st' => ∃ new : List Nat, DFSInv g0 pages0 st' (order ++ i :: new)
              ∧ (∀ j ∈ new, g0.reachable i j)
              ∧ (∀ a ∈ new, ∀ b, g0.arc a b → b ∈ order ++ i :: new)
              ∧ (∀ b, b < l → g0.arc i b → b ∈ order ++ i :: new))
            (fun _ => True) r)
        st.g.n _ ?_ ?_ |> fun ⟨r, hr, hpost⟩ => ⟨r, hr, Post.mono hpost ?_ (fun _ h => h)⟩
      · refine ⟨_, rfl, [], hinv1, ?_, ?_, ?_⟩
        · intro j hj
          exact absurd hj (List.not_mem_nil j)
        · intro a ha
          exact absurd ha (List.not_mem_nil a)
        · intro b hb
          exact absurd hb (Nat.not_lt_zero b)
      · intro l acc hl hP
        obtain ⟨r, rfl, hpost⟩ := hP
        cases r with
        | error e => exact ⟨_, rfl, trivial⟩
        | ok st' =>
          obtain ⟨new, hi1, hi2, hi3, hi4⟩ := hpost
          have hgn' : st'.g.n = g0.n := by rw [hi1.g_eq]
          have hgadj' : st'.g.adj = g0.adj := by rw [hi1.g_eq]
          have hln : l < g0.n := hgn ▸ hl
          simp only [(check_index_nat i st'.g.n).2 (hgn' ▸ hi), Bool.not_true,
            Bool.false_eq_true, if_false, Int.toNat_ofNat]
          by_cases hc : st'.g.adj i l ≠ 0 ∧ ¬ (st'.g.nodes l).state = 2
          · rw [if_pos hc]
            have hlnot : l ∉ order ++ i :: new :=
              fun hmem => hc.2 ((hi1.state_iff l hln).2 hmem)
            have harc : g0.arc i l := ⟨hi, hln, hgadj' ▸ hc.1⟩
            have hinv2 : DFSInv g0 pages0
                { st' with tree := (st'.tree.add_arc (l : Int) (i : Int)).1 }
                (order ++ i :: new) :=
              { nodup := hi1.nodup, lt_n := hi1.lt_n, g_eq := hi1.g_eq,
                state_iff := hi1.state_iff, pdf_ok := hi1.pdf_ok }
            obtain ⟨r, hr, hpost⟩ := ih l _ (order ++ i :: new) hinv2 hln hlnot
              (by rw [List.length_append, List.length_cons]; omega)
            refine ⟨r, hr, Post.mono hpost ?_ (fun _ h => h)⟩
            rintro st'' ⟨new', hj1, hj2, hj3⟩
            have heq : order ++ i :: new ++ l :: new' = order ++ i :: (new ++ l :: new') := by
              simp
            rw [heq] at hj1 hj3
            refine ⟨new ++ l :: new', hj1, ?_, ?_, ?_⟩
            · intro j hj
              rcases List.mem_append.1 hj with h | h
              · exact hi2 j h
              · rcases List.mem_cons.1 h with h | h
                · rw [h]
                  exact Relation.ReflTransGen.single harc
                · exact Relation.ReflTransGen.head harc (hj2 j h)
            · intro a ha b hab
              rcases List.mem_append.1 ha with h | h
              · have := hi3 a h b hab
                rw [← heq]
                exact List.mem_append_left _ this
              · exact hj3 a h b hab
            · intro b hb hab
              rcases Nat.lt_succ_iff_lt_or_eq.1 hb with h | h
              · have := hi4 b h hab
                rw [← heq]
                exact List.mem_append_left _ this
              · subst h
                rw [← heq]
                exact List.mem_append_right _ (List.mem_cons_self _ _)
          · rw [if_neg hc]
            refine ⟨_, rfl, new, hi1, hi2, hi3, ?_⟩
            intro b hb hab
            rcases Nat.lt_succ_iff_lt_or_eq.1 hb with h | h
            · exact hi4 b h hab
            · subst h
              by_contra hmem
              exact hc ⟨hgadj' ▸ hab.2.2,
                fun h2 => hmem ((hi1.state_iff b hab.2.1).1 h2)⟩
      · rintro st' ⟨new, hi1, hi2, hi3, hi4⟩
        refine ⟨new, hi1, hi2, ?_⟩
        intro a ha b hab
        rcases List.mem_cons.1 ha with h | h
        · subst h
          exact hi4 b (hgn ▸ hab.2.1) hab
        · exact hi3 a h b hab

end DFS

/-- C27 (as stated) fails at the page limit of the PDF engine: for the graph with one node
and a PDF object whose document is at its last page (index 1023), `depth_first(0)` is ended
by its first `new_page` with `Too many pages`, before `visit_node` is called for node 0. -/
theorem depth_first_page_limit :
    ((0 : Int) ≤ 0 ∧ (0 : Int) < (Graph.init 1 : Graph ℚ).n)
    ∧ (full_document (Graph.init 1)).display_flags = 0
    ∧ (full_document (Graph.init 1)).pdf.page = 1023
    ∧ (Graph.init 1 : Graph ℚ).depth_first Libm.rat NumFmt.rat
        (some (full_document (Graph.init 1))) 0
      = some (.error Halt.too_many_pages) := by
  refine ⟨by decide, rfl, rfl, ?_⟩
  with_unfolding_all rfl

/-- C27 (amended): for a graph, a valid start node and the PDF object of the graph (display
flags 0), `depth_first(start)` terminates: the recursion depth that the model allows, the
number of nodes plus one, is never used up, as every call of the helper is for a node not
yet Visited and marks it. Unless the PDF engine ends the run, `visit_node` is called exactly
once for each node reachable from the start node and for no other node (`order` lists these
calls; each starts one visit page, between the page of the graph as given and the
completed-state page), and on return exactly the reachable nodes are in the Visited state. -/
theorem depth_first_visits {α : Type} [LinearOrderedField α] [FloorRing α] (L : Libm α)
    (F : NumFmt α) (g : Graph α) (p : PDFGraph α) (start : Int)
    (hstart : 0 ≤ start ∧ start < g.n) (hflags : p.display_flags = 0) :
    ∃ r, g.depth_first L F (some p) start = some r
      ∧ ∀ g' tree pdf', r = .ok (g', tree, pdf') →
          ∃ (p' : PDFGraph α) (order : List Nat), pdf' = some p'
            ∧ order.Nodup ∧ order.head? = some start.toNat
            ∧ (∀ k, k ∈ order ↔ g.reachable start.toNat k)
            ∧ page_annotations p'.events = page_annotations p.events
                ++ [some "Running Depth-first traversal:"]
                ++ order.map (fun k : Nat =>
                    some (visit_label " Depth First Algorithm " (k : Int)))
                ++ [some "Completed depth-first traversal"]
            ∧ (∀ k, k < g.n → ((g'.nodes k).state = Visited ↔ g.reachable start.toNat k)) := by
  obtain ⟨s, rfl⟩ := Int.eq_ofNat_of_zero_le hstart.1
  have hs : s < g.n := by omega
  unfold Graph.depth_first
  simp only []
  have hfirst : Post (fun p2 : PDFGraph α => p2.display_flags = 0
      ∧ page_annotations p2.events
          = page_annotations p.events ++ [some "Running Depth-first traversal:"])
      (fun _ => True)
      (do
        let p1 ← p.new_page L (some "Running Depth-first traversal:")
        p1.draw L F (g.set_all_node_states 0) 0 none) := by
    refine Post.bind (PDFGraph.new_page_events L p _) ?_
    intro p1 h1
    refine Post.mono (PDFGraph.draw_post L F p1 _ 0 none) ?_ (fun _ h => h)
    intro p2 h2
    refine ⟨by rw [h2.2, h1.2, hflags], ?_⟩
    rw [h2.1, h1.1, h1.2, hflags, page_annotations_append, page_annotations_append,
      Option.getD_none, (page_annotations_draw _).1, List.append_nil]
    rfl
  cases hrun : (do
        let p1 ← p.new_page L (some "Running Depth-first traversal:")
        p1.draw L F (g.set_all_node_states 0) 0 none) with
  | error e =>
    refine ⟨_, rfl, ?_⟩
    intro g' tree pdf' h
    exact Except.noConfusion h
  | ok p2 =>
    rw [hrun] at hfirst
    simp only []
    have hinv0 : DFSInv (g.set_all_node_states 0)
        (page_annotations p.events ++ [some "Running Depth-first traversal:"])
        { g := g.set_all_node_states 0, tree := (g.set_all_node_states 0).node_subgraph,
          pdf := some p2 } [] := by
      refine { nodup := List.nodup_nil, lt_n := ?_, g_eq := rfl, state_iff := ?_, pdf_ok := ?_ }
      · intro j hj
        exact absurd hj (List.not_mem_nil j)
      · intro j hj
        have hj' : j < g.n := hj
        show ((if j < g.n then ({ g.nodes j with state := 0 } : GraphNode α)
          else g.nodes j).state = 2) ↔ _
        rw [if_pos hj']
        simp
      · exact ⟨p2, rfl, hfirst.1, by rw [hfirst.2]; simp⟩
    obtain ⟨r, hr, hpost⟩ := Graph.dfs_spec L F (g.set_all_node_states 0) _
      ((g.set_all_node_states 0).n + 1) s _ [] hinv0 hs (List.not_mem_nil s)
      (by simp only [List.length_nil]; omega)
    rw [hr]
    cases r with
    | error e =>
      refine ⟨_, rfl, ?_⟩
      intro g' tree pdf' h
      exact Except.noConfusion h
    | ok st =>
      obtain ⟨new, hinv, hreach, hclosed⟩ := hpost
      rw [List.nil_append] at hinv hclosed
      obtain ⟨pl, hpl, hdfl, hpagesl⟩ := hinv.pdf_ok
      simp only []
      rw [hpl]
      have hd := Graph.draw_pages_post L F st.g pl 0 "Completed depth-first traversal" st.tree
      cases hdr : st.g.draw L F (some pl) 0 "Completed depth-first traversal"
          (some st.tree) with
      | error e =>
        refine ⟨_, rfl, ?_⟩
        intro g' tree pdf' h
        exact Except.noConfusion h
      | ok pdf1 =>
        rw [hdr] at hd
        obtain ⟨p', hp', _, hev'⟩ := hd
        refine ⟨_, rfl, ?_⟩
        intro g' tree pdf' h
        simp only [Except.ok.injEq, Prod.mk.injEq] at h
        obtain ⟨rfl, _, rfl⟩ := h
        have hmem : ∀ k, k ∈ s :: new ↔ g.reachable s k := by
          intro k
          constructor
          · intro hk
            rcases List.mem_cons.1 hk with h | h
            · rw [h]
              exact Relation.ReflTransGen.refl
            · exact hreach k h
          · intro hk
            induction hk with
            | refl => exact List.mem_cons_self _ _
            | tail _ hab ih => exact hclosed _ ih _ hab
        simp only [Int.toNat_ofNat]
        refine ⟨p', s :: new, hp', hinv.nodup, rfl, hmem, ?_, ?_⟩
        · rw [hev', page_annotations_append, page_annotations_append,
            page_annotations_append, hpagesl, hdfl, (page_annotations_draw _).1,
            (page_annotations_draw _).2, List.append_nil, List.append_nil]
          rfl
        · intro k hk
          rw [← hmem k]
          exact hinv.state_iff k hk

theorem depth_first_visits_witness :
    ((0 : Int) ≤ 0 ∧ (0 : Int) < (Graph.init 1 : Graph ℚ).n)
    ∧ (PDFGraph.new "g.pdf" (Graph.init 1 : Graph ℚ)).display_flags = 0
    ∧ (∃ r, (Graph.init 1 : Graph ℚ).depth_first Libm.rat NumFmt.rat
          (some (PDFGraph.new "g.pdf" (Graph.init 1))) 0 = some r)
    ∧ (match (Graph.init 1 : Graph ℚ).depth_first Libm.rat NumFmt.rat
          (some (PDFGraph.new "g.pdf" (Graph.init 1))) 0 with
        | some (.ok r) =>
          r.2.2.map (fun (p : PDFGraph ℚ) => (page_annotations p.events, (r.1.nodes 0).state))
        | _ => none)
      = some ([some "Running Depth-first traversal:",
          some " Depth First Algorithm : visiting node 1",
          some "Completed depth-first traversal"], 2) := by
  have h1 : (0 : Int) ≤ 0 ∧ (0 : Int) < (Graph.init 1 : Graph ℚ).n := by decide
  have h3 : (match (Graph.init 1 : Graph ℚ).depth_first Libm.rat NumFmt.rat
          (some (PDFGraph.new "g.pdf" (Graph.init 1))) 0 with
        | some (.ok r) =>
          r.2.2.map (fun (p : PDFGraph ℚ) => (page_annotations p.events, (r.1.nodes 0).state))
        | _ => none)
      = some ([some "Running Depth-first traversal:",
          some " Depth First Algorithm : visiting node 1",
          some "Completed depth-first traversal"], 2) := by
    set_option maxRecDepth 100000 in decide!
  obtain ⟨r, hr, _⟩ := depth_first_visits Libm.rat NumFmt.rat (Graph.init 1 : Graph ℚ)
    (PDFGraph.new "g.pdf" (Graph.init 1)) 0 h1 rfl
  exact ⟨h1, rfl, ⟨r, hr⟩, h3⟩

/-! ## The claims C31..C38 -/

section SafeAccessors

variable {α : Type}

/-- The accessors of Graph.cpp with a default value: for indices in range they return the
stored entry, whose indices are inside the arrays, and for an index out of range the
default, whatever the arrays hold. `get_node` returns `nodes[i]` for an index in range and
`nodes[0]` for an index out of range, which is inside the array when the graph has a node. -/
theorem safe_accessors_spec [LinearOrderedField α] (g : Graph α) (i j : Int) :
    ((0 ≤ i ∧ i < g.n) ∧ (0 ≤ j ∧ j < g.n) →
        i.toNat < g.n ∧ j.toNat < g.n
        ∧ g.adjacent i j = decide (g.adj i.toNat j.toNat > 0)
        ∧ g.get_arc_weight i j = g.adj i.toNat j.toNat)
    ∧ (¬ ((0 ≤ i ∧ i < g.n) ∧ (0 ≤ j ∧ j < g.n)) →
        g.adjacent i j = false ∧ g.get_arc_weight i j = 0)
    ∧ ((0 ≤ i ∧ i < g.n) →
        i.toNat < g.n
        ∧ g.get_node i = .ok (g.nodes i.toNat)
        ∧ g.get_node_state i = (g.nodes i.toNat).state
        ∧ g.get_node_value i = (g.nodes i.toNat).value
        ∧ g.get_node_flags i = (g.nodes i.toNat).flags)
    ∧ (¬ (0 ≤ i ∧ i < g.n) →
        g.get_node_state i = 0 ∧ g.get_node_value i = 0 ∧ g.get_node_flags i = 0
        ∧ (0 < g.n → g.get_node i = .ok (g.nodes 0))) := by
  refine ⟨?_, ?_, ?_, ?_⟩
  · rintro ⟨hi, hj⟩
    have ci := (check_index_iff i g.n).2 hi
    have cj := (check_index_iff j g.n).2 hj
    refine ⟨by omega, by omega, Graph.adjacent_eq g i j ci cj, Graph.get_arc_weight_eq g i j ci cj⟩
  · intro h
    unfold Graph.adjacent Graph.get_arc_weight
    by_cases hi : 0 ≤ i ∧ i < g.n
    · have hj : ¬ (0 ≤ j ∧ j < g.n) := fun hj => h ⟨hi, hj⟩
      simp only [(check_index_iff i g.n).2 hi, check_index_false hj, Bool.not_true,
        Bool.not_false, Bool.false_eq_true, if_false, if_true, and_self]
    · simp only [check_index_false hi, Bool.not_false, if_true, and_self]
  · intro hi
    have ci := (check_index_iff i g.n).2 hi
    unfold Graph.get_node Graph.get_node_state Graph.get_node_value Graph.get_node_flags
    simp only [ci, Bool.not_true, Bool.false_eq_true, if_false, and_self, and_true]
    refine ⟨by omega, rfl⟩
  · intro hi
    unfold Graph.get_node Graph.get_node_state Graph.get_node_value Graph.get_node_flags
    simp only [check_index_false hi, Bool.not_false, if_true, true_and]
    intro hn
    rw [if_pos hn]
    rfl

end SafeAccessors

/-- C31, the code at the failing input: in a graph without nodes every index is out of
range, and for an index out of range `get_node` returns `nodes[0]`, an element outside the
array `nodes`, which has no element. -/
theorem get_node_empty_graph {α : Type} [LinearOrderedField α] (i : Int) :
    (Graph.init 0 : Graph α).n = 0
    ∧ check_index i (Graph.init 0 : Graph α).n = false
    ∧ (Graph.init 0 : Graph α).get_node i
        = .error (Halt.die "get_node: nodes[0] is outside the array") := by
  have hc : check_index i (Graph.init 0 : Graph α).n = false :=
    check_index_false (fun h => by
      have h2 : i < ((0 : Nat) : Int) := h.2
      omega)
  refine ⟨rfl, hc, ?_⟩
  unfold Graph.get_node
  rw [hc]
  rfl

/-- C32, the code at the failing input: for the graph with two nodes and the arc from node 0
to node 1, not weighted, `write` emits the line `arc 0 2`: the start index is printed as `i`,
not `i + 1`, and 0 is not an index of the input format. The same graph marked as weighted is
written with `weighted_arc 1 2 1`. -/
theorem write_unweighted_arc_index :
    pair_graph.write NumFmt.rat true "" = "Graph\n2\narc 0 2\n"
    ∧ pair_graph.set_weighted.write NumFmt.rat true "" = "Graph\n2\nweighted_arc 1 2 1\n" := by
  constructor
  · decide!
  · decide!

/-- C33, the code at the failing input: for the end points `(0, 0)`, `(1, 0)` and the control
point `(2, 0)`, which are collinear (`D = 0`), `draw_general` does not draw the line: the test
`fabs(D) == 1E-6` fails, and the arc branch is taken, whose centre is computed by the division
by `D`. The line is drawn when `|D|` is `1E-6`. -/
theorem draw_arc_collinear {α : Type} [LinearOrderedField α] [FloorRing α] (L : Libm α)
    (pdf : PDF α) (al aw : α) (heads : Nat) (node_r : α) :
    arc_det (⟨0, 0⟩ : PDFPoint α) ⟨1, 0⟩ ⟨2, 0⟩ = 0
    ∧ PDFGraph.draw_arc_through L pdf ⟨0, 0⟩ ⟨1, 0⟩ ⟨2, 0⟩ al aw heads node_r
      = (if ((⟨0, 0⟩ : PDFPoint α).sub (arc_centre ⟨0, 0⟩ ⟨1, 0⟩ ⟨2, 0⟩)).cross_z
            ((⟨1, 0⟩ : PDFPoint α).sub (arc_centre ⟨0, 0⟩ ⟨1, 0⟩ ⟨2, 0⟩)) < 0 then
          pdf.arrowed_arcn L (arc_centre (⟨0, 0⟩ : PDFPoint α) ⟨1, 0⟩ ⟨2, 0⟩).x
            (arc_centre (⟨0, 0⟩ : PDFPoint α) ⟨1, 0⟩ ⟨2, 0⟩).y
            ((arc_centre (⟨0, 0⟩ : PDFPoint α) ⟨1, 0⟩ ⟨2, 0⟩).dist L ⟨0, 0⟩)
            (L.atan2 (0 - (arc_centre (⟨0, 0⟩ : PDFPoint α) ⟨1, 0⟩ ⟨2, 0⟩).y)
              (0 - (arc_centre (⟨0, 0⟩ : PDFPoint α) ⟨1, 0⟩ ⟨2, 0⟩).x))
            (L.atan2 (0 - (arc_centre (⟨0, 0⟩ : PDFPoint α) ⟨1, 0⟩ ⟨2, 0⟩).y)
              (1 - (arc_centre (⟨0, 0⟩ : PDFPoint α) ⟨1, 0⟩ ⟨2, 0⟩).x))
            al aw heads node_r node_r
        else
          pdf.arrowed_arc L (arc_centre (⟨0, 0⟩ : PDFPoint α) ⟨1, 0⟩ ⟨2, 0⟩).x
            (arc_centre (⟨0, 0⟩ : PDFPoint α) ⟨1, 0⟩ ⟨2, 0⟩).y
            ((arc_centre (⟨0, 0⟩ : PDFPoint α) ⟨1, 0⟩ ⟨2, 0⟩).dist L ⟨0, 0⟩)
            (L.atan2 (0 - (arc_centre (⟨0, 0⟩ : PDFPoint α) ⟨1, 0⟩ ⟨2, 0⟩).y)
              (0 - (arc_centre (⟨0, 0⟩ : PDFPoint α) ⟨1, 0⟩ ⟨2, 0⟩).x))
            (L.atan2 (0 - (arc_centre (⟨0, 0⟩ : PDFPoint α) ⟨1, 0⟩ ⟨2, 0⟩).y)
              (1 - (arc_centre (⟨0, 0⟩ : PDFPoint α) ⟨1, 0⟩ ⟨2, 0⟩).x))
            al aw heads node_r node_r)
    ∧ (∀ p0 p1 p2 : PDFPoint α,
        arc_centre p0 p1 p2
          = ⟨((p1.length_sqr - p0.length_sqr) / 2 * (p2.sub p1).y
                - (p2.length_sqr - p1.length_sqr) / 2 * (p1.sub p0).y) / arc_det p0 p1 p2,
             -((p1.length_sqr - p0.length_sqr) / 2 * (p2.sub p1).x
                - (p2.length_sqr - p1.length_sqr) / 2 * (p1.sub p0).x) / arc_det p0 p1 p2⟩)
    ∧ (∀ p0 p1 p2 : PDFPoint α, |arc_det p0 p1 p2| = 1 / 1000000 →
        PDFGraph.draw_arc_through L pdf p0 p1 p2 al aw heads node_r
          = pdf.arrowed_line L p0.x p0.y p1.x p1.y al aw heads node_r node_r) := by
  have hD : arc_det (⟨0, 0⟩ : PDFPoint α) ⟨1, 0⟩ ⟨2, 0⟩ = 0 := by
    simp [arc_det, PDFPoint.sub]
  refine ⟨hD, ?_, fun _ _ _ => rfl, ?_⟩
  · unfold PDFGraph.draw_arc_through
    rw [if_neg (by rw [hD, abs_zero]; norm_num)]
  · intro p0 p1 p2 h
    unfold PDFGraph.draw_arc_through
    rw [if_pos h]

/-- C34 (as stated) fails: `font_index` is not idempotent. The value 16 (ZapfDingbats) is
mapped to the index 13, and 13, read as a font value, is Symbol with a modifier flag and is
mapped to 12. -/
theorem font_index_not_idempotent :
    font_index 16 = 13 ∧ font_index (font_index 16) = 12 := by
  decide

/-- C34 (amended): for every integer font value `font_index` returns an index in 0..13; it
is the identity on 0..11, maps 12..15 to 12, every value from 16 on to 13 and negative
values to 0; it is idempotent on the values below 16, and applying it twice to a value from
16 on gives 12. -/
theorem font_index_spec (font : Int) :
    (0 ≤ font_index font ∧ font_index font ≤ 13)
    ∧ (0 ≤ font ∧ font ≤ 11 → font_index font = font)
    ∧ (12 ≤ font ∧ font ≤ 15 → font_index font = 12)
    ∧ (16 ≤ font → font_index font = 13)
    ∧ (font < 0 → font_index font = 0)
    ∧ (font < 16 → font_index (font_index font) = font_index font)
    ∧ (16 ≤ font → font_index (font_index font) = 12) := by
  have h13 : font_index 13 = 12 := by decide
  have h12 : font_index 12 = 12 := by decide
  have h0 : font_index 0 = 0 := by decide
  unfold font_index
  refine ⟨?_, ?_, ?_, ?_, ?_, ?_, ?_⟩
  · split
    · omega
    · split
      · omega
      · split
        · omega
        · omega
  · intro h
    rw [if_neg (by omega), if_neg (by omega), if_neg (by omega)]
  · intro h
    rw [if_neg (by omega), if_pos h]
  · intro h
    rw [if_neg (by omega), if_neg (by omega), if_pos h]
  · intro h
    rw [if_pos h]
  · intro h
    by_cases hneg : font < 0
    · simp only [if_pos hneg]
      decide
    · by_cases hs : font ≥ 12 ∧ font ≤ 15
      · simp only [if_neg hneg, if_pos hs]
        decide
      · have h16 : ¬ font ≥ 16 := by omega
        simp only [if_neg hneg, if_neg hs, if_neg h16]
  · intro h
    have hneg : ¬ font < 0 := by omega
    have hs : ¬ (font ≥ 12 ∧ font ≤ 15) := by omega
    simp only [if_neg hneg, if_neg hs, if_pos h]
    decide

theorem font_index_spec_witness :
    ((0 : Int) ≤ 5 ∧ (5 : Int) ≤ 11) ∧ font_index 5 = 5
    ∧ ((12 : Int) ≤ 14 ∧ (14 : Int) ≤ 15) ∧ font_index 14 = 12
    ∧ (16 : Int) ≤ 19 ∧ font_index 19 = 13 ∧ font_index (font_index 19) = 12
    ∧ (-3 : Int) < 0 ∧ font_index (-3) = 0
    ∧ (14 : Int) < 16 ∧ font_index (font_index 14) = font_index 14 :=
  ⟨by decide, (font_index_spec 5).2.1 (by decide), by decide,
    (font_index_spec 14).2.2.1 (by decide), by decide,
    (font_index_spec 19).2.2.2.1 (by decide), (font_index_spec 19).2.2.2.2.2.2 (by decide),
    by decide, (font_index_spec (-3)).2.2.2.2.1 (by decide), by decide,
    (font_index_spec 14).2.2.2.2.2.1 (by decide)⟩

section LabelAnchor

/-- For an angle from `-π` up to, but not including, `3π/4` both anchor fractions are in
`[0, 1]`. -/
theorem label_anchor_range {α : Type} [LinearOrderedField α] (pi angle : α) (hpi : 0 < pi)
    (h0 : -pi ≤ angle) (h1 : angle < 3 * pi / 4) :
    (0 ≤ (label_anchor pi angle).1 ∧ (label_anchor pi angle).1 ≤ 1)
    ∧ (0 ≤ (label_anchor pi angle).2 ∧ (label_anchor pi angle).2 ≤ 1) := by
  have h2 : (0 : α) < pi / 2 := by linarith
  unfold label_anchor
  split
  · refine ⟨⟨zero_le_one, le_refl 1⟩, div_nonneg (by linarith) h2.le, ?_⟩
    rw [div_le_one h2]
    linarith
  · split
    · refine ⟨⟨?_, ?_⟩, zero_le_one, le_refl 1⟩
      · rw [sub_nonneg, div_le_one h2]
        linarith
      · rw [sub_le_self_iff]
        exact div_nonneg (by linarith) h2.le
    · split
      · refine ⟨⟨le_refl 0, zero_le_one⟩, ?_, ?_⟩
        · rw [sub_nonneg, div_le_one h2]
          linarith
        · rw [sub_le_self_iff]
          exact div_nonneg (by linarith) h2.le
      · refine ⟨⟨div_nonneg (by linarith) h2.le, ?_⟩, le_refl 0, zero_le_one⟩
        show (angle - pi / 4) / (pi / 2) ≤ 1
        rw [div_le_one h2]
        linarith

end LabelAnchor

/-- C35, the code at the failing input: for the angle `π` the anchor fractions that
`draw_general` chooses are `(1, -1/2)`, the vertical one below 0, while for `-π` they are
`(1, 1/2)`: the last branch subtracts `5π/4` where `3π/4` is the start of its range. The
angle `π` arises for an arc from a node straight above its end node, and `position_text` is
called with these fractions. -/
theorem label_anchor_at_pi (F : NumFmt ℝ) (p : PDFGraph ℝ) (graph : Graph ℝ) (pdf : PDF ℝ) :
    label_anchor Real.pi Real.pi = (1, -1 / 2)
    ∧ label_anchor Real.pi (-Real.pi) = (1, 1 / 2)
    ∧ ∃ x y : ℝ,
        PDFGraph.draw_arc_weight
          { cos := Real.cos, sin := Real.sin, atan2 := fun b a => Complex.arg ⟨a, b⟩,
            hypot := fun a b => Real.sqrt (a ^ 2 + b ^ 2), M_PI := Real.pi,
            fmt_f := fun _ _ => "" }
          F p graph
          { (Graph.init 2 : Graph ℝ) with
            adj := fun _ _ => 1
            node_pos := fun k => if k = 0 then ⟨0, 1⟩ else ⟨0, 0⟩ }
          pdf 0 1
        = pdf.position_text
          { cos := Real.cos, sin := Real.sin, atan2 := fun b a => Complex.arg ⟨a, b⟩,
            hypot := fun a b => Real.sqrt (a ^ 2 + b ^ 2), M_PI := Real.pi,
            fmt_f := fun _ _ => "" }
          (F.g2 (graph.adj 0 1)) x y 1 (-1 / 2) := by
  have hpi := Real.pi_pos
  have h1 : label_anchor Real.pi Real.pi = (1, -1 / 2) := by
    unfold label_anchor
    rw [if_neg (by linarith), if_neg (by linarith), if_neg (by linarith),
      if_neg (by linarith)]
    refine Prod.ext rfl ?_
    show (Real.pi - 5 * Real.pi / 4) / (Real.pi / 2) = -1 / 2
    field_simp
    ring
  have h2 : label_anchor Real.pi (-Real.pi) = (1, 1 / 2) := by
    unfold label_anchor
    rw [if_pos (by linarith)]
    refine Prod.ext rfl ?_
    show (-Real.pi + 5 * Real.pi / 4) / (Real.pi / 2) = 1 / 2
    field_simp
    ring
  refine ⟨h1, h2, ?_⟩
  have hs : Real.sqrt ((-(1 - 0 : ℝ)) ^ 2 + ((0 : ℝ) - 0) ^ 2) = 1 := by
    rw [show ((-(1 - 0 : ℝ)) ^ 2 + ((0 : ℝ) - 0) ^ 2) = 1 by norm_num]
    exact Real.sqrt_one
  have harg : Complex.arg ⟨1 / (1 : ℝ) * -(1 - 0), 1 / (1 : ℝ) * (0 - 0)⟩ = Real.pi := by
    rw [Complex.arg_eq_pi_iff]
    constructor <;> norm_num
  unfold PDFGraph.draw_arc_weight
  simp only [PDFPoint.sub, PDFPoint.perp, PDFPoint.unit, if_true, one_ne_zero, if_false,
    Graph.init, zero_lt_one, gt_iff_lt, hs, harg, h1]
  exact ⟨_, _, rfl⟩

section ShortOperators

variable {α : Type}

theorem PDF.append_only_pages {pdf q : PDF α} {c : String} (h : pdf.append c = .ok q) :
    q = { pdf with pages := q.pages } := by
  unfold PDF.append at h
  split at h
  · exact Except.noConfusion h
  · injection h with h
    subst h
    rfl

theorem with_current_point_eq (q : PDF α) (b : Bool) :
    ({ q with current_point := b } : PDF α) = q ↔ q.current_point = b := by
  constructor
  · intro h
    rw [← h]
  · intro h
    cases q
    simp only at h
    subst h
    rfl

theorem with_current_eq [LinearOrderedField α] (q : PDF α) (x y : α) :
    ({ q with current_x := x, current_y := y, current_point := true } : PDF α) = q
      ↔ q.current_point = true ∧ q.current_x = x ∧ q.current_y = y := by
  constructor
  · intro h
    rw [← h]
    exact ⟨rfl, rfl, rfl⟩
  · rintro ⟨h1, h2, h3⟩
    cases q
    simp only at h1 h2 h3
    subst h1 h2 h3
    rfl

/-- A long-named painting method, which appends `c` and clears the current point, gives the
result of appending `c` alone exactly when there was no current point or the append halts. -/
theorem clear_after_append (pdf : PDF α) (c : String) :
    ((pdf.append c >>= fun q => pure { q with current_point := false }) = pdf.append c)
      ↔ (pdf.current_point = false ∨ ∃ e, pdf.append c = .error e) := by
  cases h : pdf.append c with
  | error e => exact ⟨fun _ => Or.inr ⟨e, rfl⟩, fun _ => rfl⟩
  | ok q =>
    have hq := PDF.append_only_pages h
    have hcp : q.current_point = pdf.current_point := by rw [hq]
    show (Except.ok { q with current_point := false } = Except.ok q) ↔ _
    rw [Except.ok.injEq, with_current_point_eq, hcp]
    constructor
    · exact Or.inl
    · rintro (h1 | ⟨e, he⟩)
      · exact h1
      · exact Except.noConfusion he

/-- The same for `moveto`, `lineto` and `curveto`, which set the current point. -/
theorem set_after_append [LinearOrderedField α] (pdf : PDF α) (c : String) (x y : α) :
    ((pdf.append c >>= fun q =>
        pure { q with current_x := x, current_y := y, current_point := true }) = pdf.append c)
      ↔ ((pdf.current_point = true ∧ pdf.current_x = x ∧ pdf.current_y = y)
          ∨ ∃ e, pdf.append c = .error e) := by
  cases h : pdf.append c with
  | error e => exact ⟨fun _ => Or.inr ⟨e, rfl⟩, fun _ => rfl⟩
  | ok q =>
    have hq := PDF.append_only_pages h
    have hcp : q.current_point = pdf.current_point := by rw [hq]
    have hx : q.current_x = pdf.current_x := by rw [hq]
    have hy : q.current_y = pdf.current_y := by rw [hq]
    show (Except.ok { q with current_x := x, current_y := y, current_point := true }
      = Except.ok q) ↔ _
    rw [Except.ok.injEq, with_current_eq, hcp, hx, hy]
    constructor
    · exact Or.inl
    · rintro (h1 | ⟨e, he⟩)
      · exact h1
      · exact Except.noConfusion he

end ShortOperators

/-- C36 (as stated) fails: after `moveto(0, 0)` on a new document there is a current point;
`f` leaves it in place, `fill` clears it, and both append the same line `f`. Likewise `l`
leaves the current point at `(0, 0)` where `lineto(3, 4)` moves it to `(3, 4)`. -/
theorem short_operator_keeps_current_point :
    (match (PDF.init "f" 612 792 : PDF ℚ).moveto Libm.rat 0 0 >>= fun p => p.f with
      | .ok q => some ((q.pages q.page).stream.text, q.current_point)
      | .error _ => none) = some ("0 0 m\nf\n", true)
    ∧ (match (PDF.init "f" 612 792 : PDF ℚ).moveto Libm.rat 0 0 >>= fun p => p.fill with
      | .ok q => some ((q.pages q.page).stream.text, q.current_point)
      | .error _ => none) = some ("0 0 m\nf\n", false)
    ∧ (match (PDF.init "f" 612 792 : PDF ℚ).moveto Libm.rat 0 0
          >>= fun p => p.l Libm.rat 3 4 with
      | .ok q => some ((q.pages q.page).stream.text, q.current_x, q.current_y)
      | .error _ => none) = some ("0 0 m\n3 4 l\n", 0, 0)
    ∧ (match (PDF.init "f" 612 792 : PDF ℚ).moveto Libm.rat 0 0
          >>= fun p => p.lineto Libm.rat 3 4 with
      | .ok q => some ((q.pages q.page).stream.text, q.current_x, q.current_y)
      | .error _ => none) = some ("0 0 m\n3 4 l\n", 3, 4) := by
  refine ⟨?_, ?_, ?_, ?_⟩ <;> decide!

/-- C36 (amended): in every state each long-named method is its single-letter method - the
same line appended to the current page, or the same halt - followed by the update of the
current-point bookkeeping: `moveto`, `lineto` and `curveto` set the current point to their
last point, the ten others clear it. A single-letter method changes nothing but the pages.
So the two leave the same state exactly when the bookkeeping already has the value that the
long-named method sets, or when both halt. -/
theorem short_operators_spec {α : Type} [LinearOrderedField α] (L : Libm α) (pdf : PDF α)
    (x y x1 y1 x2 y2 x3 y3 : α) :
    (pdf.moveto L x y = pdf.m L x y >>= fun q =>
        pure { q with current_x := x, current_y := y, current_point := true })
    ∧ (pdf.lineto L x y = pdf.l L x y >>= fun q =>
        pure { q with current_x := x, current_y := y, current_point := true })
    ∧ (pdf.curveto L x1 y1 x2 y2 x3 y3 = pdf.c L x1 y1 x2 y2 x3 y3 >>= fun q =>
        pure { q with current_point := true, current_x := x3, current_y := y3 })
    ∧ (pdf.closepath = pdf.h >>= fun q => pure { q with current_point := false })
    ∧ (pdf.endpath = pdf.n >>= fun q => pure { q with current_point := false })
    ∧ (pdf.fill = pdf.f >>= fun q => pure { q with current_point := false })
    ∧ (pdf.eofill = pdf.f_star >>= fun q => pure { q with current_point := false })
    ∧ (pdf.stroke = pdf.S >>= fun q => pure { q with current_point := false })
    ∧ (pdf.closepath_stroke = pdf.s >>= fun q => pure { q with current_point := false })
    ∧ (pdf.fill_stroke = pdf.B >>= fun q => pure { q with current_point := false })
    ∧ (pdf.eofill_stroke = pdf.B_star >>= fun q => pure { q with current_point := false })
    ∧ (pdf.closepath_fill_stroke = pdf.b >>= fun q => pure { q with current_point := false })
    ∧ (pdf.closepath_eofill_stroke
        = pdf.b_star >>= fun q => pure { q with current_point := false })
    ∧ (∀ q, (pdf.m L x y = .ok q ∨ pdf.l L x y = .ok q ∨ pdf.c L x1 y1 x2 y2 x3 y3 = .ok q
          ∨ pdf.h = .ok q ∨ pdf.n = .ok q ∨ pdf.f = .ok q ∨ pdf.f_star = .ok q
          ∨ pdf.S = .ok q ∨ pdf.s = .ok q ∨ pdf.B = .ok q ∨ pdf.B_star = .ok q
          ∨ pdf.b = .ok q ∨ pdf.b_star = .ok q) →
        q = { pdf with pages := q.pages })
    ∧ (pdf.moveto L x y = pdf.m L x y ↔
        (pdf.current_point = true ∧ pdf.current_x = x ∧ pdf.current_y = y)
          ∨ ∃ e, pdf.m L x y = .error e)
    ∧ (pdf.lineto L x y = pdf.l L x y ↔
        (pdf.current_point = true ∧ pdf.current_x = x ∧ pdf.current_y = y)
          ∨ ∃ e, pdf.l L x y = .error e)
    ∧ (pdf.curveto L x1 y1 x2 y2 x3 y3 = pdf.c L x1 y1 x2 y2 x3 y3 ↔
        (pdf.current_point = true ∧ pdf.current_x = x3 ∧ pdf.current_y = y3)
          ∨ ∃ e, pdf.c L x1 y1 x2 y2 x3 y3 = .error e)
    ∧ (pdf.closepath = pdf.h ↔ pdf.current_point = false ∨ ∃ e, pdf.h = .error e)
    ∧ (pdf.endpath = pdf.n ↔ pdf.current_point = false ∨ ∃ e, pdf.n = .error e)
    ∧ (pdf.fill = pdf.f ↔ pdf.current_point = false ∨ ∃ e, pdf.f = .error e)
    ∧ (pdf.eofill = pdf.f_star ↔ pdf.current_point = false ∨ ∃ e, pdf.f_star = .error e)
    ∧ (pdf.stroke = pdf.S ↔ pdf.current_point = false ∨ ∃ e, pdf.S = .error e)
    ∧ (pdf.closepath_stroke = pdf.s ↔ pdf.current_point = false ∨ ∃ e, pdf.s = .error e)
    ∧ (pdf.fill_stroke = pdf.B ↔ pdf.current_point = false ∨ ∃ e, pdf.B = .error e)
    ∧ (pdf.eofill_stroke = pdf.B_star ↔
        pdf.current_point = false ∨ ∃ e, pdf.B_star = .error e)
    ∧ (pdf.closepath_fill_stroke = pdf.b ↔ pdf.current_point = false ∨ ∃ e, pdf.b = .error e)
    ∧ (pdf.closepath_eofill_stroke = pdf.b_star ↔
        pdf.current_point = false ∨ ∃ e, pdf.b_star = .error e) := by
  refine ⟨rfl, rfl, rfl, rfl, rfl, rfl, rfl, rfl, rfl, rfl, rfl, rfl, rfl, ?_,
    set_after_append pdf _ x y, set_after_append pdf _ x y, ?_,
    clear_after_append pdf "h", clear_after_append pdf "n", clear_after_append pdf "f",
    clear_after_append pdf "f*", clear_after_append pdf "S", clear_after_append pdf "s",
    clear_after_append pdf "B", clear_after_append pdf "B*", clear_after_append pdf "b",
    clear_after_append pdf "b*"⟩
  · intro q hq
    rcases hq with h | h | h | h | h | h | h | h | h | h | h | h | h <;>
      exact PDF.append_only_pages h
  · have h := set_after_append pdf
      (L.fmt_f 3 (pdf.transform x1 y1).x ++ " " ++ L.fmt_f 3 (pdf.transform x1 y1).y ++ " "
        ++ L.fmt_f 3 (pdf.transform x2 y2).x ++ " " ++ L.fmt_f 3 (pdf.transform x2 y2).y
        ++ " " ++ L.fmt_f 3 (pdf.transform x3 y3).x ++ " "
        ++ L.fmt_f 3 (pdf.transform x3 y3).y ++ " " ++ "c") x3 y3
    exact h

theorem short_operators_spec_witness :
    (PDF.init "f" 612 792 : PDF ℚ).current_point = false
    ∧ (PDF.init "f" 612 792 : PDF ℚ).fill = (PDF.init "f" 612 792 : PDF ℚ).f
    ∧ (PDF.init "f" 612 792 : PDF ℚ).stroke = (PDF.init "f" 612 792 : PDF ℚ).S :=
  ⟨rfl,
    (short_operators_spec Libm.rat (PDF.init "f" 612 792 : PDF ℚ) 0 0 0 0 0 0 0
      0).2.2.2.2.2.2.2.2.2.2.2.2.2.2.2.2.2.2.2.1.2 (Or.inl rfl),
    (short_operators_spec Libm.rat (PDF.init "f" 612 792 : PDF ℚ) 0 0 0 0 0 0 0
      0).2.2.2.2.2.2.2.2.2.2.2.2.2.2.2.2.2.2.2.2.2.1.2 (Or.inl rfl)⟩

section RelativeOperators

/-- What `rmoveto` and `rlineto` do: without a current point they end the run; with one they
add the offsets to the current point and pass the offsets themselves to `point_cmd`. -/
theorem relative_operators_spec {α : Type} [LinearOrderedField α] (L : Libm α) (pdf : PDF α)
    (dx dy : α) :
    (pdf.current_point = false →
      pdf.rmoveto L dx dy = .error (Halt.die "no current point in \x27rmoveto\x27")
      ∧ pdf.rlineto L dx dy = .error (Halt.die "no current point in \x27line\x27"))
    ∧ (pdf.current_point = true →
      pdf.rmoveto L dx dy
        = PDF.point_cmd L
            { pdf with current_x := pdf.current_x + dx, current_y := pdf.current_y + dy }
            dx dy "m"
      ∧ pdf.rlineto L dx dy
        = PDF.point_cmd L
            { pdf with current_x := pdf.current_x + dx, current_y := pdf.current_y + dy }
            dx dy "l") := by
  constructor
  · intro h
    unfold PDF.rmoveto PDF.rlineto
    simp [h]
  · intro h
    unfold PDF.rmoveto PDF.rlineto
    simp [h]

end RelativeOperators

/-- C37, the code at the failing input: after `moveto(10, 20)` on a new document,
`rlineto(1, 2)` appends the line `1 2 l`, the offsets, and not `11 22 l`, the new current
point, which `lineto(11, 22)` appends; the current point itself becomes `(11, 22)`. In the
same way `rmoveto(1, 2)` appends `1 2 m`. (Numbers are printed by their integer part.) -/
theorem rlineto_appends_offsets :
    (match (PDF.init "f" 612 792 : PDF ℚ).moveto Libm.rat 10 20
          >>= fun p => p.rlineto Libm.rat 1 2 with
      | .ok q => some ((q.pages q.page).stream.text, q.current_x, q.current_y, q.current_point)
      | .error _ => none) = some ("10 20 m\n1 2 l\n", 11, 22, true)
    ∧ (match (PDF.init "f" 612 792 : PDF ℚ).moveto Libm.rat 10 20
          >>= fun p => p.lineto Libm.rat 11 22 with
      | .ok q => some ((q.pages q.page).stream.text, q.current_x, q.current_y, q.current_point)
      | .error _ => none) = some ("10 20 m\n11 22 l\n", 11, 22, true)
    ∧ (match (PDF.init "f" 612 792 : PDF ℚ).moveto Libm.rat 10 20
          >>= fun p => p.rmoveto Libm.rat 1 2 with
      | .ok q => some ((q.pages q.page).stream.text, q.current_x, q.current_y, q.current_point)
      | .error _ => none) = some ("10 20 m\n1 2 m\n", 11, 22, true) := by
  refine ⟨?_, ?_, ?_⟩ <;> decide!
section LongDocument

/-- A stream of capacity 1024 doubles its capacity to `2^31` for a line of 2147483200
characters. -/
theorem append_loop_long :
    PDFStream.append_loop 33 (PDFStream.init 1024) 2147483200
      = some { text := "", text_len := 0, size := 2147483648 } := by decide

theorem stream_append_long (s : String) (hlen : s.length = 2147483200) :
    (PDFStream.init 1024).append s
      = some { text := "" ++ s ++ "\n", text_len := 0 + 2147483200 + 1, size := 2147483648 } := by
  unfold PDFStream.append
  simp only [hlen, append_loop_long]

/-- The document after `append` of a line of 2147483200 characters on a new document. -/
theorem run_append_long (s : String) (hlen : s.length = 2147483200) :
    ∃ pdf : PDF ℚ, PDF.run Libm.rat (PDF.init "graph.pdf" 612 792) [Op.append s] = .ok pdf
      ∧ pdf.page = 0 ∧ pdf.fonts = (fun _ => false) ∧ pdf.width = 612 ∧ pdf.height = 792
      ∧ PDFPage.annotation (pdf.pages 0) = none
      ∧ (pdf.pages 0).stream.text = "" ++ s ++ "\n" := by
  have h : (PDF.init "graph.pdf" 612 792 : PDF ℚ).append s
      = .ok { (PDF.init "graph.pdf" 612 792 : PDF ℚ) with
          pages := Function.update (PDF.init "graph.pdf" 612 792 : PDF ℚ).pages 0
            { PDFPage.new with stream :=
                { text := "" ++ s ++ "\n", text_len := 0 + 2147483200 + 1,
                  size := 2147483648 } } } := by
    unfold PDF.append
    have e : ((PDF.init "graph.pdf" 612 792 : PDF ℚ).pages
        (PDF.init "graph.pdf" 612 792 : PDF ℚ).page).stream = PDFStream.init 1024 := rfl
    rw [e, stream_append_long s hlen]
    rfl
  exact ⟨_, (PDF.run_single Libm.rat _ _).trans h, rfl, rfl, rfl, rfl, rfl, rfl⟩

/-- The positions of the objects of that document: the procset object 6 begins beyond
`2^31`. -/
theorem finish_long (s : String) (hlen : s.length = 2147483200) (pdf : PDF ℚ)
    (h0 : pdf.page = 0) (hf : pdf.fonts = (fun _ => false)) (hw : pdf.width = 612)
    (hh : pdf.height = 792) (ha : PDFPage.annotation (pdf.pages 0) = none)
    (ht : (pdf.pages 0).stream.text = "" ++ s ++ "\n") :
    PDF.finish Libm.rat true pdf = .ok (pdf, write_file (finish_objects pdf))
    ∧ (finish_objects pdf).obj = 7
    ∧ (∀ k, k < 6 → (finish_objects pdf).offset k = [0, 10, 90, 145, 219, 437].getD k 0)
    ∧ (finish_objects pdf).offset 6 = 2147483699
    ∧ (finish_objects pdf).offset 7 = 2147483730 := by
  have hfp : pdf.finish_page Libm.rat = .ok pdf := by
    unfold PDF.finish_page
    rw [h0, ha]
    rfl
  obtain ⟨s1, s2, s3, s4, s5, s6, _, s8⟩ := finish_objects_spec pdf
  simp only [h0, hf, hw, hh] at s1 s2 s3 s4 s5 s6 s8
  have hm : font_rank (fun _ => false) max_fonts = 0 := by decide
  rw [hm] at s1 s6 s8
  have o4 := s6 0 (by omega)
  obtain ⟨o5, o6⟩ := s8 0 (by omega)
  rw [ht] at o5
  have l0 : ((finish_objects pdf).objects 0).length = 10 := by rw [s2]; decide
  have l1 : ((finish_objects pdf).objects 1).length = 80 := by rw [s3]; decide
  have l2 : ((finish_objects pdf).objects 2).length = 55 := by rw [s4]; decide
  have l3 : ((finish_objects pdf).objects 3).length = 74 := by rw [s5]; decide
  have l4 : ((finish_objects pdf).objects 4).length = 218 := by
    rw [show (4 : Nat) = 4 + 0 from rfl, o4]
    set_option maxRecDepth 100000 in decide!
  have l5 : ((finish_objects pdf).objects 5).length = 2147483262 := by
    rw [show (5 : Nat) = 4 + (0 + 1) + 0 + 2 * 0 from rfl, o5]
    unfold stream_object
    simp only [String.length_append, hlen]
    rfl
  have l6 : ((finish_objects pdf).objects 6).length = 31 := by
    rw [show (6 : Nat) = 4 + (0 + 1) + 0 + 2 * 0 + 1 from rfl, o6]; decide
  refine ⟨?_, s1, ?_, ?_, ?_⟩
  · rw [finish_eq, hfp]
    rfl
  · intro k hk
    interval_cases k <;>
      simp [ObjTable.offset, List.range_succ, l0, l1, l2, l3, l4]
  · simp [ObjTable.offset, List.range_succ, l0, l1, l2, l3, l4, l5]
  · simp [ObjTable.offset, List.range_succ, l0, l1, l2, l3, l4, l5, l6]

/-- The file written for that document. -/
theorem finish_long_file (s : String) (hlen : s.length = 2147483200) :
    ∃ (pdf : PDF ℚ) (file : String),
      PDF.run Libm.rat (PDF.init "graph.pdf" 612 792) [Op.append s] = .ok pdf
      ∧ PDF.finish Libm.rat true pdf = .ok (pdf, file)
      ∧ (finish_objects pdf).obj = 7
      ∧ ((List.range 6).map (fun j => ((finish_objects pdf).objects j).length)).sum
          = 2147483699
      ∧ ((finish_objects pdf).objects 6).data <+: file.data.drop 2147483699
      ∧ ((List.range 7).map (fun j => ((finish_objects pdf).objects j).length)).sum
          = 2147483730
      ∧ ("xref").data <+: file.data.drop 2147483730
      ∧ file = String.join ((List.range 7).map (finish_objects pdf).objects)
          ++ ("xref\n0 7\n0000000000 65536 f \n"
            ++ "0000000010 00000 n \n0000000090 00000 n \n0000000145 00000 n \n"
            ++ "0000000219 00000 n \n0000000437 00000 n \n-2147483597 00000 n \n")
          ++ "\ntrailer\n  << /Size 7\n     /Root 1 0 R\n  >>\nstartxref\n-2147483566\n%%EOF\n" := by
  obtain ⟨pdf, hrun, h0, hf, hw, hh, ha, ht⟩ := run_append_long s hlen
  obtain ⟨hfin, hobj, hlow, h6, h7⟩ := finish_long s hlen pdf h0 hf hw hh ha ht
  have a6 := write_file_object_at (finish_objects pdf) 6 (by omega)
  have a7 := write_file_xref_at (finish_objects pdf)
  rw [h6] at a6
  rw [hobj, h7] at a7
  refine ⟨pdf, _, hrun, hfin, hobj, h6, a6, h7, a7, ?_⟩
  rw [write_file_eq, hobj, h7]
  have hl : List.range' 1 (7 - 1) = [1, 2, 3, 4, 5, 6] := by decide
  have e1 := hlow 1 (by omega)
  have e2 := hlow 2 (by omega)
  have e3 := hlow 3 (by omega)
  have e4 := hlow 4 (by omega)
  have e5 := hlow 5 (by omega)
  simp only [List.getD_cons_succ, List.getD_cons_zero] at e1 e2 e3 e4 e5
  rw [hl]
  simp only [List.map_cons, List.map_nil, e1, e2, e3, e4, e5, h6]
  have x1 : xref_entry (int_wrap ((10 : Nat) : Int)) = "0000000010 00000 n \n" := by decide
  have x2 : xref_entry (int_wrap ((90 : Nat) : Int)) = "0000000090 00000 n \n" := by decide
  have x3 : xref_entry (int_wrap ((145 : Nat) : Int)) = "0000000145 00000 n \n" := by decide
  have x4 : xref_entry (int_wrap ((219 : Nat) : Int)) = "0000000219 00000 n \n" := by decide
  have x5 : xref_entry (int_wrap ((437 : Nat) : Int)) = "0000000437 00000 n \n" := by decide
  have x6 : xref_entry (int_wrap ((2147483699 : Nat) : Int)) = "-2147483597 00000 n \n" := by
    decide
  have x7 : trailer_section 7 (int_wrap ((2147483730 : Nat) : Int))
      = "\ntrailer\n  << /Size 7\n     /Root 1 0 R\n  >>\nstartxref\n-2147483566\n%%EOF\n" := by
    decide
  rw [x1, x2, x3, x4, x5, x6, x7]
  rfl

end LongDocument

/-- C1, counterexample: a new letter-size document to which one line of 2147483200
characters is appended (the stream grows to its capacity `2^31`), then finished. The file has
the seven objects 0 to 6; object 6 begins at position 2147483699 and the keyword `xref` at
position 2147483730, both beyond `2^31 - 1`, the largest value of the `int` variable `size`
that adds up the lengths. The entry printed for object 6 is `-2147483597 00000 n ` and the
value printed after `startxref` is `-2147483566`: the sums less `2^32`. -/
theorem finish_xref_offset_wraps :
    ∃ (pdf : PDF ℚ) (file : String),
      PDF.run Libm.rat (PDF.init "graph.pdf" 612 792)
          [Op.append (String.mk (List.replicate 2147483200 'x'))] = .ok pdf
      ∧ PDF.finish Libm.rat true pdf = .ok (pdf, file)
      ∧ (finish_objects pdf).obj = 7
      ∧ ((List.range 6).map (fun j => ((finish_objects pdf).objects j).length)).sum
          = 2147483699
      ∧ ((finish_objects pdf).objects 6).data <+: file.data.drop 2147483699
      ∧ ((List.range 7).map (fun j => ((finish_objects pdf).objects j).length)).sum
          = 2147483730
      ∧ ("xref").data <+: file.data.drop 2147483730
      ∧ file = String.join ((List.range 7).map (finish_objects pdf).objects)
          ++ ("xref\n0 7\n0000000000 65536 f \n"
            ++ "0000000010 00000 n \n0000000090 00000 n \n0000000145 00000 n \n"
            ++ "0000000219 00000 n \n0000000437 00000 n \n-2147483597 00000 n \n")
          ++ "\ntrailer\n  << /Size 7\n     /Root 1 0 R\n  >>\nstartxref\n-2147483566\n%%EOF\n" :=
  finish_long_file (String.mk (List.replicate 2147483200 'x')) (List.length_replicate _ _)
